import Mathlib

/-!
# ontfs: lease, file and batch handlers of the native storage contract

A shallow embedding of `smartcontract/service/native/ontfs/app_sdk.go`.

* Machine integers are natural numbers; every `uint64` addition, subtraction
  and multiplication of the source is written with `add64`, `sub64`, `mul64`,
  which reduce modulo `2 ^ 64` as the Go operators do.
* The persistent store is a record of keyed tables.  The accessors the
  handlers call (`addSpaceInfo`, `getNodeInfo`, ...) are defined outside
  `app_sdk.go`, `utils.go` and `init.go`; they are modelled as get / put /
  delete on those tables.
* The asset service is a balance table; every invocation of `appCallTransfer`
  is also appended to a log, so that "which transfers were invoked" can be
  stated.
* A handler takes the call context (`Env`), the state before the call and the
  decoded input, and returns the Go return value together with the state after
  the call.
-/

namespace Ontfs

/-! ## 64-bit unsigned arithmetic -/

/-- Number of values of a Go `uint64`. -/
def W64 : Nat := 2 ^ 64

/-- Go `a + b` on `uint64`. -/
def add64 (a b : Nat) : Nat := (a + b) % W64

/-- Go `a - b` on `uint64`. -/
def sub64 (a b : Nat) : Nat := (a + (W64 - b % W64)) % W64

/-- Go `a * b` on `uint64`. -/
def mul64 (a b : Nat) : Nat := (a * b) % W64

/-! ## Data model -/

/-- An account address (`common.Address`), read as a number. -/
abbrev Address := Nat

/-- A file hash: an arbitrary byte string. -/
abbrev Hash := List Nat

/-- The value of `FileInfo.StorageType`: the two named constants
`FileStorageTypeUseSpace` and `FileStorageTypeUseFile`, or any other code. -/
inductive StorageType where
  | UseSpace
  | UseFile
  | other (code : Nat)
deriving DecidableEq

/-- Pricing parameters (`FsGlobalParam`), the three prices the handlers read. -/
structure FsGlobalParam where
  GasPerKbForSaveWithSpace : Nat
  GasPerKbForSaveWithFile : Nat
  GasPerKbForRead : Nat
deriving DecidableEq

/-- A space lease (`SpaceInfo`). -/
structure SpaceInfo where
  SpaceOwner : Address
  Volume : Nat
  RestVol : Nat
  CopyNumber : Nat
  PayAmount : Nat
  RestAmount : Nat
  PdpInterval : Nat
  TimeStart : Nat
  TimeExpired : Nat
  ValidFlag : Bool
deriving DecidableEq

/-- The request of `FsUpdateSpace` (`SpaceUpdate`). -/
structure SpaceUpdate where
  SpaceOwner : Address
  Payer : Address
  NewVolume : Nat
  NewTimeExpired : Nat
deriving DecidableEq

/-- A stored file (`FileInfo`). -/
structure FileInfo where
  FileHash : Hash
  FileOwner : Address
  FileBlockCount : Nat
  CopyNumber : Nat
  PayAmount : Nat
  RestAmount : Nat
  FileCost : Nat
  PdpInterval : Nat
  TimeStart : Nat
  TimeExpired : Nat
  ValidFlag : Bool
  StorageType : StorageType
deriving DecidableEq

/-- One item of `FsRenewFiles` (`FileReNew`). -/
structure FileReNew where
  FileHash : Hash
  FileOwner : Address
  Payer : Address
  NewTimeExpired : Nat
deriving DecidableEq

/-- One item of `FsDeleteFiles` (`FileDel`). -/
structure FileDel where
  FileHash : Hash
deriving DecidableEq

/-- One item of `FsTransferFiles` (`FileTransfer`). -/
structure FileTransfer where
  FileHash : Hash
  OriOwner : Address
  NewOwner : Address
deriving DecidableEq

/-- A proof record of one node for one file (`PdpRecord`). -/
structure PdpRecord where
  FileHash : Hash
  FileOwner : Address
  NodeAddr : Address
  SettleFlag : Bool
deriving DecidableEq

/-- A registered storage node (`FsNodeInfo`), the fields this core touches. -/
structure FsNodeInfo where
  NodeAddr : Address
  Volume : Nat
  RestVol : Nat
deriving DecidableEq

/-- The read quota of one node inside a read pledge (`ReadPlan`). -/
structure ReadPlan where
  NodeAddr : Address
  MaxReadBlockNum : Nat
  HaveReadBlockNum : Nat
deriving DecidableEq

/-- A read pledge (`ReadPledge`), also the request of `FsReadFilePledge`. -/
structure ReadPledge where
  FileHash : Hash
  Downloader : Address
  RestMoney : Nat
  BlockHeight : Nat
  ExpireHeight : Nat
  ReadPlans : List ReadPlan
deriving DecidableEq

/-- The request of `FsCancelFileRead` (`GetReadPledge`). -/
structure GetReadPledge where
  FileHash : Hash
  Downloader : Address
deriving DecidableEq

/-- One invocation of the asset service: `amount` from `src` to `dst`. -/
structure TransferCall where
  src : Address
  dst : Address
  amount : Nat
deriving DecidableEq

/-- The state a call runs on: the stored tables, the balances held by the
asset service, the log of transfer invocations, the error accumulator
(`Errors`) of the running batch call and the emitted error events. -/
structure State where
  globalParam : Option FsGlobalParam
  spaces : List SpaceInfo
  files : List FileInfo
  fileOwners : List (Hash × Address)
  pdpRecords : List PdpRecord
  nodes : List FsNodeInfo
  readPledges : List ReadPledge
  balances : List (Address × Nat)
  calls : List TransferCall
  errInfos : List (Hash × String)
  events : List (List (Hash × String))
deriving DecidableEq

/-- The call context: the contract address, the ledger time and height, the
witness check, and the constants and functions the handlers use that are
defined outside the embedded files, taken as parameters. -/
structure Env where
  contract : Address
  time : Nat
  height : Nat
  CheckWitness : Address → Bool
  DefaultPerBlockSize : Nat
  calcTotalFilePayAmountByFile : FileInfo → Nat → Nat
  updateSpace : SpaceInfo → SpaceInfo
  updateFile : FileInfo → FileInfo

/-- The decoded input of a call: the two decoding steps of every handler can
each fail. -/
inductive Input (α : Type) where
  | badVarBytes
  | badPayload
  | ok (value : α)

/-- The Go return value `([]byte, error)` of a handler: `BYTE_TRUE` with a nil
error, `BYTE_FALSE` with an error, or a run-time abort (integer division by
zero). -/
inductive Ret where
  | BYTE_TRUE
  | BYTE_FALSE (err : String)
  | abort
deriving DecidableEq

/-! ## Keyed tables -/

/-- First entry of a table with the given key. -/
def tget {α κ : Type} [DecidableEq κ] (key : α → κ) (k : κ) (t : List α) : Option α :=
  t.find? (fun a => decide (key a = k))

/-- Remove every entry with the given key. -/
def tdel {α κ : Type} [DecidableEq κ] (key : α → κ) (k : κ) (t : List α) : List α :=
  t.filter (fun a => decide (key a ≠ k))

/-- Store an entry under its own key, replacing any previous one. -/
def tput {α κ : Type} [DecidableEq κ] (key : α → κ) (a : α) (t : List α) : List α :=
  a :: tdel key (key a) t

/-- Key of a file entity: owner and hash (`GenFsFileInfoKey`). -/
def fileKey (f : FileInfo) : Address × Hash := (f.FileOwner, f.FileHash)

/-- Key of a read pledge: downloader and hash (`GenFsReadPledgeKey`). -/
def pledgeKey (p : ReadPledge) : Address × Hash := (p.Downloader, p.FileHash)

/-- Key of a proof record: hash, owner and node (`GenFsPdpRecordKey`). -/
def pdpKey (r : PdpRecord) : Hash × Address × Address := (r.FileHash, r.FileOwner, r.NodeAddr)

/-! ## Accessors (defined outside the embedded files) -/

/-- Modelled from the spec: `getGlobalParam`, the stored pricing parameters or
an error when none are available. -/
def getGlobalParam (st : State) : Option FsGlobalParam := st.globalParam

/-- Modelled from the spec: `spaceInfoExist`, whether a lease is stored for
the owner. -/
def spaceInfoExist (st : State) (owner : Address) : Bool :=
  (tget SpaceInfo.SpaceOwner owner st.spaces).isSome

/-- Modelled from the spec: `getAndUpdateSpaceInfo`, the stored lease of the
owner after the lazy expiry recomputation (`Env.updateSpace`, left open), or
nil when none is stored.  Nothing is written back by the read. -/
def getAndUpdateSpaceInfo (env : Env) (st : State) (owner : Address) : Option SpaceInfo :=
  (tget SpaceInfo.SpaceOwner owner st.spaces).map env.updateSpace

/-- Modelled from the spec: `addSpaceInfo`, put the lease under its owner. -/
def addSpaceInfo (st : State) (space : SpaceInfo) : State :=
  { st with spaces := tput SpaceInfo.SpaceOwner space st.spaces }

/-- Modelled from the spec: `delSpaceInfo`, delete the lease of the owner. -/
def delSpaceInfo (st : State) (owner : Address) : State :=
  { st with spaces := tdel SpaceInfo.SpaceOwner owner st.spaces }

/-- Modelled from the spec: `getAndUpdateFileInfo`, the file stored under
(owner, hash) after the lazy expiry recomputation (`Env.updateFile`, left
open), or nil.  Nothing is written back by the read. -/
def getAndUpdateFileInfo (env : Env) (st : State) (owner : Address) (hash : Hash) :
    Option FileInfo :=
  (tget fileKey (owner, hash) st.files).map env.updateFile

/-- Modelled from the spec: `addFileInfo`, put the file under (owner, hash). -/
def addFileInfo (st : State) (f : FileInfo) : State :=
  { st with files := tput fileKey f st.files }

/-- Modelled from the spec: `delFileInfo`, delete the file under (owner, hash). -/
def delFileInfo (st : State) (owner : Address) (hash : Hash) : State :=
  { st with files := tdel fileKey (owner, hash) st.files }

/-- Modelled from the spec: `getFileOwner`, the file-owner index at a hash. -/
def getFileOwner (st : State) (hash : Hash) : Option Address :=
  (tget Prod.fst hash st.fileOwners).map Prod.snd

/-- Modelled from the spec: `setFileOwner`, set the file-owner index at a hash. -/
def setFileOwner (st : State) (hash : Hash) (owner : Address) : State :=
  { st with fileOwners := tput Prod.fst (hash, owner) st.fileOwners }

/-- Modelled from the spec: `delFileOwner`, delete the file-owner index entry. -/
def delFileOwner (st : State) (hash : Hash) : State :=
  { st with fileOwners := tdel Prod.fst hash st.fileOwners }

/-- Modelled from the spec: `getFileInfoByHash`, resolve the owner through the
file-owner index and read the file under that owner. -/
def getFileInfoByHash (env : Env) (st : State) (hash : Hash) : Option FileInfo :=
  match getFileOwner st hash with
  | none => none
  | some owner => getAndUpdateFileInfo env st owner hash

/-- Modelled from the spec: `getPdpRecordList`, the proof records stored for
(hash, owner), in table order. -/
def getPdpRecordList (st : State) (hash : Hash) (owner : Address) : List PdpRecord :=
  st.pdpRecords.filter (fun r => decide (r.FileHash = hash ∧ r.FileOwner = owner))

/-- Modelled from the spec: `delPdpRecordList`, delete every proof record of
(hash, owner). -/
def delPdpRecordList (st : State) (hash : Hash) (owner : Address) : State :=
  { st with pdpRecords :=
      st.pdpRecords.filter (fun r => decide (¬ (r.FileHash = hash ∧ r.FileOwner = owner))) }

/-- Modelled from the spec: `delPdpRecord`, delete the record of one node. -/
def delPdpRecord (st : State) (hash : Hash) (owner node : Address) : State :=
  { st with pdpRecords := tdel pdpKey (hash, owner, node) st.pdpRecords }

/-- Modelled from the spec: `addPdpRecord`, put a record under its key. -/
def addPdpRecord (st : State) (r : PdpRecord) : State :=
  { st with pdpRecords := tput pdpKey r st.pdpRecords }

/-- Modelled from the spec: `getNodeInfo`, the registered node or nil. -/
def getNodeInfo (st : State) (node : Address) : Option FsNodeInfo :=
  tget FsNodeInfo.NodeAddr node st.nodes

/-- Modelled from the spec: `addNodeInfo`, put the node under its address. -/
def addNodeInfo (st : State) (n : FsNodeInfo) : State :=
  { st with nodes := tput FsNodeInfo.NodeAddr n st.nodes }

/-- Modelled from the spec: `getReadPledge`, the pledge stored for (downloader,
hash), or an error when there is none. -/
def getReadPledge (st : State) (downloader : Address) (hash : Hash) : Option ReadPledge :=
  tget pledgeKey (downloader, hash) st.readPledges

/-- Modelled from the spec: `addReadPledge`, put the pledge under (downloader,
hash). -/
def addReadPledge (st : State) (p : ReadPledge) : State :=
  { st with readPledges := tput pledgeKey p st.readPledges }

/-- Modelled from the spec: `delReadPledge`, delete the pledge of (downloader,
hash). -/
def delReadPledge (st : State) (downloader : Address) (hash : Hash) : State :=
  { st with readPledges := tdel pledgeKey (downloader, hash) st.readPledges }

/-- Modelled from the spec: `Errors.AddObjectError`, record one entry keyed by
the object (the file hash) with its message. -/
def AddObjectError (st : State) (object : Hash) (errInfo : String) : State :=
  { st with errInfos := st.errInfos ++ [(object, errInfo)] }

/-- Modelled from the spec: `Errors.AddErrorsEvent`, emit the accumulated
errors as a single event. -/
def AddErrorsEvent (st : State) : State :=
  { st with events := st.events ++ [st.errInfos] }

/-- Balance of an account at the asset service. -/
def balanceOf (st : State) (a : Address) : Nat :=
  ((tget Prod.fst a st.balances).map Prod.snd).getD 0

/-- Modelled from the spec: the asset service `transfer(from, to, amount)`: it
fails, changing nothing, when the sender holds less than the amount, and
otherwise debits the sender and credits the receiver. -/
def assetTransfer (st : State) (src dst : Address) (amount : Nat) : Option State :=
  if balanceOf st src < amount then none
  else
    let st1 : State := { st with balances := tput Prod.fst (src, balanceOf st src - amount) st.balances }
    some { st1 with balances := tput Prod.fst (dst, balanceOf st1 dst + amount) st1.balances }

/-! ## utils.go -/

/-- The function `appCallTransfer`: invoke the asset service once; the Boolean
is `err == nil`. -/
def appCallTransfer (st : State) (src dst : Address) (amount : Nat) : State × Bool :=
  let st1 : State := { st with calls := st.calls ++ [⟨src, dst, amount⟩] }
  match assetTransfer st1 src dst amount with
  | none => (st1, false)
  | some st2 => (st2, true)

/-! ## app_sdk.go: leases -/

/-- The handler `FsCreateSpace`. -/
def FsCreateSpace (env : Env) (st : State) (input : Input SpaceInfo) : Ret × State :=
  match input with
  | .badVarBytes => (.BYTE_FALSE "[APP SDK] FsCreateSpace DecodeVarBytes error!", st)
  | .badPayload => (.BYTE_FALSE "[APP SDK] FsCreateSpace Deserialization error!", st)
  | .ok spaceInfo =>
    if env.CheckWitness spaceInfo.SpaceOwner = false then
      (.BYTE_FALSE "[APP SDK] FsCreateSpace CheckSpaceOwner failed!", st)
    else if spaceInfoExist st spaceInfo.SpaceOwner = true then
      (.BYTE_FALSE "[APP SDK] FsCreateSpace Space has been created!", st)
    else if spaceInfo.PdpInterval = 0 then
      (.BYTE_FALSE "[APP SDK] FsCreateSpace PdpInterval equals zero!", st)
    else
      match getGlobalParam st with
      | none => (.BYTE_FALSE "[APP SDK] FsCreateSpace getGlobalParam error!", st)
      | some globalParam =>
        let spaceInfo : SpaceInfo :=
          { spaceInfo with ValidFlag := true, TimeStart := env.time, RestVol := spaceInfo.Volume }
        if spaceInfo.TimeExpired ≤ spaceInfo.TimeStart then
          (.BYTE_FALSE "[APP SDK] FsCreateSpace TimeExpired less than TimeStart!", st)
        else
          let spacePdpNeedCount :=
            add64 (sub64 spaceInfo.TimeExpired spaceInfo.TimeStart / spaceInfo.PdpInterval) 1
          let payAmount :=
            mul64 (mul64 (mul64 spacePdpNeedCount spaceInfo.Volume) spaceInfo.CopyNumber)
              globalParam.GasPerKbForSaveWithSpace
          let spaceInfo : SpaceInfo := { spaceInfo with PayAmount := payAmount, RestAmount := payAmount }
          let r := appCallTransfer st spaceInfo.SpaceOwner env.contract spaceInfo.PayAmount
          if r.2 = false then
            (.BYTE_FALSE "[APP SDK] FsCreateSpace AppCallTransfer, transfer error!", r.1)
          else (.BYTE_TRUE, addSpaceInfo r.1 spaceInfo)

/-- The handler `FsDeleteSpace`. -/
def FsDeleteSpace (env : Env) (st : State) (input : Option Address) : Ret × State :=
  match input with
  | none => (.BYTE_FALSE "[APP SDK] FsDeleteSpace DecodeAddress error!", st)
  | some spaceOwner =>
    if env.CheckWitness spaceOwner = false then
      (.BYTE_FALSE "[APP SDK] FsDeleteSpace CheckSpaceOwner failed!", st)
    else
      match getAndUpdateSpaceInfo env st spaceOwner with
      | none => (.BYTE_FALSE "[APP SDK] FsDeleteSpace getAndUpdateSpaceInfo error!", st)
      | some space =>
        if space.Volume ≠ space.RestVol then
          (.BYTE_FALSE "[APP SDK] FsDeleteSpace not allow, check files!", st)
        else
          let r := appCallTransfer st env.contract space.SpaceOwner space.RestAmount
          if r.2 = false then
            (.BYTE_FALSE "[APP SDK] FsDeleteSpace AppCallTransfer, transfer error!", r.1)
          else (.BYTE_TRUE, delSpaceInfo r.1 spaceOwner)

/-- The fee branch of `FsUpdateSpace` (the `if newPayAmount > space.PayAmount`
chain): the fee, the payer, the payee and the new `RestAmount`, or nil when
`RestAmount < newFee`. -/
def updateSpaceFee (contract payerAddr : Address) (space : SpaceInfo) (newPayAmount : Nat) :
    Option (Nat × Address × Address × Nat) :=
  if newPayAmount > space.PayAmount then
    let newFee := sub64 newPayAmount space.PayAmount
    some (newFee, payerAddr, contract, add64 space.RestAmount newFee)
  else if newPayAmount < space.PayAmount then
    let newFee := sub64 space.PayAmount newPayAmount
    if space.RestAmount < newFee then none
    else some (newFee, contract, payerAddr, sub64 space.RestAmount newFee)
  else some (0, 0, 0, space.RestAmount)

/-- The value of `spaceUpdate.NewTimeExpired` after the defaulting assignment
of `FsUpdateSpace`: a zero field takes the current value of the lease. -/
def newTimeExpiredOf (spaceUpdate : SpaceUpdate) (space : SpaceInfo) : Nat :=
  if spaceUpdate.NewTimeExpired = 0 then space.TimeExpired else spaceUpdate.NewTimeExpired

/-- The value of `spaceUpdate.NewVolume` after the defaulting assignment of
`FsUpdateSpace`. -/
def newVolumeOf (spaceUpdate : SpaceUpdate) (space : SpaceInfo) : Nat :=
  if spaceUpdate.NewVolume = 0 then space.Volume else spaceUpdate.NewVolume

/-- The variable `newPayAmount` of `FsUpdateSpace`. -/
def updateSpaceNewPayAmount (globalParam : FsGlobalParam) (spaceUpdate : SpaceUpdate)
    (space : SpaceInfo) : Nat :=
  let newSpacePdpNeedCount :=
    add64 (sub64 (newTimeExpiredOf spaceUpdate space) space.TimeStart / space.PdpInterval) 1
  mul64 (mul64 (mul64 newSpacePdpNeedCount (newVolumeOf spaceUpdate space)) space.CopyNumber)
    globalParam.GasPerKbForSaveWithSpace

/-- The lease `FsUpdateSpace` stores: `space` after the assignments to
`RestAmount`, `PayAmount`, `RestVol`, `Volume` and `TimeExpired`. -/
def updateSpaceLease (spaceUpdate : SpaceUpdate) (space : SpaceInfo)
    (newPayAmount restAmount : Nat) : SpaceInfo :=
  { space with
    RestAmount := restAmount
    PayAmount := newPayAmount
    RestVol := sub64 (newVolumeOf spaceUpdate space) (sub64 space.Volume space.RestVol)
    Volume := newVolumeOf spaceUpdate space
    TimeExpired := newTimeExpiredOf spaceUpdate space }

/-- The handler `FsUpdateSpace`. -/
def FsUpdateSpace (env : Env) (st : State) (input : Input SpaceUpdate) : Ret × State :=
  match input with
  | .badVarBytes => (.BYTE_FALSE "[APP SDK] FsUpdateSpace DecodeVarBytes error!", st)
  | .badPayload => (.BYTE_FALSE "[APP SDK] FsUpdateSpace Deserialization error!", st)
  | .ok spaceUpdate =>
    if spaceUpdate.NewTimeExpired = 0 ∧ spaceUpdate.NewVolume = 0 then
      (.BYTE_FALSE "[APP SDK] FsUpdateSpace Param error!", st)
    else if env.CheckWitness spaceUpdate.Payer = false then
      (.BYTE_FALSE "[APP SDK] FsUpdateSpace CheckPayer failed!", st)
    else
      match getGlobalParam st with
      | none => (.BYTE_FALSE "[APP SDK] FsUpdateSpace getGlobalParam error!", st)
      | some globalParam =>
        match getAndUpdateSpaceInfo env st spaceUpdate.SpaceOwner with
        | none => (.BYTE_FALSE "[APP SDK] FsUpdateSpace getSpaceRawInfo error!", st)
        | some space =>
          if space.ValidFlag = false then
            (.BYTE_FALSE "[APP SDK] FsUpdateSpace space timeExpired! please create space again", st)
          else if spaceUpdate.NewTimeExpired ≠ 0 ∧ env.time ≥ spaceUpdate.NewTimeExpired then
            (.BYTE_FALSE "[APP SDK] FsUpdateSpace NewTimeExpired error!", st)
          else if sub64 space.Volume space.RestVol ≥ newVolumeOf spaceUpdate space then
            (.BYTE_FALSE "[APP SDK] FsUpdateSpace NewVolume is not enough!", st)
          else if space.PdpInterval = 0 then (.abort, st)
          else
            let newPayAmount := updateSpaceNewPayAmount globalParam spaceUpdate space
            match updateSpaceFee env.contract spaceUpdate.Payer space newPayAmount with
            | none =>
              (.BYTE_FALSE "[APP SDK] FsUpdateSpace space RestAmount < newFee error!", st)
            | some (newFee, payer, payee, restAmount) =>
              if newFee ≠ 0 then
                let r := appCallTransfer st payer payee newFee
                if r.2 = false then
                  (.BYTE_FALSE "[APP SDK] FsUpdateSpace AppCallTransfer, transfer error!", r.1)
                else
                  (.BYTE_TRUE, addSpaceInfo r.1 (updateSpaceLease spaceUpdate space newPayAmount restAmount))
              else
                (.BYTE_TRUE, addSpaceInfo st (updateSpaceLease spaceUpdate space newPayAmount restAmount))

/-! ## app_sdk.go: files -/

/-- The loop of `deleteFile` over the proof records of the file: every record
needs its node registered; an unsettled record credits the node.  The
assignment `pdpRecord.SettleFlag = true` of the source changes the loop copy
only and is not stored, so it has no counterpart here. -/
def deleteFileLoop (env : Env) (fileInfo : FileInfo) : List PdpRecord → State → State × Bool
  | [], st => (st, true)
  | pdpRecord :: rest, st =>
    match getNodeInfo st pdpRecord.NodeAddr with
    | none => (AddObjectError st fileInfo.FileHash "[APP SDK] DeleteFile getNodeInfo error", false)
    | some nodeInfo =>
      if pdpRecord.SettleFlag = false then
        deleteFileLoop env fileInfo rest
          (addNodeInfo st
            { nodeInfo with
              RestVol := add64 nodeInfo.RestVol (mul64 fileInfo.FileBlockCount env.DefaultPerBlockSize) })
      else deleteFileLoop env fileInfo rest st

/-- The refund step of `deleteFile` (the `if fileInfo.StorageType == ...`
chain): a pay-per-file deposit is transferred back, a leased volume is given
back to the lease; the Boolean is false where the source returns false. -/
def deleteFileRefund (env : Env) (st : State) (fileInfo : FileInfo) : State × Bool :=
  match fileInfo.StorageType with
  | .UseFile =>
    let r := appCallTransfer st env.contract fileInfo.FileOwner fileInfo.RestAmount
    if r.2 = false then
      (AddObjectError r.1 fileInfo.FileHash "[APP SDK] DeleteFile AppCallTransfer, transfer error!",
        false)
    else (r.1, true)
  | .UseSpace =>
    match getAndUpdateSpaceInfo env st fileInfo.FileOwner with
    | none =>
      (AddObjectError st fileInfo.FileHash "[APP SDK] DeleteFile getAndUpdateSpaceInfo error!", false)
    | some space =>
      (addSpaceInfo st
        { space with
          RestVol := add64 space.RestVol (mul64 fileInfo.FileBlockCount env.DefaultPerBlockSize) },
        true)
  | .other _ =>
    (AddObjectError st fileInfo.FileHash "[APP SDK] DeleteFile file StorageType error", false)

/-- The last three statements of `deleteFile`: delete the file entity, the
file-owner index entry and the proof records of the file. -/
def deleteFilePurge (st : State) (fileInfo : FileInfo) : State :=
  delPdpRecordList
    (delFileOwner (delFileInfo st fileInfo.FileOwner fileInfo.FileHash) fileInfo.FileHash)
    fileInfo.FileHash fileInfo.FileOwner

/-- The function `deleteFile`; the Boolean is its return value. -/
def deleteFile (env : Env) (st : State) (fileInfo : FileInfo) : State × Bool :=
  let pdpRecordList := getPdpRecordList st fileInfo.FileHash fileInfo.FileOwner
  let r := deleteFileLoop env fileInfo pdpRecordList st
  if r.2 = false then (r.1, false)
  else
    let r2 := deleteFileRefund env r.1 fileInfo
    if r2.2 = false then (r2.1, false)
    else (deleteFilePurge r2.1 fileInfo, true)

/-- The loop body of `FsStoreFiles` from `fileInfo.FileCost = 0` on (the part
after the prior-entry check); the Boolean tells whether the item reached the
end of the body (true) or left it through `continue` (false). -/
def storeFilesBody (env : Env) (globalParam : FsGlobalParam) (st : State) (fileInfo : FileInfo) :
    State × Bool :=
  let fileInfo : FileInfo := { fileInfo with FileCost := 0, ValidFlag := true, TimeStart := env.time }
  match fileInfo.StorageType with
  | .UseSpace =>
    match getAndUpdateSpaceInfo env st fileInfo.FileOwner with
    | none =>
      (AddObjectError st fileInfo.FileHash "[APP SDK] FsStoreFiles getAndUpdateSpaceInfo error!", false)
    | some space =>
      if space.ValidFlag = false then
        (AddObjectError st fileInfo.FileHash "[APP SDK] FsStoreFiles space timeExpired!", false)
      else if space.RestVol ≤ mul64 fileInfo.FileBlockCount env.DefaultPerBlockSize then
        (AddObjectError st fileInfo.FileHash "[APP SDK] FsStoreFiles RestVol is not enough error!", false)
      else
        let space1 : SpaceInfo :=
          { space with
            RestVol := sub64 space.RestVol (mul64 fileInfo.FileBlockCount env.DefaultPerBlockSize) }
        let fileInfo1 : FileInfo := { fileInfo with PdpInterval := space1.PdpInterval }
        let st1 := addSpaceInfo st space1
        (setFileOwner (addFileInfo st1 fileInfo1) fileInfo1.FileHash fileInfo1.FileOwner, true)
  | .UseFile =>
    let payAmount := env.calcTotalFilePayAmountByFile fileInfo globalParam.GasPerKbForSaveWithFile
    let fileInfo1 : FileInfo := { fileInfo with PayAmount := payAmount, RestAmount := payAmount }
    let r := appCallTransfer st fileInfo1.FileOwner env.contract fileInfo1.PayAmount
    if r.2 = false then
      (AddObjectError r.1 fileInfo1.FileHash "[APP SDK] FsStoreFiles AppCallTransfer, transfer error!",
        false)
    else
      (setFileOwner (addFileInfo r.1 fileInfo1) fileInfo1.FileHash fileInfo1.FileOwner, true)
  | .other _ =>
    (AddObjectError st fileInfo.FileHash "[APP SDK] FsStoreFiles unknown StorageType!", false)

/-- One iteration of the loop of `FsStoreFiles`. -/
def storeFilesItem (env : Env) (globalParam : FsGlobalParam) (st : State) (fileInfo : FileInfo) :
    State × Bool :=
  if env.CheckWitness fileInfo.FileOwner = false then
    (AddObjectError st fileInfo.FileHash "[APP SDK] FsStoreFiles CheckFileOwner failed!", false)
  else if fileInfo.PdpInterval = 0 then
    (AddObjectError st fileInfo.FileHash "[APP SDK] FsStoreFiles PdpInterval equals zero!", false)
  else if fileInfo.TimeExpired < env.time then
    (AddObjectError st fileInfo.FileHash "[APP SDK] FsStoreFiles fileInfo TimeExpired error!", false)
  else
    match getAndUpdateFileInfo env st fileInfo.FileOwner fileInfo.FileHash with
    | some fileExist =>
      if fileExist.ValidFlag = false then
        let r := deleteFile env st fileExist
        if r.2 = false then (r.1, false)
        else storeFilesBody env globalParam r.1 fileInfo
      else
        (AddObjectError st fileInfo.FileHash "[APP SDK] FsStoreFiles File has stored!", false)
    | none => storeFilesBody env globalParam st fileInfo

/-- One iteration of the loop of `FsRenewFiles`. -/
def renewFilesItem (env : Env) (globalParam : FsGlobalParam) (st : State) (fileReNew : FileReNew) :
    State × Bool :=
  if env.CheckWitness fileReNew.Payer = false then
    (AddObjectError st fileReNew.FileHash "[APP SDK] FsRenewFiles CheckPayer failed!", false)
  else
    match getAndUpdateFileInfo env st fileReNew.FileOwner fileReNew.FileHash with
    | none =>
      (AddObjectError st fileReNew.FileHash "[APP SDK] FsRenewFiles getAndUpdateFileInfo error!", false)
    | some fileInfo =>
      if fileInfo.StorageType = StorageType.UseFile then
        if fileInfo.ValidFlag = false then
          (AddObjectError st fileReNew.FileHash
            "[APP SDK] FsRenewFiles File is expired! need to upload again", false)
        else
          let fileInfo1 : FileInfo := { fileInfo with TimeExpired := fileReNew.NewTimeExpired }
          let newFee := env.calcTotalFilePayAmountByFile fileInfo1 globalParam.GasPerKbForSaveWithFile
          if newFee < fileInfo1.PayAmount then
            (AddObjectError st fileReNew.FileHash "[APP SDK] FsRenewFiles newFee < fileInfo.PayAmount",
              false)
          else
            let renewFee := sub64 newFee fileInfo1.PayAmount
            let r := appCallTransfer st fileReNew.Payer env.contract renewFee
            if r.2 = false then
              (AddObjectError r.1 fileReNew.FileHash
                "[APP SDK] FsRenewFiles AppCallTransfer, transfer error!", false)
            else
              (addFileInfo r.1
                { fileInfo1 with PayAmount := newFee, RestAmount := add64 fileInfo1.RestAmount renewFee },
                true)
      else
        (AddObjectError st fileReNew.FileHash
          "[APP SDK] FsRenewFiles StorageType is not FileStorageTypeUseFile!", false)

/-- One iteration of the loop of `FsDeleteFiles`. -/
def deleteFilesItem (env : Env) (st : State) (fileDel : FileDel) : State × Bool :=
  match getFileInfoByHash env st fileDel.FileHash with
  | none => (AddObjectError st fileDel.FileHash "[APP SDK] FsDeleteFiles fileInfo is nil", false)
  | some fileInfo =>
    if env.CheckWitness fileInfo.FileOwner = false then
      (AddObjectError st fileDel.FileHash "[APP SDK] FsDeleteFiles CheckFileOwner failed!", false)
    else deleteFile env st fileInfo

/-- The inner loop of `FsTransferFiles`: every proof record of the file is
deleted under its key and stored again under the new owner. -/
def transferPdpLoop (newOwner : Address) : List PdpRecord → State → State
  | [], st => st
  | pdpInfo :: rest, st =>
    let st1 := delPdpRecord st pdpInfo.FileHash pdpInfo.FileOwner pdpInfo.NodeAddr
    transferPdpLoop newOwner rest (addPdpRecord st1 { pdpInfo with FileOwner := newOwner })

/-- One iteration of the loop of `FsTransferFiles`. -/
def transferFilesItem (env : Env) (st : State) (fileTransfer : FileTransfer) : State × Bool :=
  if env.CheckWitness fileTransfer.OriOwner = false then
    (AddObjectError st fileTransfer.FileHash "[APP SDK] FsTransferFiles CheckFileOwner failed!", false)
  else
    match getAndUpdateFileInfo env st fileTransfer.OriOwner fileTransfer.FileHash with
    | none =>
      (AddObjectError st fileTransfer.FileHash "[APP SDK] FsTransferFiles GetFsFileInfo error!", false)
    | some fileInfo =>
      if fileInfo.ValidFlag = false then
        (AddObjectError st fileTransfer.FileHash "[APP SDK] FsTransferFiles File is expired!", false)
      else if fileInfo.StorageType ≠ StorageType.UseFile then
        (AddObjectError st fileTransfer.FileHash
          "[APP SDK] FsTransferFiles file StorageType is not FileStorageTypeUseFile error!", false)
      else if fileInfo.FileOwner ≠ fileTransfer.OriOwner then
        (AddObjectError st fileTransfer.FileHash
          "[APP SDK] FsTransferFiles Caller is not file's owner!", false)
      else
        let fileInfo1 : FileInfo := { fileInfo with FileOwner := fileTransfer.NewOwner }
        let st1 := addFileInfo (delFileInfo st fileTransfer.OriOwner fileTransfer.FileHash) fileInfo1
        let pdpRecordList := getPdpRecordList st1 fileTransfer.FileHash fileTransfer.OriOwner
        let st2 := transferPdpLoop fileTransfer.NewOwner pdpRecordList st1
        (setFileOwner (delFileOwner st2 fileInfo1.FileHash) fileInfo1.FileHash fileInfo1.FileOwner,
          true)

/-- A batch loop: run the items in order; the list tells, item by item,
whether the item reached the end of the loop body. -/
def runBatch {α : Type} (step : State → α → State × Bool) : List α → State → State × List Bool
  | [], st => (st, [])
  | item :: rest, st =>
    let r := step st item
    let r2 := runBatch step rest r.1
    (r2.1, r.2 :: r2.2)

/-- The handler `FsStoreFiles`. -/
def FsStoreFiles (env : Env) (st : State) (input : Input (List FileInfo)) : Ret × State :=
  match input with
  | .badVarBytes => (.BYTE_FALSE "[APP SDK] FsStoreFiles DecodeVarBytes error!", st)
  | .badPayload => (.BYTE_FALSE "[APP SDK] FsStoreFiles Deserialization error!", st)
  | .ok fileInfoList =>
    match getGlobalParam st with
    | none => (.BYTE_FALSE "[APP SDK] FsStoreFiles getGlobalParam error!", st)
    | some globalParam =>
      let st0 : State := { st with errInfos := [] }
      (.BYTE_TRUE, AddErrorsEvent (runBatch (storeFilesItem env globalParam) fileInfoList st0).1)

/-- The handler `FsRenewFiles`. -/
def FsRenewFiles (env : Env) (st : State) (input : Input (List FileReNew)) : Ret × State :=
  match input with
  | .badVarBytes => (.BYTE_FALSE "[APP SDK] FsRenewFiles DecodeVarBytes error!", st)
  | .badPayload => (.BYTE_FALSE "[APP SDK] FsRenewFiles Deserialization error!", st)
  | .ok filesReNew =>
    match getGlobalParam st with
    | none => (.BYTE_FALSE "[APP SDK] FsRenewFiles getGlobalParam error!", st)
    | some globalParam =>
      let st0 : State := { st with errInfos := [] }
      (.BYTE_TRUE, AddErrorsEvent (runBatch (renewFilesItem env globalParam) filesReNew st0).1)

/-- The handler `FsDeleteFiles`. -/
def FsDeleteFiles (env : Env) (st : State) (input : Input (List FileDel)) : Ret × State :=
  match input with
  | .badVarBytes => (.BYTE_FALSE "[APP SDK] FsDeleteFiles DecodeVarBytes error!", st)
  | .badPayload => (.BYTE_FALSE "[APP SDK] FsDeleteFiles Deserialization error!", st)
  | .ok fileDelList =>
    let st0 : State := { st with errInfos := [] }
    (.BYTE_TRUE, AddErrorsEvent (runBatch (deleteFilesItem env) fileDelList st0).1)

/-- The handler `FsTransferFiles`. -/
def FsTransferFiles (env : Env) (st : State) (input : Input (List FileTransfer)) : Ret × State :=
  match input with
  | .badVarBytes => (.BYTE_FALSE "[APP SDK] FsTransferFiles DecodeVarBytes error!", st)
  | .badPayload =>
    (.BYTE_FALSE "[APP SDK] FsTransferFiles OwnerChange Deserialization error!", st)
  | .ok fileTransferList =>
    let st0 : State := { st with errInfos := [] }
    (.BYTE_TRUE, AddErrorsEvent (runBatch (transferFilesItem env) fileTransferList st0).1)

/-! ## app_sdk.go: read pledges -/

/-- The variable `totalAddMaxBlockNumToRead` after the first loop of
`FsReadFilePledge`: the 64-bit sum of the requested quotas. -/
def totalAddMaxBlockNumToRead (plans : List ReadPlan) : Nat :=
  plans.foldl (fun total readPlan => add64 total readPlan.MaxReadBlockNum) 0

/-- The plans of the request after the first loop of `FsReadFilePledge`: every
`HaveReadBlockNum` is set to 0. -/
def resetPlans (plans : List ReadPlan) : List ReadPlan :=
  plans.map (fun readPlan => { readPlan with HaveReadBlockNum := 0 })

/-- The inner loop of the merge of `FsReadFilePledge` for one plan of the prior
pledge: every current plan of the same node takes the prior quota on top of
its own and the prior `HaveReadBlockNum`. -/
def mergePlan (oriReadPlan : ReadPlan) (plans : List ReadPlan) : List ReadPlan :=
  plans.map (fun readPlan =>
    if readPlan.NodeAddr = oriReadPlan.NodeAddr then
      { readPlan with
        MaxReadBlockNum := add64 readPlan.MaxReadBlockNum oriReadPlan.MaxReadBlockNum
        HaveReadBlockNum := oriReadPlan.HaveReadBlockNum }
    else readPlan)

/-- The outer loop of the merge of `FsReadFilePledge` over the plans of the
prior pledge; a prior plan whose node is in no current plan is appended, and
is then itself a current plan for the prior plans that follow. -/
def mergePlans : List ReadPlan → List ReadPlan → List ReadPlan
  | [], plans => plans
  | oriReadPlan :: rest, plans =>
    let foundSamePlan := plans.any (fun readPlan => decide (readPlan.NodeAddr = oriReadPlan.NodeAddr))
    if foundSamePlan = true then mergePlans rest (mergePlan oriReadPlan plans)
    else mergePlans rest (mergePlan oriReadPlan plans ++ [oriReadPlan])

/-- The variable `newPledgeFee` of `FsReadFilePledge`. -/
def newPledgeFee (env : Env) (globalParam : FsGlobalParam) (readPledge : ReadPledge) : Nat :=
  mul64 (mul64 (totalAddMaxBlockNumToRead readPledge.ReadPlans) env.DefaultPerBlockSize)
    globalParam.GasPerKbForRead

/-- The pledge `FsReadFilePledge` stores: the request after the two loops, the
merge with the prior pledge (if any) and the assignments to `RestMoney`,
`BlockHeight` and `ExpireHeight`. -/
def pledgeToStore (env : Env) (globalParam : FsGlobalParam) (st : State) (fileInfo : FileInfo)
    (readPledge : ReadPledge) : ReadPledge :=
  let plans0 := resetPlans readPledge.ReadPlans
  let merged : ReadPledge :=
    match getReadPledge st readPledge.Downloader readPledge.FileHash with
    | some oriPledge =>
      { readPledge with
        ReadPlans := mergePlans oriPledge.ReadPlans plans0
        RestMoney := oriPledge.RestMoney
        BlockHeight :=
          (if env.height ≥ oriPledge.ExpireHeight then env.height else oriPledge.BlockHeight) }
    | none => { readPledge with ReadPlans := plans0, RestMoney := 0, BlockHeight := env.height }
  { merged with
    ExpireHeight := add64 (add64 env.height fileInfo.FileBlockCount) 30
    RestMoney := add64 merged.RestMoney (newPledgeFee env globalParam readPledge) }

/-- The handler `FsReadFilePledge`. -/
def FsReadFilePledge (env : Env) (st : State) (input : Input ReadPledge) : Ret × State :=
  match input with
  | .badVarBytes => (.BYTE_FALSE "[APP SDK] FsReadFilePledge DecodeVarBytes error!", st)
  | .badPayload => (.BYTE_FALSE "[APP SDK] FsReadFilePledge deserialization error!", st)
  | .ok readPledge =>
    match getGlobalParam st with
    | none => (.BYTE_FALSE "[APP SDK] FsReadFilePledge getGlobalParam error!", st)
    | some globalParam =>
      match getFileInfoByHash env st readPledge.FileHash with
      | none => (.BYTE_FALSE "[APP SDK] FsReadFilePledge getFsFileInfo error!", st)
      | some fileInfo =>
        if fileInfo.ValidFlag = false then
          (.BYTE_FALSE "[APP SDK] FsReadFilePledge file out of date!", st)
        else if env.CheckWitness readPledge.Downloader = false then
          (.BYTE_FALSE "[APP SDK] FsReadFilePledge CheckDownloader failed!", st)
        else
          let r := appCallTransfer st readPledge.Downloader env.contract
            (newPledgeFee env globalParam readPledge)
          if r.2 = false then
            (.BYTE_FALSE "[APP SDK] FsReadFilePledge AppCallTransfer, transfer error!", r.1)
          else (.BYTE_TRUE, addReadPledge r.1 (pledgeToStore env globalParam st fileInfo readPledge))

/-- The handler `FsCancelFileRead`. -/
def FsCancelFileRead (env : Env) (st : State) (input : Option GetReadPledge) : Ret × State :=
  match input with
  | none =>
    (.BYTE_FALSE "[APP SDK] FsCancelFileRead GetReadPledge Deserialization error!", st)
  | some getPledge =>
    match getReadPledge st getPledge.Downloader getPledge.FileHash with
    | none => (.BYTE_FALSE "[APP SDK] FsCancelFileRead getReadFilePledge error!", st)
    | some readPledge =>
      if env.CheckWitness readPledge.Downloader = false then
        (.BYTE_FALSE "[APP SDK] FsCancelFileRead CheckDownloader failed!", st)
      else if env.height < readPledge.ExpireHeight then
        (.BYTE_FALSE "[APP SDK] FsCancelFileRead FileReadPledge locked!", st)
      else if readPledge.RestMoney > 0 then
        let r := appCallTransfer st env.contract readPledge.Downloader readPledge.RestMoney
        if r.2 = false then
          (.BYTE_FALSE "[APP SDK] FsCancelFileRead AppCallTransfer, transfer error!", r.1)
        else (.BYTE_TRUE, delReadPledge r.1 getPledge.Downloader getPledge.FileHash)
      else (.BYTE_TRUE, delReadPledge st getPledge.Downloader getPledge.FileHash)

/-! ## Concrete contexts, states and inputs of the examples -/

/-- A call context for the examples: contract 100, time 0, every witness check
passes, blocks of 256, the lazy recomputations are the identity, and the file
cost is blocks times block size times copies times price. -/
def exEnv : Env :=
  { contract := 100
    time := 0
    height := 0
    CheckWitness := fun _ => true
    DefaultPerBlockSize := 256
    calcTotalFilePayAmountByFile := fun f p =>
      mul64 (mul64 (mul64 f.FileBlockCount 256) f.CopyNumber) p
    updateSpace := id
    updateFile := id }

/-- A state with every price 1, nothing stored, and 10000 held by account 7. -/
def exState : State :=
  { globalParam := some ⟨1, 1, 1⟩
    spaces := []
    files := []
    fileOwners := []
    pdpRecords := []
    nodes := []
    readPledges := []
    balances := [(7, 10000)]
    calls := []
    errInfos := []
    events := [] }

/-- The lease request of the worked example of the specification; the fields
the handler overwrites carry arbitrary values. -/
def exSpace : SpaceInfo :=
  { SpaceOwner := 7
    Volume := 1000
    RestVol := 5
    CopyNumber := 2
    PayAmount := 1
    RestAmount := 3
    PdpInterval := 100
    TimeStart := 99
    TimeExpired := 250
    ValidFlag := false }

/-- A lease request whose exact cost `2 * 2 ^ 63 * 2 * 1` does not fit 64 bits. -/
def wrapSpace : SpaceInfo :=
  { SpaceOwner := 7
    Volume := 2 ^ 63
    RestVol := 0
    CopyNumber := 2
    PayAmount := 0
    RestAmount := 0
    PdpInterval := 1
    TimeStart := 0
    TimeExpired := 1
    ValidFlag := false }

/-- The state after the worked example: the lease of account 7 is stored in
full, the contract holds the 6000 paid for it. -/
def exLeaseState : State :=
  { exState with
    spaces :=
      [{ SpaceOwner := 7, Volume := 1000, RestVol := 1000, CopyNumber := 2, PayAmount := 6000,
         RestAmount := 6000, PdpInterval := 100, TimeStart := 0, TimeExpired := 250,
         ValidFlag := true }]
    balances := [(100, 6000), (7, 4000)] }

/-- A file of one block of account 7 that is charged to the lease. -/
def exUseSpaceFile : FileInfo :=
  { FileHash := [1]
    FileOwner := 7
    FileBlockCount := 1
    CopyNumber := 1
    PayAmount := 0
    RestAmount := 0
    FileCost := 0
    PdpInterval := 100
    TimeStart := 0
    TimeExpired := 200
    ValidFlag := true
    StorageType := StorageType.UseSpace }

/-- A state whose only lease is unused (`RestVol = Volume = 1000`) while a
file of one block charged to a lease is stored for the same owner. -/
def looseState : State :=
  { exLeaseState with files := [exUseSpaceFile], fileOwners := [([1], 7)] }

/-- A valid pay-per-file entry of account 7 for the hash `[1]`, one block,
256 paid and unconsumed. -/
def paidFile : FileInfo :=
  { FileHash := [1]
    FileOwner := 7
    FileBlockCount := 1
    CopyNumber := 1
    PayAmount := 256
    RestAmount := 256
    FileCost := 0
    PdpInterval := 10
    TimeStart := 0
    TimeExpired := 100
    ValidFlag := true
    StorageType := StorageType.UseFile }

/-- A state in which `paidFile` is stored and indexed; the contract holds its
deposit, accounts 7 and 8 hold 10000 each. -/
def paidState : State :=
  { exState with
    files := [paidFile]
    fileOwners := [([1], 7)]
    balances := [(100, 256), (7, 10000), (8, 10000)] }

/-- The state `paidState` with the stored entry marked invalid. -/
def staleState : State :=
  { paidState with files := [{ paidFile with ValidFlag := false }] }

/-- A file of `2 ^ 56` blocks charged to the lease of account 7: with blocks of
256 its exact volume is `2 ^ 64`. -/
def hugeFile : FileInfo :=
  { exUseSpaceFile with FileHash := [2], FileBlockCount := 2 ^ 56 }

/-! ## Predicates of the statements -/

/-- The lease accounting invariant of one lease. -/
abbrev LeaseOk (s : SpaceInfo) : Prop := s.RestVol ≤ s.Volume ∧ s.RestAmount ≤ s.PayAmount

/-- The two totals of a lease are 64-bit values. -/
abbrev LeaseU64 (s : SpaceInfo) : Prop := s.Volume < W64 ∧ s.PayAmount < W64

/-- Every stored lease satisfies the accounting invariant and holds 64-bit
totals. -/
abbrev LeasesOk (st : State) : Prop := ∀ s ∈ st.spaces, LeaseOk s ∧ LeaseU64 s

/-- Number of unsettled proof records in the list that name the node. -/
def unsettledCount (l : List PdpRecord) (a : Address) : Nat :=
  (l.filter (fun r => decide (r.NodeAddr = a ∧ r.SettleFlag = false))).length

/-- Hashes of the items of a batch that did not reach the end of the loop
body, in order. -/
def failedHashes : List Hash → List Bool → List Hash
  | h :: hs, ok :: oks => if ok = true then failedHashes hs oks else h :: failedHashes hs oks
  | _, _ => []

/-- One step from `st` to `st1` with outcome `ok` for the item of hash `h`
records no error when `ok` holds and exactly one error, keyed by `h`, when it
does not. -/
abbrev ErrStep (st st1 : State) (ok : Bool) (h : Hash) : Prop :=
  st1.errInfos.map Prod.fst = st.errInfos.map Prod.fst ++ (if ok = true then [] else [h])

/-- The stored part of a state: the tables and the balances, without the log
of transfer invocations, the error accumulator and the emitted events. -/
def stored (st : State) :
    Option FsGlobalParam × List SpaceInfo × List FileInfo × List (Hash × Address) ×
      List PdpRecord × List FsNodeInfo × List ReadPledge × List (Address × Nat) :=
  (st.globalParam, st.spaces, st.files, st.fileOwners, st.pdpRecords, st.nodes, st.readPledges,
    st.balances)

/-- A state in which account 7 holds 10 only and nothing is stored. -/
def poorState : State := { exState with balances := [(7, 10)] }

/-- Nothing stored differs between `st` and `st1`: the tables and balances are
equal, so every lease and every pledge read from `st1` is the one read from
`st`. -/
def Untouched (env : Env) (st st1 : State) : Prop :=
  stored st1 = stored st ∧
    (∀ owner, getAndUpdateSpaceInfo env st1 owner = getAndUpdateSpaceInfo env st owner) ∧
    ∀ downloader hash, getReadPledge st1 downloader hash = getReadPledge st downloader hash

/-- The context `exEnv` at block height 50. -/
def lateEnv : Env := { exEnv with height := 50 }

/-- A read pledge of account 8 for the hash `[1]`: node 9 may serve 4 blocks
and has served 1, node 6 may serve 3 and has served 2; 1024 are left in escrow
and the pledge is locked up to height 40. -/
def exPledge : ReadPledge :=
  { FileHash := [1]
    Downloader := 8
    RestMoney := 1024
    BlockHeight := 10
    ExpireHeight := 40
    ReadPlans := [⟨9, 4, 1⟩, ⟨6, 3, 2⟩] }

/-- The state `paidState` with `exPledge` stored; the contract holds the
deposit of the file and the escrow of the pledge. -/
def pledgedState : State :=
  { paidState with
    readPledges := [exPledge]
    balances := [(100, 1280), (7, 10000), (8, 8976)] }

/-- The state `pledgedState` with a contract account that holds 100 only. -/
def drainedState : State :=
  { pledgedState with balances := [(100, 100), (7, 10000), (8, 8976)] }

/-- Closed form of the merge for one plan of the request: with a prior plan of
the same node (the first one in the prior pledge) the quotas are added with
64-bit wrap-around and the prior `HaveReadBlockNum` is taken; without one the
plan is kept. -/
def mergedWith (oriPlans : List ReadPlan) (readPlan : ReadPlan) : ReadPlan :=
  match oriPlans.find? (fun o => decide (o.NodeAddr = readPlan.NodeAddr)) with
  | some o =>
    { readPlan with
      MaxReadBlockNum := add64 readPlan.MaxReadBlockNum o.MaxReadBlockNum
      HaveReadBlockNum := o.HaveReadBlockNum }
  | none => readPlan

/-- Closed form of the merge: the prior plans whose node no plan of the
request names, in their order. -/
def carriedForward (oriPlans plans : List ReadPlan) : List ReadPlan :=
  oriPlans.filter (fun o => !plans.any (fun readPlan => decide (readPlan.NodeAddr = o.NodeAddr)))

/-- The plans of a pledge name pairwise distinct nodes. -/
abbrev DistinctNodes (plans : List ReadPlan) : Prop := (plans.map ReadPlan.NodeAddr).Nodup

/-- A pledge request of account 8 for the hash `[1]`: 2 blocks from node 9 and
1 block from node 5; the fields the handler overwrites carry arbitrary
values. -/
def exRequest : ReadPledge :=
  { FileHash := [1]
    Downloader := 8
    RestMoney := 77
    BlockHeight := 5
    ExpireHeight := 6
    ReadPlans := [⟨9, 2, 7⟩, ⟨5, 1, 3⟩] }

/-- A pledge request of account 8 for `2 ^ 63` blocks from node 9: with blocks
of 256 and price 1 its exact fee is `2 ^ 71`. -/
def hugeRequest : ReadPledge := { exRequest with ReadPlans := [⟨9, 2 ^ 63, 0⟩] }

/-- A pledge request of account 8 that names node 9 twice. -/
def dupRequest : ReadPledge := { exRequest with ReadPlans := [⟨9, 4, 0⟩, ⟨9, 3, 0⟩] }

/-- A pledge request of account 8 for 2 blocks from node 9. -/
def oneRequest : ReadPledge := { exRequest with ReadPlans := [⟨9, 2, 0⟩] }

/-- The state `paidState` with a stored file of `2 ^ 64 - 30` blocks. -/
def longFileState : State :=
  { paidState with files := [{ paidFile with FileBlockCount := 2 ^ 64 - 30 }] }

/-- The state `paidState` with a deposit of 100 recorded for the stored file
(its cost at the current price is 256). -/
def cheapState : State :=
  { paidState with files := [{ paidFile with PayAmount := 100, RestAmount := 100 }] }

/-- The state `paidState` with two proof records for the stored file, of the
nodes 9 (unsettled) and 6 (settled). -/
def provedState : State :=
  { paidState with pdpRecords := [⟨[1], 7, 9, false⟩, ⟨[1], 7, 6, true⟩] }

/-- The state `provedState` with the nodes 9 and 6 registered (volume 1000,
nothing available) and a contract account that holds nothing; accounts 7 and 8
hold 10000 each. -/
def owedState : State :=
  { provedState with
    nodes := [⟨9, 1000, 0⟩, ⟨6, 1000, 0⟩]
    balances := [(100, 0), (7, 10000), (8, 10000)] }

/-- A pay-per-file entry of account 8 for the hash `[2]`, one block. -/
def otherFile : FileInfo := { paidFile with FileHash := [2], FileOwner := 8 }

/-- The state `paidState` with one proof record for the stored file, settled,
of node 6, and no node registered. -/
def orphanState : State :=
  { paidState with pdpRecords := [⟨[1], 7, 6, true⟩] }

/-- The state `orphanState` with node 6 registered. -/
def settledState : State := { orphanState with nodes := [⟨6, 1000, 0⟩] }

/-- The items of a batch that reached the end of the loop body, in order. -/
def passing {α : Type} : List α → List Bool → List α
  | item :: items, ok :: oks => if ok = true then item :: passing items oks else passing items oks
  | _, _ => []

/-- Along the run of a batch from `st`, every failing item leaves the stored
part of the state it ran on unchanged. -/
def FailuresInert {α : Type} (step : State → α → State × Bool) : List α → State → Prop
  | [], _ => True
  | item :: rest, st =>
    ((step st item).2 = false → stored (step st item).1 = stored st) ∧
      FailuresInert step rest (step st item).1

/-- A pay-per-file item of account 7 for the hash `[1]` with 100 blocks: at
price 1 its cost is 25600. -/
def costlyFile : FileInfo := { paidFile with FileBlockCount := 100 }

/-- The variable `spacePdpNeedCount` of `FsCreateSpace`: the number of proof
cycles the cost is computed from. -/
def spacePdpNeedCount (env : Env) (spaceInfo : SpaceInfo) : Nat :=
  add64 (sub64 spaceInfo.TimeExpired env.time / spaceInfo.PdpInterval) 1

/-- The ceiling of `a / b`, the proof-cycle count the specification names. -/
def ceilDiv (a b : Nat) : Nat := (a + b - 1) / b

/-- The lease request of the worked example with a duration of exactly two
proof intervals. -/
def evenSpace : SpaceInfo := { exSpace with TimeExpired := 200 }

/-- The state `exLeaseState` with 600 of the leased volume consumed. -/
def usedLeaseState : State :=
  { exLeaseState with
    spaces :=
      [{ SpaceOwner := 7, Volume := 1000, RestVol := 400, CopyNumber := 2, PayAmount := 6000,
         RestAmount := 6000, PdpInterval := 100, TimeStart := 0, TimeExpired := 250,
         ValidFlag := true }] }

/-- A state in which nothing is stored and account 7 holds `2 ^ 63`. -/
def richState : State := { exState with balances := [(7, 2 ^ 63)] }

/-- A lease request of account 7 for a volume of `2 ^ 62` with two copies and
one proof cycle: at price 1 its cost is `2 ^ 63`. -/
def bigSpace : SpaceInfo := { exSpace with Volume := 2 ^ 62, TimeExpired := 50 }

/-- A file of `2 ^ 56 + 1` blocks charged to the lease of account 7: with
blocks of 256 its exact volume is `2 ^ 64 + 256`. -/
def wrapFile : FileInfo :=
  { exUseSpaceFile with FileHash := [3], FileBlockCount := 2 ^ 56 + 1 }

/-! ## utils.go: storage keys, byte by byte -/

/-- A byte string (Go `[]byte`), one number per byte. -/
abbrev Bytes := List Nat

/-- The bytes of a Go string constant made of ASCII characters. -/
def bytesOf (s : String) : Bytes := s.toList.map Char.toNat

/-- The constant `ONTFS_GLOBAL_PARAM`. -/
def ONTFS_GLOBAL_PARAM : Bytes := bytesOf "ontFsGlobalParam"

/-- The constant `ONTFS_NODE_INFO`. -/
def ONTFS_NODE_INFO : Bytes := bytesOf "ontFsNodeInfo"

/-- The constant `ONTFS_FILE_INFO`. -/
def ONTFS_FILE_INFO : Bytes := bytesOf "ontFsFileInfo"

/-- The constant `ONTFS_FILE_PDP`. -/
def ONTFS_FILE_PDP : Bytes := bytesOf "ontFsFilePdp"

/-- The constant `ONTFS_FILE_OWNER`. -/
def ONTFS_FILE_OWNER : Bytes := bytesOf "ontFsFileOwner"

/-- The constant `ONTFS_FILE_WHITE_LIST`. -/
def ONTFS_FILE_WHITE_LIST : Bytes := bytesOf "ontFsFileWhiteList"

/-- The constant `ONTFS_FILE_READ_PLEDGE`. -/
def ONTFS_FILE_READ_PLEDGE : Bytes := bytesOf "ontFsFileReadPledge"

/-- The constant `ONTFS_FILE_SPACE`. -/
def ONTFS_FILE_SPACE : Bytes := bytesOf "ontFsFileSpace"

/-- The function `GenGlobalParamKey`. -/
def GenGlobalParamKey (contract : Bytes) : Bytes := contract ++ ONTFS_GLOBAL_PARAM

/-- The function `GenFsNodeInfoPrefix`. -/
def GenFsNodeInfoPrefix (contract : Bytes) : Bytes := contract ++ ONTFS_NODE_INFO

/-- The function `GenFsNodeInfoKey`. -/
def GenFsNodeInfoKey (contract nodeAddr : Bytes) : Bytes :=
  GenFsNodeInfoPrefix contract ++ nodeAddr

/-- The function `GenFsFileInfoPrefix`. -/
def GenFsFileInfoPrefix (contract fileOwner : Bytes) : Bytes :=
  (contract ++ ONTFS_FILE_INFO) ++ fileOwner

/-- The function `GenFsFileInfoKey`. -/
def GenFsFileInfoKey (contract fileOwner fileHash : Bytes) : Bytes :=
  GenFsFileInfoPrefix contract fileOwner ++ fileHash

/-- The function `GenFsPdpRecordPrefix`. -/
def GenFsPdpRecordPrefix (contract fileHash fileOwner : Bytes) : Bytes :=
  ((contract ++ ONTFS_FILE_PDP) ++ fileHash) ++ fileOwner

/-- The function `GenFsPdpRecordKey`. -/
def GenFsPdpRecordKey (contract fileHash fileOwner nodeAddr : Bytes) : Bytes :=
  GenFsPdpRecordPrefix contract fileHash fileOwner ++ nodeAddr

/-- The function `GenFsWhiteListKey`. -/
def GenFsWhiteListKey (contract fileOwner fileHash : Bytes) : Bytes :=
  ((contract ++ ONTFS_FILE_WHITE_LIST) ++ fileOwner) ++ fileHash

/-- The function `GenFsFileOwnerKey`. -/
def GenFsFileOwnerKey (contract fileHash : Bytes) : Bytes :=
  (contract ++ ONTFS_FILE_OWNER) ++ fileHash

/-- The function `GenFsReadPledgeKey`. -/
def GenFsReadPledgeKey (contract downloader fileHash : Bytes) : Bytes :=
  ((contract ++ ONTFS_FILE_READ_PLEDGE) ++ downloader) ++ fileHash

/-- The function `GenFsSpaceKey`. -/
def GenFsSpaceKey (contract spaceOwner : Bytes) : Bytes :=
  (contract ++ ONTFS_FILE_SPACE) ++ spaceOwner

/-- An entity type together with the key parts its generator takes. -/
inductive StorageKey where
  | globalParam
  | nodeInfo (nodeAddr : Bytes)
  | fileInfo (fileOwner fileHash : Bytes)
  | pdpRecord (fileHash fileOwner nodeAddr : Bytes)
  | whiteList (fileOwner fileHash : Bytes)
  | ownerIndex (fileHash : Bytes)
  | readPledge (downloader fileHash : Bytes)
  | space (spaceOwner : Bytes)
deriving DecidableEq

/-- The key bytes of an entity under a contract address. -/
def StorageKey.bytes (contract : Bytes) : StorageKey → Bytes
  | .globalParam => GenGlobalParamKey contract
  | .nodeInfo nodeAddr => GenFsNodeInfoKey contract nodeAddr
  | .fileInfo fileOwner fileHash => GenFsFileInfoKey contract fileOwner fileHash
  | .pdpRecord fileHash fileOwner nodeAddr => GenFsPdpRecordKey contract fileHash fileOwner nodeAddr
  | .whiteList fileOwner fileHash => GenFsWhiteListKey contract fileOwner fileHash
  | .ownerIndex fileHash => GenFsFileOwnerKey contract fileHash
  | .readPledge downloader fileHash => GenFsReadPledgeKey contract downloader fileHash
  | .space spaceOwner => GenFsSpaceKey contract spaceOwner

/-- Every address among the key parts has the 20 bytes of `common.Address`;
file hashes are arbitrary. -/
def StorageKey.AddressesOk : StorageKey → Prop
  | .globalParam => True
  | .nodeInfo nodeAddr => nodeAddr.length = 20
  | .fileInfo fileOwner _ => fileOwner.length = 20
  | .pdpRecord _ fileOwner nodeAddr => fileOwner.length = 20 ∧ nodeAddr.length = 20
  | .whiteList fileOwner _ => fileOwner.length = 20
  | .ownerIndex _ => True
  | .readPledge downloader _ => downloader.length = 20
  | .space spaceOwner => spaceOwner.length = 20

/-- A file hash of one byte. -/
def shortHash : Bytes := [1]

/-- The address of twenty bytes 7. -/
def addrSeven : Bytes := List.replicate 20 7

/-- The address of twenty bytes 8. -/
def addrEight : Bytes := List.replicate 20 8

/-- The address of twenty bytes 9. -/
def addrNine : Bytes := List.replicate 20 9

/-- A file hash of 21 bytes: the hash `shortHash` followed by the bytes of
the address `addrSeven`. -/
def longHash : Bytes := shortHash ++ addrSeven

/-! ## func_flowcontrol.go: the jump instructions -/

/-- The values of `VMState` the flow-control functions return. -/
inductive VMState where
  | NONE
  | FAULT
deriving DecidableEq

/-- The errors the flow-control functions return: the three named errors of
the package `errors`, and an error handed on from a helper. -/
inductive VMError where
  | ERR_FAULT
  | ERR_UNDER_STACK_LEN
  | ERR_DCALL_OFFSET_ERROR
  | helper (code : Nat)
deriving DecidableEq

/-- An item of the evaluation stack, as the helpers of this file see it: a
Boolean, an integer, or an item with neither reading. -/
inductive StackItem where
  | boolean (b : Bool)
  | integer (i : Int)
  | other
deriving DecidableEq

/-- The opcode `JMP` (0x62). -/
def JMP : Nat := 0x62

/-- The opcode `JMPIF` (0x63). -/
def JMPIF : Nat := 0x63

/-- The opcode `JMPIFNOT` (0x64). -/
def JMPIFNOT : Nat := 0x64

/-- A context of the invocation stack (`ExecutionContext`): its code and the
position of its reader. -/
structure ExecutionContext where
  Code : List Nat
  InstructionPointer : Int
deriving DecidableEq

/-- The part of `ExecutionEngine` the flow-control functions touch: the code
of the current context, the position of its reader (the instruction pointer
that `GetInstructionPointer` returns and `SetInstructionPointer` sets), the
opcode being executed, the evaluation stack, top first, and the contexts of
the invocation stack below the current one, top first. -/
structure Engine where
  Code : List Nat
  InstructionPointer : Int
  OpCode : Nat
  EvaluationStack : List StackItem
  Contexts : List ExecutionContext := []
deriving DecidableEq

/-- The helpers of the virtual machine that are defined outside
`func_flowcontrol.go`, taken as parameters: `OpReader.ReadInt16`, which from
the code and the reader position yields the operand and the new position or
an error, `PopBoolean`, which from the evaluation stack yields the Boolean and
the remaining stack or an error, and `PopBigInt`, which yields the big integer
and the remaining stack or an error. -/
structure VMEnv where
  ReadInt16 : List Nat → Int → Except VMError (Int × Int)
  PopBoolean : List StackItem → Except VMError (Bool × List StackItem)
  PopBigInt : List StackItem → Except VMError (Int × List StackItem)

/-- The helper `EvaluationStackCount`: the number of items on the evaluation
stack. -/
def EvaluationStackCount (e : Engine) : Nat := e.EvaluationStack.length

/-- The function `opJmp`: the returned `VMState`, the returned error and the
engine it leaves.  `offset` is a Go `int`, kept here as an unbounded integer
(a position plus a 16-bit operand does not leave 64 bits).  Where a failed
read leaves the reader is not modelled: the engine is returned as it was. -/
def opJmp (vm : VMEnv) (e : Engine) : (VMState × Option VMError) × Engine :=
  match vm.ReadInt16 e.Code e.InstructionPointer with
  | .error err => ((.FAULT, some err), e)
  | .ok (num, position) =>
    let e : Engine := { e with InstructionPointer := position }
    let offset : Int := e.InstructionPointer + num - 3
    if offset < 0 ∨ offset > e.Code.length then ((.FAULT, some .ERR_FAULT), e)
    else if e.OpCode > JMP then
      if EvaluationStackCount e < 1 then ((.FAULT, some .ERR_UNDER_STACK_LEN), e)
      else
        match vm.PopBoolean e.EvaluationStack with
        | .error err => ((.FAULT, some err), e)
        | .ok (fValue, rest) =>
          let e : Engine := { e with EvaluationStack := rest }
          let fValue := if e.OpCode = JMPIFNOT then !fValue else fValue
          if fValue = true then ((.NONE, none), { e with InstructionPointer := offset })
          else ((.NONE, none), e)
    else ((.NONE, none), { e with InstructionPointer := offset })

/-- A reference instance of the helpers: `ReadInt16` reads two bytes at the
position, little-endian and signed, and fails when fewer than two are left;
`PopBoolean` pops the top item and fails unless it is a Boolean; `PopBigInt`
pops the top item and fails unless it is an integer. -/
def refVM : VMEnv :=
  { ReadInt16 := fun code position =>
      match code.drop position.toNat with
      | lo :: hi :: _ =>
        let u : Int := lo % 256 + 256 * (hi % 256)
        .ok (if u < 32768 then u else u - 65536, position + 2)
      | _ => .error (.helper 0)
    PopBoolean := fun stack =>
      match stack with
      | .boolean b :: rest => .ok (b, rest)
      | _ => .error (.helper 1)
    PopBigInt := fun stack =>
      match stack with
      | .integer i :: rest => .ok (i, rest)
      | _ => .error (.helper 2) }

/-- An engine on five bytes of code, `JMPIF` with operand 5 at position 0, the
reader standing after the opcode; `true` is on the stack. -/
def exEngine : Engine :=
  { Code := [0x63, 5, 0, 0, 0]
    InstructionPointer := 1
    OpCode := JMPIF
    EvaluationStack := [.boolean true, .integer 4] }

/-- The opcode `DCALL` (0x6A). -/
def DCALL : Nat := 0x6A

/-- The method `Clone` of the current context `e.Context`: a context with the
same code and the same reader position. -/
def Clone (e : Engine) : ExecutionContext :=
  { Code := e.Code, InstructionPointer := e.InstructionPointer }

/-- The method `PushContext`: the context becomes the top of the invocation
stack and with it the current context `e.Context`; the context that was
current lies below it. -/
def PushContext (e : Engine) (context : ExecutionContext) : Engine :=
  { e with
    Contexts := { Code := e.Code, InstructionPointer := e.InstructionPointer } :: e.Contexts
    Code := context.Code
    InstructionPointer := context.InstructionPointer }

/-- The function `opDCALL`: the returned `VMState`, the returned error and the
engine it leaves.  `dest` is a `big.Int`, an unbounded integer; `dest.Int64()`
is taken only for `0 <= dest < len(code)`, where it is exact. -/
def opDCALL (vm : VMEnv) (e : Engine) : (VMState × Option VMError) × Engine :=
  let context := Clone e
  let e := PushContext e context
  match vm.PopBigInt e.EvaluationStack with
  | .error _ => ((.FAULT, some .ERR_DCALL_OFFSET_ERROR), e)
  | .ok (dest, rest) =>
    let e : Engine := { e with EvaluationStack := rest }
    if dest < 0 ∨ dest ≥ e.Code.length then ((.FAULT, some .ERR_DCALL_OFFSET_ERROR), e)
    else
      let target := dest
      ((.NONE, none), { e with InstructionPointer := target })

/-- An engine on five bytes of code executing `DCALL` at position 0, the
reader standing after the opcode, with the destination `dest` on the stack. -/
def dcallEngine (dest : Int) : Engine :=
  { Code := [0x6A, 0x61, 0x61, 0x61, 0x66]
    InstructionPointer := 1
    OpCode := DCALL
    EvaluationStack := [.integer dest, .boolean true] }

/-! ## app_sdk.go: the node listing -/

/-- Modelled from the spec: `getNodeAddrList`, the addresses of the registered
nodes in the order of the store. -/
def getNodeAddrList (st : State) : List Address :=
  st.nodes.map FsNodeInfo.NodeAddr

/-- The loop of `FsGetNodeInfoList` over the node list: an address without a
node entry is skipped, every other entry is appended and `count`, a `uint64`,
is decremented; the loop ends when `count <= 0` after the decrement. -/
def nodeInfoLoop (st : State) : List Address → Nat → List FsNodeInfo → List FsNodeInfo
  | [], _, nodesInfo => nodesInfo
  | addr :: rest, count, nodesInfo =>
    match getNodeInfo st addr with
    | none => nodeInfoLoop st rest count nodesInfo
    | some nodeInfo =>
      let nodesInfo := nodesInfo ++ [nodeInfo]
      let count := sub64 count 1
      if count ≤ 0 then nodesInfo else nodeInfoLoop st rest count nodesInfo

/-- The function `FsGetNodeInfoList`.  The input is the decoded count, `none`
when `DecodeVarUint` fails.  `Shuffle` of `math/rand` is a parameter: from the
seed and the node list it yields the shuffled list; the seed is
`time.Now().Unix()`, the second `wallClock` of the executing host, which is
not the ledger time of the call.  The result is the error of `BYTE_FALSE` or
the node list that `EncRet(true, ...)` returns serialised. -/
def FsGetNodeInfoList (shuffle : Nat → List Address → List Address) (wallClock : Nat)
    (st : State) (input : Option Nat) : Except String (List FsNodeInfo) :=
  match input with
  | none => .error "[APP SDK] FsGetNodeInfoList DecodeVarBytes error!"
  | some count =>
    let nodeList := getNodeAddrList st
    let nodeList := if nodeList ≠ [] then shuffle wallClock nodeList else nodeList
    .ok (nodeInfoLoop st nodeList (count % W64) [])

/-- The number of entries the loop of `FsGetNodeInfoList` returns at most: the
count, and 2^64 for the count 0, which the first decrement wraps. -/
def listingBound (count : Nat) : Nat :=
  if count % W64 = 0 then W64 else count % W64

/-- A stand-in for `Shuffle`: the list as it is for an even seed, reversed for
an odd one. -/
def flipShuffle (seed : Nat) (l : List Address) : List Address :=
  if seed % 2 = 0 then l else l.reverse

/-- The nodes 9 and 6 are registered. -/
def twoNodeState : State :=
  { exState with nodes := [⟨9, 1000, 0⟩, ⟨6, 1000, 0⟩] }

/-! ## Escrow -/

/-- What a stored file holds in escrow: its `RestAmount` when it is a
pay-per-file entry (`FileStorageTypeUseFile`), nothing otherwise. -/
def fileEscrow (f : FileInfo) : Nat :=
  if f.StorageType = StorageType.UseFile then f.RestAmount else 0

/-- The escrow the contract owes: the sum of `RestAmount` over the stored
leases, of `RestAmount` over the stored pay-per-file entries and of `RestMoney`
over the stored read pledges. -/
def escrowOwed (st : State) : Nat :=
  (st.spaces.map SpaceInfo.RestAmount).sum + (st.files.map fileEscrow).sum +
    (st.readPledges.map ReadPledge.RestMoney).sum

/-- Escrow solvency: the contract account holds at least what it owes. -/
abbrev Solvent (env : Env) (st : State) : Prop :=
  escrowOwed st ≤ balanceOf st env.contract

/-- From `st` to `st1` the escrow owed has grown by no more than the balance
of the account `c`, and has shrunk by no less. -/
abbrev EscrowStep (c : Address) (st st1 : State) : Prop :=
  escrowOwed st1 + balanceOf st c ≤ escrowOwed st + balanceOf st1 c

/-- The lazy recomputations of a lease and of a file keep the key and the
storage type of the entry and do not raise its `RestAmount`. -/
abbrev LazyKeeps (env : Env) : Prop :=
  (∀ s : SpaceInfo,
    (env.updateSpace s).SpaceOwner = s.SpaceOwner ∧
      (env.updateSpace s).RestAmount ≤ s.RestAmount) ∧
  (∀ f : FileInfo,
    fileKey (env.updateFile f) = fileKey f ∧
      (env.updateFile f).StorageType = f.StorageType ∧
      (env.updateFile f).RestAmount ≤ f.RestAmount)

/-- The context of the examples with the witness check of a transaction that
the contract account has not signed. -/
def guardedEnv : Env :=
  { exEnv with CheckWitness := fun a => decide (a ≠ 100) }

/-! ## Lemmas: arithmetic -/

theorem W64_pos : 0 < W64 := by unfold W64; positivity

theorem add64_lt (a b : Nat) : add64 a b < W64 := Nat.mod_lt _ W64_pos

theorem sub64_lt (a b : Nat) : sub64 a b < W64 := Nat.mod_lt _ W64_pos

theorem mul64_lt (a b : Nat) : mul64 a b < W64 := Nat.mod_lt _ W64_pos

theorem add64_exact {a b : Nat} (h : a + b < W64) : add64 a b = a + b :=
  Nat.mod_eq_of_lt h

theorem mul64_exact {a b : Nat} (h : a * b < W64) : mul64 a b = a * b :=
  Nat.mod_eq_of_lt h

theorem sub64_exact {a b : Nat} (hba : b ≤ a) (ha : a < W64) : sub64 a b = a - b := by
  unfold sub64
  have hb : b % W64 = b := Nat.mod_eq_of_lt (lt_of_le_of_lt hba ha)
  rw [hb]
  have h1 : a + (W64 - b) = (a - b) + W64 := by omega
  rw [h1, Nat.add_mod_right]
  exact Nat.mod_eq_of_lt (by omega)

theorem mul64_mod_left (a b : Nat) : mul64 (a % W64) b = mul64 a b := by
  unfold mul64
  rw [Nat.mul_mod, Nat.mod_mod, ← Nat.mul_mod]

/-- The wrapped product chain of the lease cost is the exact product reduced
modulo `2 ^ 64`. -/
theorem leaseCost_mod (q v c p : Nat) :
    mul64 (mul64 (mul64 (add64 q 1) v) c) p = ((q + 1) * v * c * p) % W64 := by
  have h1 : mul64 (add64 q 1) v = mul64 (q + 1) v := mul64_mod_left (q + 1) v
  have h2 : mul64 (mul64 (q + 1) v) c = mul64 ((q + 1) * v) c := mul64_mod_left _ c
  have h3 : mul64 (mul64 ((q + 1) * v) c) p = mul64 ((q + 1) * v * c) p := mul64_mod_left _ p
  rw [h1, h2, h3]
  rfl

/-! ## Lemmas: keyed tables -/

section Tables

variable {α κ : Type} [DecidableEq κ] (key : α → κ)

theorem tget_key {k : κ} {t : List α} {a : α} (h : tget key k t = some a) : key a = k := by
  have := List.find?_some h
  simpa using this

theorem tget_mem {k : κ} {t : List α} {a : α} (h : tget key k t = some a) : a ∈ t :=
  List.mem_of_find?_eq_some h

theorem tget_tdel_self (k : κ) (t : List α) : tget key k (tdel key k t) = none := by
  unfold tget tdel
  rw [List.find?_eq_none]
  intro x hx
  simp only [List.mem_filter, decide_eq_true_eq] at hx
  simpa using hx.2

theorem tget_tdel_of_ne {k k1 : κ} (h : k ≠ k1) (t : List α) :
    tget key k (tdel key k1 t) = tget key k t := by
  unfold tget tdel
  induction t with
  | nil => rfl
  | cons a t ih =>
    by_cases h1 : key a = k1
    · have hk : ¬ key a = k := fun e => h (e ▸ h1)
      have e1 : List.filter (fun a => decide (key a ≠ k1)) (a :: t)
          = List.filter (fun a => decide (key a ≠ k1)) t :=
        List.filter_cons_of_neg (by simp [h1])
      rw [e1, ih, List.find?_cons_of_neg _ (by simp [hk])]
    · have e1 : List.filter (fun a => decide (key a ≠ k1)) (a :: t)
          = a :: List.filter (fun a => decide (key a ≠ k1)) t :=
        List.filter_cons_of_pos (by simp [h1])
      rw [e1]
      by_cases h2 : key a = k
      · rw [List.find?_cons_of_pos _ (by simp [h2]), List.find?_cons_of_pos _ (by simp [h2])]
      · rw [List.find?_cons_of_neg _ (by simp [h2]), List.find?_cons_of_neg _ (by simp [h2]), ih]

theorem tget_tput_self (a : α) (t : List α) : tget key (key a) (tput key a t) = some a := by
  simp [tget, tput]

theorem tget_tput_of_ne {k : κ} {a : α} (h : k ≠ key a) (t : List α) :
    tget key k (tput key a t) = tget key k t := by
  have h1 : ¬ key a = k := fun e => h e.symm
  have h2 : tget key k (tput key a t) = tget key k (tdel key (key a) t) := by
    simp [tget, tput, h1]
  rw [h2, tget_tdel_of_ne key h]

theorem mem_tdel {k : κ} {t : List α} {a : α} (h : a ∈ tdel key k t) : a ∈ t ∧ key a ≠ k := by
  unfold tdel at h
  simpa using h

theorem mem_tput {b : α} {t : List α} {a : α} (h : a ∈ tput key b t) : a = b ∨ a ∈ t := by
  unfold tput at h
  rcases List.mem_cons.mp h with h | h
  · exact Or.inl h
  · exact Or.inr (mem_tdel key h).1

end Tables

/-! ## Lemmas: the asset service -/

theorem assetTransfer_isSome (st : State) (a b : Address) (n : Nat) :
    (assetTransfer st a b n).isSome = decide (n ≤ balanceOf st a) := by
  unfold assetTransfer
  by_cases h : balanceOf st a < n
  · simp [h]
  · simp [h, Nat.le_of_not_lt h]

theorem appCallTransfer_snd (st : State) (a b : Address) (n : Nat) :
    (appCallTransfer st a b n).2 = decide (n ≤ balanceOf st a) := by
  unfold appCallTransfer assetTransfer balanceOf
  by_cases h : ((tget Prod.fst a st.balances).map Prod.snd).getD 0 < n
  · simp [h]
  · simp [h, Nat.le_of_not_lt h]

theorem appCallTransfer_calls (st : State) (a b : Address) (n : Nat) :
    (appCallTransfer st a b n).1.calls = st.calls ++ [⟨a, b, n⟩] := by
  unfold appCallTransfer assetTransfer
  dsimp only
  split <;> rename_i h
  · rfl
  · split at h
    · cases h
    · cases h; rfl

/-- Apart from the balances and the call log, a transfer changes nothing. -/
theorem appCallTransfer_frame (st : State) (a b : Address) (n : Nat) :
    (appCallTransfer st a b n).1.globalParam = st.globalParam ∧
    (appCallTransfer st a b n).1.spaces = st.spaces ∧
    (appCallTransfer st a b n).1.files = st.files ∧
    (appCallTransfer st a b n).1.fileOwners = st.fileOwners ∧
    (appCallTransfer st a b n).1.pdpRecords = st.pdpRecords ∧
    (appCallTransfer st a b n).1.nodes = st.nodes ∧
    (appCallTransfer st a b n).1.errInfos = st.errInfos ∧
    (appCallTransfer st a b n).1.events = st.events := by
  unfold appCallTransfer assetTransfer
  dsimp only
  split <;> rename_i h
  · exact ⟨rfl, rfl, rfl, rfl, rfl, rfl, rfl, rfl⟩
  · split at h
    · cases h
    · cases h; exact ⟨rfl, rfl, rfl, rfl, rfl, rfl, rfl, rfl⟩

/-- A failed transfer leaves the balances as they were. -/
theorem appCallTransfer_fail_balances {st : State} {a b : Address} {n : Nat}
    (h : (appCallTransfer st a b n).2 = false) :
    (appCallTransfer st a b n).1.balances = st.balances := by
  unfold appCallTransfer assetTransfer at h ⊢
  dsimp only at h ⊢
  split <;> rename_i h1
  · rfl
  · rw [h1] at h; cases h

/-! ## Leases -/

/-- Shape of a successful `FsCreateSpace`: every guard passed, the transfer
succeeded, and the state after the call is the state after the transfer with
the new lease put. -/
theorem FsCreateSpace_ok {env : Env} {st : State} {spaceInfo : SpaceInfo}
    (hok : (FsCreateSpace env st (.ok spaceInfo)).1 = Ret.BYTE_TRUE) :
    ∃ globalParam, getGlobalParam st = some globalParam ∧
      env.CheckWitness spaceInfo.SpaceOwner = true ∧
      spaceInfoExist st spaceInfo.SpaceOwner = false ∧
      spaceInfo.PdpInterval ≠ 0 ∧
      env.time < spaceInfo.TimeExpired ∧
      (appCallTransfer st spaceInfo.SpaceOwner env.contract
        (mul64 (mul64 (mul64
          (add64 (sub64 spaceInfo.TimeExpired env.time / spaceInfo.PdpInterval) 1)
          spaceInfo.Volume) spaceInfo.CopyNumber) globalParam.GasPerKbForSaveWithSpace)).2 = true ∧
      (FsCreateSpace env st (.ok spaceInfo)).2 =
        addSpaceInfo
          (appCallTransfer st spaceInfo.SpaceOwner env.contract
            (mul64 (mul64 (mul64
              (add64 (sub64 spaceInfo.TimeExpired env.time / spaceInfo.PdpInterval) 1)
              spaceInfo.Volume) spaceInfo.CopyNumber) globalParam.GasPerKbForSaveWithSpace)).1
          { spaceInfo with
            ValidFlag := true
            TimeStart := env.time
            RestVol := spaceInfo.Volume
            PayAmount := mul64 (mul64 (mul64
              (add64 (sub64 spaceInfo.TimeExpired env.time / spaceInfo.PdpInterval) 1)
              spaceInfo.Volume) spaceInfo.CopyNumber) globalParam.GasPerKbForSaveWithSpace
            RestAmount := mul64 (mul64 (mul64
              (add64 (sub64 spaceInfo.TimeExpired env.time / spaceInfo.PdpInterval) 1)
              spaceInfo.Volume) spaceInfo.CopyNumber) globalParam.GasPerKbForSaveWithSpace } := by
  unfold FsCreateSpace at hok ⊢
  dsimp only at hok ⊢
  by_cases h1 : env.CheckWitness spaceInfo.SpaceOwner = false
  · rw [if_pos h1] at hok; cases hok
  rw [if_neg h1] at hok ⊢
  by_cases h2 : spaceInfoExist st spaceInfo.SpaceOwner = true
  · rw [if_pos h2] at hok; cases hok
  rw [if_neg h2] at hok ⊢
  by_cases h3 : spaceInfo.PdpInterval = 0
  · rw [if_pos h3] at hok; cases hok
  rw [if_neg h3] at hok ⊢
  cases hg : getGlobalParam st with
  | none => rw [hg] at hok; cases hok
  | some globalParam =>
    rw [hg] at hok
    dsimp only at hok ⊢
    by_cases h4 : spaceInfo.TimeExpired ≤ env.time
    · rw [if_pos h4] at hok; cases hok
    rw [if_neg h4] at hok ⊢
    refine ⟨globalParam, rfl, by simpa using h1, by simpa using h2, h3, Nat.lt_of_not_le h4, ?_⟩
    split at hok
    · cases hok
    · rename_i h5
      rw [if_neg h5]
      exact ⟨by simpa using h5, rfl⟩

/-- C1 (as amended): a successful `FsCreateSpace` at time `now` with price `p`
persists, under the owner, the request with `TimeStart = now`,
`ValidFlag = true`, `RestVol = Volume`, `PayAmount` the product
`((TimeExpired - now) / PdpInterval + 1) * Volume * CopyNumber * p` reduced
modulo `2 ^ 64` (the exact product whenever that fits 64 bits) and
`RestAmount = PayAmount`; exactly one transfer, of `PayAmount` from the owner
to the contract, is invoked, and it succeeded; with `Volume = 1000`,
`PdpInterval = 100`, `now = 0`, `TimeExpired = 250`, `CopyNumber = 2`, `p = 1`
the `PayAmount` is 6000. -/
theorem C1_createSpace_persists (env : Env) (st : State) (spaceInfo : SpaceInfo)
    (hT : spaceInfo.TimeExpired < W64)
    (hok : (FsCreateSpace env st (.ok spaceInfo)).1 = Ret.BYTE_TRUE) :
    ∃ p pay : Nat,
      (getGlobalParam st).map FsGlobalParam.GasPerKbForSaveWithSpace = some p ∧
      pay = (((spaceInfo.TimeExpired - env.time) / spaceInfo.PdpInterval + 1) *
              spaceInfo.Volume * spaceInfo.CopyNumber * p) % W64 ∧
      (((spaceInfo.TimeExpired - env.time) / spaceInfo.PdpInterval + 1) *
          spaceInfo.Volume * spaceInfo.CopyNumber * p < W64 →
        pay = ((spaceInfo.TimeExpired - env.time) / spaceInfo.PdpInterval + 1) *
              spaceInfo.Volume * spaceInfo.CopyNumber * p) ∧
      tget SpaceInfo.SpaceOwner spaceInfo.SpaceOwner
          (FsCreateSpace env st (.ok spaceInfo)).2.spaces =
        some { spaceInfo with
                TimeStart := env.time
                ValidFlag := true
                RestVol := spaceInfo.Volume
                PayAmount := pay
                RestAmount := pay } ∧
      (FsCreateSpace env st (.ok spaceInfo)).2.calls =
        st.calls ++ [⟨spaceInfo.SpaceOwner, env.contract, pay⟩] ∧
      pay ≤ balanceOf st spaceInfo.SpaceOwner ∧
      (spaceInfo.Volume = 1000 → spaceInfo.PdpInterval = 100 → env.time = 0 →
        spaceInfo.TimeExpired = 250 → spaceInfo.CopyNumber = 2 → p = 1 → pay = 6000) := by
  obtain ⟨gp, hg, _, _, _, hlt, htr, hst⟩ := FsCreateSpace_ok hok
  have hsub : sub64 spaceInfo.TimeExpired env.time = spaceInfo.TimeExpired - env.time :=
    sub64_exact (Nat.le_of_lt hlt) hT
  have hpay : mul64 (mul64 (mul64
        (add64 (sub64 spaceInfo.TimeExpired env.time / spaceInfo.PdpInterval) 1)
        spaceInfo.Volume) spaceInfo.CopyNumber) gp.GasPerKbForSaveWithSpace =
      (((spaceInfo.TimeExpired - env.time) / spaceInfo.PdpInterval + 1) *
        spaceInfo.Volume * spaceInfo.CopyNumber * gp.GasPerKbForSaveWithSpace) % W64 := by
    rw [hsub, leaseCost_mod]
  rw [hpay] at htr hst
  refine ⟨gp.GasPerKbForSaveWithSpace, _, by rw [hg]; rfl, rfl, fun h => Nat.mod_eq_of_lt h,
    ?_, ?_, ?_, ?_⟩
  · rw [hst]
    exact tget_tput_self SpaceInfo.SpaceOwner _ _
  · rw [hst]
    exact appCallTransfer_calls _ _ _ _
  · rw [appCallTransfer_snd] at htr
    exact of_decide_eq_true htr
  · intro hV hP hn hE hC hp
    rw [hV, hP, hn, hE, hC, hp]
    decide

/-- C1, witness: the worked example of the specification is accepted. -/
theorem C1_createSpace_persists_witness :
    exSpace.TimeExpired < W64 ∧
    (FsCreateSpace exEnv exState (.ok exSpace)).1 = Ret.BYTE_TRUE ∧
    ∃ p pay : Nat,
      (getGlobalParam exState).map FsGlobalParam.GasPerKbForSaveWithSpace = some p ∧
      pay = (((exSpace.TimeExpired - exEnv.time) / exSpace.PdpInterval + 1) *
              exSpace.Volume * exSpace.CopyNumber * p) % W64 ∧
      (((exSpace.TimeExpired - exEnv.time) / exSpace.PdpInterval + 1) *
          exSpace.Volume * exSpace.CopyNumber * p < W64 →
        pay = ((exSpace.TimeExpired - exEnv.time) / exSpace.PdpInterval + 1) *
              exSpace.Volume * exSpace.CopyNumber * p) ∧
      tget SpaceInfo.SpaceOwner exSpace.SpaceOwner
          (FsCreateSpace exEnv exState (.ok exSpace)).2.spaces =
        some { exSpace with
                TimeStart := exEnv.time
                ValidFlag := true
                RestVol := exSpace.Volume
                PayAmount := pay
                RestAmount := pay } ∧
      (FsCreateSpace exEnv exState (.ok exSpace)).2.calls =
        exState.calls ++ [⟨exSpace.SpaceOwner, exEnv.contract, pay⟩] ∧
      pay ≤ balanceOf exState exSpace.SpaceOwner ∧
      (exSpace.Volume = 1000 → exSpace.PdpInterval = 100 → exEnv.time = 0 →
        exSpace.TimeExpired = 250 → exSpace.CopyNumber = 2 → p = 1 → pay = 6000) :=
  ⟨by decide, by decide, C1_createSpace_persists exEnv exState exSpace (by decide) (by decide)⟩

/-- C1, counterexample to the claim as stated: the request `wrapSpace`
(`Volume = 2 ^ 63`, `CopyNumber = 2`, `PdpInterval = 1`, `TimeExpired = 1`, hence
two proof cycles) is accepted at time 0 with price 1; the exact product of the claim is
`2 ^ 65`, the persisted `PayAmount` is 0. -/
theorem C1_counterexample :
    (FsCreateSpace exEnv exState (.ok wrapSpace)).1 = Ret.BYTE_TRUE ∧
    ((wrapSpace.TimeExpired - exEnv.time) / wrapSpace.PdpInterval + 1) *
        wrapSpace.Volume * wrapSpace.CopyNumber * 1 = 2 ^ 65 ∧
    (tget SpaceInfo.SpaceOwner wrapSpace.SpaceOwner
        (FsCreateSpace exEnv exState (.ok wrapSpace)).2.spaces).map SpaceInfo.PayAmount
      = some 0 := by
  decide

/-! ## The lease accounting invariant -/

theorem LeasesOk_addSpaceInfo {st : State} {s : SpaceInfo} (h : LeasesOk st)
    (hs : LeaseOk s ∧ LeaseU64 s) : LeasesOk (addSpaceInfo st s) := by
  intro x hx
  rcases mem_tput SpaceInfo.SpaceOwner hx with rfl | hx
  · exact hs
  · exact h x hx

theorem LeasesOk_of_spaces {st st1 : State} (h : LeasesOk st) (e : st1.spaces = st.spaces) :
    LeasesOk st1 := by
  intro x hx
  rw [e] at hx
  exact h x hx

theorem getAndUpdateSpaceInfo_ok {env : Env} {st : State} {o : Address} {sp : SpaceInfo}
    (hupd : ∀ s, LeaseOk s ∧ LeaseU64 s → LeaseOk (env.updateSpace s) ∧ LeaseU64 (env.updateSpace s))
    (h : LeasesOk st) (hg : getAndUpdateSpaceInfo env st o = some sp) :
    LeaseOk sp ∧ LeaseU64 sp := by
  unfold getAndUpdateSpaceInfo at hg
  cases ht : tget SpaceInfo.SpaceOwner o st.spaces with
  | none => rw [ht] at hg; cases hg
  | some s0 =>
    rw [ht] at hg
    cases hg
    exact hupd s0 (h s0 (tget_mem _ ht))

theorem deleteFileLoop_frame (env : Env) (f : FileInfo) (l : List PdpRecord) (st : State) :
    (deleteFileLoop env f l st).1.globalParam = st.globalParam ∧
    (deleteFileLoop env f l st).1.spaces = st.spaces ∧
    (deleteFileLoop env f l st).1.files = st.files ∧
    (deleteFileLoop env f l st).1.fileOwners = st.fileOwners ∧
    (deleteFileLoop env f l st).1.pdpRecords = st.pdpRecords ∧
    (deleteFileLoop env f l st).1.balances = st.balances ∧
    (deleteFileLoop env f l st).1.calls = st.calls ∧
    (deleteFileLoop env f l st).1.events = st.events := by
  induction l generalizing st with
  | nil => exact ⟨rfl, rfl, rfl, rfl, rfl, rfl, rfl, rfl⟩
  | cons r rest ih =>
    unfold deleteFileLoop
    cases hn : getNodeInfo st r.NodeAddr with
    | none => exact ⟨rfl, rfl, rfl, rfl, rfl, rfl, rfl, rfl⟩
    | some n =>
      dsimp only
      split
      · exact ih _
      · exact ih _


theorem LeasesOk_appCallTransfer {st : State} (a b : Address) (n : Nat)
    (h : LeasesOk st) : LeasesOk (appCallTransfer st a b n).1 :=
  LeasesOk_of_spaces h (appCallTransfer_frame st a b n).2.1

theorem updateSpaceFee_rest {contract payerAddr : Address} {space : SpaceInfo} {newPayAmount : Nat}
    {newFee : Nat} {payer payee : Address} {restAmount : Nat}
    (hs : LeaseOk space ∧ LeaseU64 space) (hn : newPayAmount < W64)
    (h : updateSpaceFee contract payerAddr space newPayAmount = some (newFee, payer, payee, restAmount)) :
    restAmount ≤ newPayAmount := by
  obtain ⟨⟨_, hra⟩, _, hpa⟩ := hs
  unfold updateSpaceFee at h
  split at h
  · rename_i hgt
    simp only [Option.some.injEq, Prod.mk.injEq] at h
    obtain ⟨_, _, _, rfl⟩ := h
    rw [sub64_exact (Nat.le_of_lt hgt) hn]
    unfold add64
    exact le_trans (Nat.mod_le _ _) (by omega)
  · split at h
    · rename_i hlt
      rw [sub64_exact (Nat.le_of_lt hlt) hpa] at h
      dsimp only at h
      split at h
      · cases h
      · rename_i hge
        simp only [Option.some.injEq, Prod.mk.injEq] at h
        obtain ⟨_, _, _, rfl⟩ := h
        rw [sub64_exact (by omega) (by omega)]
        omega
    · simp only [Option.some.injEq, Prod.mk.injEq] at h
      obtain ⟨_, _, _, rfl⟩ := h
      omega

theorem LeasesOk_FsCreateSpace (env : Env) (st : State) (hinv : LeasesOk st) (spaceInfo : SpaceInfo)
    (hV : spaceInfo.Volume < W64) : LeasesOk (FsCreateSpace env st (.ok spaceInfo)).2 := by
  unfold FsCreateSpace
  dsimp only
  repeat' split
  all_goals first
    | exact hinv
    | exact LeasesOk_appCallTransfer _ _ _ hinv
    | skip
  exact LeasesOk_addSpaceInfo (LeasesOk_appCallTransfer _ _ _ hinv)
    ⟨⟨le_refl _, le_refl _⟩, hV, mul64_lt _ _⟩

theorem newVolumeOf_lt {spaceUpdate : SpaceUpdate} {space : SpaceInfo}
    (hV : spaceUpdate.NewVolume < W64) (hs : space.Volume < W64) :
    newVolumeOf spaceUpdate space < W64 := by
  unfold newVolumeOf
  split <;> assumption

theorem updateSpaceLease_ok {spaceUpdate : SpaceUpdate} {space : SpaceInfo}
    {newPayAmount restAmount : Nat}
    (hs : LeaseOk space ∧ LeaseU64 space) (hV : spaceUpdate.NewVolume < W64)
    (hvol : ¬ sub64 space.Volume space.RestVol ≥ newVolumeOf spaceUpdate space)
    (hn : newPayAmount < W64) (hr : restAmount ≤ newPayAmount) :
    LeaseOk (updateSpaceLease spaceUpdate space newPayAmount restAmount) ∧
      LeaseU64 (updateSpaceLease spaceUpdate space newPayAmount restAmount) := by
  obtain ⟨⟨hrv, _⟩, hv, _⟩ := hs
  have hnv : newVolumeOf spaceUpdate space < W64 := newVolumeOf_lt hV hv
  rw [sub64_exact hrv hv] at hvol
  refine ⟨⟨?_, hr⟩, hnv, hn⟩
  show sub64 (newVolumeOf spaceUpdate space) (sub64 space.Volume space.RestVol)
    ≤ newVolumeOf spaceUpdate space
  rw [sub64_exact hrv hv, sub64_exact (by omega) hnv]
  omega

theorem updateSpaceNewPayAmount_lt (globalParam : FsGlobalParam) (spaceUpdate : SpaceUpdate)
    (space : SpaceInfo) : updateSpaceNewPayAmount globalParam spaceUpdate space < W64 :=
  mul64_lt _ _

theorem LeasesOk_FsUpdateSpace (env : Env) (st : State)
    (hupd : ∀ s, LeaseOk s ∧ LeaseU64 s → LeaseOk (env.updateSpace s) ∧ LeaseU64 (env.updateSpace s))
    (hinv : LeasesOk st) (spaceUpdate : SpaceUpdate)
    (hV : spaceUpdate.NewVolume < W64) : LeasesOk (FsUpdateSpace env st (.ok spaceUpdate)).2 := by
  unfold FsUpdateSpace
  dsimp only
  repeat' split
  all_goals first
    | exact hinv
    | exact LeasesOk_appCallTransfer _ _ _ hinv
    | skip
  · rename_i hg _ _ hvol _ _ _ _ _ _ hfee _ _
    have hs := getAndUpdateSpaceInfo_ok hupd hinv hg
    exact LeasesOk_addSpaceInfo (LeasesOk_appCallTransfer _ _ _ hinv)
      (updateSpaceLease_ok hs hV hvol (updateSpaceNewPayAmount_lt _ _ _)
        (updateSpaceFee_rest hs (updateSpaceNewPayAmount_lt _ _ _) hfee))
  · rename_i hg _ _ hvol _ _ _ _ _ _ hfee _
    have hs := getAndUpdateSpaceInfo_ok hupd hinv hg
    exact LeasesOk_addSpaceInfo hinv
      (updateSpaceLease_ok hs hV hvol (updateSpaceNewPayAmount_lt _ _ _)
        (updateSpaceFee_rest hs (updateSpaceNewPayAmount_lt _ _ _) hfee))

theorem LeasesOk_deleteFileLoop {env : Env} {f : FileInfo} {l : List PdpRecord} {st : State}
    (h : LeasesOk st) : LeasesOk (deleteFileLoop env f l st).1 :=
  LeasesOk_of_spaces h (deleteFileLoop_frame env f l st).2.1

theorem LeasesOk_storeFilesBody (env : Env) (st : State)
    (hupd : ∀ s, LeaseOk s ∧ LeaseU64 s → LeaseOk (env.updateSpace s) ∧ LeaseU64 (env.updateSpace s))
    (hinv : LeasesOk st) (globalParam : FsGlobalParam) (fileInfo : FileInfo) :
    LeasesOk (storeFilesBody env globalParam st fileInfo).1 := by
  unfold storeFilesBody
  dsimp only
  repeat' split
  all_goals first
    | exact hinv
    | exact LeasesOk_appCallTransfer _ _ _ hinv
    | skip
  rename_i hg _ hrest
  obtain ⟨⟨hrv, hra⟩, hv, hp⟩ := getAndUpdateSpaceInfo_ok hupd hinv hg
  refine LeasesOk_addSpaceInfo hinv ⟨⟨?_, hra⟩, hv, hp⟩
  show sub64 _ _ ≤ _
  rw [sub64_exact (by omega) (by omega)]
  exact le_trans (Nat.sub_le _ _) hrv

theorem getAndUpdateSpaceInfo_congr {env : Env} {st st1 : State} (h : st1.spaces = st.spaces)
    (o : Address) : getAndUpdateSpaceInfo env st1 o = getAndUpdateSpaceInfo env st o := by
  unfold getAndUpdateSpaceInfo
  rw [h]

theorem LeasesOk_deleteFileRefund (env : Env) (st : State)
    (hupd : ∀ s, LeaseOk s ∧ LeaseU64 s → LeaseOk (env.updateSpace s) ∧ LeaseU64 (env.updateSpace s))
    (hinv : LeasesOk st) (fileInfo : FileInfo)
    (hfit : fileInfo.StorageType = StorageType.UseSpace →
      ∀ sp, getAndUpdateSpaceInfo env st fileInfo.FileOwner = some sp →
        sp.RestVol + mul64 fileInfo.FileBlockCount env.DefaultPerBlockSize ≤ sp.Volume) :
    LeasesOk (deleteFileRefund env st fileInfo).1 := by
  unfold deleteFileRefund
  dsimp only
  repeat' split
  all_goals first
    | exact hinv
    | exact LeasesOk_appCallTransfer _ _ _ hinv
    | skip
  rename_i hu _ _ hg
  obtain ⟨⟨hrv, hra⟩, hv, hp⟩ := getAndUpdateSpaceInfo_ok hupd hinv hg
  have := hfit hu _ hg
  refine LeasesOk_addSpaceInfo hinv ⟨⟨?_, hra⟩, hv, hp⟩
  show add64 _ _ ≤ _
  rw [add64_exact (by omega)]
  exact this

theorem LeasesOk_deleteFile (env : Env) (st : State)
    (hupd : ∀ s, LeaseOk s ∧ LeaseU64 s → LeaseOk (env.updateSpace s) ∧ LeaseU64 (env.updateSpace s))
    (hinv : LeasesOk st) (fileInfo : FileInfo)
    (hfit : fileInfo.StorageType = StorageType.UseSpace →
      ∀ sp, getAndUpdateSpaceInfo env st fileInfo.FileOwner = some sp →
        sp.RestVol + mul64 fileInfo.FileBlockCount env.DefaultPerBlockSize ≤ sp.Volume) :
    LeasesOk (deleteFile env st fileInfo).1 := by
  have hsp := (deleteFileLoop_frame env fileInfo
    (getPdpRecordList st fileInfo.FileHash fileInfo.FileOwner) st).2.1
  have h2 : LeasesOk (deleteFileRefund env (deleteFileLoop env fileInfo
      (getPdpRecordList st fileInfo.FileHash fileInfo.FileOwner) st).1 fileInfo).1 := by
    apply LeasesOk_deleteFileRefund env _ hupd (LeasesOk_deleteFileLoop hinv)
    · intro hu sp hsp1
      rw [getAndUpdateSpaceInfo_congr hsp] at hsp1
      exact hfit hu sp hsp1
  unfold deleteFile
  dsimp only
  repeat' split
  · exact LeasesOk_deleteFileLoop hinv
  · exact h2
  · exact h2

theorem LeasesOk_storeFilesItem (env : Env) (st : State)
    (hupd : ∀ s, LeaseOk s ∧ LeaseU64 s → LeaseOk (env.updateSpace s) ∧ LeaseU64 (env.updateSpace s))
    (hinv : LeasesOk st) (globalParam : FsGlobalParam) (fileInfo : FileInfo)
    (hfit : ∀ fileExist,
      getAndUpdateFileInfo env st fileInfo.FileOwner fileInfo.FileHash = some fileExist →
      fileExist.ValidFlag = false → fileExist.StorageType = StorageType.UseSpace →
      ∀ sp, getAndUpdateSpaceInfo env st fileExist.FileOwner = some sp →
        sp.RestVol + mul64 fileExist.FileBlockCount env.DefaultPerBlockSize ≤ sp.Volume) :
    LeasesOk (storeFilesItem env globalParam st fileInfo).1 := by
  unfold storeFilesItem
  dsimp only
  repeat' split
  all_goals first
    | exact hinv
    | exact LeasesOk_storeFilesBody env st hupd hinv globalParam fileInfo
    | skip
  · rename_i fe hg hv _
    exact LeasesOk_deleteFile env st hupd hinv fe (hfit fe hg hv)
  · rename_i fe hg hv _
    exact LeasesOk_storeFilesBody env _ hupd
      (LeasesOk_deleteFile env st hupd hinv fe (hfit fe hg hv)) globalParam fileInfo

/-- C2 (as amended): let every stored lease satisfy `RestVol ≤ Volume` and
`RestAmount ≤ PayAmount` (with 64-bit totals, kept by the lazy recomputation).
Then every stored lease still satisfies them after `FsCreateSpace`, after
`FsUpdateSpace` and after the store step of an `FsStoreFiles` item; after
`deleteFile` they still hold provided that, when the file is charged to a
lease, the lease returned for its owner has
`RestVol + (FileBlockCount * blockSize mod 2 ^ 64) ≤ Volume`; and after a whole
`FsStoreFiles` item they hold under the same proviso on the invalid prior entry
it reclaims, if any. -/
theorem C2_lease_invariant (env : Env) (st : State)
    (hupd : ∀ s, LeaseOk s ∧ LeaseU64 s → LeaseOk (env.updateSpace s) ∧ LeaseU64 (env.updateSpace s))
    (hinv : LeasesOk st) :
    (∀ spaceInfo : SpaceInfo, spaceInfo.Volume < W64 →
      LeasesOk (FsCreateSpace env st (.ok spaceInfo)).2) ∧
    (∀ spaceUpdate : SpaceUpdate, spaceUpdate.NewVolume < W64 →
      LeasesOk (FsUpdateSpace env st (.ok spaceUpdate)).2) ∧
    (∀ (globalParam : FsGlobalParam) (fileInfo : FileInfo),
      LeasesOk (storeFilesBody env globalParam st fileInfo).1) ∧
    (∀ fileInfo : FileInfo,
      (fileInfo.StorageType = StorageType.UseSpace →
        ∀ sp, getAndUpdateSpaceInfo env st fileInfo.FileOwner = some sp →
          sp.RestVol + mul64 fileInfo.FileBlockCount env.DefaultPerBlockSize ≤ sp.Volume) →
      LeasesOk (deleteFile env st fileInfo).1) ∧
    (∀ (globalParam : FsGlobalParam) (fileInfo : FileInfo),
      (∀ fileExist,
        getAndUpdateFileInfo env st fileInfo.FileOwner fileInfo.FileHash = some fileExist →
        fileExist.ValidFlag = false → fileExist.StorageType = StorageType.UseSpace →
        ∀ sp, getAndUpdateSpaceInfo env st fileExist.FileOwner = some sp →
          sp.RestVol + mul64 fileExist.FileBlockCount env.DefaultPerBlockSize ≤ sp.Volume) →
      LeasesOk (storeFilesItem env globalParam st fileInfo).1) :=
  ⟨fun spaceInfo hV => LeasesOk_FsCreateSpace env st hinv spaceInfo hV,
   fun spaceUpdate hV => LeasesOk_FsUpdateSpace env st hupd hinv spaceUpdate hV,
   fun globalParam fileInfo => LeasesOk_storeFilesBody env st hupd hinv globalParam fileInfo,
   fun fileInfo hfit => LeasesOk_deleteFile env st hupd hinv fileInfo hfit,
   fun globalParam fileInfo hfit =>
     LeasesOk_storeFilesItem env st hupd hinv globalParam fileInfo hfit⟩

/-- C2, witness: on the state of the worked example an update of the lease to
volume 1500 and the store of a one-block file keep the invariant. -/
theorem C2_lease_invariant_witness :
    LeasesOk exLeaseState ∧
    LeasesOk (FsCreateSpace exEnv exLeaseState (.ok exSpace)).2 ∧
    LeasesOk (FsUpdateSpace exEnv exLeaseState (.ok ⟨7, 7, 1500, 0⟩)).2 ∧
    LeasesOk (storeFilesBody exEnv ⟨1, 1, 1⟩ exLeaseState exUseSpaceFile).1 :=
  have h := C2_lease_invariant exEnv exLeaseState (fun _ hs => hs) (by decide)
  ⟨by decide, h.1 exSpace (by decide), h.2.1 ⟨7, 7, 1500, 0⟩ (by decide),
    h.2.2.1 ⟨1, 1, 1⟩ exUseSpaceFile⟩

/-- C2, counterexample to the claim as stated: in `looseState` the only lease
satisfies the invariant (`RestVol = Volume = 1000`); `deleteFile` of the stored
one-block file of the same owner succeeds and leaves the lease with
`RestVol = 1256 > Volume = 1000`. -/
theorem C2_counterexample :
    (∀ s ∈ looseState.spaces, s.RestVol ≤ s.Volume ∧ s.RestAmount ≤ s.PayAmount) ∧
    exUseSpaceFile.StorageType = StorageType.UseSpace ∧
    getAndUpdateFileInfo exEnv looseState 7 [1] = some exUseSpaceFile ∧
    (deleteFile exEnv looseState exUseSpaceFile).2 = true ∧
    (tget SpaceInfo.SpaceOwner 7 (deleteFile exEnv looseState exUseSpaceFile).1.spaces).map
      (fun s => (s.RestVol, s.Volume)) = some (1256, 1000) := by
  decide

/-! ## FsUpdateSpace: the fee and its transfer -/

/-- Shape of a successful `FsUpdateSpace`. -/
theorem FsUpdateSpace_ok {env : Env} {st : State} {spaceUpdate : SpaceUpdate}
    (hok : (FsUpdateSpace env st (.ok spaceUpdate)).1 = Ret.BYTE_TRUE) :
    ∃ globalParam space newFee payer payee restAmount,
      getGlobalParam st = some globalParam ∧
      getAndUpdateSpaceInfo env st spaceUpdate.SpaceOwner = some space ∧
      ¬ (spaceUpdate.NewTimeExpired = 0 ∧ spaceUpdate.NewVolume = 0) ∧
      env.CheckWitness spaceUpdate.Payer = true ∧
      space.ValidFlag = true ∧
      ¬ (spaceUpdate.NewTimeExpired ≠ 0 ∧ env.time ≥ spaceUpdate.NewTimeExpired) ∧
      sub64 space.Volume space.RestVol < newVolumeOf spaceUpdate space ∧
      space.PdpInterval ≠ 0 ∧
      updateSpaceFee env.contract spaceUpdate.Payer space
          (updateSpaceNewPayAmount globalParam spaceUpdate space) =
        some (newFee, payer, payee, restAmount) ∧
      ((newFee ≠ 0 ∧ (appCallTransfer st payer payee newFee).2 = true ∧
          (FsUpdateSpace env st (.ok spaceUpdate)).2 =
            addSpaceInfo (appCallTransfer st payer payee newFee).1
              (updateSpaceLease spaceUpdate space
                (updateSpaceNewPayAmount globalParam spaceUpdate space) restAmount)) ∨
       (newFee = 0 ∧
          (FsUpdateSpace env st (.ok spaceUpdate)).2 =
            addSpaceInfo st
              (updateSpaceLease spaceUpdate space
                (updateSpaceNewPayAmount globalParam spaceUpdate space) restAmount))) := by
  revert hok
  unfold FsUpdateSpace
  dsimp only
  repeat' split
  all_goals intro hok
  all_goals first
    | (cases hok; done)
    | skip
  · rename_i h7 h6 _ _ hg _ _ hs h5 h4 h3 h2 _ _ _ _ _ hfee h1 h
    exact ⟨_, _, _, _, _, _, hg, hs, h7, by simpa using h6, by simpa using h5, h4,
      Nat.lt_of_not_le h3, h2, hfee, Or.inl ⟨h1, by simpa using h, rfl⟩⟩
  · rename_i h7 h6 _ _ hg _ _ hs h5 h4 h3 h2 _ _ _ _ _ hfee h1
    exact ⟨_, _, _, _, _, _, hg, hs, h7, by simpa using h6, by simpa using h5, h4,
      Nat.lt_of_not_le h3, h2, hfee, Or.inr ⟨by simpa using h1, rfl⟩⟩

theorem updateSpaceFee_gt {contract payerAddr : Address} {space : SpaceInfo} {newPayAmount : Nat}
    (hn : newPayAmount < W64) (hra : space.RestAmount ≤ space.PayAmount)
    (h : newPayAmount > space.PayAmount) :
    updateSpaceFee contract payerAddr space newPayAmount =
      some (newPayAmount - space.PayAmount, payerAddr, contract,
        space.RestAmount + (newPayAmount - space.PayAmount)) := by
  unfold updateSpaceFee
  rw [if_pos h]
  dsimp only
  rw [sub64_exact (Nat.le_of_lt h) hn, add64_exact (by omega)]

theorem updateSpaceFee_lt {contract payerAddr : Address} {space : SpaceInfo} {newPayAmount : Nat}
    (hpa : space.PayAmount < W64) (hra : space.RestAmount ≤ space.PayAmount)
    (h : newPayAmount < space.PayAmount) :
    updateSpaceFee contract payerAddr space newPayAmount =
      if space.RestAmount < space.PayAmount - newPayAmount then none
      else some (space.PayAmount - newPayAmount, contract, payerAddr,
        space.RestAmount - (space.PayAmount - newPayAmount)) := by
  unfold updateSpaceFee
  rw [if_neg (by omega), if_pos h]
  dsimp only
  rw [sub64_exact (Nat.le_of_lt h) hpa]
  split
  · rfl
  · rw [sub64_exact (by omega) (by omega)]

theorem updateSpaceFee_eq {contract payerAddr : Address} {space : SpaceInfo} {newPayAmount : Nat}
    (h : newPayAmount = space.PayAmount) :
    updateSpaceFee contract payerAddr space newPayAmount = some (0, 0, 0, space.RestAmount) := by
  unfold updateSpaceFee
  rw [if_neg (by omega), if_neg (by omega)]

/-- C3: for a successful `FsUpdateSpace` on a lease with
`RestAmount ≤ PayAmount < 2 ^ 64`, with `newPayAmount` the new total cost the
handler computes: when `newPayAmount > PayAmount` exactly one transfer is
invoked, of `newPayAmount - PayAmount` from `Payer` to the contract, and the
stored `RestAmount` is the old one plus that amount; when
`newPayAmount < PayAmount` exactly one transfer is invoked, of
`PayAmount - newPayAmount` from the contract to `Payer`, and the stored
`RestAmount` is the old one minus that amount; when they are equal no transfer
is invoked, the balances are untouched and `RestAmount` is unchanged.  In the
first two cases the transfer succeeded. -/
theorem C3_updateSpace_transfer (env : Env) (st : State) (spaceUpdate : SpaceUpdate)
    (hwf : ∀ space, getAndUpdateSpaceInfo env st spaceUpdate.SpaceOwner = some space →
      space.RestAmount ≤ space.PayAmount ∧ space.PayAmount < W64)
    (hok : (FsUpdateSpace env st (.ok spaceUpdate)).1 = Ret.BYTE_TRUE) :
    ∃ globalParam space lease,
      getGlobalParam st = some globalParam ∧
      getAndUpdateSpaceInfo env st spaceUpdate.SpaceOwner = some space ∧
      tget SpaceInfo.SpaceOwner space.SpaceOwner (FsUpdateSpace env st (.ok spaceUpdate)).2.spaces =
        some lease ∧
      lease.PayAmount = updateSpaceNewPayAmount globalParam spaceUpdate space ∧
      (updateSpaceNewPayAmount globalParam spaceUpdate space > space.PayAmount →
        (FsUpdateSpace env st (.ok spaceUpdate)).2.calls =
          st.calls ++ [⟨spaceUpdate.Payer, env.contract,
            updateSpaceNewPayAmount globalParam spaceUpdate space - space.PayAmount⟩] ∧
        updateSpaceNewPayAmount globalParam spaceUpdate space - space.PayAmount ≤
          balanceOf st spaceUpdate.Payer ∧
        lease.RestAmount = space.RestAmount +
          (updateSpaceNewPayAmount globalParam spaceUpdate space - space.PayAmount)) ∧
      (updateSpaceNewPayAmount globalParam spaceUpdate space < space.PayAmount →
        (FsUpdateSpace env st (.ok spaceUpdate)).2.calls =
          st.calls ++ [⟨env.contract, spaceUpdate.Payer,
            space.PayAmount - updateSpaceNewPayAmount globalParam spaceUpdate space⟩] ∧
        space.PayAmount - updateSpaceNewPayAmount globalParam spaceUpdate space ≤
          balanceOf st env.contract ∧
        space.PayAmount - updateSpaceNewPayAmount globalParam spaceUpdate space ≤ space.RestAmount ∧
        lease.RestAmount = space.RestAmount -
          (space.PayAmount - updateSpaceNewPayAmount globalParam spaceUpdate space)) ∧
      (updateSpaceNewPayAmount globalParam spaceUpdate space = space.PayAmount →
        (FsUpdateSpace env st (.ok spaceUpdate)).2.calls = st.calls ∧
        (FsUpdateSpace env st (.ok spaceUpdate)).2.balances = st.balances ∧
        lease.RestAmount = space.RestAmount) := by
  obtain ⟨gp, space, newFee, payer, payee, restAmount, hg, hs, _, _, _, _, _, _, hfee, hres⟩ :=
    FsUpdateSpace_ok hok
  obtain ⟨hra, hpa⟩ := hwf space hs
  have hn := updateSpaceNewPayAmount_lt gp spaceUpdate space
  have hstored : tget SpaceInfo.SpaceOwner space.SpaceOwner
      (FsUpdateSpace env st (.ok spaceUpdate)).2.spaces =
      some (updateSpaceLease spaceUpdate space (updateSpaceNewPayAmount gp spaceUpdate space)
        restAmount) := by
    rcases hres with ⟨_, _, h⟩ | ⟨_, h⟩ <;> rw [h] <;>
      exact tget_tput_self SpaceInfo.SpaceOwner
        (updateSpaceLease spaceUpdate space (updateSpaceNewPayAmount gp spaceUpdate space)
          restAmount) _
  refine ⟨gp, space, _, hg, hs, hstored, rfl, ?_, ?_, ?_⟩
  · intro hgt
    rw [updateSpaceFee_gt hn hra hgt] at hfee
    simp only [Option.some.injEq, Prod.mk.injEq] at hfee
    obtain ⟨rfl, rfl, rfl, rfl⟩ := hfee
    rcases hres with ⟨_, htr, h⟩ | ⟨h0, _⟩
    · refine ⟨?_, ?_, rfl⟩
      · rw [h]; exact appCallTransfer_calls _ _ _ _
      · rw [appCallTransfer_snd] at htr
        exact of_decide_eq_true htr
    · omega
  · intro hlt
    rw [updateSpaceFee_lt hpa hra hlt] at hfee
    split at hfee
    · cases hfee
    · rename_i hge
      simp only [Option.some.injEq, Prod.mk.injEq] at hfee
      obtain ⟨rfl, rfl, rfl, rfl⟩ := hfee
      rcases hres with ⟨_, htr, h⟩ | ⟨h0, _⟩
      · refine ⟨?_, ?_, Nat.le_of_not_lt hge, rfl⟩
        · rw [h]; exact appCallTransfer_calls _ _ _ _
        · rw [appCallTransfer_snd] at htr
          exact of_decide_eq_true htr
      · omega
  · intro heq
    rw [updateSpaceFee_eq heq] at hfee
    simp only [Option.some.injEq, Prod.mk.injEq] at hfee
    obtain ⟨rfl, rfl, rfl, rfl⟩ := hfee
    rcases hres with ⟨hne, _⟩ | ⟨_, h⟩
    · exact absurd rfl hne
    · rw [h]
      exact ⟨rfl, rfl, rfl⟩


/-- C3, witness: on the state of the worked example the owner raises the
volume of the lease to 1500 and pays the difference of 3000. -/
theorem C3_updateSpace_transfer_witness :
    (∀ space, getAndUpdateSpaceInfo exEnv exLeaseState 7 = some space →
      space.RestAmount ≤ space.PayAmount ∧ space.PayAmount < W64) ∧
    (FsUpdateSpace exEnv exLeaseState (.ok ⟨7, 7, 1500, 0⟩)).1 = Ret.BYTE_TRUE ∧
    ∃ globalParam space lease,
      getGlobalParam exLeaseState = some globalParam ∧
      getAndUpdateSpaceInfo exEnv exLeaseState 7 = some space ∧
      tget SpaceInfo.SpaceOwner space.SpaceOwner
          (FsUpdateSpace exEnv exLeaseState (.ok ⟨7, 7, 1500, 0⟩)).2.spaces = some lease ∧
      lease.PayAmount = updateSpaceNewPayAmount globalParam ⟨7, 7, 1500, 0⟩ space ∧
      (updateSpaceNewPayAmount globalParam ⟨7, 7, 1500, 0⟩ space > space.PayAmount →
        (FsUpdateSpace exEnv exLeaseState (.ok ⟨7, 7, 1500, 0⟩)).2.calls =
          exLeaseState.calls ++ [⟨7, exEnv.contract,
            updateSpaceNewPayAmount globalParam ⟨7, 7, 1500, 0⟩ space - space.PayAmount⟩] ∧
        updateSpaceNewPayAmount globalParam ⟨7, 7, 1500, 0⟩ space - space.PayAmount ≤
          balanceOf exLeaseState 7 ∧
        lease.RestAmount = space.RestAmount +
          (updateSpaceNewPayAmount globalParam ⟨7, 7, 1500, 0⟩ space - space.PayAmount)) ∧
      (updateSpaceNewPayAmount globalParam ⟨7, 7, 1500, 0⟩ space < space.PayAmount →
        (FsUpdateSpace exEnv exLeaseState (.ok ⟨7, 7, 1500, 0⟩)).2.calls =
          exLeaseState.calls ++ [⟨exEnv.contract, 7,
            space.PayAmount - updateSpaceNewPayAmount globalParam ⟨7, 7, 1500, 0⟩ space⟩] ∧
        space.PayAmount - updateSpaceNewPayAmount globalParam ⟨7, 7, 1500, 0⟩ space ≤
          balanceOf exLeaseState exEnv.contract ∧
        space.PayAmount - updateSpaceNewPayAmount globalParam ⟨7, 7, 1500, 0⟩ space ≤
          space.RestAmount ∧
        lease.RestAmount = space.RestAmount -
          (space.PayAmount - updateSpaceNewPayAmount globalParam ⟨7, 7, 1500, 0⟩ space)) ∧
      (updateSpaceNewPayAmount globalParam ⟨7, 7, 1500, 0⟩ space = space.PayAmount →
        (FsUpdateSpace exEnv exLeaseState (.ok ⟨7, 7, 1500, 0⟩)).2.calls = exLeaseState.calls ∧
        (FsUpdateSpace exEnv exLeaseState (.ok ⟨7, 7, 1500, 0⟩)).2.balances =
          exLeaseState.balances ∧
        lease.RestAmount = space.RestAmount) :=
  have hwf : ∀ space, getAndUpdateSpaceInfo exEnv exLeaseState 7 = some space →
      space.RestAmount ≤ space.PayAmount ∧ space.PayAmount < W64 := by
    intro space h
    cases h
    decide
  ⟨hwf, by decide, C3_updateSpace_transfer exEnv exLeaseState ⟨7, 7, 1500, 0⟩ hwf (by decide)⟩

/-! ## FsDeleteSpace and the guards of FsCreateSpace -/

theorem getAndUpdateSpaceInfo_owner {env : Env} {st : State} {owner : Address} {space : SpaceInfo}
    (hupd : ∀ s, (env.updateSpace s).SpaceOwner = s.SpaceOwner)
    (h : getAndUpdateSpaceInfo env st owner = some space) : space.SpaceOwner = owner := by
  unfold getAndUpdateSpaceInfo at h
  cases ht : tget SpaceInfo.SpaceOwner owner st.spaces with
  | none => rw [ht] at h; cases h
  | some s0 =>
    rw [ht] at h
    cases h
    rw [hupd]
    exact tget_key _ ht

/-- C4: `FsDeleteSpace` called by a witness of the owner of an existing lease
(`space`, as the accessor returns it) succeeds exactly when `RestVol = Volume`
and the refund transfer succeeds; on success exactly one transfer is invoked,
of `RestAmount` from the contract to the owner of the lease, and the lease is
removed; when `RestVol ≠ Volume` it fails with the "not allow" error and the
state, transfer log included, is unchanged. -/
theorem C4_deleteSpace (env : Env) (st : State) (owner : Address) (space : SpaceInfo)
    (hw : env.CheckWitness owner = true)
    (hs : getAndUpdateSpaceInfo env st owner = some space) :
    ((FsDeleteSpace env st (some owner)).1 = Ret.BYTE_TRUE ↔
      space.RestVol = space.Volume ∧ space.RestAmount ≤ balanceOf st env.contract) ∧
    ((FsDeleteSpace env st (some owner)).1 = Ret.BYTE_TRUE →
      (FsDeleteSpace env st (some owner)).2.calls =
        st.calls ++ [⟨env.contract, space.SpaceOwner, space.RestAmount⟩] ∧
      tget SpaceInfo.SpaceOwner owner (FsDeleteSpace env st (some owner)).2.spaces = none ∧
      getAndUpdateSpaceInfo env (FsDeleteSpace env st (some owner)).2 owner = none) ∧
    (space.RestVol ≠ space.Volume →
      (FsDeleteSpace env st (some owner)).1 =
        Ret.BYTE_FALSE "[APP SDK] FsDeleteSpace not allow, check files!" ∧
      (FsDeleteSpace env st (some owner)).2 = st) ∧
    ((∀ s, (env.updateSpace s).SpaceOwner = s.SpaceOwner) → space.SpaceOwner = owner) := by
  have hw1 : ¬ env.CheckWitness owner = false := by simp [hw]
  have hF : FsDeleteSpace env st (some owner) =
      if space.Volume ≠ space.RestVol then
        (Ret.BYTE_FALSE "[APP SDK] FsDeleteSpace not allow, check files!", st)
      else if (appCallTransfer st env.contract space.SpaceOwner space.RestAmount).2 = false then
        (Ret.BYTE_FALSE "[APP SDK] FsDeleteSpace AppCallTransfer, transfer error!",
          (appCallTransfer st env.contract space.SpaceOwner space.RestAmount).1)
      else
        (Ret.BYTE_TRUE,
          delSpaceInfo (appCallTransfer st env.contract space.SpaceOwner space.RestAmount).1 owner) := by
    unfold FsDeleteSpace
    simp only [if_neg hw1, hs]
  rw [hF]
  refine ⟨?_, ?_, ?_, fun h => getAndUpdateSpaceInfo_owner h hs⟩
  · rw [appCallTransfer_snd]
    by_cases hv : space.Volume = space.RestVol
    · by_cases hb : space.RestAmount ≤ balanceOf st env.contract
      · simp [hv, hb]
      · simp [hv, hb]
    · have hv2 : ¬ space.RestVol = space.Volume := fun e => hv e.symm
      simp [hv, hv2]
  · intro hok
    by_cases hv : space.Volume = space.RestVol
    · by_cases hb : (appCallTransfer st env.contract space.SpaceOwner space.RestAmount).2 = false
      · simp [hv, hb] at hok
      · simp only [hv, ne_eq, not_true_eq_false, if_false, if_neg hb]
        have hsp : (delSpaceInfo
            (appCallTransfer st env.contract space.SpaceOwner space.RestAmount).1 owner).spaces
            = tdel SpaceInfo.SpaceOwner owner st.spaces := by
          show tdel _ _ _ = _
          rw [(appCallTransfer_frame _ _ _ _).2.1]
        refine ⟨appCallTransfer_calls _ _ _ _, ?_, ?_⟩
        · rw [hsp]; exact tget_tdel_self _ _ _
        · unfold getAndUpdateSpaceInfo
          rw [hsp, tget_tdel_self]
          rfl
    · simp [hv] at hok
  · intro hv
    have hv2 : space.Volume ≠ space.RestVol := fun e => hv e.symm
    rw [if_pos hv2]
    exact ⟨rfl, rfl⟩

/-- C4, witness: in the state of the worked example the owner deletes the unused
lease. -/
theorem C4_deleteSpace_witness :
    exEnv.CheckWitness 7 = true ∧
    getAndUpdateSpaceInfo exEnv exLeaseState 7 = some ⟨7, 1000, 1000, 2, 6000, 6000, 100, 0, 250, true⟩ ∧
    (((FsDeleteSpace exEnv exLeaseState (some 7)).1 = Ret.BYTE_TRUE ↔
      (1000 : Nat) = (1000 : Nat) ∧ (6000 : Nat) ≤ balanceOf exLeaseState exEnv.contract) ∧
    ((FsDeleteSpace exEnv exLeaseState (some 7)).1 = Ret.BYTE_TRUE →
      (FsDeleteSpace exEnv exLeaseState (some 7)).2.calls =
        exLeaseState.calls ++ [⟨exEnv.contract, (7 : Address), (6000 : Nat)⟩] ∧
      tget SpaceInfo.SpaceOwner 7 (FsDeleteSpace exEnv exLeaseState (some 7)).2.spaces = none ∧
      getAndUpdateSpaceInfo exEnv (FsDeleteSpace exEnv exLeaseState (some 7)).2 7 = none) ∧
    ((1000 : Nat) ≠ (1000 : Nat) →
      (FsDeleteSpace exEnv exLeaseState (some 7)).1 =
        Ret.BYTE_FALSE "[APP SDK] FsDeleteSpace not allow, check files!" ∧
      (FsDeleteSpace exEnv exLeaseState (some 7)).2 = exLeaseState) ∧
    ((∀ s, (exEnv.updateSpace s).SpaceOwner = s.SpaceOwner) → (7 : Address) = 7)) :=
  ⟨rfl, rfl, C4_deleteSpace exEnv exLeaseState 7 ⟨7, 1000, 1000, 2, 6000, 6000, 100, 0, 250, true⟩ rfl rfl⟩

/-- C5: with decodable input, available global parameters and an owner whose
balance covers the cost, `FsCreateSpace` fails exactly when the caller is not a
witness for `SpaceOwner`, or a lease already exists for `SpaceOwner`, or
`PdpInterval = 0`, or `TimeExpired ≤ now`; and the result does not depend on
the `TimeStart` the caller supplied. -/
theorem C5_createSpace_fails_iff (env : Env) (st : State) (spaceInfo : SpaceInfo)
    (globalParam : FsGlobalParam)
    (hg : getGlobalParam st = some globalParam)
    (htr : mul64 (mul64 (mul64
        (add64 (sub64 spaceInfo.TimeExpired env.time / spaceInfo.PdpInterval) 1)
        spaceInfo.Volume) spaceInfo.CopyNumber) globalParam.GasPerKbForSaveWithSpace
      ≤ balanceOf st spaceInfo.SpaceOwner) :
    ((FsCreateSpace env st (.ok spaceInfo)).1 ≠ Ret.BYTE_TRUE ↔
      (env.CheckWitness spaceInfo.SpaceOwner = false ∨
       spaceInfoExist st spaceInfo.SpaceOwner = true ∨
       spaceInfo.PdpInterval = 0 ∨
       spaceInfo.TimeExpired ≤ env.time)) ∧
    (∀ timeStart : Nat,
      FsCreateSpace env st (.ok { spaceInfo with TimeStart := timeStart }) =
        FsCreateSpace env st (.ok spaceInfo)) := by
  constructor
  · unfold FsCreateSpace
    simp only [hg, appCallTransfer_snd]
    by_cases h1 : env.CheckWitness spaceInfo.SpaceOwner = false
    · simp [h1]
    by_cases h2 : spaceInfoExist st spaceInfo.SpaceOwner = true
    · simp [h1, h2]
    by_cases h3 : spaceInfo.PdpInterval = 0
    · simp [h1, h2, h3]
    by_cases h4 : spaceInfo.TimeExpired ≤ env.time
    · simp [h1, h2, h3, h4]
    · simp [h1, h2, h3, h4, htr]
  · intro t
    rfl


/-- C5, witness: the worked example, whose owner can pay the cost. -/
theorem C5_createSpace_fails_iff_witness :
    getGlobalParam exState = some ⟨1, 1, 1⟩ ∧
    mul64 (mul64 (mul64
        (add64 (sub64 exSpace.TimeExpired exEnv.time / exSpace.PdpInterval) 1)
        exSpace.Volume) exSpace.CopyNumber) 1 ≤ balanceOf exState exSpace.SpaceOwner ∧
    (((FsCreateSpace exEnv exState (.ok exSpace)).1 ≠ Ret.BYTE_TRUE ↔
      (exEnv.CheckWitness exSpace.SpaceOwner = false ∨
       spaceInfoExist exState exSpace.SpaceOwner = true ∨
       exSpace.PdpInterval = 0 ∨
       exSpace.TimeExpired ≤ exEnv.time)) ∧
    (∀ timeStart : Nat,
      FsCreateSpace exEnv exState (.ok { exSpace with TimeStart := timeStart }) =
        FsCreateSpace exEnv exState (.ok exSpace))) :=
  ⟨rfl, by decide, C5_createSpace_fails_iff exEnv exState exSpace ⟨1, 1, 1⟩ rfl (by decide)⟩

/-! ## deleteFile -/

theorem getNodeInfo_addNodeInfo (st : State) (n : FsNodeInfo) (a : Address) :
    getNodeInfo (addNodeInfo st n) a = if a = n.NodeAddr then some n else getNodeInfo st a := by
  unfold getNodeInfo addNodeInfo
  by_cases h : a = n.NodeAddr
  · rw [if_pos h, h]
    exact tget_tput_self FsNodeInfo.NodeAddr n st.nodes
  · rw [if_neg h]
    exact tget_tput_of_ne FsNodeInfo.NodeAddr h st.nodes

/-- The loop of `deleteFile` succeeds exactly when the node of every proof
record is registered, settled or not. -/
theorem deleteFileLoop_ok_iff (env : Env) (f : FileInfo) (l : List PdpRecord) (st : State) :
    (deleteFileLoop env f l st).2 = true ↔ ∀ r ∈ l, (getNodeInfo st r.NodeAddr).isSome = true := by
  induction l generalizing st with
  | nil => simp [deleteFileLoop]
  | cons r rest ih =>
    unfold deleteFileLoop
    cases hn : getNodeInfo st r.NodeAddr with
    | none =>
      simp [hn]
    | some n =>
      have hkey : n.NodeAddr = r.NodeAddr := tget_key FsNodeInfo.NodeAddr hn
      dsimp only
      split
      · rw [ih]
        simp only [List.mem_cons, forall_eq_or_imp, hn, Option.isSome_some, true_and]
        constructor
        · intro h x hx
          have := h x hx
          rw [getNodeInfo_addNodeInfo] at this
          split at this
          · rename_i e
            rw [e]; show (getNodeInfo st n.NodeAddr).isSome = true
            rw [hkey, hn]; rfl
          · exact this
        · intro h x hx
          rw [getNodeInfo_addNodeInfo]
          split
          · rfl
          · exact h x hx
      · rw [ih]
        simp [hn]

/-- After a successful loop of `deleteFile` every registered node holds its
former record with `RestVol` credited once per unsettled proof record naming
it; settled records credit nothing. -/
theorem deleteFileLoop_nodes (env : Env) (f : FileInfo) (l : List PdpRecord) (st : State)
    (hok : (deleteFileLoop env f l st).2 = true) (a : Address) :
    getNodeInfo (deleteFileLoop env f l st).1 a =
      (getNodeInfo st a).map (fun n =>
        { n with RestVol :=
            (Nat.iterate (fun v => add64 v (mul64 f.FileBlockCount env.DefaultPerBlockSize))
              (unsettledCount l a) n.RestVol) }) := by
  induction l generalizing st with
  | nil =>
    cases h : getNodeInfo st a <;> simp [deleteFileLoop, unsettledCount, h]
  | cons r rest ih =>
    unfold deleteFileLoop at hok ⊢
    cases hn : getNodeInfo st r.NodeAddr with
    | none => rw [hn] at hok; cases hok
    | some n =>
      have hkey : n.NodeAddr = r.NodeAddr := tget_key FsNodeInfo.NodeAddr hn
      rw [hn] at hok
      dsimp only at hok ⊢
      by_cases hs : r.SettleFlag = false
      · rw [if_pos hs] at hok ⊢
        rw [ih _ hok, getNodeInfo_addNodeInfo]
        dsimp only
        by_cases ha : a = r.NodeAddr
        · have hc : unsettledCount (r :: rest) a = unsettledCount rest a + 1 := by
            simp [unsettledCount, List.filter_cons, ha, hs]
          rw [if_pos (ha.trans hkey.symm), hc, ha, hn]
          simp only [Option.map_some', Function.iterate_succ_apply]
        · have hc : unsettledCount (r :: rest) a = unsettledCount rest a := by
            have : ¬ r.NodeAddr = a := fun e => ha e.symm
            simp [unsettledCount, List.filter_cons, this]
          rw [if_neg (fun e => ha (e.trans hkey)), hc]
      · rw [if_neg hs] at hok ⊢
        have hc : unsettledCount (r :: rest) a = unsettledCount rest a := by
          simp [unsettledCount, List.filter_cons, hs]
        rw [ih _ hok, hc]

theorem deleteFileRefund_frame (env : Env) (st : State) (f : FileInfo) :
    (deleteFileRefund env st f).1.globalParam = st.globalParam ∧
    (deleteFileRefund env st f).1.files = st.files ∧
    (deleteFileRefund env st f).1.fileOwners = st.fileOwners ∧
    (deleteFileRefund env st f).1.pdpRecords = st.pdpRecords ∧
    (deleteFileRefund env st f).1.nodes = st.nodes ∧
    (deleteFileRefund env st f).1.events = st.events := by
  have hf := appCallTransfer_frame st env.contract f.FileOwner f.RestAmount
  unfold deleteFileRefund
  dsimp only
  repeat' split
  all_goals first
    | exact ⟨rfl, rfl, rfl, rfl, rfl, rfl⟩
    | exact ⟨hf.1, hf.2.2.1, hf.2.2.2.1, hf.2.2.2.2.1, hf.2.2.2.2.2.1, hf.2.2.2.2.2.2.2⟩

/-- The refund of a pay-per-file deposit: one transfer of `RestAmount` from the
contract to the owner is invoked; the step succeeds when the contract holds
the amount; the leases are untouched. -/
theorem deleteFileRefund_useFile (env : Env) (st : State) (f : FileInfo)
    (h : f.StorageType = StorageType.UseFile) :
    (deleteFileRefund env st f).1.calls = st.calls ++ [⟨env.contract, f.FileOwner, f.RestAmount⟩] ∧
    ((deleteFileRefund env st f).2 = true ↔ f.RestAmount ≤ balanceOf st env.contract) ∧
    (deleteFileRefund env st f).1.spaces = st.spaces := by
  have hf := appCallTransfer_frame st env.contract f.FileOwner f.RestAmount
  have hc := appCallTransfer_calls st env.contract f.FileOwner f.RestAmount
  have hs := appCallTransfer_snd st env.contract f.FileOwner f.RestAmount
  unfold deleteFileRefund
  rw [h]
  dsimp only
  split
  · rename_i hb
    refine ⟨hc, ?_, hf.2.1⟩
    rw [hs] at hb
    simpa using hb
  · rename_i hb
    refine ⟨hc, ?_, hf.2.1⟩
    rw [hs] at hb
    simpa using hb

/-- The refund of a file charged to a lease: the step succeeds when the owner
has a lease, whose `RestVol` is then raised by the volume of the file; no
transfer is invoked. -/
theorem deleteFileRefund_useSpace (env : Env) (st : State) (f : FileInfo)
    (h : f.StorageType = StorageType.UseSpace) :
    (deleteFileRefund env st f).1.calls = st.calls ∧
    (deleteFileRefund env st f).1.balances = st.balances ∧
    ((deleteFileRefund env st f).2 = true →
      ∃ space, getAndUpdateSpaceInfo env st f.FileOwner = some space ∧
        (deleteFileRefund env st f).1.spaces =
          tput SpaceInfo.SpaceOwner
            { space with
              RestVol := add64 space.RestVol (mul64 f.FileBlockCount env.DefaultPerBlockSize) }
            st.spaces) := by
  unfold deleteFileRefund
  rw [h]
  dsimp only
  split
  · exact ⟨rfl, rfl, fun hc => by cases hc⟩
  · rename_i space hs
    exact ⟨rfl, rfl, fun _ => ⟨space, hs, rfl⟩⟩

theorem deleteFileRefund_other (env : Env) (st : State) (f : FileInfo) (code : Nat)
    (h : f.StorageType = StorageType.other code) : (deleteFileRefund env st f).2 = false := by
  unfold deleteFileRefund
  rw [h]

/-- Shape of a successful `deleteFile`: the loop and the refund succeeded and
the state is the purge of the state after the refund. -/
theorem deleteFile_ok {env : Env} {st : State} {f : FileInfo}
    (h : (deleteFile env st f).2 = true) :
    (deleteFileLoop env f (getPdpRecordList st f.FileHash f.FileOwner) st).2 = true ∧
    (deleteFileRefund env
      (deleteFileLoop env f (getPdpRecordList st f.FileHash f.FileOwner) st).1 f).2 = true ∧
    (deleteFile env st f).1 =
      deleteFilePurge (deleteFileRefund env
        (deleteFileLoop env f (getPdpRecordList st f.FileHash f.FileOwner) st).1 f).1 f := by
  revert h
  unfold deleteFile
  dsimp only
  repeat' split
  all_goals intro h
  all_goals first
    | (cases h; done)
    | skip
  rename_i h1 h2
  exact ⟨by simpa using h1, by simpa using h2, rfl⟩

theorem getPdpRecordList_delPdpRecordList (st : State) (hash : Hash) (owner : Address) :
    getPdpRecordList (delPdpRecordList st hash owner) hash owner = [] := by
  unfold getPdpRecordList delPdpRecordList
  rw [List.filter_filter, List.filter_eq_nil_iff]
  intro r _
  by_cases h : r.FileHash = hash ∧ r.FileOwner = owner <;> simp [h]

/-- What a successful `deleteFile` has done. -/
theorem deleteFile_reclaims (env : Env) (st : State) (f : FileInfo)
    (h : (deleteFile env st f).2 = true) :
    (∀ r ∈ getPdpRecordList st f.FileHash f.FileOwner, (getNodeInfo st r.NodeAddr).isSome = true) ∧
    (∀ a, getNodeInfo (deleteFile env st f).1 a =
      (getNodeInfo st a).map (fun n =>
        { n with RestVol :=
            (Nat.iterate (fun v => add64 v (mul64 f.FileBlockCount env.DefaultPerBlockSize))
              (unsettledCount (getPdpRecordList st f.FileHash f.FileOwner) a) n.RestVol) })) ∧
    tget fileKey (f.FileOwner, f.FileHash) (deleteFile env st f).1.files = none ∧
    getFileOwner (deleteFile env st f).1 f.FileHash = none ∧
    getPdpRecordList (deleteFile env st f).1 f.FileHash f.FileOwner = [] ∧
    (f.StorageType = StorageType.UseFile →
      (deleteFile env st f).1.calls = st.calls ++ [⟨env.contract, f.FileOwner, f.RestAmount⟩] ∧
      f.RestAmount ≤ balanceOf st env.contract ∧
      (deleteFile env st f).1.spaces = st.spaces) ∧
    (f.StorageType = StorageType.UseSpace →
      (deleteFile env st f).1.calls = st.calls ∧
      (deleteFile env st f).1.balances = st.balances ∧
      ∃ space, getAndUpdateSpaceInfo env st f.FileOwner = some space ∧
        (deleteFile env st f).1.spaces =
          tput SpaceInfo.SpaceOwner
            { space with
              RestVol := add64 space.RestVol (mul64 f.FileBlockCount env.DefaultPerBlockSize) }
            st.spaces) ∧
    (∀ code, f.StorageType ≠ StorageType.other code) := by
  obtain ⟨hl, hr, he⟩ := deleteFile_ok h
  have hlf := deleteFileLoop_frame env f (getPdpRecordList st f.FileHash f.FileOwner) st
  have hrf := deleteFileRefund_frame env
    (deleteFileLoop env f (getPdpRecordList st f.FileHash f.FileOwner) st).1 f
  refine ⟨(deleteFileLoop_ok_iff env f _ st).mp hl, ?_, ?_, ?_, ?_, ?_, ?_, ?_⟩
  · intro a
    rw [← deleteFileLoop_nodes env f _ st hl a, he]
    show tget _ _ (deleteFileRefund env _ f).1.nodes = _
    rw [hrf.2.2.2.2.1]
    rfl
  · rw [he]
    exact tget_tdel_self fileKey _ _
  · rw [he]
    show (tget Prod.fst f.FileHash (tdel Prod.fst f.FileHash _)).map Prod.snd = none
    rw [tget_tdel_self]
    rfl
  · rw [he]
    exact getPdpRecordList_delPdpRecordList _ _ _
  · intro hu
    obtain ⟨hc, hb, hs⟩ := deleteFileRefund_useFile env
      (deleteFileLoop env f (getPdpRecordList st f.FileHash f.FileOwner) st).1 f hu
    rw [he]
    refine ⟨?_, ?_, ?_⟩
    · show (deleteFileRefund env _ f).1.calls = _
      rw [hc, hlf.2.2.2.2.2.2.1]
    · have := hb.mp hr
      unfold balanceOf at this ⊢
      rw [hlf.2.2.2.2.2.1] at this
      exact this
    · show (deleteFileRefund env _ f).1.spaces = _
      rw [hs, hlf.2.1]
  · intro hu
    obtain ⟨hc, hb, hs⟩ := deleteFileRefund_useSpace env
      (deleteFileLoop env f (getPdpRecordList st f.FileHash f.FileOwner) st).1 f hu
    obtain ⟨space, hg, hsp⟩ := hs hr
    rw [he]
    refine ⟨?_, ?_, space, ?_, ?_⟩
    · show (deleteFileRefund env _ f).1.calls = _
      rw [hc, hlf.2.2.2.2.2.2.1]
    · show (deleteFileRefund env _ f).1.balances = _
      rw [hb, hlf.2.2.2.2.2.1]
    · unfold getAndUpdateSpaceInfo at hg ⊢
      rw [hlf.2.1] at hg
      exact hg
    · show (deleteFileRefund env _ f).1.spaces = _
      rw [hsp, hlf.2.1]
  · intro code hcode
    rw [deleteFileRefund_other env _ f code hcode] at hr
    cases hr


/-! ## FsStoreFiles: prior entries -/

/-- C6: an `FsStoreFiles` item that passes the witness, `PdpInterval` and
`TimeExpired` checks and whose (FileOwner, FileHash) has an entry that the
accessor returns with `ValidFlag = true` is rejected with exactly the error
"File has stored!" keyed by its hash; the existing entry, the file-owner
index, the proof records, the nodes, the leases, the balances and the log of
transfer invocations are unchanged. -/
theorem C6_store_valid_prior_rejected (env : Env) (globalParam : FsGlobalParam) (st : State)
    (fileInfo fileExist : FileInfo)
    (hw : env.CheckWitness fileInfo.FileOwner = true)
    (hp : fileInfo.PdpInterval ≠ 0)
    (ht : env.time ≤ fileInfo.TimeExpired)
    (hget : getAndUpdateFileInfo env st fileInfo.FileOwner fileInfo.FileHash = some fileExist)
    (hv : fileExist.ValidFlag = true) :
    (storeFilesItem env globalParam st fileInfo).2 = false ∧
    (storeFilesItem env globalParam st fileInfo).1.errInfos =
      st.errInfos ++ [(fileInfo.FileHash, "[APP SDK] FsStoreFiles File has stored!")] ∧
    (storeFilesItem env globalParam st fileInfo).1.files = st.files ∧
    getAndUpdateFileInfo env (storeFilesItem env globalParam st fileInfo).1
      fileInfo.FileOwner fileInfo.FileHash = some fileExist ∧
    (storeFilesItem env globalParam st fileInfo).1.fileOwners = st.fileOwners ∧
    (storeFilesItem env globalParam st fileInfo).1.pdpRecords = st.pdpRecords ∧
    (storeFilesItem env globalParam st fileInfo).1.nodes = st.nodes ∧
    (storeFilesItem env globalParam st fileInfo).1.spaces = st.spaces ∧
    (storeFilesItem env globalParam st fileInfo).1.balances = st.balances ∧
    (storeFilesItem env globalParam st fileInfo).1.calls = st.calls := by
  have hF : storeFilesItem env globalParam st fileInfo =
      (AddObjectError st fileInfo.FileHash "[APP SDK] FsStoreFiles File has stored!", false) := by
    unfold storeFilesItem
    have h1 : ¬ env.CheckWitness fileInfo.FileOwner = false := by simp [hw]
    have h3 : ¬ fileInfo.TimeExpired < env.time := Nat.not_lt.mpr ht
    have h4 : ¬ fileExist.ValidFlag = false := by simp [hv]
    simp only [if_neg h1, if_neg hp, if_neg h3, hget, if_neg h4]
  rw [hF]
  exact ⟨rfl, rfl, rfl, hget, rfl, rfl, rfl, rfl, rfl, rfl⟩

/-- C6, witness: account 7 stores again the hash of its valid file. -/
theorem C6_store_valid_prior_rejected_witness :
    exEnv.CheckWitness paidFile.FileOwner = true ∧
    paidFile.PdpInterval ≠ 0 ∧
    exEnv.time ≤ paidFile.TimeExpired ∧
    getAndUpdateFileInfo exEnv paidState paidFile.FileOwner paidFile.FileHash = some paidFile ∧
    paidFile.ValidFlag = true ∧
    ((storeFilesItem exEnv ⟨1, 1, 1⟩ paidState paidFile).2 = false ∧
    (storeFilesItem exEnv ⟨1, 1, 1⟩ paidState paidFile).1.errInfos =
      paidState.errInfos ++ [(paidFile.FileHash, "[APP SDK] FsStoreFiles File has stored!")] ∧
    (storeFilesItem exEnv ⟨1, 1, 1⟩ paidState paidFile).1.files = paidState.files ∧
    getAndUpdateFileInfo exEnv (storeFilesItem exEnv ⟨1, 1, 1⟩ paidState paidFile).1
      paidFile.FileOwner paidFile.FileHash = some paidFile ∧
    (storeFilesItem exEnv ⟨1, 1, 1⟩ paidState paidFile).1.fileOwners = paidState.fileOwners ∧
    (storeFilesItem exEnv ⟨1, 1, 1⟩ paidState paidFile).1.pdpRecords = paidState.pdpRecords ∧
    (storeFilesItem exEnv ⟨1, 1, 1⟩ paidState paidFile).1.nodes = paidState.nodes ∧
    (storeFilesItem exEnv ⟨1, 1, 1⟩ paidState paidFile).1.spaces = paidState.spaces ∧
    (storeFilesItem exEnv ⟨1, 1, 1⟩ paidState paidFile).1.balances = paidState.balances ∧
    (storeFilesItem exEnv ⟨1, 1, 1⟩ paidState paidFile).1.calls = paidState.calls) :=
  ⟨rfl, by decide, by decide, rfl, rfl,
    C6_store_valid_prior_rejected exEnv ⟨1, 1, 1⟩ paidState paidFile paidFile rfl (by decide)
      (by decide) rfl rfl⟩

/-- The store step of an item that succeeds has put the new file, valid, with
`FileCost = 0` and `TimeStart = now`, and has set the file-owner index. -/
theorem storeFilesBody_ok (env : Env) (globalParam : FsGlobalParam) (st : State) (fileInfo : FileInfo)
    (h : (storeFilesBody env globalParam st fileInfo).2 = true) :
    getFileOwner (storeFilesBody env globalParam st fileInfo).1 fileInfo.FileHash =
      some fileInfo.FileOwner ∧
    ∃ pdpInterval payAmount restAmount,
      tget fileKey (fileInfo.FileOwner, fileInfo.FileHash)
          (storeFilesBody env globalParam st fileInfo).1.files =
        some { fileInfo with
                FileCost := 0
                ValidFlag := true
                TimeStart := env.time
                PdpInterval := pdpInterval
                PayAmount := payAmount
                RestAmount := restAmount } := by
  revert h
  unfold storeFilesBody
  dsimp only
  repeat' split
  all_goals intro h
  all_goals first
    | (cases h; done)
    | skip
  · rename_i space _ _ _
    refine ⟨?_, space.PdpInterval, fileInfo.PayAmount, fileInfo.RestAmount, ?_⟩
    · show (tget Prod.fst fileInfo.FileHash (tput Prod.fst (fileInfo.FileHash, fileInfo.FileOwner) _)).map
        Prod.snd = _
      rw [tget_tput_self Prod.fst (fileInfo.FileHash, fileInfo.FileOwner)]
      rfl
    · exact tget_tput_self fileKey _ _
  · refine ⟨?_, fileInfo.PdpInterval,
      env.calcTotalFilePayAmountByFile
        { fileInfo with FileCost := 0, ValidFlag := true, TimeStart := env.time }
        globalParam.GasPerKbForSaveWithFile,
      env.calcTotalFilePayAmountByFile
        { fileInfo with FileCost := 0, ValidFlag := true, TimeStart := env.time }
        globalParam.GasPerKbForSaveWithFile, ?_⟩
    · show (tget Prod.fst fileInfo.FileHash (tput Prod.fst (fileInfo.FileHash, fileInfo.FileOwner) _)).map
        Prod.snd = _
      rw [tget_tput_self Prod.fst (fileInfo.FileHash, fileInfo.FileOwner)]
      rfl
    · exact tget_tput_self fileKey _ _

theorem getAndUpdateFileInfo_key {env : Env} {st : State} {owner : Address} {hash : Hash}
    {f : FileInfo}
    (hupd : ∀ f, (env.updateFile f).FileOwner = f.FileOwner ∧ (env.updateFile f).FileHash = f.FileHash)
    (h : getAndUpdateFileInfo env st owner hash = some f) :
    f.FileOwner = owner ∧ f.FileHash = hash := by
  unfold getAndUpdateFileInfo at h
  cases ht : tget fileKey (owner, hash) st.files with
  | none => rw [ht] at h; cases h
  | some f0 =>
    rw [ht] at h
    cases h
    have hk := tget_key fileKey ht
    unfold fileKey at hk
    rw [(hupd f0).1, (hupd f0).2]
    exact ⟨congrArg Prod.fst hk, congrArg Prod.snd hk⟩

/-- C7 (as amended): for an `FsStoreFiles` item that passes the witness,
`PdpInterval` and `TimeExpired` checks and whose (FileOwner, FileHash) has an
entry `fileExist` that the accessor returns with `ValidFlag = false`, the
prior entry is first reclaimed by `deleteFile`.  If `deleteFile` fails the
item fails, in the state `deleteFile` left.  If it succeeds, the node of every
proof record was registered, every node is credited once per unsettled record
naming it, a pay-per-file deposit is refunded by one transfer (a leased volume
is given back to the lease), the old entity, index entry and proof records are
purged, and only then the ordinary store step runs, on that state; the item
succeeds exactly when both succeed, and then the new entry is stored valid
with the index set to its owner. -/
theorem C7_store_invalid_prior_reclaimed (env : Env) (globalParam : FsGlobalParam) (st : State)
    (fileInfo fileExist : FileInfo)
    (hw : env.CheckWitness fileInfo.FileOwner = true)
    (hp : fileInfo.PdpInterval ≠ 0)
    (ht : env.time ≤ fileInfo.TimeExpired)
    (hget : getAndUpdateFileInfo env st fileInfo.FileOwner fileInfo.FileHash = some fileExist)
    (hv : fileExist.ValidFlag = false) :
    ((deleteFile env st fileExist).2 = false →
      storeFilesItem env globalParam st fileInfo = ((deleteFile env st fileExist).1, false)) ∧
    ((deleteFile env st fileExist).2 = true →
      storeFilesItem env globalParam st fileInfo =
        storeFilesBody env globalParam (deleteFile env st fileExist).1 fileInfo ∧
      (∀ r ∈ getPdpRecordList st fileExist.FileHash fileExist.FileOwner,
        (getNodeInfo st r.NodeAddr).isSome = true) ∧
      (∀ a, getNodeInfo (deleteFile env st fileExist).1 a =
        (getNodeInfo st a).map (fun n =>
          { n with RestVol :=
              (Nat.iterate
                (fun v => add64 v (mul64 fileExist.FileBlockCount env.DefaultPerBlockSize))
                (unsettledCount (getPdpRecordList st fileExist.FileHash fileExist.FileOwner) a)
                n.RestVol) })) ∧
      tget fileKey (fileExist.FileOwner, fileExist.FileHash)
        (deleteFile env st fileExist).1.files = none ∧
      getFileOwner (deleteFile env st fileExist).1 fileExist.FileHash = none ∧
      getPdpRecordList (deleteFile env st fileExist).1 fileExist.FileHash fileExist.FileOwner = [] ∧
      (fileExist.StorageType = StorageType.UseFile →
        (deleteFile env st fileExist).1.calls =
          st.calls ++ [⟨env.contract, fileExist.FileOwner, fileExist.RestAmount⟩] ∧
        fileExist.RestAmount ≤ balanceOf st env.contract) ∧
      (fileExist.StorageType = StorageType.UseSpace →
        ∃ space, getAndUpdateSpaceInfo env st fileExist.FileOwner = some space ∧
          (deleteFile env st fileExist).1.spaces =
            tput SpaceInfo.SpaceOwner
              { space with
                RestVol :=
                  add64 space.RestVol (mul64 fileExist.FileBlockCount env.DefaultPerBlockSize) }
              st.spaces)) ∧
    ((storeFilesItem env globalParam st fileInfo).2 = true ↔
      (deleteFile env st fileExist).2 = true ∧
      (storeFilesBody env globalParam (deleteFile env st fileExist).1 fileInfo).2 = true) ∧
    ((storeFilesItem env globalParam st fileInfo).2 = true →
      getFileOwner (storeFilesItem env globalParam st fileInfo).1 fileInfo.FileHash =
        some fileInfo.FileOwner ∧
      ∃ pdpInterval payAmount restAmount,
        tget fileKey (fileInfo.FileOwner, fileInfo.FileHash)
            (storeFilesItem env globalParam st fileInfo).1.files =
          some { fileInfo with
                  FileCost := 0
                  ValidFlag := true
                  TimeStart := env.time
                  PdpInterval := pdpInterval
                  PayAmount := payAmount
                  RestAmount := restAmount }) ∧
    ((∀ f, (env.updateFile f).FileOwner = f.FileOwner ∧ (env.updateFile f).FileHash = f.FileHash) →
      fileExist.FileOwner = fileInfo.FileOwner ∧ fileExist.FileHash = fileInfo.FileHash) := by
  have hF : storeFilesItem env globalParam st fileInfo =
      if (deleteFile env st fileExist).2 = false then ((deleteFile env st fileExist).1, false)
      else storeFilesBody env globalParam (deleteFile env st fileExist).1 fileInfo := by
    unfold storeFilesItem
    have h1 : ¬ env.CheckWitness fileInfo.FileOwner = false := by simp [hw]
    have h3 : ¬ fileInfo.TimeExpired < env.time := Nat.not_lt.mpr ht
    simp only [if_neg h1, if_neg hp, if_neg h3, hget, if_pos hv]
  refine ⟨?_, ?_, ?_, ?_, fun hupd => getAndUpdateFileInfo_key hupd hget⟩
  · intro hd
    rw [hF, if_pos hd]
  · intro hd
    have hd1 : ¬ (deleteFile env st fileExist).2 = false := by simp [hd]
    obtain ⟨r1, r2, r3, r4, r5, r6, r7, _⟩ := deleteFile_reclaims env st fileExist hd
    refine ⟨by rw [hF, if_neg hd1], r1, r2, r3, r4, r5, fun hu => ⟨(r6 hu).1, (r6 hu).2.1⟩, ?_⟩
    intro hu
    obtain ⟨_, _, space, hs1, hs2⟩ := r7 hu
    exact ⟨space, hs1, hs2⟩
  · rw [hF]
    by_cases hd : (deleteFile env st fileExist).2 = false
    · rw [if_pos hd]
      simp [hd]
    · rw [if_neg hd]
      simp [hd]
  · intro hok
    rw [hF] at hok ⊢
    by_cases hd : (deleteFile env st fileExist).2 = false
    · rw [if_pos hd] at hok; cases hok
    · rw [if_neg hd] at hok ⊢
      exact storeFilesBody_ok env globalParam _ fileInfo hok


/-- C7, witness: account 7 stores again the hash of its invalid file. -/
theorem C7_store_invalid_prior_reclaimed_witness :
    exEnv.CheckWitness paidFile.FileOwner = true ∧
    paidFile.PdpInterval ≠ 0 ∧
    exEnv.time ≤ paidFile.TimeExpired ∧
    getAndUpdateFileInfo exEnv staleState paidFile.FileOwner paidFile.FileHash =
      some { paidFile with ValidFlag := false } ∧
    (((deleteFile exEnv staleState { paidFile with ValidFlag := false }).2 = false →
      storeFilesItem exEnv ⟨1, 1, 1⟩ staleState paidFile = ((deleteFile exEnv staleState { paidFile with ValidFlag := false }).1, false)) ∧
    ((deleteFile exEnv staleState { paidFile with ValidFlag := false }).2 = true →
      storeFilesItem exEnv ⟨1, 1, 1⟩ staleState paidFile =
        storeFilesBody exEnv ⟨1, 1, 1⟩ (deleteFile exEnv staleState { paidFile with ValidFlag := false }).1 paidFile ∧
      (∀ r ∈ getPdpRecordList staleState paidFile.FileHash paidFile.FileOwner,
        (getNodeInfo staleState r.NodeAddr).isSome = true) ∧
      (∀ a, getNodeInfo (deleteFile exEnv staleState { paidFile with ValidFlag := false }).1 a =
        (getNodeInfo staleState a).map (fun n =>
          { n with RestVol :=
              (Nat.iterate
                (fun v => add64 v (mul64 paidFile.FileBlockCount exEnv.DefaultPerBlockSize))
                (unsettledCount (getPdpRecordList staleState paidFile.FileHash paidFile.FileOwner) a)
                n.RestVol) })) ∧
      tget fileKey (paidFile.FileOwner, paidFile.FileHash)
        (deleteFile exEnv staleState { paidFile with ValidFlag := false }).1.files = none ∧
      getFileOwner (deleteFile exEnv staleState { paidFile with ValidFlag := false }).1 paidFile.FileHash = none ∧
      getPdpRecordList (deleteFile exEnv staleState { paidFile with ValidFlag := false }).1 paidFile.FileHash paidFile.FileOwner = [] ∧
      (paidFile.StorageType = StorageType.UseFile →
        (deleteFile exEnv staleState { paidFile with ValidFlag := false }).1.calls =
          staleState.calls ++ [⟨exEnv.contract, paidFile.FileOwner, paidFile.RestAmount⟩] ∧
        paidFile.RestAmount ≤ balanceOf staleState exEnv.contract) ∧
      (paidFile.StorageType = StorageType.UseSpace →
        ∃ space, getAndUpdateSpaceInfo exEnv staleState paidFile.FileOwner = some space ∧
          (deleteFile exEnv staleState { paidFile with ValidFlag := false }).1.spaces =
            tput SpaceInfo.SpaceOwner
              { space with
                RestVol :=
                  add64 space.RestVol (mul64 paidFile.FileBlockCount exEnv.DefaultPerBlockSize) }
              staleState.spaces)) ∧
    ((storeFilesItem exEnv ⟨1, 1, 1⟩ staleState paidFile).2 = true ↔
      (deleteFile exEnv staleState { paidFile with ValidFlag := false }).2 = true ∧
      (storeFilesBody exEnv ⟨1, 1, 1⟩ (deleteFile exEnv staleState { paidFile with ValidFlag := false }).1 paidFile).2 = true) ∧
    ((storeFilesItem exEnv ⟨1, 1, 1⟩ staleState paidFile).2 = true →
      getFileOwner (storeFilesItem exEnv ⟨1, 1, 1⟩ staleState paidFile).1 paidFile.FileHash =
        some paidFile.FileOwner ∧
      ∃ pdpInterval payAmount restAmount,
        tget fileKey (paidFile.FileOwner, paidFile.FileHash)
            (storeFilesItem exEnv ⟨1, 1, 1⟩ staleState paidFile).1.files =
          some { paidFile with
                  FileCost := 0
                  ValidFlag := true
                  TimeStart := exEnv.time
                  PdpInterval := pdpInterval
                  PayAmount := payAmount
                  RestAmount := restAmount }) ∧
    ((∀ f, (exEnv.updateFile f).FileOwner = f.FileOwner ∧ (exEnv.updateFile f).FileHash = f.FileHash) →
      paidFile.FileOwner = paidFile.FileOwner ∧ paidFile.FileHash = paidFile.FileHash)) :=
  ⟨rfl, by decide, by decide, rfl,
    C7_store_invalid_prior_reclaimed exEnv ⟨1, 1, 1⟩ staleState paidFile { paidFile with ValidFlag := false } rfl
      (by decide) (by decide) rfl rfl⟩

/-- C7, counterexample to the claim as stated: in `staleState` the entry of
account 7 for the hash `[1]` is invalid; the item `exUseSpaceFile` (same owner
and hash, charged to a lease) passes the three checks, the prior entry is
reclaimed, but the owner has no lease, so the item fails with one error, and
the prior entry is gone. -/
theorem C7_counterexample :
    (getAndUpdateFileInfo exEnv staleState exUseSpaceFile.FileOwner exUseSpaceFile.FileHash).map
      FileInfo.ValidFlag = some false ∧
    exEnv.CheckWitness exUseSpaceFile.FileOwner = true ∧
    exUseSpaceFile.PdpInterval ≠ 0 ∧
    exEnv.time ≤ exUseSpaceFile.TimeExpired ∧
    (storeFilesItem exEnv ⟨1, 1, 1⟩ staleState exUseSpaceFile).2 = false ∧
    (storeFilesItem exEnv ⟨1, 1, 1⟩ staleState exUseSpaceFile).1.errInfos =
      [([1], "[APP SDK] FsStoreFiles getAndUpdateSpaceInfo error!")] ∧
    (storeFilesItem exEnv ⟨1, 1, 1⟩ staleState exUseSpaceFile).1.files = [] := by
  decide

/-- C8, the code at the failing input: in `paidState` the hash `[1]` has a
valid stored file, indexed under account 7; account 8 stores the same hash.
The item is accepted without error, the file-owner index of the hash now names
account 8, and the valid file of account 7 is still stored. -/
theorem C8_store_same_hash_other_owner :
    getFileOwner paidState [1] = some 7 ∧
    (getFileInfoByHash exEnv paidState [1]).map FileInfo.ValidFlag = some true ∧
    (storeFilesItem exEnv ⟨1, 1, 1⟩ paidState { paidFile with FileOwner := 8 }).2 = true ∧
    (storeFilesItem exEnv ⟨1, 1, 1⟩ paidState { paidFile with FileOwner := 8 }).1.errInfos = [] ∧
    getFileOwner (storeFilesItem exEnv ⟨1, 1, 1⟩ paidState { paidFile with FileOwner := 8 }).1 [1]
      = some 8 ∧
    getAndUpdateFileInfo exEnv
      (storeFilesItem exEnv ⟨1, 1, 1⟩ paidState { paidFile with FileOwner := 8 }).1 7 [1]
      = some paidFile := by
  decide

/-! ## FsStoreFiles: files charged to a lease -/

/-- C9 (as amended): the store step of an `FsStoreFiles` item with
`StorageType = UseSpace` succeeds exactly when the lease of the owner exists,
is valid and has `RestVol > (FileBlockCount * blockSize) mod 2 ^ 64`; on
success the stored lease is the one returned by the accessor with `RestVol`
lowered by exactly `(FileBlockCount * blockSize) mod 2 ^ 64` and nothing else
changed, the other leases are untouched, the stored file carries the
`PdpInterval` of the lease, and no transfer is invoked; the reduction modulo
`2 ^ 64` is the identity whenever the exact product fits 64 bits.  The store
step is what an item runs once it has passed the witness, `PdpInterval` and
`TimeExpired` checks and no prior entry is found. -/
theorem C9_store_useSpace (env : Env) (globalParam : FsGlobalParam) (st : State)
    (fileInfo : FileInfo) (hu : fileInfo.StorageType = StorageType.UseSpace) :
    ((storeFilesBody env globalParam st fileInfo).2 = true ↔
      ∃ space, getAndUpdateSpaceInfo env st fileInfo.FileOwner = some space ∧
        space.ValidFlag = true ∧
        (fileInfo.FileBlockCount * env.DefaultPerBlockSize) % W64 < space.RestVol) ∧
    (∀ space, getAndUpdateSpaceInfo env st fileInfo.FileOwner = some space →
      space.RestVol < W64 →
      (storeFilesBody env globalParam st fileInfo).2 = true →
      tget SpaceInfo.SpaceOwner space.SpaceOwner
          (storeFilesBody env globalParam st fileInfo).1.spaces =
        some { space with
                RestVol :=
                  space.RestVol - (fileInfo.FileBlockCount * env.DefaultPerBlockSize) % W64 } ∧
      (∀ o, o ≠ space.SpaceOwner →
        tget SpaceInfo.SpaceOwner o (storeFilesBody env globalParam st fileInfo).1.spaces =
          tget SpaceInfo.SpaceOwner o st.spaces) ∧
      tget fileKey (fileInfo.FileOwner, fileInfo.FileHash)
          (storeFilesBody env globalParam st fileInfo).1.files =
        some { fileInfo with
                FileCost := 0
                ValidFlag := true
                TimeStart := env.time
                PdpInterval := space.PdpInterval } ∧
      (storeFilesBody env globalParam st fileInfo).1.calls = st.calls ∧
      (storeFilesBody env globalParam st fileInfo).1.balances = st.balances) ∧
    (fileInfo.FileBlockCount * env.DefaultPerBlockSize < W64 →
      (fileInfo.FileBlockCount * env.DefaultPerBlockSize) % W64 =
        fileInfo.FileBlockCount * env.DefaultPerBlockSize) ∧
    (env.CheckWitness fileInfo.FileOwner = true → fileInfo.PdpInterval ≠ 0 →
      env.time ≤ fileInfo.TimeExpired →
      getAndUpdateFileInfo env st fileInfo.FileOwner fileInfo.FileHash = none →
      storeFilesItem env globalParam st fileInfo = storeFilesBody env globalParam st fileInfo) := by
  have hitem : env.CheckWitness fileInfo.FileOwner = true → fileInfo.PdpInterval ≠ 0 →
      env.time ≤ fileInfo.TimeExpired →
      getAndUpdateFileInfo env st fileInfo.FileOwner fileInfo.FileHash = none →
      storeFilesItem env globalParam st fileInfo =
        storeFilesBody env globalParam st fileInfo := by
    intro hw hp ht hnone
    have h1 : ¬ env.CheckWitness fileInfo.FileOwner = false := by simp [hw]
    have h3 : ¬ fileInfo.TimeExpired < env.time := Nat.not_lt.mpr ht
    unfold storeFilesItem
    simp only [if_neg h1, if_neg hp, if_neg h3, hnone]
  have hF : storeFilesBody env globalParam st fileInfo =
      match getAndUpdateSpaceInfo env st fileInfo.FileOwner with
      | none =>
        (AddObjectError st fileInfo.FileHash "[APP SDK] FsStoreFiles getAndUpdateSpaceInfo error!",
          false)
      | some space =>
        if space.ValidFlag = false then
          (AddObjectError st fileInfo.FileHash "[APP SDK] FsStoreFiles space timeExpired!", false)
        else if space.RestVol ≤ mul64 fileInfo.FileBlockCount env.DefaultPerBlockSize then
          (AddObjectError st fileInfo.FileHash "[APP SDK] FsStoreFiles RestVol is not enough error!",
            false)
        else
          (setFileOwner
            (addFileInfo
              (addSpaceInfo st
                { space with
                  RestVol :=
                    sub64 space.RestVol (mul64 fileInfo.FileBlockCount env.DefaultPerBlockSize) })
              { fileInfo with
                FileCost := 0
                ValidFlag := true
                TimeStart := env.time
                PdpInterval := space.PdpInterval })
            fileInfo.FileHash fileInfo.FileOwner, true) := by
    unfold storeFilesBody
    simp only [hu]
  refine ⟨?_, ?_, fun h => Nat.mod_eq_of_lt h, hitem⟩ <;> rw [hF]
  · cases hs : getAndUpdateSpaceInfo env st fileInfo.FileOwner with
    | none => simp
    | some space =>
      dsimp only
      by_cases h1 : space.ValidFlag = false
      · simp [h1]
      · by_cases h2 : space.RestVol ≤ mul64 fileInfo.FileBlockCount env.DefaultPerBlockSize
        · rw [if_neg h1, if_pos h2]
          have : ¬ (fileInfo.FileBlockCount * env.DefaultPerBlockSize) % W64 < space.RestVol :=
            Nat.not_lt.mpr h2
          simp [this]
        · rw [if_neg h1, if_neg h2]
          have : (fileInfo.FileBlockCount * env.DefaultPerBlockSize) % W64 < space.RestVol :=
            Nat.lt_of_not_le h2
          simp at h1
          simp [this, h1]
  · intro space hs hlt
    rw [hs]
    dsimp only
    by_cases h1 : space.ValidFlag = false
    · rw [if_pos h1]; intro h; cases h
    rw [if_neg h1]
    by_cases h2 : space.RestVol ≤ mul64 fileInfo.FileBlockCount env.DefaultPerBlockSize
    · rw [if_pos h2]; intro h; cases h
    rw [if_neg h2]
    intro _
    have hsub : sub64 space.RestVol (mul64 fileInfo.FileBlockCount env.DefaultPerBlockSize) =
        space.RestVol - (fileInfo.FileBlockCount * env.DefaultPerBlockSize) % W64 :=
      sub64_exact (Nat.le_of_lt (Nat.lt_of_not_le h2)) hlt
    rw [hsub]
    refine ⟨?_, ?_, ?_, rfl, rfl⟩
    · exact tget_tput_self SpaceInfo.SpaceOwner
        { space with
          RestVol := space.RestVol - (fileInfo.FileBlockCount * env.DefaultPerBlockSize) % W64 } _
    · intro o ho
      exact tget_tput_of_ne SpaceInfo.SpaceOwner
        (a := { space with
          RestVol := space.RestVol - (fileInfo.FileBlockCount * env.DefaultPerBlockSize) % W64 })
        ho _
    · exact tget_tput_self fileKey
        { fileInfo with
          FileCost := 0
          ValidFlag := true
          TimeStart := env.time
          PdpInterval := space.PdpInterval } _


/-- C9, witness: a one-block file is charged to the lease of the worked
example. -/
theorem C9_store_useSpace_witness :
    exUseSpaceFile.StorageType = StorageType.UseSpace ∧
    (((storeFilesBody exEnv ⟨1, 1, 1⟩ exLeaseState exUseSpaceFile).2 = true ↔
      ∃ space, getAndUpdateSpaceInfo exEnv exLeaseState exUseSpaceFile.FileOwner = some space ∧
        space.ValidFlag = true ∧
        (exUseSpaceFile.FileBlockCount * exEnv.DefaultPerBlockSize) % W64 < space.RestVol) ∧
    (∀ space, getAndUpdateSpaceInfo exEnv exLeaseState exUseSpaceFile.FileOwner = some space →
      space.RestVol < W64 →
      (storeFilesBody exEnv ⟨1, 1, 1⟩ exLeaseState exUseSpaceFile).2 = true →
      tget SpaceInfo.SpaceOwner space.SpaceOwner
          (storeFilesBody exEnv ⟨1, 1, 1⟩ exLeaseState exUseSpaceFile).1.spaces =
        some { space with
                RestVol :=
                  space.RestVol - (exUseSpaceFile.FileBlockCount * exEnv.DefaultPerBlockSize) % W64 } ∧
      (∀ o, o ≠ space.SpaceOwner →
        tget SpaceInfo.SpaceOwner o (storeFilesBody exEnv ⟨1, 1, 1⟩ exLeaseState exUseSpaceFile).1.spaces =
          tget SpaceInfo.SpaceOwner o exLeaseState.spaces) ∧
      tget fileKey (exUseSpaceFile.FileOwner, exUseSpaceFile.FileHash)
          (storeFilesBody exEnv ⟨1, 1, 1⟩ exLeaseState exUseSpaceFile).1.files =
        some { exUseSpaceFile with
                FileCost := 0
                ValidFlag := true
                TimeStart := exEnv.time
                PdpInterval := space.PdpInterval } ∧
      (storeFilesBody exEnv ⟨1, 1, 1⟩ exLeaseState exUseSpaceFile).1.calls = exLeaseState.calls ∧
      (storeFilesBody exEnv ⟨1, 1, 1⟩ exLeaseState exUseSpaceFile).1.balances = exLeaseState.balances) ∧
    (exUseSpaceFile.FileBlockCount * exEnv.DefaultPerBlockSize < W64 →
      (exUseSpaceFile.FileBlockCount * exEnv.DefaultPerBlockSize) % W64 =
        exUseSpaceFile.FileBlockCount * exEnv.DefaultPerBlockSize) ∧
    (exEnv.CheckWitness exUseSpaceFile.FileOwner = true → exUseSpaceFile.PdpInterval ≠ 0 →
      exEnv.time ≤ exUseSpaceFile.TimeExpired →
      getAndUpdateFileInfo exEnv exLeaseState exUseSpaceFile.FileOwner exUseSpaceFile.FileHash =
        none →
      storeFilesItem exEnv ⟨1, 1, 1⟩ exLeaseState exUseSpaceFile =
        storeFilesBody exEnv ⟨1, 1, 1⟩ exLeaseState exUseSpaceFile)) :=
  ⟨rfl, C9_store_useSpace exEnv ⟨1, 1, 1⟩ exLeaseState exUseSpaceFile rfl⟩

/-- C9, counterexample to the claim as stated: with blocks of 256 the file
`hugeFile` of `2 ^ 56` blocks has the exact volume `2 ^ 64`, far above the
`RestVol = 1000` of the lease; the product wraps to 0, the item is accepted
and `RestVol` stays 1000. -/
theorem C9_counterexample :
    hugeFile.StorageType = StorageType.UseSpace ∧
    (getAndUpdateSpaceInfo exEnv exLeaseState hugeFile.FileOwner).map
      (fun s => (s.ValidFlag, s.RestVol)) = some (true, 1000) ∧
    hugeFile.FileBlockCount * exEnv.DefaultPerBlockSize = 2 ^ 64 ∧
    ¬ (1000 > hugeFile.FileBlockCount * exEnv.DefaultPerBlockSize) ∧
    (storeFilesBody exEnv ⟨1, 1, 1⟩ exLeaseState hugeFile).2 = true ∧
    (getAndUpdateSpaceInfo exEnv (storeFilesBody exEnv ⟨1, 1, 1⟩ exLeaseState hugeFile).1
      hugeFile.FileOwner).map SpaceInfo.RestVol = some 1000 := by
  decide

theorem mul64_pred_W64 (b : Nat) (h1 : 1 ≤ b) (h2 : b < W64) : mul64 (W64 - 1) b = W64 - b := by
  unfold mul64
  have hW := W64_pos
  have e : (W64 - 1) * b = (W64 - b) + W64 * (b - 1) := by
    obtain ⟨c, rfl⟩ : ∃ c, b = c + 1 := ⟨b - 1, by omega⟩
    obtain ⟨d, hd⟩ : ∃ d, W64 = c + 1 + d := ⟨W64 - (c + 1), by omega⟩
    rw [hd]
    have e1 : c + 1 + d - 1 = c + d := by omega
    have e2 : c + 1 + d - (c + 1) = d := by omega
    have e3 : c + 1 - 1 = c := by omega
    rw [e1, e2, e3]
    ring
  rw [e, Nat.add_mul_mod_self_left]
  exact Nat.mod_eq_of_lt (by omega)

/-- Whatever the block size, from 2 up to the 64-bit range: a file of
`2 ^ 64 - 1` blocks is accepted on a valid lease with `RestVol = 2 ^ 64 - 1`,
although its exact volume exceeds `RestVol`. -/
theorem storeFilesBody_wraps (b : Nat) (h1 : 2 ≤ b) (h2 : b < W64) :
    (storeFilesBody { exEnv with DefaultPerBlockSize := b } ⟨1, 1, 1⟩
      { exState with spaces := [⟨7, W64 - 1, W64 - 1, 1, 0, 0, 1, 0, 10, true⟩] }
      { exUseSpaceFile with FileBlockCount := W64 - 1 }).2 = true ∧
    W64 - 1 < (W64 - 1) * b := by
  constructor
  · have hm := mul64_pred_W64 b (by omega) h2
    have hlt : ¬ W64 - 1 ≤ mul64 (W64 - 1) b := by rw [hm]; omega
    simp [storeFilesBody, exUseSpaceFile, getAndUpdateSpaceInfo, exState, exEnv, tget, hlt]
  · have hW : 2 ≤ W64 := by unfold W64; norm_num
    calc W64 - 1 < (W64 - 1) * 2 := by omega
      _ ≤ (W64 - 1) * b := Nat.mul_le_mul_left _ h1

/-! ## Batch calls: return value and recorded errors -/

theorem ErrStep_error (st : State) (h : Hash) (msg : String) :
    ErrStep st (AddObjectError st h msg) false h := by
  simp [ErrStep, AddObjectError]

theorem ErrStep_of_errInfos {st st1 : State} (h : Hash) (e : st1.errInfos = st.errInfos) :
    ErrStep st st1 true h := by
  simp [ErrStep, e]

theorem ErrStep_trans {st st1 st2 : State} {ok : Bool} {h : Hash}
    (h1 : ErrStep st st1 true h) (h2 : ErrStep st1 st2 ok h) : ErrStep st st2 ok h := by
  unfold ErrStep at *
  rw [h2, h1]
  simp

theorem appCallTransfer_errInfos (st : State) (a b : Address) (n : Nat) :
    (appCallTransfer st a b n).1.errInfos = st.errInfos :=
  (appCallTransfer_frame st a b n).2.2.2.2.2.2.1

theorem deleteFileLoop_err (env : Env) (f : FileInfo) (l : List PdpRecord) (st : State) :
    ErrStep st (deleteFileLoop env f l st).1 (deleteFileLoop env f l st).2 f.FileHash := by
  induction l generalizing st with
  | nil => exact ErrStep_of_errInfos _ rfl
  | cons r rest ih =>
    unfold deleteFileLoop
    cases hn : getNodeInfo st r.NodeAddr with
    | none => exact ErrStep_error _ _ _
    | some n =>
      dsimp only
      split
      · exact ErrStep_trans (ErrStep_of_errInfos _ rfl) (ih _)
      · exact ih _

theorem deleteFileRefund_err (env : Env) (st : State) (f : FileInfo) :
    ErrStep st (deleteFileRefund env st f).1 (deleteFileRefund env st f).2 f.FileHash := by
  unfold deleteFileRefund
  dsimp only
  repeat' split
  all_goals first
    | exact ErrStep_error _ _ _
    | exact ErrStep_trans (ErrStep_of_errInfos _ (appCallTransfer_errInfos _ _ _ _))
        (ErrStep_error _ _ _)
    | exact ErrStep_of_errInfos _ (appCallTransfer_errInfos _ _ _ _)
    | exact ErrStep_of_errInfos _ rfl

theorem deleteFile_err (env : Env) (st : State) (f : FileInfo) :
    ErrStep st (deleteFile env st f).1 (deleteFile env st f).2 f.FileHash := by
  have h1 := deleteFileLoop_err env f (getPdpRecordList st f.FileHash f.FileOwner) st
  have h2 := deleteFileRefund_err env
    (deleteFileLoop env f (getPdpRecordList st f.FileHash f.FileOwner) st).1 f
  unfold deleteFile
  dsimp only
  split
  · rename_i hb
    rw [hb] at h1
    exact h1
  · rename_i hb
    have hb1 : (deleteFileLoop env f (getPdpRecordList st f.FileHash f.FileOwner) st).2 = true := by
      simpa using hb
    rw [hb1] at h1
    split
    · rename_i hc
      rw [hc] at h2
      exact ErrStep_trans h1 h2
    · rename_i hc
      have hc1 : (deleteFileRefund env
          (deleteFileLoop env f (getPdpRecordList st f.FileHash f.FileOwner) st).1 f).2 = true := by
        simpa using hc
      rw [hc1] at h2
      exact ErrStep_trans h1 (ErrStep_trans h2 (ErrStep_of_errInfos _ rfl))

theorem storeFilesBody_err (env : Env) (globalParam : FsGlobalParam) (st : State) (f : FileInfo) :
    ErrStep st (storeFilesBody env globalParam st f).1 (storeFilesBody env globalParam st f).2
      f.FileHash := by
  unfold storeFilesBody
  dsimp only
  repeat' split
  all_goals first
    | exact ErrStep_error _ _ _
    | exact ErrStep_trans (ErrStep_of_errInfos _ (appCallTransfer_errInfos _ _ _ _))
        (ErrStep_error _ _ _)
    | exact ErrStep_of_errInfos _ (appCallTransfer_errInfos _ _ _ _)
    | exact ErrStep_of_errInfos _ rfl

theorem getAndUpdateFileInfo_hash {env : Env} {st : State} {owner : Address} {hash : Hash}
    {f : FileInfo} (hupd : ∀ f, (env.updateFile f).FileHash = f.FileHash)
    (h : getAndUpdateFileInfo env st owner hash = some f) : f.FileHash = hash := by
  unfold getAndUpdateFileInfo at h
  cases ht : tget fileKey (owner, hash) st.files with
  | none => rw [ht] at h; cases h
  | some f0 =>
    rw [ht] at h
    cases h
    have hk := tget_key fileKey ht
    unfold fileKey at hk
    rw [hupd f0]
    exact congrArg Prod.snd hk

theorem storeFilesItem_err (env : Env) (globalParam : FsGlobalParam)
    (hupd : ∀ f, (env.updateFile f).FileHash = f.FileHash) (st : State) (f : FileInfo) :
    ErrStep st (storeFilesItem env globalParam st f).1 (storeFilesItem env globalParam st f).2
      f.FileHash := by
  unfold storeFilesItem
  dsimp only
  repeat' split
  all_goals first
    | exact ErrStep_error _ _ _
    | exact storeFilesBody_err _ _ _ _
    | skip
  · rename_i fe hg _ hd
    have hh := getAndUpdateFileInfo_hash hupd hg
    have := deleteFile_err env st fe
    rw [hd, hh] at this
    exact this
  · rename_i fe hg _ hd
    have hh := getAndUpdateFileInfo_hash hupd hg
    have hd1 : (deleteFile env st fe).2 = true := by simpa using hd
    have := deleteFile_err env st fe
    rw [hd1, hh] at this
    exact ErrStep_trans this (storeFilesBody_err _ _ _ _)

theorem renewFilesItem_err (env : Env) (globalParam : FsGlobalParam) (st : State) (r : FileReNew) :
    ErrStep st (renewFilesItem env globalParam st r).1 (renewFilesItem env globalParam st r).2
      r.FileHash := by
  unfold renewFilesItem
  dsimp only
  repeat' split
  all_goals first
    | exact ErrStep_error _ _ _
    | exact ErrStep_trans (ErrStep_of_errInfos _ (appCallTransfer_errInfos _ _ _ _))
        (ErrStep_error _ _ _)
    | exact ErrStep_of_errInfos _ (appCallTransfer_errInfos _ _ _ _)

theorem getFileInfoByHash_hash {env : Env} {st : State} {hash : Hash}
    {f : FileInfo} (hupd : ∀ f, (env.updateFile f).FileHash = f.FileHash)
    (h : getFileInfoByHash env st hash = some f) : f.FileHash = hash := by
  unfold getFileInfoByHash at h
  split at h
  · cases h
  · exact getAndUpdateFileInfo_hash hupd h

theorem deleteFilesItem_err (env : Env)
    (hupd : ∀ f, (env.updateFile f).FileHash = f.FileHash) (st : State) (d : FileDel) :
    ErrStep st (deleteFilesItem env st d).1 (deleteFilesItem env st d).2 d.FileHash := by
  unfold deleteFilesItem
  repeat' split
  all_goals first
    | exact ErrStep_error _ _ _
    | skip
  rename_i fe hg _
  have hh := getFileInfoByHash_hash hupd hg
  have := deleteFile_err env st fe
  rw [hh] at this
  exact this

theorem transferPdpLoop_errInfos (newOwner : Address) (l : List PdpRecord) (st : State) :
    (transferPdpLoop newOwner l st).errInfos = st.errInfos := by
  induction l generalizing st with
  | nil => rfl
  | cons r rest ih =>
    unfold transferPdpLoop
    dsimp only
    rw [ih]
    rfl

theorem transferFilesItem_err (env : Env) (st : State) (t : FileTransfer) :
    ErrStep st (transferFilesItem env st t).1 (transferFilesItem env st t).2 t.FileHash := by
  unfold transferFilesItem
  dsimp only
  repeat' split
  all_goals first
    | exact ErrStep_error _ _ _
    | skip
  apply ErrStep_of_errInfos
  show (transferPdpLoop _ _ _).errInfos = _
  rw [transferPdpLoop_errInfos]
  rfl

/-- A batch whose step records one error, keyed by the hash of the item, for
each item that fails and none otherwise, ends with the errors of the failing
items, in order, after those it started with. -/
theorem runBatch_err {α : Type} (step : State → α → State × Bool) (hash : α → Hash)
    (hstep : ∀ st item, ErrStep st (step st item).1 (step st item).2 (hash item))
    (items : List α) (st : State) :
    (runBatch step items st).2.length = items.length ∧
    (runBatch step items st).1.errInfos.map Prod.fst =
      st.errInfos.map Prod.fst ++ failedHashes (items.map hash) (runBatch step items st).2 := by
  induction items generalizing st with
  | nil => simp [runBatch, failedHashes]
  | cons item rest ih =>
    unfold runBatch
    dsimp only
    obtain ⟨h1, h2⟩ := ih (step st item).1
    refine ⟨by simp [h1], ?_⟩
    rw [h2, hstep st item]
    by_cases hb : (step st item).2 = true
    · simp [failedHashes, hb]
    · simp [failedHashes, hb]

/-- C10: for every input that decodes (and, for store and renew, with global
parameters available), `FsStoreFiles`, `FsRenewFiles`, `FsDeleteFiles` and
`FsTransferFiles` return `BYTE_TRUE` with no error whatever the items do; the
keys of the recorded errors are exactly the hashes of the failing items, one
entry per failing item, in order, and that list of errors is the last emitted
event.  (The lazy recomputation is assumed to keep the hash of a file.) -/
theorem C10_batch_returns_success (env : Env) (st : State)
    (hupd : ∀ f, (env.updateFile f).FileHash = f.FileHash) :
    (∀ (globalParam : FsGlobalParam) (items : List FileInfo),
      getGlobalParam st = some globalParam →
      (FsStoreFiles env st (.ok items)).1 = Ret.BYTE_TRUE ∧
      (runBatch (storeFilesItem env globalParam) items { st with errInfos := [] }).2.length =
        items.length ∧
      (FsStoreFiles env st (.ok items)).2.errInfos.map Prod.fst =
        failedHashes (items.map FileInfo.FileHash)
          (runBatch (storeFilesItem env globalParam) items { st with errInfos := [] }).2 ∧
      (FsStoreFiles env st (.ok items)).2.events.getLast? =
        some (FsStoreFiles env st (.ok items)).2.errInfos) ∧
    (∀ (globalParam : FsGlobalParam) (items : List FileReNew),
      getGlobalParam st = some globalParam →
      (FsRenewFiles env st (.ok items)).1 = Ret.BYTE_TRUE ∧
      (runBatch (renewFilesItem env globalParam) items { st with errInfos := [] }).2.length =
        items.length ∧
      (FsRenewFiles env st (.ok items)).2.errInfos.map Prod.fst =
        failedHashes (items.map FileReNew.FileHash)
          (runBatch (renewFilesItem env globalParam) items { st with errInfos := [] }).2 ∧
      (FsRenewFiles env st (.ok items)).2.events.getLast? =
        some (FsRenewFiles env st (.ok items)).2.errInfos) ∧
    (∀ items : List FileDel,
      (FsDeleteFiles env st (.ok items)).1 = Ret.BYTE_TRUE ∧
      (runBatch (deleteFilesItem env) items { st with errInfos := [] }).2.length = items.length ∧
      (FsDeleteFiles env st (.ok items)).2.errInfos.map Prod.fst =
        failedHashes (items.map FileDel.FileHash)
          (runBatch (deleteFilesItem env) items { st with errInfos := [] }).2 ∧
      (FsDeleteFiles env st (.ok items)).2.events.getLast? =
        some (FsDeleteFiles env st (.ok items)).2.errInfos) ∧
    (∀ items : List FileTransfer,
      (FsTransferFiles env st (.ok items)).1 = Ret.BYTE_TRUE ∧
      (runBatch (transferFilesItem env) items { st with errInfos := [] }).2.length =
        items.length ∧
      (FsTransferFiles env st (.ok items)).2.errInfos.map Prod.fst =
        failedHashes (items.map FileTransfer.FileHash)
          (runBatch (transferFilesItem env) items { st with errInfos := [] }).2 ∧
      (FsTransferFiles env st (.ok items)).2.events.getLast? =
        some (FsTransferFiles env st (.ok items)).2.errInfos) := by
  refine ⟨?_, ?_, ?_, ?_⟩
  · intro globalParam items hg
    obtain ⟨h1, h2⟩ := runBatch_err (storeFilesItem env globalParam) FileInfo.FileHash
      (storeFilesItem_err env globalParam hupd) items { st with errInfos := [] }
    unfold FsStoreFiles
    simp only [hg]
    refine ⟨trivial, h1, ?_, ?_⟩
    · simpa [AddErrorsEvent] using h2
    · simp [AddErrorsEvent]
  · intro globalParam items hg
    obtain ⟨h1, h2⟩ := runBatch_err (renewFilesItem env globalParam) FileReNew.FileHash
      (renewFilesItem_err env globalParam) items { st with errInfos := [] }
    unfold FsRenewFiles
    simp only [hg]
    refine ⟨trivial, h1, ?_, ?_⟩
    · simpa [AddErrorsEvent] using h2
    · simp [AddErrorsEvent]
  · intro items
    obtain ⟨h1, h2⟩ := runBatch_err (deleteFilesItem env) FileDel.FileHash
      (deleteFilesItem_err env hupd) items { st with errInfos := [] }
    unfold FsDeleteFiles
    refine ⟨rfl, h1, ?_, ?_⟩
    · simpa [AddErrorsEvent] using h2
    · simp [AddErrorsEvent]
  · intro items
    obtain ⟨h1, h2⟩ := runBatch_err (transferFilesItem env) FileTransfer.FileHash
      (transferFilesItem_err env) items { st with errInfos := [] }
    unfold FsTransferFiles
    refine ⟨rfl, h1, ?_, ?_⟩
    · simpa [AddErrorsEvent] using h2
    · simp [AddErrorsEvent]

/-- C10, witness: a batch of two items on `paidState`: account 7 stores again
the hash `[1]` of its valid file (rejected) and then a new hash `[2]`
(accepted); the call returns `BYTE_TRUE` and records one error, keyed by
`[1]`. -/
theorem C10_batch_returns_success_witness :
    (∀ f, (exEnv.updateFile f).FileHash = f.FileHash) ∧
    getGlobalParam paidState = some ⟨1, 1, 1⟩ ∧
    (FsStoreFiles exEnv paidState (.ok [paidFile, { paidFile with FileHash := [2] }])).1 = Ret.BYTE_TRUE ∧
    (runBatch (storeFilesItem exEnv ⟨1, 1, 1⟩) [paidFile, { paidFile with FileHash := [2] }]
      { paidState with errInfos := [] }).2.length = [paidFile, { paidFile with FileHash := [2] }].length ∧
    (FsStoreFiles exEnv paidState (.ok [paidFile, { paidFile with FileHash := [2] }])).2.errInfos.map Prod.fst =
      failedHashes ([paidFile, { paidFile with FileHash := [2] }].map FileInfo.FileHash)
        (runBatch (storeFilesItem exEnv ⟨1, 1, 1⟩) [paidFile, { paidFile with FileHash := [2] }]
          { paidState with errInfos := [] }).2 ∧
    (FsStoreFiles exEnv paidState (.ok [paidFile, { paidFile with FileHash := [2] }])).2.events.getLast? =
      some (FsStoreFiles exEnv paidState (.ok [paidFile, { paidFile with FileHash := [2] }])).2.errInfos ∧
    (runBatch (storeFilesItem exEnv ⟨1, 1, 1⟩) [paidFile, { paidFile with FileHash := [2] }]
      { paidState with errInfos := [] }).2 = [false, true] ∧
    (FsStoreFiles exEnv paidState (.ok [paidFile, { paidFile with FileHash := [2] }])).2.errInfos.map Prod.fst = [[1]] :=
  have h := (C10_batch_returns_success exEnv paidState (fun _ => rfl)).1 ⟨1, 1, 1⟩
    [paidFile, { paidFile with FileHash := [2] }] rfl
  ⟨fun _ => rfl, rfl, h.1, h.2.1, h.2.2.1, h.2.2.2, by decide, by decide⟩

/-! ## Call-level atomicity of the lease and pledge handlers -/

theorem stored_eq_iff (st st1 : State) :
    stored st1 = stored st ↔
      st1.globalParam = st.globalParam ∧ st1.spaces = st.spaces ∧ st1.files = st.files ∧
      st1.fileOwners = st.fileOwners ∧ st1.pdpRecords = st.pdpRecords ∧ st1.nodes = st.nodes ∧
      st1.readPledges = st.readPledges ∧ st1.balances = st.balances := by
  unfold stored
  simp only [Prod.mk.injEq]

theorem appCallTransfer_readPledges (st : State) (a b : Address) (n : Nat) :
    (appCallTransfer st a b n).1.readPledges = st.readPledges := by
  unfold appCallTransfer assetTransfer
  dsimp only
  split <;> rename_i h
  · rfl
  · split at h
    · cases h
    · cases h; rfl

/-- A failed transfer changes nothing stored. -/
theorem appCallTransfer_fail_stored {st : State} {a b : Address} {n : Nat}
    (h : (appCallTransfer st a b n).2 = false) :
    stored (appCallTransfer st a b n).1 = stored st := by
  have hf := appCallTransfer_frame st a b n
  rw [stored_eq_iff]
  exact ⟨hf.1, hf.2.1, hf.2.2.1, hf.2.2.2.1, hf.2.2.2.2.1, hf.2.2.2.2.2.1,
    appCallTransfer_readPledges st a b n, appCallTransfer_fail_balances h⟩

theorem Untouched_of_stored {env : Env} {st st1 : State} (h : stored st1 = stored st) :
    Untouched env st st1 := by
  have h2 := (stored_eq_iff st st1).1 h
  refine ⟨h, fun owner => getAndUpdateSpaceInfo_congr h2.2.1 owner, fun downloader hash => ?_⟩
  unfold getReadPledge
  rw [h2.2.2.2.2.2.2.1]

theorem FsCreateSpace_error_stored (env : Env) (st : State) (input : Input SpaceInfo)
    (h : (FsCreateSpace env st input).1 ≠ Ret.BYTE_TRUE) :
    stored (FsCreateSpace env st input).2 = stored st := by
  revert h
  unfold FsCreateSpace
  dsimp only
  repeat' split
  all_goals intro h
  all_goals first
    | rfl
    | exact appCallTransfer_fail_stored (by assumption)
    | exact absurd rfl h

theorem FsUpdateSpace_error_stored (env : Env) (st : State) (input : Input SpaceUpdate)
    (h : (FsUpdateSpace env st input).1 ≠ Ret.BYTE_TRUE) :
    stored (FsUpdateSpace env st input).2 = stored st := by
  revert h
  unfold FsUpdateSpace
  dsimp only
  repeat' split
  all_goals intro h
  all_goals first
    | rfl
    | exact appCallTransfer_fail_stored (by assumption)
    | exact absurd rfl h

theorem FsDeleteSpace_error_stored (env : Env) (st : State) (input : Option Address)
    (h : (FsDeleteSpace env st input).1 ≠ Ret.BYTE_TRUE) :
    stored (FsDeleteSpace env st input).2 = stored st := by
  revert h
  unfold FsDeleteSpace
  dsimp only
  repeat' split
  all_goals intro h
  all_goals first
    | rfl
    | exact appCallTransfer_fail_stored (by assumption)
    | exact absurd rfl h

theorem FsReadFilePledge_error_stored (env : Env) (st : State) (input : Input ReadPledge)
    (h : (FsReadFilePledge env st input).1 ≠ Ret.BYTE_TRUE) :
    stored (FsReadFilePledge env st input).2 = stored st := by
  revert h
  unfold FsReadFilePledge
  dsimp only
  repeat' split
  all_goals intro h
  all_goals first
    | rfl
    | exact appCallTransfer_fail_stored (by assumption)
    | exact absurd rfl h

theorem FsCancelFileRead_error_stored (env : Env) (st : State) (input : Option GetReadPledge)
    (h : (FsCancelFileRead env st input).1 ≠ Ret.BYTE_TRUE) :
    stored (FsCancelFileRead env st input).2 = stored st := by
  revert h
  unfold FsCancelFileRead
  dsimp only
  repeat' split
  all_goals intro h
  all_goals first
    | rfl
    | exact appCallTransfer_fail_stored (by assumption)
    | exact absurd rfl h

/-- C20 (call-level atomicity): whenever `FsCreateSpace`, `FsUpdateSpace`,
`FsDeleteSpace`, `FsReadFilePledge` or `FsCancelFileRead` does not return
`BYTE_TRUE` (a failed asset transfer included), no table and no balance has
changed, so every lease and every pledge read afterwards is the one read at
the start of the call. -/
theorem C20_error_writes_nothing (env : Env) (st : State) :
    (∀ input, (FsCreateSpace env st input).1 ≠ Ret.BYTE_TRUE →
        Untouched env st (FsCreateSpace env st input).2) ∧
    (∀ input, (FsUpdateSpace env st input).1 ≠ Ret.BYTE_TRUE →
        Untouched env st (FsUpdateSpace env st input).2) ∧
    (∀ input, (FsDeleteSpace env st input).1 ≠ Ret.BYTE_TRUE →
        Untouched env st (FsDeleteSpace env st input).2) ∧
    (∀ input, (FsReadFilePledge env st input).1 ≠ Ret.BYTE_TRUE →
        Untouched env st (FsReadFilePledge env st input).2) ∧
    (∀ input, (FsCancelFileRead env st input).1 ≠ Ret.BYTE_TRUE →
        Untouched env st (FsCancelFileRead env st input).2) :=
  ⟨fun input h => Untouched_of_stored (FsCreateSpace_error_stored env st input h),
    fun input h => Untouched_of_stored (FsUpdateSpace_error_stored env st input h),
    fun input h => Untouched_of_stored (FsDeleteSpace_error_stored env st input h),
    fun input h => Untouched_of_stored (FsReadFilePledge_error_stored env st input h),
    fun input h => Untouched_of_stored (FsCancelFileRead_error_stored env st input h)⟩

/-- The lease request of the worked example by an account that holds 10: the
transfer of 6000 fails after the handler has filled in its copy of the lease,
the call fails and nothing is stored. -/
theorem C20_error_writes_nothing_witness :
    (FsCreateSpace exEnv poorState (.ok exSpace)).1 ≠ Ret.BYTE_TRUE ∧
      (FsCreateSpace exEnv poorState (.ok exSpace)).2.calls = [⟨7, 100, 6000⟩] ∧
      Untouched exEnv poorState (FsCreateSpace exEnv poorState (.ok exSpace)).2 :=
  ⟨by decide, by decide,
    (C20_error_writes_nothing exEnv poorState).1 (.ok exSpace) (by decide)⟩

/-! ## FsCancelFileRead: the time lock -/

theorem balanceOf_put {st st1 : State} {a : Address} {v : Nat}
    (h : st1.balances = tput Prod.fst (a, v) st.balances) :
    balanceOf st1 a = v ∧ ∀ c, c ≠ a → balanceOf st1 c = balanceOf st c := by
  unfold balanceOf
  rw [h]
  refine ⟨?_, fun c hc => ?_⟩
  · have h1 := tget_tput_self Prod.fst (a, v) st.balances
    dsimp only at h1
    rw [h1]
    rfl
  · have h2 := tget_tput_of_ne Prod.fst (k := c) (a := (a, v)) hc st.balances
    rw [h2]

theorem appCallTransfer_ok_balances {st : State} {a b : Address} {n : Nat}
    (h : (appCallTransfer st a b n).2 = true) :
    ∃ mid : State, mid.balances = tput Prod.fst (a, balanceOf st a - n) st.balances ∧
      (appCallTransfer st a b n).1.balances =
        tput Prod.fst (b, balanceOf mid b + n) mid.balances := by
  rw [appCallTransfer_snd] at h
  have hle : n ≤ balanceOf st a := of_decide_eq_true h
  have hnot : ¬ balanceOf { st with calls := st.calls ++ [⟨a, b, n⟩] } a < n := by
    have : balanceOf { st with calls := st.calls ++ [⟨a, b, n⟩] } a = balanceOf st a := rfl
    omega
  unfold appCallTransfer assetTransfer
  dsimp only
  rw [if_neg hnot]
  exact ⟨_, rfl, rfl⟩

/-- A transfer that succeeds moves exactly the amount: the sender holds the
amount less, the receiver the amount more, every other account the same. -/
theorem appCallTransfer_balanceOf {st : State} {a b : Address} {n : Nat}
    (h : (appCallTransfer st a b n).2 = true) (hab : a ≠ b) :
    balanceOf (appCallTransfer st a b n).1 a = balanceOf st a - n ∧
    balanceOf (appCallTransfer st a b n).1 b = balanceOf st b + n ∧
    ∀ c, c ≠ a → c ≠ b → balanceOf (appCallTransfer st a b n).1 c = balanceOf st c := by
  obtain ⟨mid, h1, h2⟩ := appCallTransfer_ok_balances h
  have hm := balanceOf_put h1
  have hr := balanceOf_put h2
  refine ⟨?_, ?_, fun c hca hcb => ?_⟩
  · rw [hr.2 a hab, hm.1]
  · rw [hr.1, hm.2 b (Ne.symm hab)]
  · rw [hr.2 c hcb, hm.2 c hca]

theorem getReadPledge_congr {st st1 : State} (h : st1.readPledges = st.readPledges)
    (d : Address) (hash : Hash) : getReadPledge st1 d hash = getReadPledge st d hash := by
  unfold getReadPledge
  rw [h]

theorem getReadPledge_delReadPledge (st : State) (d : Address) (hash : Hash) :
    getReadPledge (delReadPledge st d hash) d hash = none := by
  unfold getReadPledge delReadPledge
  exact tget_tdel_self pledgeKey (d, hash) st.readPledges

theorem getReadPledge_key {st : State} {d : Address} {hash : Hash} {p : ReadPledge}
    (h : getReadPledge st d hash = some p) : p.Downloader = d ∧ p.FileHash = hash := by
  have := tget_key pledgeKey h
  unfold pledgeKey at this
  exact ⟨congrArg Prod.fst this, congrArg Prod.snd this⟩

/-- C19 (cancel time-lock), as the code has it: for a stored pledge, while the
height is below `ExpireHeight` the call `FsCancelFileRead` fails and returns
the state it was given (no transfer, pledge stored), whatever `RestMoney` is.
From `ExpireHeight` on, with the witness of the pledge's `Downloader`: when
`RestMoney = 0` the pledge is deleted and no transfer is invoked; when
`RestMoney > 0` exactly one transfer of `RestMoney` from the contract to the
`Downloader` is invoked, and if the contract holds that much the call
succeeds, the pledge is deleted and the `Downloader` holds exactly `RestMoney`
more, while otherwise the call fails, no balance changes and the pledge stays
stored. -/
theorem C19_cancel_timelock (env : Env) (st : State) (getPledge : GetReadPledge)
    (readPledge : ReadPledge)
    (hp : getReadPledge st getPledge.Downloader getPledge.FileHash = some readPledge) :
    (env.height < readPledge.ExpireHeight →
      (∃ err, (FsCancelFileRead env st (some getPledge)).1 = Ret.BYTE_FALSE err) ∧
      (FsCancelFileRead env st (some getPledge)).2 = st) ∧
    (env.height ≥ readPledge.ExpireHeight → env.CheckWitness readPledge.Downloader = true →
      (readPledge.RestMoney = 0 →
        (FsCancelFileRead env st (some getPledge)).1 = Ret.BYTE_TRUE ∧
        (FsCancelFileRead env st (some getPledge)).2.calls = st.calls ∧
        (FsCancelFileRead env st (some getPledge)).2.balances = st.balances ∧
        getReadPledge (FsCancelFileRead env st (some getPledge)).2 getPledge.Downloader
          getPledge.FileHash = none) ∧
      (0 < readPledge.RestMoney →
        (FsCancelFileRead env st (some getPledge)).2.calls =
          st.calls ++ [⟨env.contract, readPledge.Downloader, readPledge.RestMoney⟩] ∧
        (readPledge.RestMoney ≤ balanceOf st env.contract →
          (FsCancelFileRead env st (some getPledge)).1 = Ret.BYTE_TRUE ∧
          getReadPledge (FsCancelFileRead env st (some getPledge)).2 getPledge.Downloader
            getPledge.FileHash = none ∧
          (readPledge.Downloader ≠ env.contract →
            balanceOf (FsCancelFileRead env st (some getPledge)).2 readPledge.Downloader =
              balanceOf st readPledge.Downloader + readPledge.RestMoney ∧
            balanceOf (FsCancelFileRead env st (some getPledge)).2 env.contract =
              balanceOf st env.contract - readPledge.RestMoney)) ∧
        (balanceOf st env.contract < readPledge.RestMoney →
          (∃ err, (FsCancelFileRead env st (some getPledge)).1 = Ret.BYTE_FALSE err) ∧
          (FsCancelFileRead env st (some getPledge)).2.balances = st.balances ∧
          getReadPledge (FsCancelFileRead env st (some getPledge)).2 getPledge.Downloader
            getPledge.FileHash = some readPledge))) := by
  unfold FsCancelFileRead
  simp only [hp]
  refine ⟨fun hlt => ?_, fun hge hw => ⟨fun h0 => ?_, fun hpos => ?_⟩⟩
  · by_cases hw : env.CheckWitness readPledge.Downloader = false
    · rw [if_pos hw]
      exact ⟨⟨_, rfl⟩, rfl⟩
    · rw [if_neg hw, if_pos hlt]
      exact ⟨⟨_, rfl⟩, rfl⟩
  · rw [if_neg (by simp [hw]), if_neg (by omega), if_neg (by omega)]
    exact ⟨rfl, rfl, rfl, getReadPledge_delReadPledge st _ _⟩
  · rw [if_neg (by simp [hw]), if_neg (by omega), if_pos hpos]
    have hsnd := appCallTransfer_snd st env.contract readPledge.Downloader readPledge.RestMoney
    refine ⟨?_, fun hle => ?_, fun hlt => ?_⟩
    · split
      · exact appCallTransfer_calls _ _ _ _
      · exact appCallTransfer_calls _ _ _ _
    · have htrue : (appCallTransfer st env.contract readPledge.Downloader
          readPledge.RestMoney).2 = true := by
        rw [hsnd]; exact decide_eq_true hle
      rw [if_neg (by simp [htrue])]
      refine ⟨rfl, getReadPledge_delReadPledge _ _ _, fun hne => ?_⟩
      have hb := appCallTransfer_balanceOf htrue (Ne.symm hne)
      exact ⟨hb.2.1, hb.1⟩
    · have hfalse : (appCallTransfer st env.contract readPledge.Downloader
          readPledge.RestMoney).2 = false := by
        rw [hsnd]; exact decide_eq_false (by omega)
      rw [if_pos hfalse]
      refine ⟨⟨_, rfl⟩, appCallTransfer_fail_balances hfalse, ?_⟩
      rw [getReadPledge_congr (appCallTransfer_readPledges _ _ _ _), hp]

/-- At height 50 account 8 cancels its pledge, which was locked up to height
40: the 1024 left in escrow are refunded and the pledge is deleted. -/
theorem C19_cancel_timelock_witness :
    getReadPledge pledgedState 8 [1] = some exPledge ∧
    lateEnv.height ≥ exPledge.ExpireHeight ∧ lateEnv.CheckWitness exPledge.Downloader = true ∧
    0 < exPledge.RestMoney ∧ exPledge.RestMoney ≤ balanceOf pledgedState lateEnv.contract ∧
    (FsCancelFileRead lateEnv pledgedState (some ⟨[1], 8⟩)).2.calls = [⟨100, 8, 1024⟩] ∧
    (FsCancelFileRead lateEnv pledgedState (some ⟨[1], 8⟩)).1 = Ret.BYTE_TRUE ∧
    getReadPledge (FsCancelFileRead lateEnv pledgedState (some ⟨[1], 8⟩)).2 8 [1] = none :=
  have h := ((C19_cancel_timelock lateEnv pledgedState ⟨[1], 8⟩ exPledge (by decide)).2
    (by decide) (by decide)).2 (by decide)
  ⟨by decide, by decide, by decide, by decide, by decide, h.1, (h.2.1 (by decide)).1,
    (h.2.1 (by decide)).2.1⟩

/-- C19, counterexample: at height 50 the pledge of account 8, locked up to
height 40, holds 1024 while the contract account holds 100: the refund
transfer fails, so the call fails, nothing is refunded and the pledge stays
stored. -/
theorem C19_counterexample :
    lateEnv.height ≥ exPledge.ExpireHeight ∧ lateEnv.CheckWitness exPledge.Downloader = true ∧
    getReadPledge drainedState 8 [1] = some exPledge ∧
    (FsCancelFileRead lateEnv drainedState (some ⟨[1], 8⟩)).1 =
      Ret.BYTE_FALSE "[APP SDK] FsCancelFileRead AppCallTransfer, transfer error!" ∧
    getReadPledge (FsCancelFileRead lateEnv drainedState (some ⟨[1], 8⟩)).2 8 [1] =
      some exPledge ∧
    balanceOf (FsCancelFileRead lateEnv drainedState (some ⟨[1], 8⟩)).2 8 = 8976 := by
  decide

/-! ## FsReadFilePledge: the merge with a prior pledge -/

theorem mergedWith_nil (p : ReadPlan) : mergedWith [] p = p := rfl

theorem mergedWith_cons_same {o : ReadPlan} (rest : List ReadPlan) {p : ReadPlan}
    (h : p.NodeAddr = o.NodeAddr) :
    mergedWith (o :: rest) p =
      { p with
        MaxReadBlockNum := add64 p.MaxReadBlockNum o.MaxReadBlockNum
        HaveReadBlockNum := o.HaveReadBlockNum } := by
  unfold mergedWith
  rw [List.find?_cons_of_pos _ (by simp [h])]

theorem mergedWith_cons_other {o : ReadPlan} (rest : List ReadPlan) {p : ReadPlan}
    (h : p.NodeAddr ≠ o.NodeAddr) : mergedWith (o :: rest) p = mergedWith rest p := by
  unfold mergedWith
  rw [List.find?_cons_of_neg _ (by simpa using Ne.symm h)]

theorem mergedWith_absent {rest : List ReadPlan} {p : ReadPlan}
    (h : p.NodeAddr ∉ rest.map ReadPlan.NodeAddr) : mergedWith rest p = p := by
  induction rest with
  | nil => rfl
  | cons o rest ih =>
    simp only [List.map_cons, List.mem_cons, not_or] at h
    rw [mergedWith_cons_other rest h.1]
    exact ih h.2

theorem mergedWith_node (ori : List ReadPlan) (p : ReadPlan) :
    (mergedWith ori p).NodeAddr = p.NodeAddr := by
  unfold mergedWith
  split <;> rfl

theorem mergePlan_map_mergedWith {o : ReadPlan} {rest : List ReadPlan}
    (ho : o.NodeAddr ∉ rest.map ReadPlan.NodeAddr) (plans : List ReadPlan) :
    (mergePlan o plans).map (mergedWith rest) = plans.map (mergedWith (o :: rest)) := by
  unfold mergePlan
  rw [List.map_map]
  apply List.map_congr_left
  intro p _
  dsimp only [Function.comp]
  by_cases h : p.NodeAddr = o.NodeAddr
  · rw [if_pos h, mergedWith_cons_same rest h]
    apply mergedWith_absent
    dsimp only
    rw [h]
    exact ho
  · rw [if_neg h, mergedWith_cons_other rest h]

theorem mergePlan_any (o : ReadPlan) (plans : List ReadPlan) (a : Address) :
    (mergePlan o plans).any (fun readPlan => decide (readPlan.NodeAddr = a)) =
      plans.any (fun readPlan => decide (readPlan.NodeAddr = a)) := by
  unfold mergePlan
  rw [List.any_map]
  congr 1
  funext p
  dsimp only [Function.comp]
  split <;> rfl

theorem carriedForward_mergePlan (rest : List ReadPlan) (o : ReadPlan) (plans : List ReadPlan) :
    carriedForward rest (mergePlan o plans) = carriedForward rest plans := by
  unfold carriedForward
  congr 1
  funext r
  rw [mergePlan_any]

theorem carriedForward_append_absent {rest : List ReadPlan} {o : ReadPlan}
    (ho : o.NodeAddr ∉ rest.map ReadPlan.NodeAddr) (plans : List ReadPlan) :
    carriedForward rest (plans ++ [o]) = carriedForward rest plans := by
  unfold carriedForward
  apply List.filter_congr
  intro r hr
  have hne : o.NodeAddr ≠ r.NodeAddr := by
    intro h
    exact ho (h ▸ List.mem_map_of_mem _ hr)
  simp [hne]

/-- Closed form of the merge loops of `FsReadFilePledge` when the prior plans
name pairwise distinct nodes. -/
theorem mergePlans_eq (ori : List ReadPlan) (hd : DistinctNodes ori) (plans : List ReadPlan) :
    mergePlans ori plans = plans.map (mergedWith ori) ++ carriedForward ori plans := by
  induction ori generalizing plans with
  | nil =>
    unfold mergePlans carriedForward
    have hid : plans.map (mergedWith []) = plans := by
      conv_rhs => rw [← List.map_id plans]
      exact List.map_congr_left (fun p _ => mergedWith_nil p)
    rw [hid, List.filter_nil, List.append_nil]
  | cons o rest ih =>
    unfold DistinctNodes at hd
    rw [List.map_cons, List.nodup_cons] at hd
    unfold mergePlans
    dsimp only
    by_cases hf : plans.any (fun readPlan => decide (readPlan.NodeAddr = o.NodeAddr)) = true
    · rw [if_pos hf, ih hd.2, mergePlan_map_mergedWith hd.1, carriedForward_mergePlan]
      congr 1
      unfold carriedForward
      rw [List.filter_cons_of_neg (by simp [hf])]
    · rw [if_neg hf, ih hd.2, List.map_append, mergePlan_map_mergedWith hd.1,
        carriedForward_append_absent hd.1, carriedForward_mergePlan, List.append_assoc]
      congr 1
      unfold carriedForward
      rw [List.filter_cons_of_pos (by simp [hf])]
      rw [List.map_cons, List.map_nil, mergedWith_absent hd.1]
      rfl

theorem foldl_add64 (l : List ReadPlan) (a : Nat) (ha : a < W64) :
    l.foldl (fun total readPlan => add64 total readPlan.MaxReadBlockNum) a =
      (a + (l.map ReadPlan.MaxReadBlockNum).sum) % W64 := by
  induction l generalizing a with
  | nil => simp [Nat.mod_eq_of_lt ha]
  | cons p rest ih =>
    rw [List.foldl_cons, ih _ (add64_lt _ _), List.map_cons, List.sum_cons]
    unfold add64
    rw [Nat.add_mod, Nat.mod_mod, ← Nat.add_mod, Nat.add_assoc]

/-- The quota total of the request is the exact sum reduced modulo `2 ^ 64`. -/
theorem totalAddMaxBlockNumToRead_mod (plans : List ReadPlan) :
    totalAddMaxBlockNumToRead plans = (plans.map ReadPlan.MaxReadBlockNum).sum % W64 := by
  unfold totalAddMaxBlockNumToRead
  rw [foldl_add64 plans 0 W64_pos, Nat.zero_add]

/-- The fee of a pledge is the exact product reduced modulo `2 ^ 64`. -/
theorem newPledgeFee_mod (env : Env) (globalParam : FsGlobalParam) (readPledge : ReadPledge) :
    newPledgeFee env globalParam readPledge =
      ((readPledge.ReadPlans.map ReadPlan.MaxReadBlockNum).sum * env.DefaultPerBlockSize *
        globalParam.GasPerKbForRead) % W64 := by
  unfold newPledgeFee
  rw [totalAddMaxBlockNumToRead_mod, mul64_mod_left]
  have h : mul64 ((readPledge.ReadPlans.map ReadPlan.MaxReadBlockNum).sum)
      env.DefaultPerBlockSize =
      ((readPledge.ReadPlans.map ReadPlan.MaxReadBlockNum).sum * env.DefaultPerBlockSize) % W64 :=
    rfl
  rw [h, mul64_mod_left]
  rfl

theorem newPledgeFee_lt (env : Env) (globalParam : FsGlobalParam) (readPledge : ReadPledge) :
    newPledgeFee env globalParam readPledge < W64 := mul64_lt _ _

/-- Shape of a successful `FsReadFilePledge`. -/
theorem FsReadFilePledge_ok {env : Env} {st : State} {readPledge : ReadPledge}
    (h : (FsReadFilePledge env st (.ok readPledge)).1 = Ret.BYTE_TRUE) :
    ∃ globalParam fileInfo,
      getGlobalParam st = some globalParam ∧
      getFileInfoByHash env st readPledge.FileHash = some fileInfo ∧
      fileInfo.ValidFlag = true ∧
      env.CheckWitness readPledge.Downloader = true ∧
      (appCallTransfer st readPledge.Downloader env.contract
        (newPledgeFee env globalParam readPledge)).2 = true ∧
      (FsReadFilePledge env st (.ok readPledge)).2 =
        addReadPledge
          (appCallTransfer st readPledge.Downloader env.contract
            (newPledgeFee env globalParam readPledge)).1
          (pledgeToStore env globalParam st fileInfo readPledge) := by
  revert h
  unfold FsReadFilePledge
  dsimp only
  repeat' split
  all_goals intro h
  all_goals first
    | (cases h; done)
    | skip
  rename_i _ _ hg _ _ hf hv hw ht
  exact ⟨_, _, hg, hf, by simpa using hv, by simpa using hw, by simpa using ht, rfl⟩

theorem pledgeToStore_key (env : Env) (globalParam : FsGlobalParam) (st : State)
    (fileInfo : FileInfo) (readPledge : ReadPledge) :
    pledgeKey (pledgeToStore env globalParam st fileInfo readPledge) =
      (readPledge.Downloader, readPledge.FileHash) := by
  unfold pledgeToStore pledgeKey
  dsimp only
  split <;> rfl

theorem getReadPledge_addReadPledge (st : State) (p : ReadPledge) :
    getReadPledge (addReadPledge st p) p.Downloader p.FileHash = some p := by
  unfold getReadPledge addReadPledge
  exact tget_tput_self pledgeKey p st.readPledges

/-- What a successful `FsReadFilePledge` leaves: one transfer of the fee from
the downloader to the contract, and the pledge `pledgeToStore` under
(Downloader, FileHash). -/
theorem FsReadFilePledge_stores {env : Env} {st : State} {readPledge : ReadPledge}
    (h : (FsReadFilePledge env st (.ok readPledge)).1 = Ret.BYTE_TRUE) :
    ∃ globalParam fileInfo,
      getGlobalParam st = some globalParam ∧
      getFileInfoByHash env st readPledge.FileHash = some fileInfo ∧
      newPledgeFee env globalParam readPledge ≤ balanceOf st readPledge.Downloader ∧
      (FsReadFilePledge env st (.ok readPledge)).2.calls =
        st.calls ++ [⟨readPledge.Downloader, env.contract,
          newPledgeFee env globalParam readPledge⟩] ∧
      getReadPledge (FsReadFilePledge env st (.ok readPledge)).2 readPledge.Downloader
        readPledge.FileHash = some (pledgeToStore env globalParam st fileInfo readPledge) := by
  obtain ⟨globalParam, fileInfo, hg, hf, _, _, ht, hst⟩ := FsReadFilePledge_ok h
  refine ⟨globalParam, fileInfo, hg, hf, ?_, ?_, ?_⟩
  · rw [appCallTransfer_snd] at ht
    exact of_decide_eq_true ht
  · rw [hst]
    exact appCallTransfer_calls _ _ _ _
  · rw [hst]
    have hk := pledgeToStore_key env globalParam st fileInfo readPledge
    have := getReadPledge_addReadPledge
      (appCallTransfer st readPledge.Downloader env.contract
        (newPledgeFee env globalParam readPledge)).1
      (pledgeToStore env globalParam st fileInfo readPledge)
    unfold pledgeKey at hk
    rw [(Prod.mk.inj hk).1, (Prod.mk.inj hk).2] at this
    exact this

theorem pledgeToStore_expire (env : Env) (globalParam : FsGlobalParam) (st : State)
    (fileInfo : FileInfo) (readPledge : ReadPledge) :
    (pledgeToStore env globalParam st fileInfo readPledge).ExpireHeight =
      add64 (add64 env.height fileInfo.FileBlockCount) 30 := by
  unfold pledgeToStore
  dsimp only

theorem pledgeToStore_none {env : Env} {globalParam : FsGlobalParam} {st : State}
    {fileInfo : FileInfo} {readPledge : ReadPledge}
    (h : getReadPledge st readPledge.Downloader readPledge.FileHash = none) :
    pledgeToStore env globalParam st fileInfo readPledge =
      { readPledge with
        ReadPlans := resetPlans readPledge.ReadPlans
        RestMoney := newPledgeFee env globalParam readPledge
        BlockHeight := env.height
        ExpireHeight := add64 (add64 env.height fileInfo.FileBlockCount) 30 } := by
  unfold pledgeToStore
  simp only [h]
  have : add64 0 (newPledgeFee env globalParam readPledge) =
      newPledgeFee env globalParam readPledge := by
    unfold add64
    rw [Nat.zero_add]
    exact Nat.mod_eq_of_lt (newPledgeFee_lt _ _ _)
  rw [this]

theorem pledgeToStore_some {env : Env} {globalParam : FsGlobalParam} {st : State}
    {fileInfo : FileInfo} {readPledge oriPledge : ReadPledge}
    (h : getReadPledge st readPledge.Downloader readPledge.FileHash = some oriPledge) :
    pledgeToStore env globalParam st fileInfo readPledge =
      { readPledge with
        ReadPlans := mergePlans oriPledge.ReadPlans (resetPlans readPledge.ReadPlans)
        RestMoney := add64 oriPledge.RestMoney (newPledgeFee env globalParam readPledge)
        BlockHeight :=
          (if env.height ≥ oriPledge.ExpireHeight then env.height else oriPledge.BlockHeight)
        ExpireHeight := add64 (add64 env.height fileInfo.FileBlockCount) 30 } := by
  unfold pledgeToStore
  simp only [h]

theorem find_of_distinct {ori : List ReadPlan} (hd : DistinctNodes ori) {o : ReadPlan}
    (ho : o ∈ ori) {a : Address} (ha : o.NodeAddr = a) :
    ori.find? (fun r => decide (r.NodeAddr = a)) = some o := by
  induction ori with
  | nil => cases ho
  | cons r rest ih =>
    unfold DistinctNodes at hd
    rw [List.map_cons, List.nodup_cons] at hd
    rcases List.mem_cons.1 ho with rfl | hmem
    · rw [List.find?_cons_of_pos _ (by simp [ha])]
    · have hne : r.NodeAddr ≠ a := by
        intro h
        apply hd.1
        rw [h, ← ha]
        exact List.mem_map_of_mem _ hmem
      rw [List.find?_cons_of_neg _ (by simpa using hne)]
      exact ih hd.2 hmem

theorem mergedWith_of_mem {ori : List ReadPlan} (hd : DistinctNodes ori) {o : ReadPlan}
    (ho : o ∈ ori) {p : ReadPlan} (hp : o.NodeAddr = p.NodeAddr) :
    mergedWith ori p =
      { p with
        MaxReadBlockNum := add64 p.MaxReadBlockNum o.MaxReadBlockNum
        HaveReadBlockNum := o.HaveReadBlockNum } := by
  unfold mergedWith
  rw [find_of_distinct hd ho hp]

theorem carriedForward_resetPlans (ori plans : List ReadPlan) :
    carriedForward ori (resetPlans plans) = carriedForward ori plans := by
  unfold carriedForward resetPlans
  congr 1
  funext r
  rw [List.any_map]
  rfl

theorem mem_carriedForward {ori plans : List ReadPlan} {o : ReadPlan} :
    o ∈ carriedForward ori plans ↔ o ∈ ori ∧ ∀ p ∈ plans, p.NodeAddr ≠ o.NodeAddr := by
  unfold carriedForward
  simp [List.mem_filter]

/-- C17 (read-pledge merge), as the code has it: for a successful
`FsReadFilePledge` of a downloader who has a stored pledge for the file whose
plans name pairwise distinct nodes, the persisted plans are the plans of the
request, each merged with the prior plan of its node, followed by the prior
plans of the nodes the request does not name, unchanged.  For a request plan
with quota `m2` and the prior plan `(m1, h1)` of the same node the persisted
plan has `MaxReadBlockNum = (m2 + m1) mod 2 ^ 64` and `HaveReadBlockNum = h1`,
and no other persisted plan names that node; exactly one transfer is invoked,
from the downloader to the contract, of
`(sum of the request quotas * blockSize * readPrice) mod 2 ^ 64`; `RestMoney`
is the prior `RestMoney` plus that fee, modulo `2 ^ 64`. -/
theorem C17_pledge_merge (env : Env) (st : State) (readPledge oriPledge : ReadPledge)
    (hprior : getReadPledge st readPledge.Downloader readPledge.FileHash = some oriPledge)
    (hd : DistinctNodes oriPledge.ReadPlans)
    (hok : (FsReadFilePledge env st (.ok readPledge)).1 = Ret.BYTE_TRUE) :
    ∃ globalParam pledge,
      getGlobalParam st = some globalParam ∧
      getReadPledge (FsReadFilePledge env st (.ok readPledge)).2 readPledge.Downloader
        readPledge.FileHash = some pledge ∧
      pledge.ReadPlans =
        (resetPlans readPledge.ReadPlans).map (mergedWith oriPledge.ReadPlans) ++
          carriedForward oriPledge.ReadPlans readPledge.ReadPlans ∧
      (∀ plan ∈ readPledge.ReadPlans, ∀ o ∈ oriPledge.ReadPlans, o.NodeAddr = plan.NodeAddr →
        (⟨plan.NodeAddr, (plan.MaxReadBlockNum + o.MaxReadBlockNum) % W64,
          o.HaveReadBlockNum⟩ : ReadPlan) ∈ pledge.ReadPlans) ∧
      (∀ q ∈ pledge.ReadPlans, ∀ o ∈ oriPledge.ReadPlans, q.NodeAddr = o.NodeAddr →
        q = o ∨ ∃ plan ∈ readPledge.ReadPlans, plan.NodeAddr = o.NodeAddr ∧
          q = ⟨plan.NodeAddr, (plan.MaxReadBlockNum + o.MaxReadBlockNum) % W64,
            o.HaveReadBlockNum⟩) ∧
      (∀ o ∈ oriPledge.ReadPlans, (∀ plan ∈ readPledge.ReadPlans, plan.NodeAddr ≠ o.NodeAddr) →
        o ∈ pledge.ReadPlans) ∧
      (FsReadFilePledge env st (.ok readPledge)).2.calls =
        st.calls ++ [⟨readPledge.Downloader, env.contract,
          ((readPledge.ReadPlans.map ReadPlan.MaxReadBlockNum).sum * env.DefaultPerBlockSize *
            globalParam.GasPerKbForRead) % W64⟩] ∧
      pledge.RestMoney =
        (oriPledge.RestMoney +
          ((readPledge.ReadPlans.map ReadPlan.MaxReadBlockNum).sum * env.DefaultPerBlockSize *
            globalParam.GasPerKbForRead) % W64) % W64 := by
  obtain ⟨globalParam, fileInfo, hg, _, _, hcalls, hget⟩ := FsReadFilePledge_stores hok
  rw [pledgeToStore_some hprior] at hget
  rw [newPledgeFee_mod] at hcalls hget
  have hplans : mergePlans oriPledge.ReadPlans (resetPlans readPledge.ReadPlans) =
      (resetPlans readPledge.ReadPlans).map (mergedWith oriPledge.ReadPlans) ++
        carriedForward oriPledge.ReadPlans readPledge.ReadPlans := by
    rw [mergePlans_eq _ hd, carriedForward_resetPlans]
  refine ⟨globalParam, _, hg, hget, hplans, ?_, ?_, ?_, hcalls, rfl⟩
  · intro plan hplan o ho hno
    dsimp only
    rw [hplans]
    apply List.mem_append_left
    rw [List.mem_map]
    refine ⟨{ plan with HaveReadBlockNum := 0 }, ?_, ?_⟩
    · unfold resetPlans
      exact List.mem_map_of_mem _ hplan
    · have hm := mergedWith_of_mem hd ho
        (p := { plan with HaveReadBlockNum := 0 }) hno
      rw [hm]
      rfl
  · intro q hq o ho hqo
    dsimp only at hq
    rw [hplans] at hq
    rcases List.mem_append.1 hq with hq | hq
    · right
      rw [List.mem_map] at hq
      obtain ⟨p0, hp0, rfl⟩ := hq
      unfold resetPlans at hp0
      rw [List.mem_map] at hp0
      obtain ⟨plan, hplan, rfl⟩ := hp0
      rw [mergedWith_node] at hqo
      refine ⟨plan, hplan, hqo, ?_⟩
      have hm := mergedWith_of_mem hd ho
        (p := { plan with HaveReadBlockNum := 0 }) hqo.symm
      rw [hm]
      rfl
    · left
      exact List.inj_on_of_nodup_map hd (mem_carriedForward.1 hq).1 ho hqo
  · intro o ho hno
    dsimp only
    rw [hplans]
    exact List.mem_append_right _ (mem_carriedForward.2 ⟨ho, hno⟩)

theorem expire_mod (a b : Nat) : add64 (add64 a b) 30 = (a + b + 30) % W64 := by
  unfold add64
  rw [Nat.mod_add_mod]

theorem resetPlans_have (plans : List ReadPlan) :
    ∀ plan ∈ resetPlans plans, plan.HaveReadBlockNum = 0 := by
  intro plan h
  unfold resetPlans at h
  rw [List.mem_map] at h
  obtain ⟨p, _, rfl⟩ := h
  rfl

theorem resetPlans_node_max (plans : List ReadPlan) :
    (resetPlans plans).map (fun plan => (plan.NodeAddr, plan.MaxReadBlockNum)) =
      plans.map (fun plan => (plan.NodeAddr, plan.MaxReadBlockNum)) := by
  unfold resetPlans
  rw [List.map_map]
  rfl

/-- C18, as the code has it: a successful `FsReadFilePledge` persists a pledge
whose `ExpireHeight` is `(now + FileBlockCount + 30) mod 2 ^ 64` (the exact sum
when that is below `2 ^ 64`) and charges the fee by one transfer from the
downloader to the contract; with no prior pledge for (Downloader, FileHash)
every `HaveReadBlockNum` is 0, the nodes and quotas are those of the request,
`RestMoney` is exactly the fee and `BlockHeight` is `now`, whatever the request
carried in these fields; with a prior pledge `BlockHeight` is `now` if
`now ≥` the prior `ExpireHeight` and the prior `BlockHeight` otherwise. -/
theorem C18_pledge_fields (env : Env) (st : State) (readPledge : ReadPledge)
    (hok : (FsReadFilePledge env st (.ok readPledge)).1 = Ret.BYTE_TRUE) :
    ∃ globalParam fileInfo pledge,
      getGlobalParam st = some globalParam ∧
      getFileInfoByHash env st readPledge.FileHash = some fileInfo ∧
      getReadPledge (FsReadFilePledge env st (.ok readPledge)).2 readPledge.Downloader
        readPledge.FileHash = some pledge ∧
      (FsReadFilePledge env st (.ok readPledge)).2.calls =
        st.calls ++ [⟨readPledge.Downloader, env.contract,
          newPledgeFee env globalParam readPledge⟩] ∧
      pledge.ExpireHeight = (env.height + fileInfo.FileBlockCount + 30) % W64 ∧
      (env.height + fileInfo.FileBlockCount + 30 < W64 →
        pledge.ExpireHeight = env.height + fileInfo.FileBlockCount + 30) ∧
      (getReadPledge st readPledge.Downloader readPledge.FileHash = none →
        (∀ plan ∈ pledge.ReadPlans, plan.HaveReadBlockNum = 0) ∧
        pledge.ReadPlans.map (fun plan => (plan.NodeAddr, plan.MaxReadBlockNum)) =
          readPledge.ReadPlans.map (fun plan => (plan.NodeAddr, plan.MaxReadBlockNum)) ∧
        pledge.RestMoney = newPledgeFee env globalParam readPledge ∧
        pledge.BlockHeight = env.height) ∧
      (∀ oriPledge, getReadPledge st readPledge.Downloader readPledge.FileHash = some oriPledge →
        pledge.BlockHeight =
          if env.height ≥ oriPledge.ExpireHeight then env.height else oriPledge.BlockHeight) := by
  obtain ⟨globalParam, fileInfo, hg, hf, _, hcalls, hget⟩ := FsReadFilePledge_stores hok
  have hexp := pledgeToStore_expire env globalParam st fileInfo readPledge
  rw [expire_mod] at hexp
  refine ⟨globalParam, fileInfo, _, hg, hf, hget, hcalls, hexp, fun hlt => ?_, fun hnone => ?_,
    fun oriPledge hsome => ?_⟩
  · rw [hexp]
    exact Nat.mod_eq_of_lt hlt
  · rw [pledgeToStore_none hnone]
    exact ⟨resetPlans_have _, resetPlans_node_max _, rfl, rfl⟩
  · rw [pledgeToStore_some hsome]

/-- Account 8 holds a pledge with the plans (node 9: 4 blocks, 1 read) and
(node 6: 3 blocks, 2 read) and pledges again for 2 blocks from node 9 and 1
block from node 5. -/
theorem C17_pledge_merge_witness :
    getReadPledge pledgedState exRequest.Downloader exRequest.FileHash = some exPledge ∧
    DistinctNodes exPledge.ReadPlans ∧
    (FsReadFilePledge exEnv pledgedState (.ok exRequest)).1 = Ret.BYTE_TRUE ∧
    ∃ pledge,
      getReadPledge (FsReadFilePledge exEnv pledgedState (.ok exRequest)).2 8 [1] = some pledge ∧
      pledge.ReadPlans = [⟨9, 6, 1⟩, ⟨5, 1, 0⟩, ⟨6, 3, 2⟩] :=
  ⟨by decide, by decide, by decide,
    match C17_pledge_merge exEnv pledgedState exRequest exPledge (by decide) (by decide)
      (by decide) with
    | ⟨_, pledge, _, hget, hplans, _⟩ => ⟨pledge, hget, hplans.trans (by decide)⟩⟩

/-- C17, counterexample.  Account 8 pledges twice in a row for `2 ^ 63` blocks
from node 9: both calls succeed with a transferred fee of 0 (the exact fee is
`2 ^ 71`) and the persisted quota after the second call is 0, not
`2 ^ 63 + 2 ^ 63`.  And after a first pledge that names node 9 twice, with
quotas 4 and 3, a second pledge for 2 blocks from node 9 persists the quota 9,
which is neither `4 + 2` nor `3 + 2`. -/
theorem C17_counterexample :
    (FsReadFilePledge exEnv paidState (.ok hugeRequest)).1 = Ret.BYTE_TRUE ∧
    (getReadPledge (FsReadFilePledge exEnv paidState (.ok hugeRequest)).2 8 [1]).map
      ReadPledge.ReadPlans = some [⟨9, 2 ^ 63, 0⟩] ∧
    (FsReadFilePledge exEnv (FsReadFilePledge exEnv paidState (.ok hugeRequest)).2
      (.ok hugeRequest)).1 = Ret.BYTE_TRUE ∧
    (getReadPledge (FsReadFilePledge exEnv (FsReadFilePledge exEnv paidState (.ok hugeRequest)).2
      (.ok hugeRequest)).2 8 [1]).map ReadPledge.ReadPlans = some [⟨9, 0, 0⟩] ∧
    (FsReadFilePledge exEnv (FsReadFilePledge exEnv paidState (.ok hugeRequest)).2
      (.ok hugeRequest)).2.calls = [⟨8, 100, 0⟩, ⟨8, 100, 0⟩] ∧
    2 ^ 63 + 2 ^ 63 ≠ 0 ∧ 2 ^ 63 * exEnv.DefaultPerBlockSize * 1 ≠ 0 ∧
    (FsReadFilePledge exEnv paidState (.ok dupRequest)).1 = Ret.BYTE_TRUE ∧
    (getReadPledge (FsReadFilePledge exEnv paidState (.ok dupRequest)).2 8 [1]).map
      ReadPledge.ReadPlans = some [⟨9, 4, 0⟩, ⟨9, 3, 0⟩] ∧
    (FsReadFilePledge exEnv (FsReadFilePledge exEnv paidState (.ok dupRequest)).2
      (.ok oneRequest)).1 = Ret.BYTE_TRUE ∧
    (getReadPledge (FsReadFilePledge exEnv (FsReadFilePledge exEnv paidState (.ok dupRequest)).2
      (.ok oneRequest)).2 8 [1]).map ReadPledge.ReadPlans = some [⟨9, 9, 0⟩] := by
  decide

/-- The first pledge of account 8 for the stored file of one block, at height
0: the request carried `ExpireHeight = 6`, `BlockHeight = 5` and non-zero
`HaveReadBlockNum` values. -/
theorem C18_pledge_fields_witness :
    (FsReadFilePledge exEnv paidState (.ok exRequest)).1 = Ret.BYTE_TRUE ∧
    getReadPledge paidState 8 [1] = none ∧
    ∃ pledge,
      getReadPledge (FsReadFilePledge exEnv paidState (.ok exRequest)).2 8 [1] = some pledge ∧
      pledge.ExpireHeight = 31 ∧ pledge.BlockHeight = 0 ∧
      ∀ plan ∈ pledge.ReadPlans, plan.HaveReadBlockNum = 0 :=
  ⟨by decide, by decide,
    match C18_pledge_fields exEnv paidState exRequest (by decide) with
    | ⟨_, fileInfo, pledge, _, hf, hget, _, hexp, _, hnone, _⟩ =>
      have hfile : fileInfo = paidFile := (Option.some.inj hf).symm
      ⟨pledge, hget, hexp.trans (by rw [hfile]; decide), (hnone (by decide)).2.2.2,
        (hnone (by decide)).1⟩⟩

/-- C18, counterexample: for a stored file of `2 ^ 64 - 30` blocks a pledge at
height 0 succeeds and is persisted with `ExpireHeight = 0`, while
`now + FileBlockCount + 30` is `2 ^ 64`. -/
theorem C18_counterexample :
    (FsReadFilePledge exEnv longFileState (.ok exRequest)).1 = Ret.BYTE_TRUE ∧
    (getFileInfoByHash exEnv longFileState [1]).map FileInfo.FileBlockCount =
      some (2 ^ 64 - 30) ∧
    (getReadPledge (FsReadFilePledge exEnv longFileState (.ok exRequest)).2 8 [1]).map
      ReadPledge.ExpireHeight = some 0 ∧
    exEnv.height + (2 ^ 64 - 30) + 30 ≠ 0 := by
  decide

/-! ## FsRenewFiles -/

/-- C15, as the code has it.  For an `FsRenewFiles` item whose file is stored
(with `RestAmount ≤ PayAmount`), `newFee` being the 64-bit cost of the file
with `TimeExpired` set to `NewTimeExpired`: a file that is not `UseFile` is
rejected and nothing stored changes; for a valid `UseFile` file the item is
rejected with nothing changed when `newFee < PayAmount` and also when the
caller is not a witness for `Payer`; otherwise exactly one transfer of
`newFee - PayAmount` from `Payer` to the contract is invoked, and if `Payer`
holds that much the item succeeds and the stored file has `TimeExpired =
NewTimeExpired` and `PayAmount` and `RestAmount` both raised by exactly
`newFee - PayAmount`, while if not the item is rejected with nothing stored
changed. -/
theorem C15_renew_item (env : Env) (globalParam : FsGlobalParam) (st : State)
    (fileReNew : FileReNew) (fileInfo : FileInfo)
    (hget : getAndUpdateFileInfo env st fileReNew.FileOwner fileReNew.FileHash = some fileInfo)
    (hwf : fileInfo.RestAmount ≤ fileInfo.PayAmount)
    (hfee : env.calcTotalFilePayAmountByFile
      { fileInfo with TimeExpired := fileReNew.NewTimeExpired }
      globalParam.GasPerKbForSaveWithFile < W64) :
    (fileInfo.StorageType ≠ StorageType.UseFile →
      (renewFilesItem env globalParam st fileReNew).2 = false ∧
      stored (renewFilesItem env globalParam st fileReNew).1 = stored st ∧
      (renewFilesItem env globalParam st fileReNew).1.calls = st.calls) ∧
    (fileInfo.StorageType = StorageType.UseFile → fileInfo.ValidFlag = true →
      (env.calcTotalFilePayAmountByFile { fileInfo with TimeExpired := fileReNew.NewTimeExpired }
          globalParam.GasPerKbForSaveWithFile < fileInfo.PayAmount →
        (renewFilesItem env globalParam st fileReNew).2 = false ∧
        stored (renewFilesItem env globalParam st fileReNew).1 = stored st ∧
        (renewFilesItem env globalParam st fileReNew).1.calls = st.calls) ∧
      (env.CheckWitness fileReNew.Payer = false →
        (renewFilesItem env globalParam st fileReNew).2 = false ∧
        stored (renewFilesItem env globalParam st fileReNew).1 = stored st ∧
        (renewFilesItem env globalParam st fileReNew).1.calls = st.calls) ∧
      (fileInfo.PayAmount ≤ env.calcTotalFilePayAmountByFile
          { fileInfo with TimeExpired := fileReNew.NewTimeExpired }
          globalParam.GasPerKbForSaveWithFile →
        env.CheckWitness fileReNew.Payer = true →
        (renewFilesItem env globalParam st fileReNew).1.calls =
          st.calls ++ [⟨fileReNew.Payer, env.contract,
            env.calcTotalFilePayAmountByFile
              { fileInfo with TimeExpired := fileReNew.NewTimeExpired }
              globalParam.GasPerKbForSaveWithFile - fileInfo.PayAmount⟩] ∧
        (env.calcTotalFilePayAmountByFile
            { fileInfo with TimeExpired := fileReNew.NewTimeExpired }
            globalParam.GasPerKbForSaveWithFile - fileInfo.PayAmount ≤
            balanceOf st fileReNew.Payer →
          (renewFilesItem env globalParam st fileReNew).2 = true ∧
          tget fileKey (fileInfo.FileOwner, fileInfo.FileHash)
              (renewFilesItem env globalParam st fileReNew).1.files =
            some { fileInfo with
              TimeExpired := fileReNew.NewTimeExpired
              PayAmount := fileInfo.PayAmount +
                (env.calcTotalFilePayAmountByFile
                  { fileInfo with TimeExpired := fileReNew.NewTimeExpired }
                  globalParam.GasPerKbForSaveWithFile - fileInfo.PayAmount)
              RestAmount := fileInfo.RestAmount +
                (env.calcTotalFilePayAmountByFile
                  { fileInfo with TimeExpired := fileReNew.NewTimeExpired }
                  globalParam.GasPerKbForSaveWithFile - fileInfo.PayAmount) }) ∧
        (balanceOf st fileReNew.Payer <
            env.calcTotalFilePayAmountByFile
              { fileInfo with TimeExpired := fileReNew.NewTimeExpired }
              globalParam.GasPerKbForSaveWithFile - fileInfo.PayAmount →
          (renewFilesItem env globalParam st fileReNew).2 = false ∧
          stored (renewFilesItem env globalParam st fileReNew).1 = stored st))) := by
  generalize hnf : env.calcTotalFilePayAmountByFile
      { fileInfo with TimeExpired := fileReNew.NewTimeExpired }
      globalParam.GasPerKbForSaveWithFile = newFee at hfee ⊢
  have hbody : ∀ st0 : State × Bool,
      renewFilesItem env globalParam st fileReNew =
        (if env.CheckWitness fileReNew.Payer = false then
          (AddObjectError st fileReNew.FileHash "[APP SDK] FsRenewFiles CheckPayer failed!", false)
        else st0) →
      (env.CheckWitness fileReNew.Payer = false →
        (renewFilesItem env globalParam st fileReNew).2 = false ∧
        stored (renewFilesItem env globalParam st fileReNew).1 = stored st ∧
        (renewFilesItem env globalParam st fileReNew).1.calls = st.calls) := by
    intro st0 h hw
    rw [h, if_pos hw]
    exact ⟨rfl, rfl, rfl⟩
  have hunf : renewFilesItem env globalParam st fileReNew =
      (if env.CheckWitness fileReNew.Payer = false then
        (AddObjectError st fileReNew.FileHash "[APP SDK] FsRenewFiles CheckPayer failed!", false)
      else
        if fileInfo.StorageType = StorageType.UseFile then
          if fileInfo.ValidFlag = false then
            (AddObjectError st fileReNew.FileHash
              "[APP SDK] FsRenewFiles File is expired! need to upload again", false)
          else
            if newFee < fileInfo.PayAmount then
              (AddObjectError st fileReNew.FileHash
                "[APP SDK] FsRenewFiles newFee < fileInfo.PayAmount", false)
            else
              if (appCallTransfer st fileReNew.Payer env.contract
                  (sub64 newFee fileInfo.PayAmount)).2 = false then
                (AddObjectError
                  (appCallTransfer st fileReNew.Payer env.contract
                    (sub64 newFee fileInfo.PayAmount)).1 fileReNew.FileHash
                  "[APP SDK] FsRenewFiles AppCallTransfer, transfer error!", false)
              else
                (addFileInfo
                  (appCallTransfer st fileReNew.Payer env.contract
                    (sub64 newFee fileInfo.PayAmount)).1
                  { fileInfo with
                    TimeExpired := fileReNew.NewTimeExpired
                    PayAmount := newFee
                    RestAmount := add64 fileInfo.RestAmount (sub64 newFee fileInfo.PayAmount) },
                  true)
        else
          (AddObjectError st fileReNew.FileHash
            "[APP SDK] FsRenewFiles StorageType is not FileStorageTypeUseFile!", false)) := by
    unfold renewFilesItem
    simp only [hget, hnf]
  refine ⟨fun hne => ?_, fun huse hvalid => ⟨fun hlt => ?_, hbody _ hunf, fun hle hw => ?_⟩⟩
  · rw [hunf]
    by_cases hw : env.CheckWitness fileReNew.Payer = false
    · rw [if_pos hw]; exact ⟨rfl, rfl, rfl⟩
    · rw [if_neg hw, if_neg hne]; exact ⟨rfl, rfl, rfl⟩
  · rw [hunf]
    by_cases hw : env.CheckWitness fileReNew.Payer = false
    · rw [if_pos hw]; exact ⟨rfl, rfl, rfl⟩
    · rw [if_neg hw, if_pos huse, if_neg (by simp [hvalid]), if_pos hlt]; exact ⟨rfl, rfl, rfl⟩
  · have hsub : sub64 newFee fileInfo.PayAmount = newFee - fileInfo.PayAmount :=
      sub64_exact hle hfee
    have hadd : add64 fileInfo.RestAmount (newFee - fileInfo.PayAmount) =
        fileInfo.RestAmount + (newFee - fileInfo.PayAmount) :=
      add64_exact (by omega)
    have hpay : newFee = fileInfo.PayAmount + (newFee - fileInfo.PayAmount) := by omega
    rw [hunf, if_neg (by simp [hw]), if_pos huse, if_neg (by simp [hvalid]),
      if_neg (by omega), hsub, hadd]
    have hsnd := appCallTransfer_snd st fileReNew.Payer env.contract (newFee - fileInfo.PayAmount)
    refine ⟨?_, fun hbal => ?_, fun hbal => ?_⟩
    · split
      · exact appCallTransfer_calls _ _ _ _
      · exact appCallTransfer_calls _ _ _ _
    · have htrue : (appCallTransfer st fileReNew.Payer env.contract
          (newFee - fileInfo.PayAmount)).2 = true := by
        rw [hsnd]; exact decide_eq_true hbal
      rw [if_neg (by simp [htrue])]
      refine ⟨rfl, ?_⟩
      rw [← hpay]
      exact tget_tput_self fileKey _ _
    · have hfalse : (appCallTransfer st fileReNew.Payer env.contract
          (newFee - fileInfo.PayAmount)).2 = false := by
        rw [hsnd]; exact decide_eq_false (by omega)
      rw [if_pos hfalse]
      exact ⟨rfl, appCallTransfer_fail_stored hfalse⟩

/-- Account 8 pays the renewal of the file of account 7 up to time 200: the
deposit goes from 100 to the current cost 256. -/
theorem C15_renew_item_witness :
    getAndUpdateFileInfo exEnv cheapState 7 [1] =
      some { paidFile with PayAmount := 100, RestAmount := 100 } ∧
    (renewFilesItem exEnv ⟨1, 1, 1⟩ cheapState ⟨[1], 7, 8, 200⟩).1.calls = [⟨8, 100, 156⟩] ∧
    (renewFilesItem exEnv ⟨1, 1, 1⟩ cheapState ⟨[1], 7, 8, 200⟩).2 = true ∧
    tget fileKey (7, [1]) (renewFilesItem exEnv ⟨1, 1, 1⟩ cheapState ⟨[1], 7, 8, 200⟩).1.files =
      some { paidFile with TimeExpired := 200, PayAmount := 256, RestAmount := 256 } :=
  have h := ((C15_renew_item exEnv ⟨1, 1, 1⟩ cheapState ⟨[1], 7, 8, 200⟩
    { paidFile with PayAmount := 100, RestAmount := 100 } (by decide) (by decide)
    (by decide)).2 (by decide) (by decide)).2.2 (by decide) (by decide)
  ⟨by decide, h.1, (h.2.1 (by decide)).1, (h.2.1 (by decide)).2⟩

/-- C15, counterexample: the renewal of a valid pay-per-file entry with
`newFee = 256 ≥ PayAmount = 100` whose payer, account 9, holds nothing is
rejected: no balance changes and the stored file keeps its `PayAmount`,
`RestAmount` and `TimeExpired`. -/
theorem C15_counterexample :
    getAndUpdateFileInfo exEnv cheapState 7 [1] =
      some { paidFile with PayAmount := 100, RestAmount := 100 } ∧
    exEnv.calcTotalFilePayAmountByFile
      { paidFile with PayAmount := 100, RestAmount := 100, TimeExpired := 200 } 1 = 256 ∧
    (renewFilesItem exEnv ⟨1, 1, 1⟩ cheapState ⟨[1], 7, 9, 200⟩).2 = false ∧
    (renewFilesItem exEnv ⟨1, 1, 1⟩ cheapState ⟨[1], 7, 9, 200⟩).1.files = cheapState.files ∧
    (renewFilesItem exEnv ⟨1, 1, 1⟩ cheapState ⟨[1], 7, 9, 200⟩).1.balances =
      cheapState.balances ∧
    (renewFilesItem exEnv ⟨1, 1, 1⟩ cheapState ⟨[1], 7, 9, 200⟩).1.errInfos =
      [([1], "[APP SDK] FsRenewFiles AppCallTransfer, transfer error!")] := by
  decide

/-! ## FsTransferFiles -/

/-- Apart from the proof records the inner loop of `FsTransferFiles` changes
nothing. -/
theorem transferPdpLoop_frame (newOwner : Address) (l : List PdpRecord) (st : State) :
    (transferPdpLoop newOwner l st).globalParam = st.globalParam ∧
    (transferPdpLoop newOwner l st).spaces = st.spaces ∧
    (transferPdpLoop newOwner l st).files = st.files ∧
    (transferPdpLoop newOwner l st).fileOwners = st.fileOwners ∧
    (transferPdpLoop newOwner l st).nodes = st.nodes ∧
    (transferPdpLoop newOwner l st).readPledges = st.readPledges ∧
    (transferPdpLoop newOwner l st).balances = st.balances ∧
    (transferPdpLoop newOwner l st).calls = st.calls := by
  induction l generalizing st with
  | nil => exact ⟨rfl, rfl, rfl, rfl, rfl, rfl, rfl, rfl⟩
  | cons r rest ih =>
    unfold transferPdpLoop
    dsimp only
    have h := ih (addPdpRecord (delPdpRecord st r.FileHash r.FileOwner r.NodeAddr)
      { r with FileOwner := newOwner })
    exact h

/-- A key that no step of the loop deletes or writes keeps its record. -/
theorem transferPdpLoop_other (newOwner : Address) (l : List PdpRecord) (st : State)
    (k : Hash × Address × Address)
    (hk : ∀ r ∈ l, k ≠ pdpKey r ∧ k ≠ pdpKey { r with FileOwner := newOwner }) :
    tget pdpKey k (transferPdpLoop newOwner l st).pdpRecords = tget pdpKey k st.pdpRecords := by
  induction l generalizing st with
  | nil => rfl
  | cons r rest ih =>
    unfold transferPdpLoop
    dsimp only
    rw [ih _ (fun x hx => hk x (List.mem_cons_of_mem _ hx))]
    have h1 := hk r (List.mem_cons_self _ _)
    unfold addPdpRecord delPdpRecord
    dsimp only
    rw [tget_tput_of_ne pdpKey h1.2]
    exact tget_tdel_of_ne pdpKey h1.1 _

/-- Every record the loop runs over is stored under the new owner. -/
theorem transferPdpLoop_rekeyed (newOwner : Address) (hash : Hash) (owner : Address)
    (l : List PdpRecord) (st : State)
    (hl : ∀ r ∈ l, r.FileHash = hash ∧ r.FileOwner = owner)
    (hn : (l.map PdpRecord.NodeAddr).Nodup) :
    ∀ r ∈ l, tget pdpKey (hash, newOwner, r.NodeAddr) (transferPdpLoop newOwner l st).pdpRecords =
      some { r with FileOwner := newOwner } := by
  induction l generalizing st with
  | nil => intro r hr; cases hr
  | cons r0 rest ih =>
    rw [List.map_cons, List.nodup_cons] at hn
    intro r hr
    unfold transferPdpLoop
    dsimp only
    rcases List.mem_cons.1 hr with rfl | hmem
    · rw [transferPdpLoop_other]
      · unfold addPdpRecord
        dsimp only
        have := tget_tput_self pdpKey ({ r with FileOwner := newOwner } : PdpRecord)
          (delPdpRecord st r.FileHash r.FileOwner r.NodeAddr).pdpRecords
        have hk : pdpKey ({ r with FileOwner := newOwner } : PdpRecord) =
            (hash, newOwner, r.NodeAddr) := by
          unfold pdpKey
          rw [(hl r (List.mem_cons_self _ _)).1]
        rw [hk] at this
        exact this
      · intro x hx
        have hne : x.NodeAddr ≠ r.NodeAddr := by
          intro h
          exact hn.1 (h ▸ List.mem_map_of_mem _ hx)
        unfold pdpKey
        constructor
        · intro h
          exact hne (congrArg (fun k => k.2.2) h).symm
        · intro h
          exact hne (congrArg (fun k => k.2.2) h).symm
    · exact ih _ (fun x hx => hl x (List.mem_cons_of_mem _ hx)) hn.2 r hmem

/-- Where the records left by the loop come from. -/
theorem transferPdpLoop_mem (newOwner : Address) (l : List PdpRecord) (st : State)
    (x : PdpRecord) (hx : x ∈ (transferPdpLoop newOwner l st).pdpRecords) :
    (x ∈ st.pdpRecords ∧ ∀ r ∈ l, pdpKey x ≠ pdpKey r) ∨
      ∃ r ∈ l, x = { r with FileOwner := newOwner } := by
  induction l generalizing st with
  | nil => exact Or.inl ⟨hx, fun r hr => by cases hr⟩
  | cons r0 rest ih =>
    unfold transferPdpLoop at hx
    dsimp only at hx
    rcases ih _ hx with ⟨hmem, hne⟩ | ⟨r, hr, rfl⟩
    · unfold addPdpRecord delPdpRecord at hmem
      dsimp only at hmem
      rcases mem_tput pdpKey hmem with rfl | hmem2
      · exact Or.inr ⟨r0, List.mem_cons_self _ _, rfl⟩
      · have h3 := mem_tdel pdpKey hmem2
        refine Or.inl ⟨h3.1, fun r hr => ?_⟩
        rcases List.mem_cons.1 hr with rfl | hr
        · exact h3.2
        · exact hne r hr
    · exact Or.inr ⟨r, List.mem_cons_of_mem _ hr, rfl⟩

theorem getPdpRecordList_mem {st : State} {hash : Hash} {owner : Address} {r : PdpRecord} :
    r ∈ getPdpRecordList st hash owner ↔
      r ∈ st.pdpRecords ∧ r.FileHash = hash ∧ r.FileOwner = owner := by
  unfold getPdpRecordList
  simp [List.mem_filter]

theorem getPdpRecordList_nodes_nodup {st : State} (hkeys : (st.pdpRecords.map pdpKey).Nodup)
    (hash : Hash) (owner : Address) :
    ((getPdpRecordList st hash owner).map PdpRecord.NodeAddr).Nodup := by
  have hsub : (getPdpRecordList st hash owner).Sublist st.pdpRecords := by
    unfold getPdpRecordList
    exact List.filter_sublist _
  have hnd : (getPdpRecordList st hash owner).Nodup := (List.Nodup.of_map _ hkeys).sublist hsub
  apply List.Nodup.map_on _ hnd
  intro x hx y hy hxy
  have hx2 := getPdpRecordList_mem.1 hx
  have hy2 := getPdpRecordList_mem.1 hy
  apply List.inj_on_of_nodup_map hkeys hx2.1 hy2.1
  unfold pdpKey
  rw [hx2.2.1, hx2.2.2, hy2.2.1, hy2.2.2, hxy]

/-- Shape of a successful item of `FsTransferFiles`. -/
theorem transferFilesItem_ok {env : Env} {st : State} {t : FileTransfer}
    (h : (transferFilesItem env st t).2 = true) :
    ∃ fileInfo,
      env.CheckWitness t.OriOwner = true ∧
      getAndUpdateFileInfo env st t.OriOwner t.FileHash = some fileInfo ∧
      fileInfo.ValidFlag = true ∧ fileInfo.StorageType = StorageType.UseFile ∧
      fileInfo.FileOwner = t.OriOwner ∧
      (transferFilesItem env st t).1 =
        setFileOwner
          (delFileOwner
            (transferPdpLoop t.NewOwner (getPdpRecordList st t.FileHash t.OriOwner)
              (addFileInfo (delFileInfo st t.OriOwner t.FileHash)
                { fileInfo with FileOwner := t.NewOwner }))
            fileInfo.FileHash)
          fileInfo.FileHash t.NewOwner := by
  revert h
  unfold transferFilesItem
  dsimp only
  repeat' split
  all_goals intro h
  all_goals first
    | (cases h; done)
    | skip
  rename_i hw _ _ hf hv hs ho
  exact ⟨_, by simpa using hw, hf, by simpa using hv, by simpa using hs, by simpa using ho, rfl⟩

/-- A failing item of `FsTransferFiles` only records its error. -/
theorem transferFilesItem_fail {env : Env} {st : State} {t : FileTransfer}
    (h : (transferFilesItem env st t).2 = false) :
    ∃ msg, (transferFilesItem env st t).1 = AddObjectError st t.FileHash msg := by
  revert h
  unfold transferFilesItem
  dsimp only
  repeat' split
  all_goals intro h
  all_goals first
    | exact ⟨_, rfl⟩
    | cases h

theorem getFileOwner_setFileOwner (st : State) (hash : Hash) (owner : Address) :
    getFileOwner (setFileOwner st hash owner) hash = some owner := by
  unfold getFileOwner setFileOwner
  dsimp only
  have h := tget_tput_self Prod.fst (hash, owner) st.fileOwners
  dsimp only at h
  rw [h]
  rfl

/-- C16, as the code has it (the proof-record table holds one record per key
and the lazy recomputation keeps the hash of a file).  A successful
`FsTransferFiles` item invokes no transfer and changes no balance; the file
returned for (OriOwner, FileHash) is stored under (NewOwner, FileHash) with
only `FileOwner` changed and, when `NewOwner ≠ OriOwner`, no file is left under
(OriOwner, FileHash); every proof record of (FileHash, OriOwner) is stored
under (FileHash, NewOwner, NodeAddr) with only `FileOwner` changed and, when
`NewOwner ≠ OriOwner`, none is left for (FileHash, OriOwner); the file-owner
index maps the hash to `NewOwner`.  A failing item changes nothing stored and
invokes no transfer, and an item fails when the caller is not a witness for
`OriOwner`, when the file is invalid, when it is not a `UseFile` file and when
its recorded owner is not `OriOwner`. -/
theorem C16_transfer_item (env : Env) (st : State) (t : FileTransfer)
    (hupd : ∀ f, (env.updateFile f).FileHash = f.FileHash)
    (hkeys : (st.pdpRecords.map pdpKey).Nodup) :
    ((transferFilesItem env st t).2 = true →
      ∃ fileInfo,
        getAndUpdateFileInfo env st t.OriOwner t.FileHash = some fileInfo ∧
        (transferFilesItem env st t).1.calls = st.calls ∧
        (transferFilesItem env st t).1.balances = st.balances ∧
        tget fileKey (t.NewOwner, t.FileHash) (transferFilesItem env st t).1.files =
          some { fileInfo with FileOwner := t.NewOwner } ∧
        (t.NewOwner ≠ t.OriOwner →
          tget fileKey (t.OriOwner, t.FileHash) (transferFilesItem env st t).1.files = none) ∧
        (∀ r ∈ getPdpRecordList st t.FileHash t.OriOwner,
          tget pdpKey (t.FileHash, t.NewOwner, r.NodeAddr)
              (transferFilesItem env st t).1.pdpRecords =
            some { r with FileOwner := t.NewOwner }) ∧
        (t.NewOwner ≠ t.OriOwner →
          getPdpRecordList (transferFilesItem env st t).1 t.FileHash t.OriOwner = []) ∧
        getFileOwner (transferFilesItem env st t).1 t.FileHash = some t.NewOwner) ∧
    ((transferFilesItem env st t).2 = false →
      stored (transferFilesItem env st t).1 = stored st ∧
      (transferFilesItem env st t).1.calls = st.calls) ∧
    (env.CheckWitness t.OriOwner = false → (transferFilesItem env st t).2 = false) ∧
    (∀ fileInfo, getAndUpdateFileInfo env st t.OriOwner t.FileHash = some fileInfo →
      fileInfo.ValidFlag = false ∨ fileInfo.StorageType ≠ StorageType.UseFile ∨
        fileInfo.FileOwner ≠ t.OriOwner →
      (transferFilesItem env st t).2 = false) := by
  refine ⟨fun hok => ?_, fun hfail => ?_, fun hw => ?_, fun fileInfo hf hbad => ?_⟩
  · obtain ⟨fileInfo, _, hf, _, _, _, hst⟩ := transferFilesItem_ok hok
    have hhash : fileInfo.FileHash = t.FileHash := getAndUpdateFileInfo_hash hupd hf
    have hfr := transferPdpLoop_frame t.NewOwner (getPdpRecordList st t.FileHash t.OriOwner)
      (addFileInfo (delFileInfo st t.OriOwner t.FileHash) { fileInfo with FileOwner := t.NewOwner })
    have hfiles : (transferFilesItem env st t).1.files =
        tput fileKey ({ fileInfo with FileOwner := t.NewOwner } : FileInfo)
          (tdel fileKey (t.OriOwner, t.FileHash) st.files) := by
      rw [hst]
      exact hfr.2.2.1
    have hpdp : (transferFilesItem env st t).1.pdpRecords =
        (transferPdpLoop t.NewOwner (getPdpRecordList st t.FileHash t.OriOwner)
          (addFileInfo (delFileInfo st t.OriOwner t.FileHash)
            { fileInfo with FileOwner := t.NewOwner })).pdpRecords := by
      rw [hst]
      rfl
    have hkey : fileKey ({ fileInfo with FileOwner := t.NewOwner } : FileInfo) =
        (t.NewOwner, t.FileHash) := by
      unfold fileKey
      rw [hhash]
    refine ⟨fileInfo, hf, ?_, ?_, ?_, fun hne => ?_, fun r hr => ?_, fun hne => ?_, ?_⟩
    · rw [hst]; exact hfr.2.2.2.2.2.2.2
    · rw [hst]; exact hfr.2.2.2.2.2.2.1
    · rw [hfiles, ← hkey]
      exact tget_tput_self fileKey _ _
    · rw [hfiles, tget_tput_of_ne fileKey (by rw [hkey]; intro h; exact hne (Prod.mk.inj h).1.symm)]
      exact tget_tdel_self fileKey _ _
    · rw [hpdp]
      exact transferPdpLoop_rekeyed t.NewOwner t.FileHash t.OriOwner _ _
        (fun x hx => (getPdpRecordList_mem.1 hx).2)
        (getPdpRecordList_nodes_nodup hkeys _ _) r hr
    · unfold getPdpRecordList
      rw [List.filter_eq_nil_iff]
      intro x hx
      rw [hpdp] at hx
      rw [decide_eq_true_eq]
      rintro ⟨hxh, hxo⟩
      rcases transferPdpLoop_mem _ _ _ x hx with ⟨hmem, hk⟩ | ⟨r, _, rfl⟩
      · exact hk x (getPdpRecordList_mem.2 ⟨hmem, hxh, hxo⟩) rfl
      · exact hne hxo
    · rw [hst]
      generalize delFileOwner
        (transferPdpLoop t.NewOwner (getPdpRecordList st t.FileHash t.OriOwner)
          (addFileInfo (delFileInfo st t.OriOwner t.FileHash)
            { fileInfo with FileOwner := t.NewOwner })) fileInfo.FileHash = mid
      rw [← hhash]
      exact getFileOwner_setFileOwner mid fileInfo.FileHash t.NewOwner
  · obtain ⟨msg, hst⟩ := transferFilesItem_fail hfail
    rw [hst]
    exact ⟨rfl, rfl⟩
  · unfold transferFilesItem
    rw [if_pos hw]
  · cases hb : (transferFilesItem env st t).2 with
    | false => rfl
    | true =>
      obtain ⟨fileInfo1, _, hf1, hv, hs, ho, _⟩ := transferFilesItem_ok hb
      rw [hf] at hf1
      cases hf1
      rcases hbad with h | h | h
      · rw [hv] at h; cases h
      · exact absurd hs h
      · exact absurd ho h

/-- Account 7 hands its stored file, with the proof records of the nodes 9
and 6, to account 8. -/
theorem C16_transfer_item_witness :
    (∀ f, (exEnv.updateFile f).FileHash = f.FileHash) ∧
    (provedState.pdpRecords.map pdpKey).Nodup ∧
    (transferFilesItem exEnv provedState ⟨[1], 7, 8⟩).2 = true ∧
    (transferFilesItem exEnv provedState ⟨[1], 7, 8⟩).1.calls = [] ∧
    tget fileKey (8, [1]) (transferFilesItem exEnv provedState ⟨[1], 7, 8⟩).1.files =
      some { paidFile with FileOwner := 8 } ∧
    tget fileKey (7, [1]) (transferFilesItem exEnv provedState ⟨[1], 7, 8⟩).1.files = none ∧
    tget pdpKey ([1], 8, 9) (transferFilesItem exEnv provedState ⟨[1], 7, 8⟩).1.pdpRecords =
      some ⟨[1], 8, 9, false⟩ ∧
    tget pdpKey ([1], 8, 6) (transferFilesItem exEnv provedState ⟨[1], 7, 8⟩).1.pdpRecords =
      some ⟨[1], 8, 6, true⟩ ∧
    getPdpRecordList (transferFilesItem exEnv provedState ⟨[1], 7, 8⟩).1 [1] 7 = [] ∧
    getFileOwner (transferFilesItem exEnv provedState ⟨[1], 7, 8⟩).1 [1] = some 8 :=
  match (C16_transfer_item exEnv provedState ⟨[1], 7, 8⟩ (fun _ => rfl) (by decide)).1
    (by decide) with
  | ⟨fileInfo, hf, hcalls, _, hnew, hold, hpdp, hgone, hidx⟩ =>
    have hfile : fileInfo = paidFile := (Option.some.inj hf).symm
    ⟨fun _ => rfl, by decide, by decide, hcalls,
      hnew.trans (by rw [hfile]), hold (by decide),
      hpdp ⟨[1], 7, 9, false⟩ (by decide), hpdp ⟨[1], 7, 6, true⟩ (by decide),
      hgone (by decide), hidx⟩

/-- C16, counterexample: the item that transfers the file of account 7 to
account 7 itself succeeds without error, and the file is still stored under
(OriOwner, FileHash). -/
theorem C16_counterexample :
    (transferFilesItem exEnv provedState ⟨[1], 7, 7⟩).2 = true ∧
    (transferFilesItem exEnv provedState ⟨[1], 7, 7⟩).1.errInfos = [] ∧
    tget fileKey (7, [1]) (transferFilesItem exEnv provedState ⟨[1], 7, 7⟩).1.files =
      some paidFile := by
  decide

/-! ## Store and delete: the round trip -/

/-- Shape of a successful store step for a file charged to a lease. -/
theorem storeFilesBody_useSpace_shape {env : Env} {globalParam : FsGlobalParam} {st : State}
    {fileInfo : FileInfo} (hu : fileInfo.StorageType = StorageType.UseSpace)
    (h : (storeFilesBody env globalParam st fileInfo).2 = true) :
    ∃ space, getAndUpdateSpaceInfo env st fileInfo.FileOwner = some space ∧
      mul64 fileInfo.FileBlockCount env.DefaultPerBlockSize < space.RestVol ∧
      (storeFilesBody env globalParam st fileInfo).1 =
        setFileOwner
          (addFileInfo
            (addSpaceInfo st
              { space with
                RestVol :=
                  sub64 space.RestVol (mul64 fileInfo.FileBlockCount env.DefaultPerBlockSize) })
            { fileInfo with
              FileCost := 0
              ValidFlag := true
              TimeStart := env.time
              PdpInterval := space.PdpInterval })
          fileInfo.FileHash fileInfo.FileOwner := by
  revert h
  unfold storeFilesBody
  simp only [hu]
  repeat' split
  all_goals intro h
  all_goals first
    | (cases h; done)
    | skip
  rename_i space hs _ hv
  exact ⟨space, hs, Nat.lt_of_not_le hv, rfl⟩

/-- Shape of a successful store step for a pay-per-file entry. -/
theorem storeFilesBody_useFile_shape {env : Env} {globalParam : FsGlobalParam} {st : State}
    {fileInfo : FileInfo} (hu : fileInfo.StorageType = StorageType.UseFile)
    (h : (storeFilesBody env globalParam st fileInfo).2 = true) :
    (storeFilesBody env globalParam st fileInfo).1 =
      setFileOwner
        (addFileInfo
          (appCallTransfer st fileInfo.FileOwner env.contract
            (env.calcTotalFilePayAmountByFile
              { fileInfo with FileCost := 0, ValidFlag := true, TimeStart := env.time }
              globalParam.GasPerKbForSaveWithFile)).1
          { fileInfo with
            FileCost := 0
            ValidFlag := true
            TimeStart := env.time
            PayAmount := env.calcTotalFilePayAmountByFile
              { fileInfo with FileCost := 0, ValidFlag := true, TimeStart := env.time }
              globalParam.GasPerKbForSaveWithFile
            RestAmount := env.calcTotalFilePayAmountByFile
              { fileInfo with FileCost := 0, ValidFlag := true, TimeStart := env.time }
              globalParam.GasPerKbForSaveWithFile })
        fileInfo.FileHash fileInfo.FileOwner := by
  revert h
  unfold storeFilesBody
  simp only [hu]
  repeat' split
  all_goals intro h
  all_goals first
    | (cases h; done)
    | rfl

theorem add64_sub64_cancel {a b : Nat} (hb : b < a) (ha : a < W64) :
    add64 (sub64 a b) b = a := by
  rw [sub64_exact (Nat.le_of_lt hb) ha]
  unfold add64
  rw [Nat.sub_add_cancel (Nat.le_of_lt hb)]
  exact Nat.mod_eq_of_lt ha

theorem getAndUpdateSpaceInfo_restVol {env : Env} {st : State} {owner : Address}
    {space : SpaceInfo} (hupd : ∀ s, (env.updateSpace s).RestVol = s.RestVol)
    (hu64 : ∀ s ∈ st.spaces, s.RestVol < W64)
    (h : getAndUpdateSpaceInfo env st owner = some space) : space.RestVol < W64 := by
  unfold getAndUpdateSpaceInfo at h
  cases hg : tget SpaceInfo.SpaceOwner owner st.spaces with
  | none => rw [hg] at h; cases h
  | some s0 =>
    rw [hg] at h
    cases h
    rw [hupd]
    exact hu64 s0 (tget_mem SpaceInfo.SpaceOwner hg)

theorem getAndUpdateSpaceInfo_addSpaceInfo (env : Env) (st : State) (space : SpaceInfo) :
    getAndUpdateSpaceInfo env (addSpaceInfo st space) space.SpaceOwner =
      some (env.updateSpace space) := by
  unfold getAndUpdateSpaceInfo addSpaceInfo
  dsimp only
  rw [tget_tput_self SpaceInfo.SpaceOwner space st.spaces]
  rfl

/-- C14 (store/delete round trip).  A file is stored by the store step of
`FsStoreFiles` (the loop body after the prior-entry check) and the stored
entity `f` is then deleted by `deleteFile`, both with success; leases hold
64-bit `RestVol` values and the lazy recomputation keeps `RestVol` and
`SpaceOwner`.  For `UseSpace` the lease read after the deletion has the
`RestVol` of the lease read before the store, and no transfer was invoked nor
a balance changed; for `UseFile` the deletion invokes one transfer from the
contract to the owner whose amount is the amount of the one transfer from the
owner to the contract made by the store.  Afterwards no file is stored under
(FileOwner, FileHash), the file-owner index has no entry for the hash and no
proof record is left for (FileHash, FileOwner). -/
theorem C14_store_delete_roundtrip (env : Env) (globalParam : FsGlobalParam) (st : State)
    (fileInfo f : FileInfo)
    (hupd : ∀ s, (env.updateSpace s).RestVol = s.RestVol ∧
      (env.updateSpace s).SpaceOwner = s.SpaceOwner)
    (hu64 : ∀ s ∈ st.spaces, s.RestVol < W64)
    (hstore : (storeFilesBody env globalParam st fileInfo).2 = true)
    (hfile : tget fileKey (fileInfo.FileOwner, fileInfo.FileHash)
      (storeFilesBody env globalParam st fileInfo).1.files = some f)
    (hdel : (deleteFile env (storeFilesBody env globalParam st fileInfo).1 f).2 = true) :
    (fileInfo.StorageType = StorageType.UseSpace →
      ∃ space space2,
        getAndUpdateSpaceInfo env st fileInfo.FileOwner = some space ∧
        getAndUpdateSpaceInfo env
          (deleteFile env (storeFilesBody env globalParam st fileInfo).1 f).1
          fileInfo.FileOwner = some space2 ∧
        space2.RestVol = space.RestVol ∧
        (deleteFile env (storeFilesBody env globalParam st fileInfo).1 f).1.calls = st.calls ∧
        (deleteFile env (storeFilesBody env globalParam st fileInfo).1 f).1.balances =
          st.balances) ∧
    (fileInfo.StorageType = StorageType.UseFile →
      ∃ payAmount,
        (storeFilesBody env globalParam st fileInfo).1.calls =
          st.calls ++ [⟨fileInfo.FileOwner, env.contract, payAmount⟩] ∧
        (deleteFile env (storeFilesBody env globalParam st fileInfo).1 f).1.calls =
          st.calls ++ [⟨fileInfo.FileOwner, env.contract, payAmount⟩,
            ⟨env.contract, fileInfo.FileOwner, payAmount⟩]) ∧
    tget fileKey (fileInfo.FileOwner, fileInfo.FileHash)
      (deleteFile env (storeFilesBody env globalParam st fileInfo).1 f).1.files = none ∧
    getFileOwner (deleteFile env (storeFilesBody env globalParam st fileInfo).1 f).1
      fileInfo.FileHash = none ∧
    getPdpRecordList (deleteFile env (storeFilesBody env globalParam st fileInfo).1 f).1
      fileInfo.FileHash fileInfo.FileOwner = [] := by
  have hk := tget_key fileKey hfile
  unfold fileKey at hk
  have hown : f.FileOwner = fileInfo.FileOwner := (Prod.mk.inj hk).1
  have hhash : f.FileHash = fileInfo.FileHash := (Prod.mk.inj hk).2
  obtain ⟨_, _, hgone, hidx, hpdp, huf, hus, _⟩ :=
    deleteFile_reclaims env (storeFilesBody env globalParam st fileInfo).1 f hdel
  rw [hown, hhash] at hgone
  rw [hhash] at hidx
  rw [hown, hhash] at hpdp
  refine ⟨fun hu => ?_, fun hu => ?_, hgone, hidx, hpdp⟩
  · obtain ⟨space, hs, hlt, hst1⟩ := storeFilesBody_useSpace_shape hu hstore
    have hso : space.SpaceOwner = fileInfo.FileOwner :=
      getAndUpdateSpaceInfo_owner (fun s => (hupd s).2) hs
    have hsv : space.RestVol < W64 :=
      getAndUpdateSpaceInfo_restVol (fun s => (hupd s).1) hu64 hs
    -- the stored entity
    have hf : f = { fileInfo with
        FileCost := 0
        ValidFlag := true
        TimeStart := env.time
        PdpInterval := space.PdpInterval } := by
      rw [hst1] at hfile
      have h2 := tget_tput_self fileKey
        ({ fileInfo with
            FileCost := 0
            ValidFlag := true
            TimeStart := env.time
            PdpInterval := space.PdpInterval } : FileInfo)
        (addSpaceInfo st
          { space with
            RestVol :=
              sub64 space.RestVol (mul64 fileInfo.FileBlockCount env.DefaultPerBlockSize) }).files
      have h3 : tget fileKey (fileInfo.FileOwner, fileInfo.FileHash)
          (setFileOwner
            (addFileInfo
              (addSpaceInfo st
                { space with
                  RestVol :=
                    sub64 space.RestVol
                      (mul64 fileInfo.FileBlockCount env.DefaultPerBlockSize) })
              { fileInfo with
                FileCost := 0
                ValidFlag := true
                TimeStart := env.time
                PdpInterval := space.PdpInterval })
            fileInfo.FileHash fileInfo.FileOwner).files = some
              { fileInfo with
                FileCost := 0
                ValidFlag := true
                TimeStart := env.time
                PdpInterval := space.PdpInterval } := h2
      rw [h3] at hfile
      exact (Option.some.inj hfile).symm
    have hft : f.StorageType = StorageType.UseSpace := by rw [hf]; exact hu
    have hfb : f.FileBlockCount = fileInfo.FileBlockCount := by rw [hf]
    obtain ⟨hcalls, hbal, space1, hs1, hsp⟩ := hus hft
    rw [hfb] at hsp
    rw [hown] at hs1
    -- the lease read back after the store
    have hread : getAndUpdateSpaceInfo env (storeFilesBody env globalParam st fileInfo).1
        fileInfo.FileOwner =
        some (env.updateSpace
          { space with
            RestVol :=
              sub64 space.RestVol (mul64 fileInfo.FileBlockCount env.DefaultPerBlockSize) }) := by
      rw [hst1, ← hso]
      exact getAndUpdateSpaceInfo_addSpaceInfo env st
        { space with
          RestVol :=
            sub64 space.RestVol (mul64 fileInfo.FileBlockCount env.DefaultPerBlockSize) }
    rw [hread] at hs1
    have hs1e := (Option.some.inj hs1).symm
    have hown1 : space1.SpaceOwner = fileInfo.FileOwner := by
      rw [hs1e, (hupd _).2]
      exact hso
    have hvol1 : space1.RestVol =
        sub64 space.RestVol (mul64 fileInfo.FileBlockCount env.DefaultPerBlockSize) := by
      rw [hs1e, (hupd _).1]
    refine ⟨space, env.updateSpace
      { space1 with
        RestVol :=
          add64 space1.RestVol (mul64 fileInfo.FileBlockCount env.DefaultPerBlockSize) },
      hs, ?_, ?_, ?_, ?_⟩
    · unfold getAndUpdateSpaceInfo
      rw [hsp]
      have h4 := tget_tput_self SpaceInfo.SpaceOwner
        ({ space1 with
          RestVol :=
            add64 space1.RestVol (mul64 fileInfo.FileBlockCount env.DefaultPerBlockSize) } :
          SpaceInfo)
        (storeFilesBody env globalParam st fileInfo).1.spaces
      dsimp only at h4
      rw [← hown1, h4]
      rfl
    · rw [(hupd _).1]
      dsimp only
      rw [hvol1]
      exact add64_sub64_cancel hlt hsv
    · rw [hcalls, hst1]
      rfl
    · rw [hbal, hst1]
      rfl
  · have hst1 := storeFilesBody_useFile_shape hu hstore
    have hf : f = { fileInfo with
        FileCost := 0
        ValidFlag := true
        TimeStart := env.time
        PayAmount := env.calcTotalFilePayAmountByFile
          { fileInfo with FileCost := 0, ValidFlag := true, TimeStart := env.time }
          globalParam.GasPerKbForSaveWithFile
        RestAmount := env.calcTotalFilePayAmountByFile
          { fileInfo with FileCost := 0, ValidFlag := true, TimeStart := env.time }
          globalParam.GasPerKbForSaveWithFile } := by
      rw [hst1] at hfile
      have h3 : tget fileKey (fileInfo.FileOwner, fileInfo.FileHash)
          (setFileOwner
            (addFileInfo
              (appCallTransfer st fileInfo.FileOwner env.contract
                (env.calcTotalFilePayAmountByFile
                  { fileInfo with FileCost := 0, ValidFlag := true, TimeStart := env.time }
                  globalParam.GasPerKbForSaveWithFile)).1
              { fileInfo with
                FileCost := 0
                ValidFlag := true
                TimeStart := env.time
                PayAmount := env.calcTotalFilePayAmountByFile
                  { fileInfo with FileCost := 0, ValidFlag := true, TimeStart := env.time }
                  globalParam.GasPerKbForSaveWithFile
                RestAmount := env.calcTotalFilePayAmountByFile
                  { fileInfo with FileCost := 0, ValidFlag := true, TimeStart := env.time }
                  globalParam.GasPerKbForSaveWithFile })
            fileInfo.FileHash fileInfo.FileOwner).files = some
              { fileInfo with
                FileCost := 0
                ValidFlag := true
                TimeStart := env.time
                PayAmount := env.calcTotalFilePayAmountByFile
                  { fileInfo with FileCost := 0, ValidFlag := true, TimeStart := env.time }
                  globalParam.GasPerKbForSaveWithFile
                RestAmount := env.calcTotalFilePayAmountByFile
                  { fileInfo with FileCost := 0, ValidFlag := true, TimeStart := env.time }
                  globalParam.GasPerKbForSaveWithFile } :=
        tget_tput_self fileKey _ _
      rw [h3] at hfile
      exact (Option.some.inj hfile).symm
    have hft : f.StorageType = StorageType.UseFile := by rw [hf]; exact hu
    have hfr : f.RestAmount = env.calcTotalFilePayAmountByFile
        { fileInfo with FileCost := 0, ValidFlag := true, TimeStart := env.time }
        globalParam.GasPerKbForSaveWithFile := by rw [hf]
    obtain ⟨hcalls, _, _⟩ := huf hft
    rw [hown, hfr] at hcalls
    have hc1 : (storeFilesBody env globalParam st fileInfo).1.calls =
        st.calls ++ [⟨fileInfo.FileOwner, env.contract,
          env.calcTotalFilePayAmountByFile
            { fileInfo with FileCost := 0, ValidFlag := true, TimeStart := env.time }
            globalParam.GasPerKbForSaveWithFile⟩] := by
      rw [hst1]
      exact appCallTransfer_calls _ _ _ _
    refine ⟨_, hc1, ?_⟩
    rw [hcalls, hc1, List.append_assoc]
    rfl

/-- A one-block file of account 7 is charged to its lease (`RestVol` 1000, then
744) and deleted again; and a one-block pay-per-file entry of account 7 is
stored for 256 and deleted again. -/
theorem C14_store_delete_roundtrip_witness :
    (∀ s, (exEnv.updateSpace s).RestVol = s.RestVol ∧
      (exEnv.updateSpace s).SpaceOwner = s.SpaceOwner) ∧
    (∀ s ∈ exLeaseState.spaces, s.RestVol < W64) ∧
    (storeFilesBody exEnv ⟨1, 1, 1⟩ exLeaseState exUseSpaceFile).2 = true ∧
    tget fileKey (7, [1]) (storeFilesBody exEnv ⟨1, 1, 1⟩ exLeaseState exUseSpaceFile).1.files =
      some exUseSpaceFile ∧
    (deleteFile exEnv (storeFilesBody exEnv ⟨1, 1, 1⟩ exLeaseState exUseSpaceFile).1
      exUseSpaceFile).2 = true ∧
    (getAndUpdateSpaceInfo exEnv exLeaseState 7).map SpaceInfo.RestVol = some 1000 ∧
    (getAndUpdateSpaceInfo exEnv (storeFilesBody exEnv ⟨1, 1, 1⟩ exLeaseState exUseSpaceFile).1
      7).map SpaceInfo.RestVol = some 744 ∧
    (∃ space space2,
      getAndUpdateSpaceInfo exEnv exLeaseState 7 = some space ∧
      getAndUpdateSpaceInfo exEnv
        (deleteFile exEnv (storeFilesBody exEnv ⟨1, 1, 1⟩ exLeaseState exUseSpaceFile).1
          exUseSpaceFile).1 7 = some space2 ∧
      space2.RestVol = space.RestVol ∧
      (deleteFile exEnv (storeFilesBody exEnv ⟨1, 1, 1⟩ exLeaseState exUseSpaceFile).1
        exUseSpaceFile).1.calls = exLeaseState.calls ∧
      (deleteFile exEnv (storeFilesBody exEnv ⟨1, 1, 1⟩ exLeaseState exUseSpaceFile).1
        exUseSpaceFile).1.balances = exLeaseState.balances) ∧
    (storeFilesBody exEnv ⟨1, 1, 1⟩ exState paidFile).2 = true ∧
    (deleteFile exEnv (storeFilesBody exEnv ⟨1, 1, 1⟩ exState paidFile).1 paidFile).2 = true ∧
    (∃ payAmount,
      (storeFilesBody exEnv ⟨1, 1, 1⟩ exState paidFile).1.calls =
        exState.calls ++ [⟨7, exEnv.contract, payAmount⟩] ∧
      (deleteFile exEnv (storeFilesBody exEnv ⟨1, 1, 1⟩ exState paidFile).1 paidFile).1.calls =
        exState.calls ++ [⟨7, exEnv.contract, payAmount⟩, ⟨exEnv.contract, 7, payAmount⟩]) :=
  ⟨fun _ => ⟨rfl, rfl⟩, by decide, by decide, by decide, by decide, by decide, by decide,
    (C14_store_delete_roundtrip exEnv ⟨1, 1, 1⟩ exLeaseState exUseSpaceFile exUseSpaceFile
      (fun _ => ⟨rfl, rfl⟩) (by decide) (by decide) (by decide) (by decide)).1 rfl,
    by decide, by decide,
    (C14_store_delete_roundtrip exEnv ⟨1, 1, 1⟩ exState paidFile paidFile
      (fun _ => ⟨rfl, rfl⟩) (by decide) (by decide) (by decide) (by decide)).2.1 rfl⟩

/-! ## deleteFile: settlement of the proof records -/

/-- C12, evaluation.  The file of account 7 has an unsettled proof record of
node 9 and a settled one of node 6, and the contract account holds nothing.
`deleteFile` credits node 9 with one block (256) and then fails at the refund;
the proof records are stored as before, the record of node 9 still unsettled.
After another account has stored a file (which funds the contract) `deleteFile`
is invoked again and succeeds: node 9 has been credited 512, twice the volume
of the file, while node 6 was never credited. -/
theorem C12_retry_credits_again :
    getPdpRecordList owedState [1] 7 = [⟨[1], 7, 9, false⟩, ⟨[1], 7, 6, true⟩] ∧
    getNodeInfo owedState 9 = some ⟨9, 1000, 0⟩ ∧
    (deleteFile exEnv owedState paidFile).2 = false ∧
    (deleteFile exEnv owedState paidFile).1.errInfos =
      [([1], "[APP SDK] DeleteFile AppCallTransfer, transfer error!")] ∧
    getNodeInfo (deleteFile exEnv owedState paidFile).1 9 = some ⟨9, 1000, 256⟩ ∧
    getPdpRecordList (deleteFile exEnv owedState paidFile).1 [1] 7 =
      [⟨[1], 7, 9, false⟩, ⟨[1], 7, 6, true⟩] ∧
    (storeFilesBody exEnv ⟨1, 1, 1⟩ (deleteFile exEnv owedState paidFile).1 otherFile).2 = true ∧
    (deleteFile exEnv
      (storeFilesBody exEnv ⟨1, 1, 1⟩ (deleteFile exEnv owedState paidFile).1 otherFile).1
      paidFile).2 = true ∧
    getNodeInfo (deleteFile exEnv
      (storeFilesBody exEnv ⟨1, 1, 1⟩ (deleteFile exEnv owedState paidFile).1 otherFile).1
      paidFile).1 9 = some ⟨9, 1000, 512⟩ ∧
    getNodeInfo (deleteFile exEnv
      (storeFilesBody exEnv ⟨1, 1, 1⟩ (deleteFile exEnv owedState paidFile).1 otherFile).1
      paidFile).1 6 = some ⟨6, 1000, 0⟩ ∧
    paidFile.FileBlockCount * exEnv.DefaultPerBlockSize = 256 := by
  decide

/-- C13, evaluation.  The only proof record of the file of account 7 is
settled and its node 6 is not registered: `deleteFile` fails with the error of
the node lookup and the file stays stored, also through `FsDeleteFiles`; with
node 6 registered the same call succeeds and leaves the capacity of node 6
untouched. -/
theorem C13_settled_record_fails :
    getPdpRecordList orphanState [1] 7 = [⟨[1], 7, 6, true⟩] ∧
    getNodeInfo orphanState 6 = none ∧
    (deleteFile exEnv orphanState paidFile).2 = false ∧
    (deleteFile exEnv orphanState paidFile).1.errInfos =
      [([1], "[APP SDK] DeleteFile getNodeInfo error")] ∧
    (deleteFile exEnv orphanState paidFile).1.files = orphanState.files ∧
    (deleteFile exEnv orphanState paidFile).1.balances = orphanState.balances ∧
    (FsDeleteFiles exEnv orphanState (.ok [⟨[1]⟩])).2.events =
      [[([1], "[APP SDK] DeleteFile getNodeInfo error")]] ∧
    getFileInfoByHash exEnv (FsDeleteFiles exEnv orphanState (.ok [⟨[1]⟩])).2 [1] =
      some paidFile ∧
    (deleteFile exEnv settledState paidFile).2 = true ∧
    getNodeInfo (deleteFile exEnv settledState paidFile).1 6 =
      some ⟨6, 1000, 0⟩ := by
  decide

/-! ## Batch isolation -/

section StoredCongruence

variable {st st1 : State}

theorem stored_fields (h : stored st = stored st1) :
    st.globalParam = st1.globalParam ∧ st.spaces = st1.spaces ∧ st.files = st1.files ∧
    st.fileOwners = st1.fileOwners ∧ st.pdpRecords = st1.pdpRecords ∧ st.nodes = st1.nodes ∧
    st.readPledges = st1.readPledges ∧ st.balances = st1.balances :=
  (stored_eq_iff st1 st).1 h

theorem stored_AddObjectError (st : State) (object : Hash) (errInfo : String) :
    stored (AddObjectError st object errInfo) = stored st := rfl

theorem stored_congr_AddObjectError (h : stored st = stored st1) (o1 o2 : Hash) (e1 e2 : String) :
    stored (AddObjectError st o1 e1) = stored (AddObjectError st1 o2 e2) := h

theorem getNodeInfo_stored (h : stored st = stored st1) (a : Address) :
    getNodeInfo st a = getNodeInfo st1 a := by
  unfold getNodeInfo
  rw [(stored_fields h).2.2.2.2.2.1]

theorem getAndUpdateSpaceInfo_stored (env : Env) (h : stored st = stored st1) (a : Address) :
    getAndUpdateSpaceInfo env st a = getAndUpdateSpaceInfo env st1 a := by
  unfold getAndUpdateSpaceInfo
  rw [(stored_fields h).2.1]

theorem getAndUpdateFileInfo_stored (env : Env) (h : stored st = stored st1) (a : Address)
    (hash : Hash) : getAndUpdateFileInfo env st a hash = getAndUpdateFileInfo env st1 a hash := by
  unfold getAndUpdateFileInfo
  rw [(stored_fields h).2.2.1]

theorem getFileInfoByHash_stored (env : Env) (h : stored st = stored st1) (hash : Hash) :
    getFileInfoByHash env st hash = getFileInfoByHash env st1 hash := by
  unfold getFileInfoByHash getFileOwner
  rw [(stored_fields h).2.2.2.1]
  split
  · rfl
  · exact getAndUpdateFileInfo_stored env h _ _

theorem getPdpRecordList_stored (h : stored st = stored st1) (hash : Hash) (a : Address) :
    getPdpRecordList st hash a = getPdpRecordList st1 hash a := by
  unfold getPdpRecordList
  rw [(stored_fields h).2.2.2.2.1]

theorem balanceOf_stored (h : stored st = stored st1) (a : Address) :
    balanceOf st a = balanceOf st1 a := by
  unfold balanceOf
  rw [(stored_fields h).2.2.2.2.2.2.2]

theorem stored_addNodeInfo (h : stored st = stored st1) (n : FsNodeInfo) :
    stored (addNodeInfo st n) = stored (addNodeInfo st1 n) := by
  obtain ⟨h1, h2, h3, h4, h5, h6, h7, h8⟩ := stored_fields h
  unfold stored addNodeInfo
  dsimp only
  rw [h1, h2, h3, h4, h5, h6, h7, h8]

theorem stored_addSpaceInfo (h : stored st = stored st1) (s : SpaceInfo) :
    stored (addSpaceInfo st s) = stored (addSpaceInfo st1 s) := by
  obtain ⟨h1, h2, h3, h4, h5, h6, h7, h8⟩ := stored_fields h
  unfold stored addSpaceInfo
  dsimp only
  rw [h1, h2, h3, h4, h5, h6, h7, h8]

theorem stored_addFileInfo (h : stored st = stored st1) (f : FileInfo) :
    stored (addFileInfo st f) = stored (addFileInfo st1 f) := by
  obtain ⟨h1, h2, h3, h4, h5, h6, h7, h8⟩ := stored_fields h
  unfold stored addFileInfo
  dsimp only
  rw [h1, h2, h3, h4, h5, h6, h7, h8]

theorem stored_delFileInfo (h : stored st = stored st1) (a : Address) (hash : Hash) :
    stored (delFileInfo st a hash) = stored (delFileInfo st1 a hash) := by
  obtain ⟨h1, h2, h3, h4, h5, h6, h7, h8⟩ := stored_fields h
  unfold stored delFileInfo
  dsimp only
  rw [h1, h2, h3, h4, h5, h6, h7, h8]

theorem stored_setFileOwner (h : stored st = stored st1) (hash : Hash) (a : Address) :
    stored (setFileOwner st hash a) = stored (setFileOwner st1 hash a) := by
  obtain ⟨h1, h2, h3, h4, h5, h6, h7, h8⟩ := stored_fields h
  unfold stored setFileOwner
  dsimp only
  rw [h1, h2, h3, h4, h5, h6, h7, h8]

theorem stored_delFileOwner (h : stored st = stored st1) (hash : Hash) :
    stored (delFileOwner st hash) = stored (delFileOwner st1 hash) := by
  obtain ⟨h1, h2, h3, h4, h5, h6, h7, h8⟩ := stored_fields h
  unfold stored delFileOwner
  dsimp only
  rw [h1, h2, h3, h4, h5, h6, h7, h8]

theorem stored_delPdpRecordList (h : stored st = stored st1) (hash : Hash) (a : Address) :
    stored (delPdpRecordList st hash a) = stored (delPdpRecordList st1 hash a) := by
  obtain ⟨h1, h2, h3, h4, h5, h6, h7, h8⟩ := stored_fields h
  unfold stored delPdpRecordList
  dsimp only
  rw [h1, h2, h3, h4, h5, h6, h7, h8]

theorem stored_delPdpRecord (h : stored st = stored st1) (hash : Hash) (a b : Address) :
    stored (delPdpRecord st hash a b) = stored (delPdpRecord st1 hash a b) := by
  obtain ⟨h1, h2, h3, h4, h5, h6, h7, h8⟩ := stored_fields h
  unfold stored delPdpRecord
  dsimp only
  rw [h1, h2, h3, h4, h5, h6, h7, h8]

theorem stored_addPdpRecord (h : stored st = stored st1) (r : PdpRecord) :
    stored (addPdpRecord st r) = stored (addPdpRecord st1 r) := by
  obtain ⟨h1, h2, h3, h4, h5, h6, h7, h8⟩ := stored_fields h
  unfold stored addPdpRecord
  dsimp only
  rw [h1, h2, h3, h4, h5, h6, h7, h8]

theorem appCallTransfer_stored (h : stored st = stored st1) (a b : Address) (n : Nat) :
    stored (appCallTransfer st a b n).1 = stored (appCallTransfer st1 a b n).1 ∧
      (appCallTransfer st a b n).2 = (appCallTransfer st1 a b n).2 := by
  have hflag : (appCallTransfer st a b n).2 = (appCallTransfer st1 a b n).2 := by
    rw [appCallTransfer_snd, appCallTransfer_snd, balanceOf_stored h]
  refine ⟨?_, hflag⟩
  obtain ⟨h1, h2, h3, h4, h5, h6, h7, h8⟩ := stored_fields h
  have hb : balanceOf { st with calls := st.calls ++ [⟨a, b, n⟩] } a =
      balanceOf { st1 with calls := st1.calls ++ [⟨a, b, n⟩] } a := balanceOf_stored h a
  unfold appCallTransfer assetTransfer
  dsimp only
  rw [hb]
  by_cases hlt : balanceOf { st1 with calls := st1.calls ++ [⟨a, b, n⟩] } a < n
  · simp only [if_pos hlt]
    exact h
  · simp only [if_neg hlt]
    unfold stored balanceOf
    dsimp only
    rw [h1, h2, h3, h4, h5, h6, h7, h8]

end StoredCongruence

section StoredCongruence

variable {st st1 : State}

theorem deleteFileLoop_stored (env : Env) (f : FileInfo) (l : List PdpRecord)
    (h : stored st = stored st1) :
    stored (deleteFileLoop env f l st).1 = stored (deleteFileLoop env f l st1).1 ∧
      (deleteFileLoop env f l st).2 = (deleteFileLoop env f l st1).2 := by
  induction l generalizing st st1 with
  | nil => exact ⟨h, rfl⟩
  | cons r rest ih =>
    unfold deleteFileLoop
    rw [getNodeInfo_stored h]
    cases getNodeInfo st1 r.NodeAddr with
    | none => exact ⟨h, rfl⟩
    | some nodeInfo =>
      dsimp only
      by_cases hs : r.SettleFlag = false
      · simp only [if_pos hs]
        exact ih (stored_addNodeInfo h _)
      · simp only [if_neg hs]
        exact ih h

theorem deleteFileRefund_stored (env : Env) (f : FileInfo) (h : stored st = stored st1) :
    stored (deleteFileRefund env st f).1 = stored (deleteFileRefund env st1 f).1 ∧
      (deleteFileRefund env st f).2 = (deleteFileRefund env st1 f).2 := by
  unfold deleteFileRefund
  cases f.StorageType with
  | UseFile =>
    dsimp only
    obtain ⟨hs, hf⟩ := appCallTransfer_stored h env.contract f.FileOwner f.RestAmount
    rw [hf]
    by_cases hc : (appCallTransfer st1 env.contract f.FileOwner f.RestAmount).2 = false
    · simp only [if_pos hc]
      exact ⟨hs, trivial⟩
    · simp only [if_neg hc]
      exact ⟨hs, trivial⟩
  | UseSpace =>
    dsimp only
    rw [getAndUpdateSpaceInfo_stored env h]
    cases getAndUpdateSpaceInfo env st1 f.FileOwner with
    | none => exact ⟨h, rfl⟩
    | some space => exact ⟨stored_addSpaceInfo h _, rfl⟩
  | other code => exact ⟨h, rfl⟩

theorem stored_deleteFilePurge (f : FileInfo) (h : stored st = stored st1) :
    stored (deleteFilePurge st f) = stored (deleteFilePurge st1 f) := by
  unfold deleteFilePurge
  exact stored_delPdpRecordList (stored_delFileOwner (stored_delFileInfo h _ _) _) _ _

theorem deleteFile_stored (env : Env) (f : FileInfo) (h : stored st = stored st1) :
    stored (deleteFile env st f).1 = stored (deleteFile env st1 f).1 ∧
      (deleteFile env st f).2 = (deleteFile env st1 f).2 := by
  unfold deleteFile
  dsimp only
  rw [getPdpRecordList_stored h]
  obtain ⟨hl, hlf⟩ := deleteFileLoop_stored env f (getPdpRecordList st1 f.FileHash f.FileOwner) h
  rw [hlf]
  by_cases hc : (deleteFileLoop env f (getPdpRecordList st1 f.FileHash f.FileOwner) st1).2 = false
  · simp only [if_pos hc]
    exact ⟨hl, trivial⟩
  · simp only [if_neg hc]
    obtain ⟨hr, hrf⟩ := deleteFileRefund_stored env f hl
    rw [hrf]
    by_cases hc2 : (deleteFileRefund env
        (deleteFileLoop env f (getPdpRecordList st1 f.FileHash f.FileOwner) st1).1 f).2 = false
    · simp only [if_pos hc2]
      exact ⟨hr, trivial⟩
    · simp only [if_neg hc2]
      exact ⟨stored_deleteFilePurge f hr, trivial⟩

theorem storeFilesBody_stored (env : Env) (globalParam : FsGlobalParam) (f : FileInfo)
    (h : stored st = stored st1) :
    stored (storeFilesBody env globalParam st f).1 = stored (storeFilesBody env globalParam st1 f).1 ∧
      (storeFilesBody env globalParam st f).2 = (storeFilesBody env globalParam st1 f).2 := by
  unfold storeFilesBody
  dsimp only
  cases f.StorageType with
  | UseSpace =>
    dsimp only
    rw [getAndUpdateSpaceInfo_stored env h]
    cases getAndUpdateSpaceInfo env st1 f.FileOwner with
    | none => exact ⟨h, rfl⟩
    | some space =>
      dsimp only
      by_cases hv : space.ValidFlag = false
      · simp only [if_pos hv]
        exact ⟨h, trivial⟩
      · simp only [if_neg hv]
        by_cases hr : space.RestVol ≤ mul64 f.FileBlockCount env.DefaultPerBlockSize
        · simp only [if_pos hr]
          exact ⟨h, trivial⟩
        · simp only [if_neg hr]
          exact ⟨stored_setFileOwner (stored_addFileInfo (stored_addSpaceInfo h _) _) _ _, trivial⟩
  | UseFile =>
    dsimp only
    generalize env.calcTotalFilePayAmountByFile _ globalParam.GasPerKbForSaveWithFile = amt
    obtain ⟨hs, hf⟩ := appCallTransfer_stored h f.FileOwner env.contract amt
    rw [hf]
    by_cases hc : (appCallTransfer st1 f.FileOwner env.contract amt).2 = false
    · simp only [if_pos hc]
      exact ⟨hs, trivial⟩
    · simp only [if_neg hc]
      exact ⟨stored_setFileOwner (stored_addFileInfo hs _) _ _, trivial⟩
  | other code => exact ⟨h, rfl⟩

theorem storeFilesItem_stored (env : Env) (globalParam : FsGlobalParam) (f : FileInfo)
    (h : stored st = stored st1) :
    stored (storeFilesItem env globalParam st f).1 = stored (storeFilesItem env globalParam st1 f).1 ∧
      (storeFilesItem env globalParam st f).2 = (storeFilesItem env globalParam st1 f).2 := by
  unfold storeFilesItem
  by_cases hw : env.CheckWitness f.FileOwner = false
  · simp only [if_pos hw]
    exact ⟨h, trivial⟩
  simp only [if_neg hw]
  by_cases hp : f.PdpInterval = 0
  · simp only [if_pos hp]
    exact ⟨h, trivial⟩
  simp only [if_neg hp]
  by_cases ht : f.TimeExpired < env.time
  · simp only [if_pos ht]
    exact ⟨h, trivial⟩
  simp only [if_neg ht]
  rw [getAndUpdateFileInfo_stored env h]
  cases getAndUpdateFileInfo env st1 f.FileOwner f.FileHash with
  | none => exact storeFilesBody_stored env globalParam f h
  | some fileExist =>
    dsimp only
    by_cases hv : fileExist.ValidFlag = false
    · simp only [if_pos hv]
      obtain ⟨hd, hdf⟩ := deleteFile_stored env fileExist h
      rw [hdf]
      by_cases hc : (deleteFile env st1 fileExist).2 = false
      · simp only [if_pos hc]
        exact ⟨hd, trivial⟩
      · simp only [if_neg hc]
        exact storeFilesBody_stored env globalParam f hd
    · simp only [if_neg hv]
      exact ⟨h, trivial⟩

theorem renewFilesItem_stored (env : Env) (globalParam : FsGlobalParam) (x : FileReNew)
    (h : stored st = stored st1) :
    stored (renewFilesItem env globalParam st x).1 = stored (renewFilesItem env globalParam st1 x).1 ∧
      (renewFilesItem env globalParam st x).2 = (renewFilesItem env globalParam st1 x).2 := by
  unfold renewFilesItem
  by_cases hw : env.CheckWitness x.Payer = false
  · simp only [if_pos hw]
    exact ⟨h, trivial⟩
  simp only [if_neg hw]
  rw [getAndUpdateFileInfo_stored env h]
  cases getAndUpdateFileInfo env st1 x.FileOwner x.FileHash with
  | none => exact ⟨h, rfl⟩
  | some fileInfo =>
    dsimp only
    by_cases hu : fileInfo.StorageType = StorageType.UseFile
    · simp only [if_pos hu]
      by_cases hv : fileInfo.ValidFlag = false
      · simp only [if_pos hv]
        exact ⟨h, trivial⟩
      simp only [if_neg hv]
      by_cases hn : env.calcTotalFilePayAmountByFile
          { fileInfo with TimeExpired := x.NewTimeExpired }
          globalParam.GasPerKbForSaveWithFile < fileInfo.PayAmount
      · simp only [if_pos hn]
        exact ⟨h, trivial⟩
      simp only [if_neg hn]
      obtain ⟨hs, hf⟩ := appCallTransfer_stored h x.Payer env.contract
        (sub64 (env.calcTotalFilePayAmountByFile
          { fileInfo with TimeExpired := x.NewTimeExpired }
          globalParam.GasPerKbForSaveWithFile) fileInfo.PayAmount)
      rw [hf]
      by_cases hc : (appCallTransfer st1 x.Payer env.contract
          (sub64 (env.calcTotalFilePayAmountByFile
            { fileInfo with TimeExpired := x.NewTimeExpired }
            globalParam.GasPerKbForSaveWithFile) fileInfo.PayAmount)).2 = false
      · simp only [if_pos hc]
        exact ⟨hs, trivial⟩
      · simp only [if_neg hc]
        exact ⟨stored_addFileInfo hs _, trivial⟩
    · simp only [if_neg hu]
      exact ⟨h, trivial⟩

theorem deleteFilesItem_stored (env : Env) (x : FileDel) (h : stored st = stored st1) :
    stored (deleteFilesItem env st x).1 = stored (deleteFilesItem env st1 x).1 ∧
      (deleteFilesItem env st x).2 = (deleteFilesItem env st1 x).2 := by
  unfold deleteFilesItem
  rw [getFileInfoByHash_stored env h]
  cases getFileInfoByHash env st1 x.FileHash with
  | none => exact ⟨h, rfl⟩
  | some fileInfo =>
    dsimp only
    by_cases hw : env.CheckWitness fileInfo.FileOwner = false
    · simp only [if_pos hw]
      exact ⟨h, trivial⟩
    · simp only [if_neg hw]
      exact deleteFile_stored env fileInfo h

theorem transferPdpLoop_stored (newOwner : Address) (l : List PdpRecord)
    (h : stored st = stored st1) :
    stored (transferPdpLoop newOwner l st) = stored (transferPdpLoop newOwner l st1) := by
  induction l generalizing st st1 with
  | nil => exact h
  | cons r rest ih =>
    unfold transferPdpLoop
    exact ih (stored_addPdpRecord (stored_delPdpRecord h _ _ _) _)

theorem transferFilesItem_stored (env : Env) (x : FileTransfer) (h : stored st = stored st1) :
    stored (transferFilesItem env st x).1 = stored (transferFilesItem env st1 x).1 ∧
      (transferFilesItem env st x).2 = (transferFilesItem env st1 x).2 := by
  unfold transferFilesItem
  by_cases hw : env.CheckWitness x.OriOwner = false
  · simp only [if_pos hw]
    exact ⟨h, trivial⟩
  simp only [if_neg hw]
  rw [getAndUpdateFileInfo_stored env h]
  cases getAndUpdateFileInfo env st1 x.OriOwner x.FileHash with
  | none => exact ⟨h, rfl⟩
  | some fileInfo =>
    dsimp only
    by_cases hv : fileInfo.ValidFlag = false
    · simp only [if_pos hv]
      exact ⟨h, trivial⟩
    simp only [if_neg hv]
    by_cases hu : fileInfo.StorageType ≠ StorageType.UseFile
    · simp only [if_pos hu]
      exact ⟨h, trivial⟩
    simp only [if_neg hu]
    by_cases ho : fileInfo.FileOwner ≠ x.OriOwner
    · simp only [if_pos ho]
      exact ⟨h, trivial⟩
    simp only [if_neg ho]
    have h1 := stored_addFileInfo (stored_delFileInfo h x.OriOwner x.FileHash)
      { fileInfo with FileOwner := x.NewOwner }
    rw [getPdpRecordList_stored h1]
    exact ⟨stored_setFileOwner (stored_delFileOwner (transferPdpLoop_stored _ _ h1) _) _ _, trivial⟩

end StoredCongruence

theorem deleteFileLoop_readPledges (env : Env) (f : FileInfo) (l : List PdpRecord) (st : State) :
    (deleteFileLoop env f l st).1.readPledges = st.readPledges := by
  induction l generalizing st with
  | nil => rfl
  | cons r rest ih =>
    unfold deleteFileLoop
    cases getNodeInfo st r.NodeAddr with
    | none => rfl
    | some nodeInfo =>
      dsimp only
      split
      · rw [ih]; rfl
      · exact ih st

/-- The loop of `deleteFile` changes no node when every record is settled. -/
theorem deleteFileLoop_settled (env : Env) (f : FileInfo) (l : List PdpRecord) (st : State)
    (hs : ∀ r ∈ l, r.SettleFlag = true) : (deleteFileLoop env f l st).1.nodes = st.nodes := by
  induction l generalizing st with
  | nil => rfl
  | cons r rest ih =>
    unfold deleteFileLoop
    cases getNodeInfo st r.NodeAddr with
    | none => rfl
    | some nodeInfo =>
      dsimp only
      have hr : ¬ r.SettleFlag = false := by
        rw [hs r (List.mem_cons_self _ _)]
        exact Bool.noConfusion
      rw [if_neg hr]
      exact ih st (fun x hx => hs x (List.mem_cons_of_mem _ hx))

/-- With the nodes put back, the loop of `deleteFile` has changed nothing
stored. -/
theorem deleteFileLoop_stored_nodes (env : Env) (f : FileInfo) (l : List PdpRecord) (st : State) :
    stored { (deleteFileLoop env f l st).1 with nodes := st.nodes } = stored st := by
  obtain ⟨h1, h2, h3, h4, h5, h6, _, _⟩ := deleteFileLoop_frame env f l st
  have h7 := deleteFileLoop_readPledges env f l st
  unfold stored
  dsimp only
  rw [h1, h2, h3, h4, h5, h6, h7]

/-- A failing refund step of `deleteFile` changes nothing stored. -/
theorem deleteFileRefund_fail_stored {env : Env} {st : State} {f : FileInfo}
    (h : (deleteFileRefund env st f).2 = false) :
    stored (deleteFileRefund env st f).1 = stored st := by
  revert h
  unfold deleteFileRefund
  dsimp only
  repeat' split
  all_goals intro h
  all_goals first
    | rfl
    | exact appCallTransfer_fail_stored (by assumption)
    | cases h

/-- A failing `deleteFile` has changed nothing stored apart from node
capacities, and not those either when every proof record of the file is
settled. -/
theorem deleteFile_fail_stored {env : Env} {st : State} {f : FileInfo}
    (h : (deleteFile env st f).2 = false) :
    stored { (deleteFile env st f).1 with nodes := st.nodes } = stored st ∧
    ((∀ r ∈ getPdpRecordList st f.FileHash f.FileOwner, r.SettleFlag = true) →
      stored (deleteFile env st f).1 = stored st) := by
  have hloop := deleteFileLoop_stored_nodes env f (getPdpRecordList st f.FileHash f.FileOwner) st
  have key : ∀ st2 : State,
      stored st2 = stored (deleteFileLoop env f (getPdpRecordList st f.FileHash f.FileOwner) st).1 →
      stored { st2 with nodes := st.nodes } = stored st ∧
      ((∀ r ∈ getPdpRecordList st f.FileHash f.FileOwner, r.SettleFlag = true) →
        stored st2 = stored st) := by
    intro st2 h2
    obtain ⟨h1, h2', h3, h4, h5, h6, h7, h8⟩ := stored_fields h2
    obtain ⟨g1, g2, g3, g4, g5, _, g7, g8⟩ := stored_fields hloop
    dsimp only at g1 g2 g3 g4 g5 g7 g8
    refine ⟨?_, fun hs => ?_⟩
    · unfold stored
      dsimp only
      rw [h1, h2', h3, h4, h5, h7, h8, g1, g2, g3, g4, g5, g7, g8]
    · have hn := deleteFileLoop_settled env f _ st hs
      unfold stored
      rw [h1, h2', h3, h4, h5, h6, h7, h8, g1, g2, g3, g4, g5, g7, g8, hn]
  revert h
  unfold deleteFile
  dsimp only
  by_cases hc : (deleteFileLoop env f (getPdpRecordList st f.FileHash f.FileOwner) st).2 = false
  · simp only [if_pos hc]
    intro _
    exact key _ rfl
  · simp only [if_neg hc]
    by_cases hc2 : (deleteFileRefund env
        (deleteFileLoop env f (getPdpRecordList st f.FileHash f.FileOwner) st).1 f).2 = false
    · simp only [if_pos hc2]
      intro _
      exact key _ (deleteFileRefund_fail_stored hc2)
    · simp only [if_neg hc2]
      intro h
      cases h

/-- A failing store step changes nothing stored. -/
theorem storeFilesBody_fail_stored {env : Env} {globalParam : FsGlobalParam} {st : State}
    {f : FileInfo} (h : (storeFilesBody env globalParam st f).2 = false) :
    stored (storeFilesBody env globalParam st f).1 = stored st := by
  revert h
  unfold storeFilesBody
  dsimp only
  repeat' split
  all_goals intro h
  all_goals first
    | rfl
    | exact appCallTransfer_fail_stored (by assumption)
    | cases h

/-- A failing item of `FsRenewFiles` changes nothing stored. -/
theorem renewFilesItem_fail_stored {env : Env} {globalParam : FsGlobalParam} {st : State}
    {x : FileReNew} (h : (renewFilesItem env globalParam st x).2 = false) :
    stored (renewFilesItem env globalParam st x).1 = stored st := by
  revert h
  unfold renewFilesItem
  dsimp only
  repeat' split
  all_goals intro h
  all_goals first
    | rfl
    | exact appCallTransfer_fail_stored (by assumption)
    | cases h

theorem transferFilesItem_fail_stored {env : Env} {st : State} {x : FileTransfer}
    (h : (transferFilesItem env st x).2 = false) :
    stored (transferFilesItem env st x).1 = stored st := by
  obtain ⟨msg, hst⟩ := transferFilesItem_fail h
  rw [hst]
  rfl

/-- A failing item of `FsDeleteFiles`. -/
theorem deleteFilesItem_fail_stored {env : Env} {st : State} {x : FileDel}
    (h : (deleteFilesItem env st x).2 = false) :
    stored { (deleteFilesItem env st x).1 with nodes := st.nodes } = stored st ∧
    ((∀ f, getFileInfoByHash env st x.FileHash = some f →
        ∀ r ∈ getPdpRecordList st f.FileHash f.FileOwner, r.SettleFlag = true) →
      stored (deleteFilesItem env st x).1 = stored st) := by
  revert h
  unfold deleteFilesItem
  cases hf : getFileInfoByHash env st x.FileHash with
  | none => intro _; exact ⟨rfl, fun _ => rfl⟩
  | some fileInfo =>
    dsimp only
    by_cases hw : env.CheckWitness fileInfo.FileOwner = false
    · simp only [if_pos hw]
      intro _
      exact ⟨rfl, fun _ => rfl⟩
    · simp only [if_neg hw]
      intro h
      obtain ⟨h1, h2⟩ := deleteFile_fail_stored h
      exact ⟨h1, fun hs => h2 (hs fileInfo rfl)⟩

/-- A failing item of `FsStoreFiles` has changed nothing stored, or it has
run `deleteFile` on an invalid prior entry and changed nothing stored
beyond what `deleteFile` did. -/
theorem storeFilesItem_fail_stored {env : Env} {globalParam : FsGlobalParam} {st : State}
    {x : FileInfo} (h : (storeFilesItem env globalParam st x).2 = false) :
    stored (storeFilesItem env globalParam st x).1 = stored st ∨
    ∃ fileExist, getAndUpdateFileInfo env st x.FileOwner x.FileHash = some fileExist ∧
      fileExist.ValidFlag = false ∧
      stored (storeFilesItem env globalParam st x).1 = stored (deleteFile env st fileExist).1 := by
  revert h
  unfold storeFilesItem
  by_cases hw : env.CheckWitness x.FileOwner = false
  · simp only [if_pos hw]
    intro _; exact Or.inl rfl
  simp only [if_neg hw]
  by_cases hp : x.PdpInterval = 0
  · simp only [if_pos hp]
    intro _; exact Or.inl rfl
  simp only [if_neg hp]
  by_cases ht : x.TimeExpired < env.time
  · simp only [if_pos ht]
    intro _; exact Or.inl rfl
  simp only [if_neg ht]
  cases hf : getAndUpdateFileInfo env st x.FileOwner x.FileHash with
  | none =>
    dsimp only
    intro h
    exact Or.inl (storeFilesBody_fail_stored h)
  | some fileExist =>
    dsimp only
    by_cases hv : fileExist.ValidFlag = false
    · simp only [if_pos hv]
      by_cases hc : (deleteFile env st fileExist).2 = false
      · simp only [if_pos hc]
        intro _
        exact Or.inr ⟨fileExist, rfl, hv, rfl⟩
      · simp only [if_neg hc]
        intro h
        exact Or.inr ⟨fileExist, rfl, hv, storeFilesBody_fail_stored h⟩
    · simp only [if_neg hv]
      intro _; exact Or.inl rfl

theorem runBatch_cons {α : Type} (step : State → α → State × Bool) (item : α) (rest : List α)
    (st : State) :
    runBatch step (item :: rest) st =
      ((runBatch step rest (step st item).1).1,
        (step st item).2 :: (runBatch step rest (step st item).1).2) := rfl

theorem passing_cons_true {α : Type} (item : α) (items : List α) (oks : List Bool) {ok : Bool}
    (h : ok = true) : passing (item :: items) (ok :: oks) = item :: passing items oks := by
  subst h
  rfl

theorem passing_cons_false {α : Type} (item : α) (items : List α) (oks : List Bool) {ok : Bool}
    (h : ok = false) : passing (item :: items) (ok :: oks) = passing items oks := by
  subst h
  rfl

/-- A batch whose step depends on the stored part of the state only, and
whose failing items leave the stored part unchanged, ends in the stored state
of the batch without its failing items. -/
theorem runBatch_skip_failing {α : Type} (step : State → α → State × Bool)
    (hcongr : ∀ st st1 item, stored st = stored st1 →
      stored (step st item).1 = stored (step st1 item).1 ∧ (step st item).2 = (step st1 item).2)
    (items : List α) (st st1 : State) (h : stored st = stored st1)
    (hin : FailuresInert step items st) :
    stored (runBatch step items st).1 =
      stored (runBatch step (passing items (runBatch step items st).2) st1).1 := by
  induction items generalizing st st1 with
  | nil => exact h
  | cons item rest ih =>
    unfold FailuresInert at hin
    rw [runBatch_cons]
    dsimp only
    by_cases hok : (step st item).2 = true
    · rw [passing_cons_true _ _ _ hok, runBatch_cons]
      exact ih _ _ (hcongr st st1 item h).1 hin.2
    · have hfalse : (step st item).2 = false := by
        cases hb : (step st item).2 with
        | false => rfl
        | true => exact absurd hb hok
      rw [passing_cons_false _ _ _ hfalse]
      exact ih _ _ ((hin.1 hfalse).trans h) hin.2

/-- In `FsRenewFiles` every failing item is inert. -/
theorem FailuresInert_renew (env : Env) (globalParam : FsGlobalParam) (items : List FileReNew)
    (st : State) : FailuresInert (renewFilesItem env globalParam) items st := by
  induction items generalizing st with
  | nil => exact trivial
  | cons item rest ih => exact ⟨fun h => renewFilesItem_fail_stored h, ih _⟩

/-- In `FsTransferFiles` every failing item is inert. -/
theorem FailuresInert_transfer (env : Env) (items : List FileTransfer) (st : State) :
    FailuresInert (transferFilesItem env) items st := by
  induction items generalizing st with
  | nil => exact trivial
  | cons item rest ih => exact ⟨fun h => transferFilesItem_fail_stored h, ih _⟩

/-- C11 (batch isolation), as the code has it.  A failing item of
`FsRenewFiles` or of `FsTransferFiles` changes nothing stored (tables and
balances).  A failing item of `FsDeleteFiles` changes nothing stored apart
from node capacities, and not those either when every proof record of the
file is settled.  A failing item of `FsStoreFiles` changes nothing stored,
unless it has run `deleteFile` on an invalid prior entry, and then nothing
beyond what `deleteFile` did.  Hence the stored state after `FsRenewFiles` and
after `FsTransferFiles` is the one after the same call without its failing
items, and the same holds for `FsDeleteFiles` and `FsStoreFiles` whenever every
failing item of the batch has left the stored state unchanged. -/
theorem C11_batch_isolation (env : Env) (globalParam : FsGlobalParam) (st : State) :
    (∀ x, (renewFilesItem env globalParam st x).2 = false →
      stored (renewFilesItem env globalParam st x).1 = stored st) ∧
    (∀ x, (transferFilesItem env st x).2 = false →
      stored (transferFilesItem env st x).1 = stored st) ∧
    (∀ x, (deleteFilesItem env st x).2 = false →
      stored { (deleteFilesItem env st x).1 with nodes := st.nodes } = stored st ∧
      ((∀ f, getFileInfoByHash env st x.FileHash = some f →
          ∀ r ∈ getPdpRecordList st f.FileHash f.FileOwner, r.SettleFlag = true) →
        stored (deleteFilesItem env st x).1 = stored st)) ∧
    (∀ x, (storeFilesItem env globalParam st x).2 = false →
      stored (storeFilesItem env globalParam st x).1 = stored st ∨
      ∃ fileExist, getAndUpdateFileInfo env st x.FileOwner x.FileHash = some fileExist ∧
        fileExist.ValidFlag = false ∧
        stored (storeFilesItem env globalParam st x).1 = stored (deleteFile env st fileExist).1) ∧
    (∀ items, getGlobalParam st = some globalParam →
      stored (FsRenewFiles env st (.ok items)).2 =
        stored (FsRenewFiles env st (.ok (passing items
          (runBatch (renewFilesItem env globalParam) items { st with errInfos := [] }).2))).2) ∧
    (∀ items,
      stored (FsTransferFiles env st (.ok items)).2 =
        stored (FsTransferFiles env st (.ok (passing items
          (runBatch (transferFilesItem env) items { st with errInfos := [] }).2))).2) ∧
    (∀ items, FailuresInert (deleteFilesItem env) items { st with errInfos := [] } →
      stored (FsDeleteFiles env st (.ok items)).2 =
        stored (FsDeleteFiles env st (.ok (passing items
          (runBatch (deleteFilesItem env) items { st with errInfos := [] }).2))).2) ∧
    (∀ items, getGlobalParam st = some globalParam →
      FailuresInert (storeFilesItem env globalParam) items { st with errInfos := [] } →
      stored (FsStoreFiles env st (.ok items)).2 =
        stored (FsStoreFiles env st (.ok (passing items
          (runBatch (storeFilesItem env globalParam) items { st with errInfos := [] }).2))).2) := by
  refine ⟨fun x h => renewFilesItem_fail_stored h, fun x h => transferFilesItem_fail_stored h,
    fun x h => deleteFilesItem_fail_stored h, fun x h => storeFilesItem_fail_stored h,
    fun items hg => ?_, fun items => ?_, fun items hin => ?_, fun items hg hin => ?_⟩
  · unfold FsRenewFiles
    simp only [hg]
    exact runBatch_skip_failing _
      (fun a b item hab => renewFilesItem_stored env globalParam item hab) items _ _ rfl
      (FailuresInert_renew env globalParam items _)
  · unfold FsTransferFiles
    exact runBatch_skip_failing _
      (fun a b item hab => transferFilesItem_stored env item hab) items _ _ rfl
      (FailuresInert_transfer env items _)
  · unfold FsDeleteFiles
    exact runBatch_skip_failing _
      (fun a b item hab => deleteFilesItem_stored env item hab) items _ _ rfl hin
  · unfold FsStoreFiles
    simp only [hg]
    exact runBatch_skip_failing _
      (fun a b item hab => storeFilesItem_stored env globalParam item hab) items _ _ rfl hin

/-- A batch of three transfers of which the first (unknown hash) and the third
(the file has just left account 7) fail: the stored state is the one after the
second transfer alone. -/
theorem C11_batch_isolation_witness :
    (transferFilesItem exEnv provedState ⟨[9], 7, 8⟩).2 = false ∧
    stored (transferFilesItem exEnv provedState ⟨[9], 7, 8⟩).1 = stored provedState ∧
    (runBatch (transferFilesItem exEnv) [⟨[9], 7, 8⟩, ⟨[1], 7, 8⟩, ⟨[1], 7, 6⟩]
      { provedState with errInfos := [] }).2 = [false, true, false] ∧
    stored (FsTransferFiles exEnv provedState
        (.ok [⟨[9], 7, 8⟩, ⟨[1], 7, 8⟩, ⟨[1], 7, 6⟩])).2 =
      stored (FsTransferFiles exEnv provedState (.ok [⟨[1], 7, 8⟩])).2 :=
  ⟨by decide,
    (C11_batch_isolation exEnv ⟨1, 1, 1⟩ provedState).2.1 ⟨[9], 7, 8⟩ (by decide),
    by decide,
    (C11_batch_isolation exEnv ⟨1, 1, 1⟩ provedState).2.2.2.2.2.1
      [⟨[9], 7, 8⟩, ⟨[1], 7, 8⟩, ⟨[1], 7, 6⟩]⟩

/-- C11, counterexample.  Account 7 has an invalid stored entry for the hash
`[1]` and stores the hash again with a cost of 25600 it can not pay: the item
records an error, yet the prior entry and its index entry are gone and its
deposit of 256 has been refunded; the batch of this one item ends with no
stored file, the empty batch with the prior entry still stored. -/
theorem C11_counterexample :
    getAndUpdateFileInfo exEnv staleState 7 [1] = some { paidFile with ValidFlag := false } ∧
    balanceOf staleState 7 = 10000 ∧
    (storeFilesItem exEnv ⟨1, 1, 1⟩ staleState costlyFile).2 = false ∧
    (storeFilesItem exEnv ⟨1, 1, 1⟩ staleState costlyFile).1.errInfos =
      [([1], "[APP SDK] FsStoreFiles AppCallTransfer, transfer error!")] ∧
    getAndUpdateFileInfo exEnv (storeFilesItem exEnv ⟨1, 1, 1⟩ staleState costlyFile).1 7 [1] =
      none ∧
    getFileOwner (storeFilesItem exEnv ⟨1, 1, 1⟩ staleState costlyFile).1 [1] = none ∧
    balanceOf (storeFilesItem exEnv ⟨1, 1, 1⟩ staleState costlyFile).1 7 = 10256 ∧
    (FsStoreFiles exEnv staleState (.ok [costlyFile])).2.files = [] ∧
    (FsStoreFiles exEnv staleState (.ok [])).2.files = staleState.files ∧
    staleState.files ≠ [] := by
  decide

/-! ## Leases: the volume check and the proof-cycle count -/

theorem ceilDiv_of_dvd {a b : Nat} (hb : 0 < b) (h : b ∣ a) : ceilDiv a b = a / b := by
  obtain ⟨q, rfl⟩ := h
  unfold ceilDiv
  rw [Nat.mul_div_cancel_left q hb]
  apply Nat.div_eq_of_lt_le
  · have : q * b = b * q := Nat.mul_comm q b
    omega
  · have : (q + 1) * b = b * q + b := by ring
    omega

theorem ceilDiv_of_not_dvd {a b : Nat} (hb : 0 < b) (h : ¬ b ∣ a) : ceilDiv a b = a / b + 1 := by
  have hmod : 0 < a % b := Nat.pos_of_ne_zero (fun h0 => h (Nat.dvd_of_mod_eq_zero h0))
  have hlt : a % b < b := Nat.mod_lt a hb
  have hdm : b * (a / b) + a % b = a := Nat.div_add_mod a b
  unfold ceilDiv
  apply Nat.div_eq_of_lt_le
  · have : (a / b + 1) * b = b * (a / b) + b := by ring
    omega
  · have : (a / b + 1 + 1) * b = b * (a / b) + b + b := by ring
    omega

/-- C22, as the code has it: for an accepted `FsCreateSpace` request (with a
64-bit `TimeExpired`) the stored `PayAmount` is the 64-bit product of
`spacePdpNeedCount`, `Volume`, `CopyNumber` and the price, and
`spacePdpNeedCount` is `(TimeExpired - TimeStart) / PdpInterval + 1` reduced
modulo `2 ^ 64`, `TimeStart` being the time of the call; when that sum fits 64
bits it is the ceiling of `(TimeExpired - TimeStart) / PdpInterval` if
`PdpInterval` does not divide `TimeExpired - TimeStart`, and the ceiling plus
one if it does. -/
theorem C22_proof_cycle_count (env : Env) (st : State) (spaceInfo : SpaceInfo)
    (hT : spaceInfo.TimeExpired < W64)
    (hok : (FsCreateSpace env st (.ok spaceInfo)).1 = Ret.BYTE_TRUE) :
    ∃ p lease,
      (getGlobalParam st).map FsGlobalParam.GasPerKbForSaveWithSpace = some p ∧
      tget SpaceInfo.SpaceOwner spaceInfo.SpaceOwner
        (FsCreateSpace env st (.ok spaceInfo)).2.spaces = some lease ∧
      lease.PayAmount =
        mul64 (mul64 (mul64 (spacePdpNeedCount env spaceInfo) spaceInfo.Volume)
          spaceInfo.CopyNumber) p ∧
      spacePdpNeedCount env spaceInfo =
        ((spaceInfo.TimeExpired - env.time) / spaceInfo.PdpInterval + 1) % W64 ∧
      ((spaceInfo.TimeExpired - env.time) / spaceInfo.PdpInterval + 1 < W64 →
        spacePdpNeedCount env spaceInfo =
          (spaceInfo.TimeExpired - env.time) / spaceInfo.PdpInterval + 1 ∧
        (¬ spaceInfo.PdpInterval ∣ spaceInfo.TimeExpired - env.time →
          spacePdpNeedCount env spaceInfo =
            ceilDiv (spaceInfo.TimeExpired - env.time) spaceInfo.PdpInterval) ∧
        (spaceInfo.PdpInterval ∣ spaceInfo.TimeExpired - env.time →
          spacePdpNeedCount env spaceInfo =
            ceilDiv (spaceInfo.TimeExpired - env.time) spaceInfo.PdpInterval + 1)) := by
  obtain ⟨gp, hg, _, _, hp, hlt, _, hst⟩ := FsCreateSpace_ok hok
  have hsub : sub64 spaceInfo.TimeExpired env.time = spaceInfo.TimeExpired - env.time :=
    sub64_exact (Nat.le_of_lt hlt) hT
  have hcount : spacePdpNeedCount env spaceInfo =
      ((spaceInfo.TimeExpired - env.time) / spaceInfo.PdpInterval + 1) % W64 := by
    unfold spacePdpNeedCount
    rw [hsub]
    rfl
  have hpos : 0 < spaceInfo.PdpInterval := Nat.pos_of_ne_zero hp
  refine ⟨gp.GasPerKbForSaveWithSpace,
    { spaceInfo with
      ValidFlag := true
      TimeStart := env.time
      RestVol := spaceInfo.Volume
      PayAmount := mul64 (mul64 (mul64 (spacePdpNeedCount env spaceInfo) spaceInfo.Volume)
        spaceInfo.CopyNumber) gp.GasPerKbForSaveWithSpace
      RestAmount := mul64 (mul64 (mul64 (spacePdpNeedCount env spaceInfo) spaceInfo.Volume)
        spaceInfo.CopyNumber) gp.GasPerKbForSaveWithSpace },
    by rw [hg]; rfl, ?_, rfl, hcount, fun hex => ?_⟩
  · rw [hst]
    exact tget_tput_self SpaceInfo.SpaceOwner _ _
  · have hexact : spacePdpNeedCount env spaceInfo =
        (spaceInfo.TimeExpired - env.time) / spaceInfo.PdpInterval + 1 := by
      rw [hcount]
      exact Nat.mod_eq_of_lt hex
    refine ⟨hexact, fun hnd => ?_, fun hd => ?_⟩
    · rw [hexact, ceilDiv_of_not_dvd hpos hnd]
    · rw [hexact, ceilDiv_of_dvd hpos hd]

/-- The worked example: 250 time units at an interval of 100 make 3 proof
cycles, which is also the ceiling of 250 / 100. -/
theorem C22_proof_cycle_count_witness :
    exSpace.TimeExpired < W64 ∧
    (FsCreateSpace exEnv exState (.ok exSpace)).1 = Ret.BYTE_TRUE ∧
    spacePdpNeedCount exEnv exSpace = 3 ∧ ceilDiv (250 - 0) 100 = 3 ∧
    ∃ p lease,
      (getGlobalParam exState).map FsGlobalParam.GasPerKbForSaveWithSpace = some p ∧
      tget SpaceInfo.SpaceOwner 7 (FsCreateSpace exEnv exState (.ok exSpace)).2.spaces =
        some lease ∧
      lease.PayAmount = mul64 (mul64 (mul64 (spacePdpNeedCount exEnv exSpace) 1000) 2) p :=
  ⟨by decide, by decide, by decide, by decide,
    match C22_proof_cycle_count exEnv exState exSpace (by decide) (by decide) with
    | ⟨p, lease, hp, hl, hpay, _⟩ => ⟨p, lease, hp, hl, hpay⟩⟩

/-- C22, counterexample: the request of the worked example with
`TimeExpired = 200` at time 0 is accepted and charged 6000, that is for 3 proof
cycles, while the ceiling of 200 / 100 is 2 (a cost of 4000). -/
theorem C22_counterexample :
    (FsCreateSpace exEnv exState (.ok evenSpace)).1 = Ret.BYTE_TRUE ∧
    evenSpace.TimeExpired - exEnv.time = 200 ∧ evenSpace.PdpInterval = 100 ∧
    spacePdpNeedCount exEnv evenSpace = 3 ∧
    ceilDiv 200 100 = 2 ∧
    (tget SpaceInfo.SpaceOwner 7 (FsCreateSpace exEnv exState (.ok evenSpace)).2.spaces).map
      SpaceInfo.PayAmount = some 6000 ∧
    3 * evenSpace.Volume * evenSpace.CopyNumber * 1 = 6000 ∧
    2 * evenSpace.Volume * evenSpace.CopyNumber * 1 = 4000 := by
  decide

/-- C21, as the code has it.  For a valid lease with `RestVol ≤ Volume < 2 ^ 64`,
available parameters and a request by a witnessed `Payer` with a nonzero field
and a `NewTimeExpired` that is zero or after the time of the call:
`FsUpdateSpace` fails with the error of the volume check if and only if the
effective `NewVolume` (a zero field standing for the current `Volume`) is at
most the consumed volume `Volume - RestVol`.  A request with
`NewTimeExpired = 0` and `NewVolume = 0` is rejected in every state. -/
theorem C21_update_volume_check (env : Env) (st : State) (spaceUpdate : SpaceUpdate)
    (globalParam : FsGlobalParam) (space : SpaceInfo)
    (hg : getGlobalParam st = some globalParam)
    (hs : getAndUpdateSpaceInfo env st spaceUpdate.SpaceOwner = some space)
    (hv : space.ValidFlag = true)
    (hw : env.CheckWitness spaceUpdate.Payer = true)
    (hnz : ¬ (spaceUpdate.NewTimeExpired = 0 ∧ spaceUpdate.NewVolume = 0))
    (ht : spaceUpdate.NewTimeExpired = 0 ∨ env.time < spaceUpdate.NewTimeExpired)
    (hwf : space.RestVol ≤ space.Volume ∧ space.Volume < W64) :
    ((FsUpdateSpace env st (.ok spaceUpdate)).1 =
        Ret.BYTE_FALSE "[APP SDK] FsUpdateSpace NewVolume is not enough!" ↔
      newVolumeOf spaceUpdate space ≤ space.Volume - space.RestVol) ∧
    (newVolumeOf spaceUpdate space =
      if spaceUpdate.NewVolume = 0 then space.Volume else spaceUpdate.NewVolume) ∧
    ∀ (st2 : State) (request : SpaceUpdate),
      request.NewTimeExpired = 0 → request.NewVolume = 0 →
      FsUpdateSpace env st2 (.ok request) =
        (Ret.BYTE_FALSE "[APP SDK] FsUpdateSpace Param error!", st2) := by
  have hsub : sub64 space.Volume space.RestVol = space.Volume - space.RestVol :=
    sub64_exact hwf.1 hwf.2
  refine ⟨?_, rfl, fun st2 request h1 h2 => ?_⟩
  · unfold FsUpdateSpace
    simp only [hg, hs]
    rw [if_neg hnz, if_neg (by simp [hw]), if_neg (by simp [hv]),
      if_neg (by rcases ht with h | h <;> simp [h]), hsub]
    by_cases hvol : space.Volume - space.RestVol ≥ newVolumeOf spaceUpdate space
    · rw [if_pos hvol]
      exact ⟨fun _ => hvol, fun _ => rfl⟩
    · rw [if_neg hvol]
      refine ⟨fun h => ?_, fun h => absurd h hvol⟩
      exfalso
      revert h
      repeat' split
      all_goals intro h
      all_goals dsimp only at h
      all_goals exact absurd h (by decide)
  · unfold FsUpdateSpace
    dsimp only
    rw [if_pos ⟨h1, h2⟩]

/-- With 600 of 1000 consumed, a new volume of 500 fails the volume check and a
new volume of 601 is accepted. -/
theorem C21_update_volume_check_witness :
    getGlobalParam usedLeaseState = some ⟨1, 1, 1⟩ ∧
    (getAndUpdateSpaceInfo exEnv usedLeaseState 7).map SpaceInfo.RestVol = some 400 ∧
    (FsUpdateSpace exEnv usedLeaseState (.ok ⟨7, 7, 500, 0⟩)).1 =
      Ret.BYTE_FALSE "[APP SDK] FsUpdateSpace NewVolume is not enough!" ∧
    (FsUpdateSpace exEnv usedLeaseState (.ok ⟨7, 7, 601, 0⟩)).1 = Ret.BYTE_TRUE :=
  ⟨by decide, by decide,
    (C21_update_volume_check exEnv usedLeaseState ⟨7, 7, 500, 0⟩ ⟨1, 1, 1⟩
      { SpaceOwner := 7, Volume := 1000, RestVol := 400, CopyNumber := 2, PayAmount := 6000,
        RestAmount := 6000, PdpInterval := 100, TimeStart := 0, TimeExpired := 250,
        ValidFlag := true }
      (by decide) (by decide) (by decide) (by decide) (by decide) (by decide)
      (by decide)).1.2 (by decide),
    by decide⟩

/-- C21, counterexample: with 600 of 1000 consumed, the new volume 600 is not
below the consumed volume, yet the update fails the volume check. -/
theorem C21_counterexample :
    (getAndUpdateSpaceInfo exEnv usedLeaseState 7).map
      (fun space => (space.Volume, space.RestVol, space.ValidFlag)) = some (1000, 400, true) ∧
    (FsUpdateSpace exEnv usedLeaseState (.ok ⟨7, 7, 600, 0⟩)).1 =
      Ret.BYTE_FALSE "[APP SDK] FsUpdateSpace NewVolume is not enough!" ∧
    ¬ (600 < 1000 - 400) := by
  decide

/-! ## Unchecked 64-bit arithmetic: lease cost and capacity -/

/-- Shape of a successful item of `FsStoreFiles`: the store step ran, on the
state of the call or on the state `deleteFile` left after reclaiming an
invalid prior entry. -/
theorem storeFilesItem_ok {env : Env} {globalParam : FsGlobalParam} {st : State} {x : FileInfo}
    (h : (storeFilesItem env globalParam st x).2 = true) :
    (getAndUpdateFileInfo env st x.FileOwner x.FileHash = none ∧
      storeFilesItem env globalParam st x = storeFilesBody env globalParam st x) ∨
    ∃ fileExist, getAndUpdateFileInfo env st x.FileOwner x.FileHash = some fileExist ∧
      fileExist.ValidFlag = false ∧ (deleteFile env st fileExist).2 = true ∧
      storeFilesItem env globalParam st x =
        storeFilesBody env globalParam (deleteFile env st fileExist).1 x := by
  revert h
  unfold storeFilesItem
  by_cases hw : env.CheckWitness x.FileOwner = false
  · simp only [if_pos hw]
    intro h; cases h
  simp only [if_neg hw]
  by_cases hp : x.PdpInterval = 0
  · simp only [if_pos hp]
    intro h; cases h
  simp only [if_neg hp]
  by_cases ht : x.TimeExpired < env.time
  · simp only [if_pos ht]
    intro h; cases h
  simp only [if_neg ht]
  cases hf : getAndUpdateFileInfo env st x.FileOwner x.FileHash with
  | none =>
    dsimp only
    intro _
    exact Or.inl ⟨rfl, rfl⟩
  | some fileExist =>
    dsimp only
    by_cases hv : fileExist.ValidFlag = false
    · simp only [if_pos hv]
      by_cases hc : (deleteFile env st fileExist).2 = false
      · simp only [if_pos hc]
        intro h
        cases h
      · simp only [if_neg hc]
        intro _
        exact Or.inr ⟨fileExist, rfl, hv, by simpa using hc, rfl⟩
    · simp only [if_neg hv]
      intro h; cases h

/-- C24, as the code has it: when the store step of an `FsStoreFiles` item
charged to a lease succeeds, the product `FileBlockCount * blockSize` reduced
modulo `2 ^ 64` is strictly less than the `RestVol` of the lease read before
the store, and so is the exact product whenever it is below `2 ^ 64`; a
succeeding item has run that step on the state of the call or on the state
left by the reclaim of an invalid prior entry. -/
theorem C24_store_useSpace_mod (env : Env) (globalParam : FsGlobalParam) (st : State)
    (fileInfo : FileInfo) (hu : fileInfo.StorageType = StorageType.UseSpace) :
    ((storeFilesBody env globalParam st fileInfo).2 = true →
      ∃ space, getAndUpdateSpaceInfo env st fileInfo.FileOwner = some space ∧
        (fileInfo.FileBlockCount * env.DefaultPerBlockSize) % W64 < space.RestVol ∧
        (fileInfo.FileBlockCount * env.DefaultPerBlockSize < W64 →
          fileInfo.FileBlockCount * env.DefaultPerBlockSize < space.RestVol)) ∧
    ((storeFilesItem env globalParam st fileInfo).2 = true →
      ∃ st0 space,
        (st0 = st ∨ ∃ fileExist,
          getAndUpdateFileInfo env st fileInfo.FileOwner fileInfo.FileHash = some fileExist ∧
          fileExist.ValidFlag = false ∧ st0 = (deleteFile env st fileExist).1) ∧
        storeFilesItem env globalParam st fileInfo = storeFilesBody env globalParam st0 fileInfo ∧
        getAndUpdateSpaceInfo env st0 fileInfo.FileOwner = some space ∧
        (fileInfo.FileBlockCount * env.DefaultPerBlockSize) % W64 < space.RestVol ∧
        (fileInfo.FileBlockCount * env.DefaultPerBlockSize < W64 →
          fileInfo.FileBlockCount * env.DefaultPerBlockSize < space.RestVol)) := by
  have body : ∀ st0 : State, (storeFilesBody env globalParam st0 fileInfo).2 = true →
      ∃ space, getAndUpdateSpaceInfo env st0 fileInfo.FileOwner = some space ∧
        (fileInfo.FileBlockCount * env.DefaultPerBlockSize) % W64 < space.RestVol ∧
        (fileInfo.FileBlockCount * env.DefaultPerBlockSize < W64 →
          fileInfo.FileBlockCount * env.DefaultPerBlockSize < space.RestVol) := by
    intro st0 h
    obtain ⟨space, hs, hlt, _⟩ := storeFilesBody_useSpace_shape hu h
    refine ⟨space, hs, hlt, fun hex => ?_⟩
    have : mul64 fileInfo.FileBlockCount env.DefaultPerBlockSize =
        fileInfo.FileBlockCount * env.DefaultPerBlockSize := mul64_exact hex
    rw [← this]
    exact hlt
  refine ⟨body st, fun h => ?_⟩
  rcases storeFilesItem_ok h with ⟨_, he⟩ | ⟨fileExist, hf, hv, _, he⟩
  · obtain ⟨space, hs⟩ := body st (by rw [← he]; exact h)
    exact ⟨st, space, Or.inl rfl, he, hs⟩
  · obtain ⟨space, hs⟩ := body (deleteFile env st fileExist).1 (by rw [← he]; exact h)
    exact ⟨_, space, Or.inr ⟨fileExist, hf, hv, rfl⟩, he, hs⟩

/-- A file of one block is stored on the unused lease of 1000. -/
theorem C24_store_useSpace_mod_witness :
    exUseSpaceFile.StorageType = StorageType.UseSpace ∧
    (storeFilesBody exEnv ⟨1, 1, 1⟩ exLeaseState exUseSpaceFile).2 = true ∧
    ∃ space, getAndUpdateSpaceInfo exEnv exLeaseState 7 = some space ∧
      (1 * 256) % W64 < space.RestVol ∧ (1 * 256 < W64 → 1 * 256 < space.RestVol) :=
  ⟨rfl, by decide,
    (C24_store_useSpace_mod exEnv ⟨1, 1, 1⟩ exLeaseState exUseSpaceFile rfl).1 (by decide)⟩

/-- C24, counterexample: a file of `2 ^ 56 + 1` blocks of 256 has the exact
volume `2 ^ 64 + 256`; the item is accepted on a lease with `RestVol = 1000`
and charged 256. -/
theorem C24_counterexample :
    wrapFile.StorageType = StorageType.UseSpace ∧
    (getAndUpdateSpaceInfo exEnv exLeaseState 7).map SpaceInfo.RestVol = some 1000 ∧
    (storeFilesItem exEnv ⟨1, 1, 1⟩ exLeaseState wrapFile).2 = true ∧
    (storeFilesItem exEnv ⟨1, 1, 1⟩ exLeaseState wrapFile).1.errInfos = [] ∧
    (getAndUpdateSpaceInfo exEnv (storeFilesItem exEnv ⟨1, 1, 1⟩ exLeaseState wrapFile).1 7).map
      SpaceInfo.RestVol = some 744 ∧
    wrapFile.FileBlockCount * exEnv.DefaultPerBlockSize = 2 ^ 64 + 256 ∧
    ¬ (wrapFile.FileBlockCount * exEnv.DefaultPerBlockSize < 1000) := by
  decide

/-- C23, as the code has it: for a successful `FsUpdateSpace` on a lease whose
`PayAmount` is the 64-bit cost of its current window and volume at the current
price, with `TimeStart ≤ TimeExpired`, an effective `NewVolume ≥ Volume` and an
effective `NewTimeExpired ≥ TimeExpired` (a 64-bit value), the stored
`PayAmount` is not less than the one before provided the exact new cost
`((NewTimeExpired - TimeStart) / PdpInterval + 1) * NewVolume * CopyNumber *
price` is below `2 ^ 64`; it is then that exact cost. -/
theorem C23_cost_monotone (env : Env) (st : State) (spaceUpdate : SpaceUpdate)
    (globalParam : FsGlobalParam) (space : SpaceInfo)
    (hg : getGlobalParam st = some globalParam)
    (hs : getAndUpdateSpaceInfo env st spaceUpdate.SpaceOwner = some space)
    (hok : (FsUpdateSpace env st (.ok spaceUpdate)).1 = Ret.BYTE_TRUE)
    (hform : space.PayAmount =
      mul64 (mul64 (mul64
        (add64 (sub64 space.TimeExpired space.TimeStart / space.PdpInterval) 1)
        space.Volume) space.CopyNumber) globalParam.GasPerKbForSaveWithSpace)
    (hstart : space.TimeStart ≤ space.TimeExpired)
    (hvol : space.Volume ≤ newVolumeOf spaceUpdate space)
    (htime : space.TimeExpired ≤ newTimeExpiredOf spaceUpdate space)
    (hT : newTimeExpiredOf spaceUpdate space < W64)
    (hexact : ((newTimeExpiredOf spaceUpdate space - space.TimeStart) / space.PdpInterval + 1) *
      newVolumeOf spaceUpdate space * space.CopyNumber *
      globalParam.GasPerKbForSaveWithSpace < W64) :
    ∃ lease,
      tget SpaceInfo.SpaceOwner space.SpaceOwner
        (FsUpdateSpace env st (.ok spaceUpdate)).2.spaces = some lease ∧
      lease.PayAmount =
        ((newTimeExpiredOf spaceUpdate space - space.TimeStart) / space.PdpInterval + 1) *
          newVolumeOf spaceUpdate space * space.CopyNumber *
          globalParam.GasPerKbForSaveWithSpace ∧
      space.PayAmount ≤ lease.PayAmount := by
  obtain ⟨gp, space1, newFee, payer, payee, restAmount, hg1, hs1, _, _, _, _, _, _, _, hres⟩ :=
    FsUpdateSpace_ok hok
  rw [hg] at hg1
  rw [hs] at hs1
  cases hg1
  cases hs1
  have hnew : updateSpaceNewPayAmount globalParam spaceUpdate space =
      ((newTimeExpiredOf spaceUpdate space - space.TimeStart) / space.PdpInterval + 1) *
        newVolumeOf spaceUpdate space * space.CopyNumber *
        globalParam.GasPerKbForSaveWithSpace := by
    unfold updateSpaceNewPayAmount
    dsimp only
    rw [sub64_exact (le_trans hstart htime) hT, leaseCost_mod]
    exact Nat.mod_eq_of_lt hexact
  have hold : space.PayAmount ≤
      ((space.TimeExpired - space.TimeStart) / space.PdpInterval + 1) *
        space.Volume * space.CopyNumber * globalParam.GasPerKbForSaveWithSpace := by
    rw [hform, sub64_exact hstart (lt_of_le_of_lt htime hT), leaseCost_mod]
    exact Nat.mod_le _ _
  have hq : (space.TimeExpired - space.TimeStart) / space.PdpInterval + 1 ≤
      (newTimeExpiredOf spaceUpdate space - space.TimeStart) / space.PdpInterval + 1 :=
    Nat.succ_le_succ (Nat.div_le_div_right (Nat.sub_le_sub_right htime _))
  have hmono : ((space.TimeExpired - space.TimeStart) / space.PdpInterval + 1) *
        space.Volume * space.CopyNumber * globalParam.GasPerKbForSaveWithSpace ≤
      ((newTimeExpiredOf spaceUpdate space - space.TimeStart) / space.PdpInterval + 1) *
        newVolumeOf spaceUpdate space * space.CopyNumber *
        globalParam.GasPerKbForSaveWithSpace :=
    Nat.mul_le_mul_right _ (Nat.mul_le_mul_right _ (Nat.mul_le_mul hq hvol))
  refine ⟨updateSpaceLease spaceUpdate space
    (updateSpaceNewPayAmount globalParam spaceUpdate space) restAmount, ?_, hnew, ?_⟩
  · rcases hres with ⟨_, _, hst⟩ | ⟨_, hst⟩
    · rw [hst]
      exact tget_tput_self SpaceInfo.SpaceOwner
        (updateSpaceLease spaceUpdate space
          (updateSpaceNewPayAmount globalParam spaceUpdate space) restAmount) _
    · rw [hst]
      exact tget_tput_self SpaceInfo.SpaceOwner
        (updateSpaceLease spaceUpdate space
          (updateSpaceNewPayAmount globalParam spaceUpdate space) restAmount) _
  · show space.PayAmount ≤ updateSpaceNewPayAmount globalParam spaceUpdate space
    rw [hnew]
    exact le_trans hold hmono

/-- The lease of the worked example is raised to a volume of 1100 up to time
300: four proof cycles, a cost of 8800 after 6000. -/
theorem C23_cost_monotone_witness :
    getGlobalParam exLeaseState = some ⟨1, 1, 1⟩ ∧
    (FsUpdateSpace exEnv exLeaseState (.ok ⟨7, 7, 1100, 300⟩)).1 = Ret.BYTE_TRUE ∧
    ∃ lease,
      tget SpaceInfo.SpaceOwner 7
        (FsUpdateSpace exEnv exLeaseState (.ok ⟨7, 7, 1100, 300⟩)).2.spaces = some lease ∧
      lease.PayAmount = 8800 ∧ 6000 ≤ lease.PayAmount :=
  ⟨by decide, by decide,
    match C23_cost_monotone exEnv exLeaseState ⟨7, 7, 1100, 300⟩ ⟨1, 1, 1⟩
      { SpaceOwner := 7, Volume := 1000, RestVol := 1000, CopyNumber := 2, PayAmount := 6000,
        RestAmount := 6000, PdpInterval := 100, TimeStart := 0, TimeExpired := 250,
        ValidFlag := true }
      (by decide) (by decide) (by decide) (by decide) (by decide) (by decide) (by decide)
      (by decide) (by decide) with
    | ⟨lease, hl, hp, hle⟩ => ⟨lease, hl, hp.trans (by decide), hle⟩⟩

/-- C23, counterexample: account 7 creates a lease of volume `2 ^ 62` with two
copies and one proof cycle, paying `2 ^ 63`, and then raises the volume to
`2 ^ 63`: the 64-bit cost wraps to 0, the update succeeds, the stored
`PayAmount` drops from `2 ^ 63` to 0 and `2 ^ 63` is paid back. -/
theorem C23_counterexample :
    (FsCreateSpace exEnv richState (.ok bigSpace)).1 = Ret.BYTE_TRUE ∧
    (tget SpaceInfo.SpaceOwner 7 (FsCreateSpace exEnv richState (.ok bigSpace)).2.spaces).map
      (fun lease => (lease.Volume, lease.TimeExpired, lease.PayAmount, lease.ValidFlag)) =
      some (2 ^ 62, 50, 2 ^ 63, true) ∧
    (FsUpdateSpace exEnv (FsCreateSpace exEnv richState (.ok bigSpace)).2
      (.ok ⟨7, 7, 2 ^ 63, 0⟩)).1 = Ret.BYTE_TRUE ∧
    (tget SpaceInfo.SpaceOwner 7
      (FsUpdateSpace exEnv (FsCreateSpace exEnv richState (.ok bigSpace)).2
        (.ok ⟨7, 7, 2 ^ 63, 0⟩)).2.spaces).map
      (fun lease => (lease.Volume, lease.TimeExpired, lease.PayAmount)) =
      some (2 ^ 63, 50, 0) ∧
    (FsUpdateSpace exEnv (FsCreateSpace exEnv richState (.ok bigSpace)).2
      (.ok ⟨7, 7, 2 ^ 63, 0⟩)).2.calls = [⟨7, 100, 2 ^ 63⟩, ⟨100, 7, 2 ^ 63⟩] := by
  decide

/-! ## FsReadFilePledge: one plan per node -/

theorem resetPlans_nodes (plans : List ReadPlan) :
    (resetPlans plans).map ReadPlan.NodeAddr = plans.map ReadPlan.NodeAddr := by
  unfold resetPlans
  rw [List.map_map]
  rfl

theorem map_mergedWith_nodes (ori plans : List ReadPlan) :
    (plans.map (mergedWith ori)).map ReadPlan.NodeAddr = plans.map ReadPlan.NodeAddr := by
  rw [List.map_map]
  apply List.map_congr_left
  intro p _
  exact mergedWith_node ori p

/-- The merge keeps the plans distinct by node when both the prior plans and
the plans of the request are. -/
theorem mergePlans_distinct {ori plans : List ReadPlan} (ho : DistinctNodes ori)
    (hp : DistinctNodes plans) : DistinctNodes (mergePlans ori plans) := by
  rw [mergePlans_eq ori ho plans]
  unfold DistinctNodes at ho hp ⊢
  rw [List.map_append, map_mergedWith_nodes]
  refine List.Nodup.append hp ?_ ?_
  · unfold carriedForward
    exact ho.sublist (List.Sublist.map _ (List.filter_sublist _))
  · intro a ha hb
    rw [List.mem_map] at ha hb
    obtain ⟨p, hpm, rfl⟩ := ha
    obtain ⟨o, hom, hoa⟩ := hb
    exact (mem_carriedForward.1 hom).2 p hpm hoa.symm

/-- C26, as the code has it: if the stored prior pledge (when one exists) has
no two plans with the same `NodeAddr` and the request has no two plans with
the same `NodeAddr` either, the pledge persisted by a successful
`FsReadFilePledge` has no two plans with the same `NodeAddr`. -/
theorem C26_plans_distinct (env : Env) (st : State) (readPledge : ReadPledge)
    (hprior : ∀ oriPledge, getReadPledge st readPledge.Downloader readPledge.FileHash =
      some oriPledge → DistinctNodes oriPledge.ReadPlans)
    (hreq : DistinctNodes readPledge.ReadPlans)
    (hok : (FsReadFilePledge env st (.ok readPledge)).1 = Ret.BYTE_TRUE) :
    ∃ pledge,
      getReadPledge (FsReadFilePledge env st (.ok readPledge)).2 readPledge.Downloader
        readPledge.FileHash = some pledge ∧
      DistinctNodes pledge.ReadPlans := by
  obtain ⟨globalParam, fileInfo, _, _, _, _, hget⟩ := FsReadFilePledge_stores hok
  refine ⟨_, hget, ?_⟩
  have hreset : DistinctNodes (resetPlans readPledge.ReadPlans) := by
    unfold DistinctNodes
    rw [resetPlans_nodes]
    exact hreq
  cases hp : getReadPledge st readPledge.Downloader readPledge.FileHash with
  | none =>
    rw [pledgeToStore_none hp]
    exact hreset
  | some oriPledge =>
    rw [pledgeToStore_some hp]
    exact mergePlans_distinct (hprior oriPledge hp) hreset

/-- A prior pledge on the nodes 9 and 6 is merged with a request for the nodes
9 and 5. -/
theorem C26_plans_distinct_witness :
    getReadPledge pledgedState 8 [1] = some exPledge ∧
    DistinctNodes exPledge.ReadPlans ∧ DistinctNodes exRequest.ReadPlans ∧
    (FsReadFilePledge exEnv pledgedState (.ok exRequest)).1 = Ret.BYTE_TRUE ∧
    ∃ pledge,
      getReadPledge (FsReadFilePledge exEnv pledgedState (.ok exRequest)).2 8 [1] =
        some pledge ∧
      DistinctNodes pledge.ReadPlans :=
  ⟨by decide, by decide, by decide, by decide,
    C26_plans_distinct exEnv pledgedState exRequest
      (fun oriPledge h => by
        have he : oriPledge = exPledge := (Option.some.inj h).symm
        rw [he]
        decide)
      (by decide) (by decide)⟩

/-- C26, counterexample: with no prior pledge stored, a request that names
node 9 in two plans is accepted and persisted with both plans. -/
theorem C26_counterexample :
    getReadPledge paidState 8 [1] = none ∧
    (FsReadFilePledge exEnv paidState (.ok dupRequest)).1 = Ret.BYTE_TRUE ∧
    (getReadPledge (FsReadFilePledge exEnv paidState (.ok dupRequest)).2 8 [1]).map
      (fun pledge => pledge.ReadPlans.map ReadPlan.NodeAddr) = some [9, 9] ∧
    ¬ DistinctNodes [(⟨9, 4, 0⟩ : ReadPlan), ⟨9, 3, 0⟩] := by
  decide

/-! ## Storage keys -/

theorem ONTFS_GLOBAL_PARAM_eq :
    ONTFS_GLOBAL_PARAM = [111, 110, 116, 70, 115, 71, 108, 111, 98, 97, 108, 80, 97, 114, 97, 109] := by
  decide

theorem ONTFS_NODE_INFO_eq :
    ONTFS_NODE_INFO = [111, 110, 116, 70, 115, 78, 111, 100, 101, 73, 110, 102, 111] := by
  decide

theorem ONTFS_FILE_INFO_eq :
    ONTFS_FILE_INFO = [111, 110, 116, 70, 115, 70, 105, 108, 101, 73, 110, 102, 111] := by
  decide

theorem ONTFS_FILE_PDP_eq :
    ONTFS_FILE_PDP = [111, 110, 116, 70, 115, 70, 105, 108, 101, 80, 100, 112] := by
  decide

theorem ONTFS_FILE_OWNER_eq :
    ONTFS_FILE_OWNER = [111, 110, 116, 70, 115, 70, 105, 108, 101, 79, 119, 110, 101, 114] := by
  decide

theorem ONTFS_FILE_WHITE_LIST_eq :
    ONTFS_FILE_WHITE_LIST =
      [111, 110, 116, 70, 115, 70, 105, 108, 101, 87, 104, 105, 116, 101, 76, 105, 115, 116] := by
  decide

theorem ONTFS_FILE_READ_PLEDGE_eq :
    ONTFS_FILE_READ_PLEDGE =
      [111, 110, 116, 70, 115, 70, 105, 108, 101, 82, 101, 97, 100, 80, 108, 101, 100, 103, 101] := by
  decide

theorem ONTFS_FILE_SPACE_eq :
    ONTFS_FILE_SPACE = [111, 110, 116, 70, 115, 70, 105, 108, 101, 83, 112, 97, 99, 101] := by
  decide

/-- C28 (storage keys are injective): for a fixed contract address, two
entities whose address parts have 20 bytes (file hashes being arbitrary byte
strings) have the same key bytes only if they are of the same entity type and
have equal key parts. -/
theorem C28_keys_injective (contract : Bytes) (k1 k2 : StorageKey)
    (h1 : k1.AddressesOk) (h2 : k2.AddressesOk)
    (h : k1.bytes contract = k2.bytes contract) : k1 = k2 := by
  cases k1 <;> cases k2 <;>
    simp only [StorageKey.bytes, GenGlobalParamKey, GenFsNodeInfoKey, GenFsNodeInfoPrefix,
      GenFsFileInfoKey, GenFsFileInfoPrefix, GenFsPdpRecordKey, GenFsPdpRecordPrefix,
      GenFsWhiteListKey, GenFsFileOwnerKey, GenFsReadPledgeKey, GenFsSpaceKey,
      List.append_assoc, List.append_cancel_left_eq,
      ONTFS_GLOBAL_PARAM_eq, ONTFS_NODE_INFO_eq, ONTFS_FILE_INFO_eq, ONTFS_FILE_PDP_eq,
      ONTFS_FILE_OWNER_eq, ONTFS_FILE_WHITE_LIST_eq, ONTFS_FILE_READ_PLEDGE_eq,
      ONTFS_FILE_SPACE_eq, List.cons_append, List.nil_append, List.cons.injEq,
      true_and, and_true] at h <;>
    first
      | rfl
      | (exfalso; revert h; simp; done)
      | skip
  · rw [h]
  · obtain ⟨ho, hh⟩ := List.append_inj h (h1.trans h2.symm)
    rw [ho, hh]
  · have hlen : (_ ++ _ : Bytes).length = (_ ++ _ : Bytes).length :=
      (List.length_append _ _).trans
        ((congrArg₂ (· + ·) (h1.1.trans h2.1.symm) (h1.2.trans h2.2.symm)).trans
          (List.length_append _ _).symm)
    obtain ⟨hh, hrest⟩ := List.append_inj' h hlen
    obtain ⟨ho, hn⟩ := List.append_inj hrest (h1.1.trans h2.1.symm)
    rw [hh, ho, hn]
  · obtain ⟨ho, hh⟩ := List.append_inj h (h1.trans h2.symm)
    rw [ho, hh]
  · rw [h]
  · obtain ⟨ho, hh⟩ := List.append_inj h (h1.trans h2.symm)
    rw [ho, hh]
  · rw [h]

/-- Two proof-record keys written in two ways. -/
theorem C28_keys_injective_witness :
    (StorageKey.pdpRecord [1, 2] (List.replicate 20 7) (List.replicate 20 9)).AddressesOk ∧
    (StorageKey.pdpRecord ([1] ++ [2]) (List.replicate 20 7) (List.replicate 19 9 ++ [9])).AddressesOk ∧
    (StorageKey.pdpRecord [1, 2] (List.replicate 20 7) (List.replicate 20 9)).bytes
        (List.replicate 20 0) =
      (StorageKey.pdpRecord ([1] ++ [2]) (List.replicate 20 7) (List.replicate 19 9 ++ [9])).bytes
        (List.replicate 20 0) ∧
    StorageKey.pdpRecord [1, 2] (List.replicate 20 7) (List.replicate 20 9) =
      StorageKey.pdpRecord ([1] ++ [2]) (List.replicate 20 7) (List.replicate 19 9 ++ [9]) :=
  ⟨by unfold StorageKey.AddressesOk; decide, by unfold StorageKey.AddressesOk; decide, by decide,
    C28_keys_injective (List.replicate 20 0)
      (StorageKey.pdpRecord [1, 2] (List.replicate 20 7) (List.replicate 20 9))
      (StorageKey.pdpRecord ([1] ++ [2]) (List.replicate 20 7) (List.replicate 19 9 ++ [9]))
      (by unfold StorageKey.AddressesOk; decide) (by unfold StorageKey.AddressesOk; decide)
      (by decide)⟩

/-- Whether a key lies under a scan prefix comes down to the parts after the
contract address and the tag. -/
theorem pdpPrefix_iff (contract fileHash fileOwner fileHash1 fileOwner1 nodeAddr1 : Bytes) :
    GenFsPdpRecordPrefix contract fileHash fileOwner <+:
        GenFsPdpRecordKey contract fileHash1 fileOwner1 nodeAddr1 ↔
      fileHash ++ fileOwner <+: fileHash1 ++ (fileOwner1 ++ nodeAddr1) := by
  unfold GenFsPdpRecordKey GenFsPdpRecordPrefix
  simp only [List.append_assoc, List.prefix_append_right_inj]

/-- C29, as the code has it: a proof-record key of (h1, o1, n1) starts with
the scan prefix of (h, o) exactly when `h ++ o` is a prefix of
`h1 ++ o1 ++ n1`; when the two hashes have the same length (owners being
20-byte addresses) this forces `h1 = h` and `o1 = o`. -/
theorem C29_prefix_scan (contract fileHash fileOwner fileHash1 fileOwner1 nodeAddr1 : Bytes)
    (ho : fileOwner.length = 20) (ho1 : fileOwner1.length = 20) :
    (GenFsPdpRecordPrefix contract fileHash fileOwner <+:
        GenFsPdpRecordKey contract fileHash1 fileOwner1 nodeAddr1 ↔
      fileHash ++ fileOwner <+: fileHash1 ++ (fileOwner1 ++ nodeAddr1)) ∧
    (fileHash1.length = fileHash.length →
      GenFsPdpRecordPrefix contract fileHash fileOwner <+:
        GenFsPdpRecordKey contract fileHash1 fileOwner1 nodeAddr1 →
      fileHash1 = fileHash ∧ fileOwner1 = fileOwner) := by
  refine ⟨pdpPrefix_iff _ _ _ _ _ _, fun hlen hpre => ?_⟩
  rw [pdpPrefix_iff] at hpre
  obtain ⟨t, ht⟩ := hpre
  rw [List.append_assoc] at ht
  obtain ⟨hh, hrest⟩ := List.append_inj ht hlen.symm
  obtain ⟨h1, _⟩ := List.append_inj hrest (ho.trans ho1.symm)
  exact ⟨hh.symm, h1.symm⟩

/-- The key of a record of the file itself lies under the prefix of the file. -/
theorem C29_prefix_scan_witness :
    addrSeven.length = 20 ∧ shortHash.length = shortHash.length ∧
    GenFsPdpRecordPrefix addrEight shortHash addrSeven <+:
      GenFsPdpRecordKey addrEight shortHash addrSeven addrNine ∧
    (shortHash = shortHash ∧ addrSeven = addrSeven) :=
  ⟨by decide, rfl, by decide,
    (C29_prefix_scan addrEight shortHash addrSeven shortHash addrSeven addrNine (by decide)
      (by decide)).2 rfl (by decide)⟩

/-- C29, counterexample: the key of a record of the file with the 21-byte hash
`longHash` and owner `addrEight` starts with the scan prefix of the file with
the one-byte hash `shortHash` and owner `addrSeven`, a different file. -/
theorem C29_counterexample :
    addrSeven.length = 20 ∧ addrEight.length = 20 ∧ addrNine.length = 20 ∧
    GenFsPdpRecordPrefix addrEight shortHash addrSeven <+:
      GenFsPdpRecordKey addrEight longHash addrEight addrNine ∧
    longHash ≠ shortHash ∧ addrEight ≠ addrSeven := by
  decide

/-! ## The jump instructions of the virtual machine -/

/-- Unfolding of `opJmp` once the operand has been read. -/
theorem opJmp_read (vm : VMEnv) (e : Engine) (num position : Int)
    (hread : vm.ReadInt16 e.Code e.InstructionPointer = .ok (num, position)) :
    opJmp vm e =
      if position + num - 3 < 0 ∨ position + num - 3 > e.Code.length then
        ((.FAULT, some .ERR_FAULT), { e with InstructionPointer := position })
      else if e.OpCode > JMP then
        if e.EvaluationStack.length < 1 then
          ((.FAULT, some .ERR_UNDER_STACK_LEN), { e with InstructionPointer := position })
        else
          match vm.PopBoolean e.EvaluationStack with
          | .error err => ((.FAULT, some err), { e with InstructionPointer := position })
          | .ok (fValue, rest) =>
            if (if e.OpCode = JMPIFNOT then !fValue else fValue) = true then
              ((.NONE, none),
                { e with EvaluationStack := rest, InstructionPointer := position + num - 3 })
            else ((.NONE, none), { e with EvaluationStack := rest, InstructionPointer := position })
      else ((.NONE, none), { e with InstructionPointer := position + num - 3 }) := by
  unfold opJmp
  rw [hread]
  rfl

/-- Whatever the opcode and the stack, a run of `opJmp` that returns `NONE`
leaves the instruction pointer at the target, which is within the code, or
where the read of the operand left it. -/
theorem opJmp_none (vm : VMEnv) (e : Engine) (num position : Int)
    (hread : vm.ReadInt16 e.Code e.InstructionPointer = .ok (num, position))
    (hnone : (opJmp vm e).1.1 = .NONE) :
    (opJmp vm e).2.Code = e.Code ∧
      (((opJmp vm e).2.InstructionPointer = position + num - 3 ∧
          0 ≤ position + num - 3 ∧ position + num - 3 ≤ e.Code.length) ∨
        (opJmp vm e).2.InstructionPointer = position) := by
  rw [opJmp_read vm e num position hread] at hnone ⊢
  by_cases hb : position + num - 3 < 0 ∨ position + num - 3 > e.Code.length
  · rw [if_pos hb] at hnone
    simp at hnone
  · have hin : 0 ≤ position + num - 3 ∧ position + num - 3 ≤ e.Code.length := by
      constructor <;> [skip; skip] <;> by_contra hc <;> exact hb (by omega)
    rw [if_neg hb] at hnone ⊢
    by_cases hop : e.OpCode > JMP
    · rw [if_pos hop] at hnone ⊢
      by_cases hlen : e.EvaluationStack.length < 1
      · rw [if_pos hlen] at hnone
        simp at hnone
      · rw [if_neg hlen] at hnone ⊢
        cases hpop : vm.PopBoolean e.EvaluationStack with
        | error err =>
          rw [hpop] at hnone
          simp at hnone
        | ok p =>
          obtain ⟨b, rest⟩ := p
          dsimp only
          by_cases hf : (if e.OpCode = JMPIFNOT then !b else b) = true
          · rw [if_pos hf]
            exact ⟨rfl, Or.inl ⟨rfl, hin⟩⟩
          · rw [if_neg hf]
            exact ⟨rfl, Or.inr rfl⟩
    · rw [if_neg hop]
      exact ⟨rfl, Or.inl ⟨rfl, hin⟩⟩

/-- C30: once the operand is read, with `position` the instruction pointer
after the read and target `position + num - 3`, `opJmp` faults with
`ERR_FAULT` whenever the target is negative or beyond the length of the code,
whatever the opcode and the stack, and leaves the stack as it was; otherwise
`JMP` sets the instruction pointer to the target, `JMPIF` does so when the
popped Boolean is true and `JMPIFNOT` when it is false, a jump not taken leaves
the instruction pointer where the read left it, and every run that returns
`NONE` with a moved instruction pointer leaves it between 0 and the length of
the code. -/
theorem C30_opJmp (vm : VMEnv) (e : Engine) (num position : Int)
    (hread : vm.ReadInt16 e.Code e.InstructionPointer = .ok (num, position)) :
    ((position + num - 3 < 0 ∨ position + num - 3 > e.Code.length) →
      opJmp vm e = ((.FAULT, some .ERR_FAULT), { e with InstructionPointer := position })) ∧
    (0 ≤ position + num - 3 → position + num - 3 ≤ e.Code.length →
      (e.OpCode = JMP →
        opJmp vm e = ((.NONE, none), { e with InstructionPointer := position + num - 3 })) ∧
      (e.OpCode = JMPIF ∨ e.OpCode = JMPIFNOT →
        (e.EvaluationStack = [] →
          opJmp vm e =
            ((.FAULT, some .ERR_UNDER_STACK_LEN), { e with InstructionPointer := position })) ∧
        (∀ err, e.EvaluationStack ≠ [] → vm.PopBoolean e.EvaluationStack = .error err →
          opJmp vm e = ((.FAULT, some err), { e with InstructionPointer := position })) ∧
        (∀ b rest, e.EvaluationStack ≠ [] → vm.PopBoolean e.EvaluationStack = .ok (b, rest) →
          opJmp vm e =
            ((.NONE, none),
              { e with
                EvaluationStack := rest
                InstructionPointer :=
                  (if b = (if e.OpCode = JMPIF then true else false) then position + num - 3
                    else position) })))) ∧
    ((opJmp vm e).1.1 = .NONE →
      (opJmp vm e).2.InstructionPointer = position + num - 3 ∨
        (opJmp vm e).2.InstructionPointer = position) ∧
    ((opJmp vm e).1.1 = .NONE → (opJmp vm e).2.InstructionPointer ≠ position →
      0 ≤ (opJmp vm e).2.InstructionPointer ∧
        (opJmp vm e).2.InstructionPointer ≤ ((opJmp vm e).2.Code.length : Int)) := by
  refine ⟨?_, ?_, ?_, ?_⟩
  · intro hb
    rw [opJmp_read vm e num position hread, if_pos hb]
  · intro h0 h1
    have hb : ¬ (position + num - 3 < 0 ∨ position + num - 3 > e.Code.length) := by
      intro hc
      omega
    refine ⟨?_, ?_⟩
    · intro hop
      have hgt : ¬ e.OpCode > JMP := by
        rw [hop]
        decide
      rw [opJmp_read vm e num position hread, if_neg hb, if_neg hgt]
    · intro hop
      have hgt : e.OpCode > JMP := by
        rcases hop with hop | hop <;> rw [hop] <;> decide
      refine ⟨?_, ?_, ?_⟩
      · intro hst
        have hlen : e.EvaluationStack.length < 1 := by
          rw [hst]
          decide
        rw [opJmp_read vm e num position hread, if_neg hb, if_pos hgt, if_pos hlen]
      · intro err hst hpop
        have hlen : ¬ e.EvaluationStack.length < 1 := by
          have := List.length_pos.mpr hst
          omega
        rw [opJmp_read vm e num position hread, if_neg hb, if_pos hgt, if_neg hlen, hpop]
      · intro b rest hst hpop
        have hlen : ¬ e.EvaluationStack.length < 1 := by
          have := List.length_pos.mpr hst
          omega
        rw [opJmp_read vm e num position hread, if_neg hb, if_pos hgt, if_neg hlen, hpop]
        dsimp only
        rcases hop with hop | hop
        · have hne : e.OpCode ≠ JMPIFNOT := by
            rw [hop]
            decide
          rw [if_neg hne, if_pos hop]
          cases b <;> rfl
        · have hne : e.OpCode ≠ JMPIF := by
            rw [hop]
            decide
          rw [if_pos hop, if_neg hne]
          cases b <;> rfl
  · intro hnone
    rcases (opJmp_none vm e num position hread hnone).2 with h | h
    · exact Or.inl h.1
    · exact Or.inr h
  · intro hnone hmoved
    have hcode := (opJmp_none vm e num position hread hnone).1
    rcases (opJmp_none vm e num position hread hnone).2 with h | h
    · rw [hcode, h.1]
      exact h.2
    · exact absurd h hmoved

/-- C30 at `exEngine` under `refVM`: the operand 5 read at position 1 gives
the target 3 + 5 - 3 = 5, the length of the code. -/
theorem C30_opJmp_witness :
    refVM.ReadInt16 exEngine.Code exEngine.InstructionPointer = .ok (5, 3) ∧
    (opJmp refVM exEngine).1.1 = .NONE ∧
    (opJmp refVM exEngine).2.InstructionPointer = 5 ∧
    (0 ≤ (opJmp refVM exEngine).2.InstructionPointer ∧
      (opJmp refVM exEngine).2.InstructionPointer ≤
        ((opJmp refVM exEngine).2.Code.length : Int)) :=
  ⟨rfl, by decide, by decide,
    (C30_opJmp refVM exEngine 5 3 rfl).2.2.2 (by decide) (by decide)⟩

/-! ## The node listing and the wall clock -/

/-- The loop of `FsGetNodeInfoList` appends the first `listingBound count`
registered entries of the list it is given. -/
theorem nodeInfoLoop_eq (st : State) (l : List Address) (count : Nat) (acc : List FsNodeInfo)
    (hc : count < W64) :
    nodeInfoLoop st l count acc =
      acc ++ (l.filterMap (getNodeInfo st)).take (listingBound count) := by
  induction l generalizing count acc with
  | nil => simp [nodeInfoLoop]
  | cons addr rest ih =>
    unfold nodeInfoLoop
    cases hinfo : getNodeInfo st addr with
    | none =>
      dsimp only
      rw [ih count acc hc, List.filterMap_cons_none hinfo]
    | some info =>
      dsimp only
      rw [List.filterMap_cons_some hinfo]
      have hW : W64 = 18446744073709551616 := by decide
      by_cases h1 : count = 1
      · subst h1
        have hs : sub64 1 1 = 0 := by decide
        have hb : listingBound 1 = 1 := by decide
        rw [hs, if_pos (le_refl 0), hb]
        rfl
      · have hlt : sub64 count 1 < W64 := by
          unfold sub64
          exact Nat.mod_lt _ (by decide)
        have hsub : sub64 count 1 = if count = 0 then W64 - 1 else count - 1 := by
          unfold sub64
          by_cases h0 : count = 0
          · subst h0
            decide
          · rw [if_neg h0]
            have h11 : (1 : Nat) % W64 = 1 := by decide
            rw [h11]
            have : count + (W64 - 1) = (count - 1) + W64 := by omega
            rw [this, Nat.add_mod_right, Nat.mod_eq_of_lt (by omega)]
        have hne : ¬ sub64 count 1 ≤ 0 := by
          rw [hsub]
          by_cases h0 : count = 0
          · rw [if_pos h0, hW]
            omega
          · rw [if_neg h0]
            omega
        rw [if_neg hne, ih (sub64 count 1) (acc ++ [info]) hlt]
        have hbound : listingBound count = listingBound (sub64 count 1) + 1 := by
          by_cases h0 : count = 0
          · subst h0
            decide
          · unfold listingBound
            rw [Nat.mod_eq_of_lt hc, Nat.mod_eq_of_lt hlt, hsub]
            rw [if_neg h0, if_neg h0, if_neg (by omega)]
            omega
        rw [hbound, List.take_succ_cons, List.append_assoc, List.singleton_append]

/-- C27, divergence.  For every shuffle, wall-clock second, state and count
the listing is the first `listingBound count` registered entries of the node
list as the shuffle seeded with the wall-clock second orders it; ledger time
and height do not occur.  With the nodes 9 and 6 registered and the count 1, a
shuffle that keeps the order at second 0 and swaps the two at second 1 makes
two executions on the same input and the same stored state return node 9 and
node 6. -/
theorem C27_wall_clock_listing :
    (∀ (shuffle : Nat → List Address → List Address) (wallClock : Nat) (st : State)
        (count : Nat),
      FsGetNodeInfoList shuffle wallClock st (some count) =
        .ok (((if getNodeAddrList st ≠ [] then shuffle wallClock (getNodeAddrList st)
                else getNodeAddrList st).filterMap (getNodeInfo st)).take
              (listingBound count))) ∧
    getNodeAddrList twoNodeState = [9, 6] ∧
    flipShuffle 0 [9, 6] = [9, 6] ∧
    flipShuffle 1 [9, 6] = [6, 9] ∧
    FsGetNodeInfoList flipShuffle 0 twoNodeState (some 1) = .ok [⟨9, 1000, 0⟩] ∧
    FsGetNodeInfoList flipShuffle 1 twoNodeState (some 1) = .ok [⟨6, 1000, 0⟩] ∧
    FsGetNodeInfoList flipShuffle 0 twoNodeState (some 0) =
      .ok [⟨9, 1000, 0⟩, ⟨6, 1000, 0⟩] ∧
    FsGetNodeInfoList flipShuffle 1 twoNodeState (some 0) =
      .ok [⟨6, 1000, 0⟩, ⟨9, 1000, 0⟩] := by
  refine ⟨?_, by decide, by decide, by decide, rfl, rfl, rfl, rfl⟩
  intro shuffle wallClock st count
  unfold FsGetNodeInfoList
  dsimp only
  rw [nodeInfoLoop_eq st _ (count % W64) [] (Nat.mod_lt _ (by decide)), List.nil_append]
  unfold listingBound
  rw [Nat.mod_mod]

/-! ## Escrow solvency -/

section EscrowSums

variable {α κ : Type} [DecidableEq κ] (key : α → κ) (v : α → Nat)

theorem sum_tdel_le (k : κ) (t : List α) :
    ((tdel key k t).map v).sum ≤ (t.map v).sum := by
  unfold tdel
  induction t with
  | nil => exact le_refl _
  | cons a t ih =>
    rw [List.filter_cons]
    split
    · simp only [List.map_cons, List.sum_cons]
      omega
    · simp only [List.map_cons, List.sum_cons]
      omega

theorem sum_tget_tdel {k : κ} {t : List α} {x : α} (h : tget key k t = some x) :
    v x + ((tdel key k t).map v).sum ≤ (t.map v).sum := by
  unfold tget at h
  induction t with
  | nil => cases h
  | cons a t ih =>
    rw [List.find?_cons] at h
    by_cases hk : key a = k
    · have hd : decide (key a = k) = true := decide_eq_true hk
      rw [hd] at h
      have hf : tdel key k (a :: t) = tdel key k t := by
        unfold tdel
        rw [List.filter_cons]
        simp [hk]
      rw [hf]
      cases h
      have := sum_tdel_le key v k t
      simp only [List.map_cons, List.sum_cons]
      omega
    · have hd : decide (key a = k) = false := decide_eq_false hk
      rw [hd] at h
      have hf : tdel key k (a :: t) = a :: tdel key k t := by
        unfold tdel
        rw [List.filter_cons]
        simp [hk]
      rw [hf]
      have := ih h
      simp only [List.map_cons, List.sum_cons]
      omega

theorem sum_tput (a : α) (t : List α) :
    ((tput key a t).map v).sum = v a + ((tdel key (key a) t).map v).sum := by
  unfold tput
  simp only [List.map_cons, List.sum_cons]

theorem sum_tput_le (a : α) (t : List α) :
    ((tput key a t).map v).sum ≤ v a + (t.map v).sum := by
  rw [sum_tput]
  have := sum_tdel_le key v (key a) t
  omega

/-- Replacing a stored entry by one of the same key changes the sum by what
the value of the entry changes. -/
theorem sum_tput_replace {a x : α} {t : List α} (h : tget key (key a) t = some x) :
    ((tput key a t).map v).sum + v x ≤ v a + (t.map v).sum := by
  rw [sum_tput]
  have := sum_tget_tdel key v h
  omega

theorem le_sum_of_mem {t : List α} {x : α} (h : x ∈ t) : v x ≤ (t.map v).sum :=
  List.single_le_sum (fun _ _ => Nat.zero_le _) _ (List.mem_map_of_mem v h)

end EscrowSums

theorem EscrowStep_refl (c : Address) (st : State) : EscrowStep c st st :=
  le_refl _

theorem EscrowStep_trans {c : Address} {st st1 st2 : State}
    (h1 : EscrowStep c st st1) (h2 : EscrowStep c st1 st2) : EscrowStep c st st2 := by
  unfold EscrowStep at *
  omega

theorem Solvent_of_step {env : Env} {st st1 : State} (h : Solvent env st)
    (hs : EscrowStep env.contract st st1) : Solvent env st1 := by
  unfold Solvent EscrowStep at *
  omega

/-- A step between states with the same leases, files, pledges and balances. -/
theorem EscrowStep_of_eq {c : Address} {st st1 : State} (hs : st1.spaces = st.spaces)
    (hf : st1.files = st.files) (hp : st1.readPledges = st.readPledges)
    (hb : st1.balances = st.balances) : EscrowStep c st st1 := by
  unfold EscrowStep escrowOwed balanceOf
  rw [hs, hf, hp, hb]

theorem EscrowStep_of_stored {c : Address} {st st1 : State} (h : stored st1 = stored st) :
    EscrowStep c st st1 := by
  have h2 := (stored_eq_iff st st1).1 h
  exact EscrowStep_of_eq h2.2.1 h2.2.2.1 h2.2.2.2.2.2.2.1 h2.2.2.2.2.2.2.2

theorem escrowOwed_congr {st st1 : State} (hs : st1.spaces = st.spaces)
    (hf : st1.files = st.files) (hp : st1.readPledges = st.readPledges) :
    escrowOwed st1 = escrowOwed st := by
  unfold escrowOwed
  rw [hs, hf, hp]

theorem balanceOf_congr {st st1 : State} (hb : st1.balances = st.balances) (c : Address) :
    balanceOf st1 c = balanceOf st c := by
  unfold balanceOf
  rw [hb]

theorem escrowOwed_transfer (st : State) (a b : Address) (n : Nat) :
    escrowOwed (appCallTransfer st a b n).1 = escrowOwed st :=
  escrowOwed_congr (appCallTransfer_frame st a b n).2.1 (appCallTransfer_frame st a b n).2.2.1
    (appCallTransfer_readPledges st a b n)

/-- The balance of an account after a successful transfer into it from
another account. -/
theorem balanceOf_transfer_in {st : State} {a c : Address} {n : Nat}
    (h : (appCallTransfer st a c n).2 = true) (hac : a ≠ c) :
    balanceOf (appCallTransfer st a c n).1 c = balanceOf st c + n :=
  (appCallTransfer_balanceOf h hac).2.1

/-- The balance of an account after a successful transfer out of it: it has
lost no more than the amount. -/
theorem balanceOf_transfer_out {st : State} {c b : Address} {n : Nat}
    (h : (appCallTransfer st c b n).2 = true) :
    balanceOf st c ≤ balanceOf (appCallTransfer st c b n).1 c + n := by
  by_cases hcb : c = b
  · subst hcb
    obtain ⟨mid, h1, h2⟩ := appCallTransfer_ok_balances h
    have hr := balanceOf_put h2
    have hm := balanceOf_put h1
    rw [hr.1, hm.1]
    rw [appCallTransfer_snd] at h
    have hle : n ≤ balanceOf st c := of_decide_eq_true h
    omega
  · have := (appCallTransfer_balanceOf h hcb).1
    rw [this]
    omega

theorem EscrowStep_transfer_fail {c : Address} {st : State} {a b : Address} {n : Nat}
    (h : (appCallTransfer st a b n).2 = false) :
    EscrowStep c st (appCallTransfer st a b n).1 :=
  EscrowStep_of_stored (appCallTransfer_fail_stored h)

/-- After a successful payment of `n` into the account `c`, a state with the
balances of the payment that owes at most `n` more is a step. -/
theorem EscrowStep_in {c : Address} {st st1 : State} {a : Address} {n : Nat}
    (h : (appCallTransfer st a c n).2 = true) (hac : a ≠ c)
    (hb : st1.balances = (appCallTransfer st a c n).1.balances)
    (he : escrowOwed st1 ≤ escrowOwed st + n) : EscrowStep c st st1 := by
  have h1 := balanceOf_transfer_in h hac
  have h2 := balanceOf_congr hb c
  unfold EscrowStep
  omega

/-- After a successful payment of `n` out of the account `c`, a state with the
balances of the payment that owes at least `n` less is a step. -/
theorem EscrowStep_out {c : Address} {st st1 : State} {b : Address} {n : Nat}
    (h : (appCallTransfer st c b n).2 = true)
    (hb : st1.balances = (appCallTransfer st c b n).1.balances)
    (he : escrowOwed st1 + n ≤ escrowOwed st) : EscrowStep c st st1 := by
  have h1 := balanceOf_transfer_out h
  have h2 := balanceOf_congr hb c
  unfold EscrowStep
  omega

/-- A state with the same balances that owes no more is a step. -/
theorem EscrowStep_keep {c : Address} {st st1 : State}
    (hb : st1.balances = st.balances) (he : escrowOwed st1 ≤ escrowOwed st) :
    EscrowStep c st st1 := by
  have h2 := balanceOf_congr hb c
  unfold EscrowStep
  omega

theorem escrowOwed_addSpaceInfo_le (st : State) (lease : SpaceInfo) :
    escrowOwed (addSpaceInfo st lease) ≤ escrowOwed st + lease.RestAmount := by
  unfold escrowOwed addSpaceInfo
  dsimp only
  have := sum_tput_le SpaceInfo.SpaceOwner SpaceInfo.RestAmount lease st.spaces
  omega

theorem escrowOwed_addSpaceInfo_replace {st : State} {lease x : SpaceInfo}
    (h : tget SpaceInfo.SpaceOwner lease.SpaceOwner st.spaces = some x) :
    escrowOwed (addSpaceInfo st lease) + x.RestAmount ≤ escrowOwed st + lease.RestAmount := by
  unfold escrowOwed addSpaceInfo
  dsimp only
  have := sum_tput_replace SpaceInfo.SpaceOwner SpaceInfo.RestAmount h
  omega

theorem escrowOwed_delSpaceInfo {st : State} {owner : Address} {x : SpaceInfo}
    (h : tget SpaceInfo.SpaceOwner owner st.spaces = some x) :
    escrowOwed (delSpaceInfo st owner) + x.RestAmount ≤ escrowOwed st := by
  unfold escrowOwed delSpaceInfo
  dsimp only
  have := sum_tget_tdel SpaceInfo.SpaceOwner SpaceInfo.RestAmount h
  omega

theorem escrowOwed_addFileInfo_le (st : State) (f : FileInfo) :
    escrowOwed (addFileInfo st f) ≤ escrowOwed st + fileEscrow f := by
  unfold escrowOwed addFileInfo
  dsimp only
  have := sum_tput_le fileKey fileEscrow f st.files
  omega

theorem escrowOwed_addFileInfo_replace {st : State} {f x : FileInfo}
    (h : tget fileKey (fileKey f) st.files = some x) :
    escrowOwed (addFileInfo st f) + fileEscrow x ≤ escrowOwed st + fileEscrow f := by
  unfold escrowOwed addFileInfo
  dsimp only
  have := sum_tput_replace fileKey fileEscrow h
  omega

theorem escrowOwed_delFileInfo {st : State} {owner : Address} {hash : Hash} {x : FileInfo}
    (h : tget fileKey (owner, hash) st.files = some x) :
    escrowOwed (delFileInfo st owner hash) + fileEscrow x ≤ escrowOwed st := by
  unfold escrowOwed delFileInfo
  dsimp only
  have := sum_tget_tdel fileKey fileEscrow h
  omega

theorem escrowOwed_delFileInfo_le (st : State) (owner : Address) (hash : Hash) :
    escrowOwed (delFileInfo st owner hash) ≤ escrowOwed st := by
  unfold escrowOwed delFileInfo
  dsimp only
  have := sum_tdel_le fileKey fileEscrow (owner, hash) st.files
  omega

theorem escrowOwed_addReadPledge_le (st : State) (p : ReadPledge) :
    escrowOwed (addReadPledge st p) ≤ escrowOwed st + p.RestMoney := by
  unfold escrowOwed addReadPledge
  dsimp only
  have := sum_tput_le pledgeKey ReadPledge.RestMoney p st.readPledges
  omega

theorem escrowOwed_addReadPledge_replace {st : State} {p x : ReadPledge}
    (h : tget pledgeKey (pledgeKey p) st.readPledges = some x) :
    escrowOwed (addReadPledge st p) + x.RestMoney ≤ escrowOwed st + p.RestMoney := by
  unfold escrowOwed addReadPledge
  dsimp only
  have := sum_tput_replace pledgeKey ReadPledge.RestMoney h
  omega

theorem escrowOwed_delReadPledge {st : State} {d : Address} {hash : Hash} {x : ReadPledge}
    (h : tget pledgeKey (d, hash) st.readPledges = some x) :
    escrowOwed (delReadPledge st d hash) + x.RestMoney ≤ escrowOwed st := by
  unfold escrowOwed delReadPledge
  dsimp only
  have := sum_tget_tdel pledgeKey ReadPledge.RestMoney h
  omega

/-- The lease a lazy read returns comes from a stored lease of the owner. -/
theorem getAndUpdateSpaceInfo_some {env : Env} {st : State} {owner : Address}
    {space : SpaceInfo} (h : getAndUpdateSpaceInfo env st owner = some space) :
    ∃ x, tget SpaceInfo.SpaceOwner owner st.spaces = some x ∧ x.SpaceOwner = owner ∧
      space = env.updateSpace x := by
  unfold getAndUpdateSpaceInfo at h
  cases hx : tget SpaceInfo.SpaceOwner owner st.spaces with
  | none =>
    rw [hx] at h
    cases h
  | some x =>
    rw [hx] at h
    cases h
    exact ⟨x, rfl, tget_key SpaceInfo.SpaceOwner hx, rfl⟩

/-- The file a lazy read returns comes from a stored file under the key. -/
theorem getAndUpdateFileInfo_some {env : Env} {st : State} {owner : Address} {hash : Hash}
    {f : FileInfo} (h : getAndUpdateFileInfo env st owner hash = some f) :
    ∃ x, tget fileKey (owner, hash) st.files = some x ∧ fileKey x = (owner, hash) ∧
      f = env.updateFile x := by
  unfold getAndUpdateFileInfo at h
  cases hx : tget fileKey (owner, hash) st.files with
  | none =>
    rw [hx] at h
    cases h
  | some x =>
    rw [hx] at h
    cases h
    exact ⟨x, rfl, tget_key fileKey hx, rfl⟩

theorem sub64_le_sub {a b : Nat} (h : b ≤ a) (hb : b < W64) : sub64 a b ≤ a - b := by
  unfold sub64
  rw [Nat.mod_eq_of_lt hb]
  have h1 : a + (W64 - b) = (a - b) + W64 := by omega
  rw [h1, Nat.add_mod_right]
  exact Nat.mod_le _ _

theorem add64_le_add (a b : Nat) : add64 a b ≤ a + b :=
  Nat.mod_le _ _

theorem FsCreateSpace_step (env : Env) (st : State) (input : Input SpaceInfo)
    (hself : env.CheckWitness env.contract = false) :
    EscrowStep env.contract st (FsCreateSpace env st input).2 := by
  unfold FsCreateSpace
  dsimp only
  repeat' split
  all_goals first
    | exact EscrowStep_refl _ _
    | exact EscrowStep_transfer_fail (by assumption)
    | skip
  rename_i spaceInfo hw _ _ _ _ _ _ ht
  have hac : spaceInfo.SpaceOwner ≠ env.contract := fun e => hw (by rw [e]; exact hself)
  refine EscrowStep_in (Bool.eq_true_of_not_eq_false ht) hac rfl ?_
  refine le_trans (escrowOwed_addSpaceInfo_le _ _) ?_
  rw [escrowOwed_transfer]

theorem FsDeleteSpace_step (env : Env) (st : State) (input : Option Address)
    (hlazy : LazyKeeps env) :
    EscrowStep env.contract st (FsDeleteSpace env st input).2 := by
  unfold FsDeleteSpace
  dsimp only
  repeat' split
  all_goals first
    | exact EscrowStep_refl _ _
    | exact EscrowStep_transfer_fail (by assumption)
    | skip
  rename_i owner _ _ space hget _ ht
  obtain ⟨x, hx, _, rfl⟩ := getAndUpdateSpaceInfo_some hget
  refine EscrowStep_out (Bool.eq_true_of_not_eq_false ht) rfl ?_
  have hx1 : tget SpaceInfo.SpaceOwner owner
      (appCallTransfer st env.contract (env.updateSpace x).SpaceOwner
        (env.updateSpace x).RestAmount).1.spaces = some x := by
    rw [(appCallTransfer_frame _ _ _ _).2.1]
    exact hx
  have h1 := escrowOwed_delSpaceInfo hx1
  rw [escrowOwed_transfer] at h1
  have h2 := (hlazy.1 x).2
  dsimp only
  omega

/-- Putting a lease into the state a transfer leaves, over the stored lease of
its owner. -/
theorem escrowOwed_transfer_addSpaceInfo {st : State} {a b : Address} {n : Nat}
    {lease x : SpaceInfo} (h : tget SpaceInfo.SpaceOwner lease.SpaceOwner st.spaces = some x) :
    escrowOwed (addSpaceInfo (appCallTransfer st a b n).1 lease) + x.RestAmount ≤
      escrowOwed st + lease.RestAmount := by
  have hx1 : tget SpaceInfo.SpaceOwner lease.SpaceOwner (appCallTransfer st a b n).1.spaces =
      some x := by
    rw [(appCallTransfer_frame _ _ _ _).2.1]
    exact h
  have h1 := escrowOwed_addSpaceInfo_replace hx1
  rw [escrowOwed_transfer] at h1
  exact h1

theorem FsUpdateSpace_step (env : Env) (st : State) (input : Input SpaceUpdate)
    (hself : env.CheckWitness env.contract = false) (hlazy : LazyKeeps env) :
    EscrowStep env.contract st (FsUpdateSpace env st input).2 := by
  by_cases hok : (FsUpdateSpace env st input).1 = Ret.BYTE_TRUE
  · cases input with
    | badVarBytes => cases hok
    | badPayload => cases hok
    | ok spaceUpdate =>
      obtain ⟨gp, space, newFee, payer, payee, restAmount, _, hget, _, hw, _, _, _, _, hfee,
        hcase⟩ := FsUpdateSpace_ok hok
      obtain ⟨x, hx, hxo, rfl⟩ := getAndUpdateSpaceInfo_some hget
      have hkey : tget SpaceInfo.SpaceOwner
          (updateSpaceLease spaceUpdate (env.updateSpace x)
            (updateSpaceNewPayAmount gp spaceUpdate (env.updateSpace x)) restAmount).SpaceOwner
          st.spaces = some x := by
        show tget SpaceInfo.SpaceOwner (env.updateSpace x).SpaceOwner st.spaces = some x
        rw [(hlazy.1 x).1, hxo]
        exact hx
      have hrest : (updateSpaceLease spaceUpdate (env.updateSpace x)
            (updateSpaceNewPayAmount gp spaceUpdate (env.updateSpace x)) restAmount).RestAmount =
          restAmount := rfl
      have hle := (hlazy.1 x).2
      have hpayer : spaceUpdate.Payer ≠ env.contract := fun e => by
        rw [e, hself] at hw
        cases hw
      unfold updateSpaceFee at hfee
      dsimp only at hfee
      split at hfee
      · cases hfee
        have hadd := add64_le_add (env.updateSpace x).RestAmount
          (sub64 (updateSpaceNewPayAmount gp spaceUpdate (env.updateSpace x))
            (env.updateSpace x).PayAmount)
        rcases hcase with ⟨_, ht, hst⟩ | ⟨h0, hst⟩
        · rw [hst]
          refine EscrowStep_in ht hpayer rfl ?_
          have h1 := escrowOwed_transfer_addSpaceInfo (a := spaceUpdate.Payer)
            (b := env.contract)
            (n := sub64 (updateSpaceNewPayAmount gp spaceUpdate (env.updateSpace x))
              (env.updateSpace x).PayAmount) hkey
          rw [hrest] at h1
          omega
        · rw [hst]
          refine EscrowStep_keep rfl ?_
          have h1 := escrowOwed_addSpaceInfo_replace hkey
          rw [hrest] at h1
          omega
      · split at hfee
        · split at hfee
          · cases hfee
          · rename_i hge
            cases hfee
            have hsub := sub64_le_sub (Nat.le_of_not_lt hge) (sub64_lt _ _)
            rcases hcase with ⟨_, ht, hst⟩ | ⟨h0, hst⟩
            · rw [hst]
              refine EscrowStep_out ht rfl ?_
              have h1 := escrowOwed_transfer_addSpaceInfo (a := env.contract)
                (b := spaceUpdate.Payer)
                (n := sub64 (env.updateSpace x).PayAmount
                  (updateSpaceNewPayAmount gp spaceUpdate (env.updateSpace x))) hkey
              rw [hrest] at h1
              omega
            · rw [hst]
              refine EscrowStep_keep rfl ?_
              have h1 := escrowOwed_addSpaceInfo_replace hkey
              rw [hrest] at h1
              omega
        · cases hfee
          rcases hcase with ⟨hne, _, _⟩ | ⟨_, hst⟩
          · exact absurd rfl hne
          · rw [hst]
            refine EscrowStep_keep rfl ?_
            have h1 := escrowOwed_addSpaceInfo_replace hkey
            rw [hrest] at h1
            omega
  · exact EscrowStep_of_stored (FsUpdateSpace_error_stored env st input hok)

/-- The pledge `FsReadFilePledge` stores is keyed as the request and holds the
fee on top of what the prior pledge of the key held. -/
theorem pledgeToStore_restMoney (env : Env) (gp : FsGlobalParam) (st : State) (f : FileInfo)
    (p : ReadPledge) :
    pledgeKey (pledgeToStore env gp st f p) = pledgeKey p ∧
    ((tget pledgeKey (pledgeKey p) st.readPledges = none ∧
        (pledgeToStore env gp st f p).RestMoney ≤ newPledgeFee env gp p) ∨
      ∃ x, tget pledgeKey (pledgeKey p) st.readPledges = some x ∧
        (pledgeToStore env gp st f p).RestMoney ≤ x.RestMoney + newPledgeFee env gp p) := by
  unfold pledgeToStore getReadPledge
  dsimp only
  cases hx : tget pledgeKey (p.Downloader, p.FileHash) st.readPledges with
  | none =>
    refine ⟨rfl, Or.inl ⟨hx, ?_⟩⟩
    dsimp only
    have := add64_le_add 0 (newPledgeFee env gp p)
    omega
  | some x =>
    refine ⟨rfl, Or.inr ⟨x, hx, ?_⟩⟩
    dsimp only
    exact add64_le_add _ _

theorem FsReadFilePledge_step (env : Env) (st : State) (input : Input ReadPledge)
    (hself : env.CheckWitness env.contract = false) :
    EscrowStep env.contract st (FsReadFilePledge env st input).2 := by
  by_cases hok : (FsReadFilePledge env st input).1 = Ret.BYTE_TRUE
  · cases input with
    | badVarBytes => cases hok
    | badPayload => cases hok
    | ok readPledge =>
      obtain ⟨gp, fileInfo, _, _, _, hw, ht, hst⟩ := FsReadFilePledge_ok hok
      have hd : readPledge.Downloader ≠ env.contract := fun e => by
        rw [e, hself] at hw
        cases hw
      rw [hst]
      refine EscrowStep_in ht hd rfl ?_
      obtain ⟨hkey, hcase⟩ := pledgeToStore_restMoney env gp st fileInfo readPledge
      rcases hcase with ⟨_, hle⟩ | ⟨x, hx, hle⟩
      · have h1 := escrowOwed_addReadPledge_le
          (appCallTransfer st readPledge.Downloader env.contract
            (newPledgeFee env gp readPledge)).1 (pledgeToStore env gp st fileInfo readPledge)
        rw [escrowOwed_transfer] at h1
        omega
      · have hx1 : tget pledgeKey (pledgeKey (pledgeToStore env gp st fileInfo readPledge))
            (appCallTransfer st readPledge.Downloader env.contract
              (newPledgeFee env gp readPledge)).1.readPledges = some x := by
          rw [appCallTransfer_readPledges, hkey]
          exact hx
        have h1 := escrowOwed_addReadPledge_replace hx1
        rw [escrowOwed_transfer] at h1
        omega
  · exact EscrowStep_of_stored (FsReadFilePledge_error_stored env st input hok)

theorem FsCancelFileRead_step (env : Env) (st : State) (input : Option GetReadPledge) :
    EscrowStep env.contract st (FsCancelFileRead env st input).2 := by
  unfold FsCancelFileRead
  dsimp only
  repeat' split
  all_goals first
    | exact EscrowStep_refl _ _
    | exact EscrowStep_transfer_fail (by assumption)
    | skip
  · rename_i getPledge _ readPledge hget _ _ _ ht
    refine EscrowStep_out (Bool.eq_true_of_not_eq_false ht) rfl ?_
    have hx1 : tget pledgeKey (getPledge.Downloader, getPledge.FileHash)
        (appCallTransfer st env.contract readPledge.Downloader
          readPledge.RestMoney).1.readPledges = some readPledge := by
      rw [appCallTransfer_readPledges]
      exact hget
    have h1 := escrowOwed_delReadPledge hx1
    rw [escrowOwed_transfer] at h1
    exact h1
  · rename_i getPledge _ readPledge hget _ _ _
    refine EscrowStep_keep rfl ?_
    have h1 := escrowOwed_delReadPledge (show tget pledgeKey (getPledge.Downloader,
      getPledge.FileHash) st.readPledges = some readPledge from hget)
    dsimp only
    omega

theorem fileEscrow_le (f : FileInfo) : fileEscrow f ≤ f.RestAmount := by
  unfold fileEscrow
  split
  · exact le_refl _
  · exact Nat.zero_le _

theorem fileEscrow_useFile {f : FileInfo} (h : f.StorageType = StorageType.UseFile) :
    fileEscrow f = f.RestAmount := by
  unfold fileEscrow
  rw [if_pos h]

theorem fileEscrow_useSpace {f : FileInfo} (h : f.StorageType = StorageType.UseSpace) :
    fileEscrow f = 0 := by
  unfold fileEscrow
  rw [if_neg]
  rw [h]
  exact fun e => StorageType.noConfusion e

/-- The stored entry behind a file read lazily under its own key, with what
the recomputation keeps. -/
theorem getAndUpdateFileInfo_stored_entry {env : Env} {st : State} {owner : Address}
    {hash : Hash} {f : FileInfo} (hlazy : LazyKeeps env)
    (h : getAndUpdateFileInfo env st owner hash = some f) :
    ∃ x, tget fileKey (f.FileOwner, f.FileHash) st.files = some x ∧
      (f.FileOwner, f.FileHash) = (owner, hash) ∧
      f.StorageType = x.StorageType ∧ f.RestAmount ≤ x.RestAmount := by
  obtain ⟨x, hx, hk, rfl⟩ := getAndUpdateFileInfo_some h
  have hl := hlazy.2 x
  have hkey : ((env.updateFile x).FileOwner, (env.updateFile x).FileHash) = (owner, hash) := by
    have := hl.1
    unfold fileKey at this hk
    rw [this, hk]
  refine ⟨x, ?_, hkey, hl.2.1, hl.2.2⟩
  rw [hkey]
  exact hx

theorem escrowOwed_setFileOwner (st : State) (hash : Hash) (owner : Address) :
    escrowOwed (setFileOwner st hash owner) = escrowOwed st := rfl

theorem escrowOwed_purge_le (st : State) (f : FileInfo) :
    escrowOwed (deleteFilePurge st f) ≤ escrowOwed st :=
  escrowOwed_delFileInfo_le st f.FileOwner f.FileHash

theorem escrowOwed_purge {st : State} {f x : FileInfo}
    (h : tget fileKey (f.FileOwner, f.FileHash) st.files = some x) :
    escrowOwed (deleteFilePurge st f) + fileEscrow x ≤ escrowOwed st :=
  escrowOwed_delFileInfo h

/-- Putting back a lease that was read lazily, with its owner and no more
`RestAmount`, owes no more. -/
theorem escrowOwed_addSpaceInfo_lazy {env : Env} {st : State} {owner : Address}
    {space lease : SpaceInfo} (hlazy : LazyKeeps env)
    (hget : getAndUpdateSpaceInfo env st owner = some space)
    (hown : lease.SpaceOwner = space.SpaceOwner)
    (hrest : lease.RestAmount ≤ space.RestAmount) :
    escrowOwed (addSpaceInfo st lease) ≤ escrowOwed st := by
  obtain ⟨y, hy, hyo, rfl⟩ := getAndUpdateSpaceInfo_some hget
  have hkey : tget SpaceInfo.SpaceOwner lease.SpaceOwner st.spaces = some y := by
    rw [hown, (hlazy.1 y).1, hyo]
    exact hy
  have h1 := escrowOwed_addSpaceInfo_replace hkey
  have h2 := (hlazy.1 y).2
  omega

theorem escrowOwed_addFileInfo_useSpace (st : State) {f : FileInfo}
    (h : f.StorageType = StorageType.UseSpace) :
    escrowOwed (addFileInfo st f) ≤ escrowOwed st := by
  have h1 := escrowOwed_addFileInfo_le st f
  have h2 := fileEscrow_useSpace h
  omega

theorem escrowOwed_transfer_addFileInfo_le (st : State) (a b : Address) (n : Nat)
    (f : FileInfo) :
    escrowOwed (addFileInfo (appCallTransfer st a b n).1 f) ≤ escrowOwed st + f.RestAmount := by
  have h1 := escrowOwed_addFileInfo_le (appCallTransfer st a b n).1 f
  rw [escrowOwed_transfer] at h1
  have h2 := fileEscrow_le f
  omega

/-- The refund step of `deleteFile`, when it succeeds, and the purge after it:
the contract pays back no more than the entry it deletes held. -/
theorem deleteFileRefund_purge_step {env : Env} {st : State} {f x : FileInfo}
    (hlazy : LazyKeeps env)
    (hx : tget fileKey (f.FileOwner, f.FileHash) st.files = some x)
    (hty : f.StorageType = x.StorageType) (hle : f.RestAmount ≤ x.RestAmount)
    (hok : (deleteFileRefund env st f).2 = true) :
    EscrowStep env.contract st (deleteFilePurge (deleteFileRefund env st f).1 f) := by
  revert hok
  unfold deleteFileRefund
  dsimp only
  repeat' split
  all_goals intro hok
  all_goals first
    | (cases hok; done)
    | skip
  · rename_i hs ht
    refine EscrowStep_out (Bool.eq_true_of_not_eq_false ht) rfl ?_
    have hx1 : tget fileKey (f.FileOwner, f.FileHash)
        (appCallTransfer st env.contract f.FileOwner f.RestAmount).1.files = some x := by
      rw [(appCallTransfer_frame _ _ _ _).2.2.1]
      exact hx
    have h1 := escrowOwed_purge hx1
    rw [escrowOwed_transfer] at h1
    have h2 : fileEscrow x = x.RestAmount := fileEscrow_useFile (by rw [← hty]; exact hs)
    dsimp only
    omega
  · rename_i hs _ space hget
    refine EscrowStep_keep rfl ?_
    exact le_trans (escrowOwed_purge_le _ _)
      (escrowOwed_addSpaceInfo_lazy hlazy hget rfl (le_refl _))

/-- The function `deleteFile`, whether it succeeds or fails, on a file read
lazily from the store. -/
theorem deleteFile_step {env : Env} {st : State} {f x : FileInfo} (hlazy : LazyKeeps env)
    (hx : tget fileKey (f.FileOwner, f.FileHash) st.files = some x)
    (hty : f.StorageType = x.StorageType) (hle : f.RestAmount ≤ x.RestAmount) :
    EscrowStep env.contract st (deleteFile env st f).1 := by
  have hfr := deleteFileLoop_frame env f (getPdpRecordList st f.FileHash f.FileOwner) st
  have hrp := deleteFileLoop_readPledges env f (getPdpRecordList st f.FileHash f.FileOwner) st
  have hloop : EscrowStep env.contract st
      (deleteFileLoop env f (getPdpRecordList st f.FileHash f.FileOwner) st).1 :=
    EscrowStep_of_eq hfr.2.1 hfr.2.2.1 hrp hfr.2.2.2.2.2.1
  unfold deleteFile
  dsimp only
  by_cases hc : (deleteFileLoop env f (getPdpRecordList st f.FileHash f.FileOwner) st).2 = false
  · simp only [if_pos hc]
    exact hloop
  · simp only [if_neg hc]
    by_cases hc2 : (deleteFileRefund env
        (deleteFileLoop env f (getPdpRecordList st f.FileHash f.FileOwner) st).1 f).2 = false
    · simp only [if_pos hc2]
      exact EscrowStep_trans hloop (EscrowStep_of_stored (deleteFileRefund_fail_stored hc2))
    · simp only [if_neg hc2]
      refine EscrowStep_trans hloop ?_
      refine deleteFileRefund_purge_step hlazy ?_ hty hle (Bool.eq_true_of_not_eq_false hc2)
      rw [hfr.2.2.1]
      exact hx

theorem storeFilesBody_step (env : Env) (gp : FsGlobalParam) (st : State) (f : FileInfo)
    (hself : env.CheckWitness env.contract = false) (hlazy : LazyKeeps env)
    (hw : ¬ env.CheckWitness f.FileOwner = false) :
    EscrowStep env.contract st (storeFilesBody env gp st f).1 := by
  have howner : f.FileOwner ≠ env.contract := fun e => hw (by rw [e]; exact hself)
  unfold storeFilesBody
  dsimp only
  split
  · rename_i hs
    split
    · exact EscrowStep_of_eq rfl rfl rfl rfl
    · rename_i space hget
      split
      · exact EscrowStep_of_eq rfl rfl rfl rfl
      · split
        · exact EscrowStep_of_eq rfl rfl rfl rfl
        · refine EscrowStep_keep rfl ?_
          rw [escrowOwed_setFileOwner]
          exact le_trans (escrowOwed_addFileInfo_useSpace _ hs)
            (escrowOwed_addSpaceInfo_lazy hlazy hget rfl (le_refl _))
  · split
    · rename_i ht
      exact EscrowStep_transfer_fail ht
    · rename_i ht
      refine EscrowStep_in (Bool.eq_true_of_not_eq_false ht) howner rfl ?_
      rw [escrowOwed_setFileOwner]
      exact escrowOwed_transfer_addFileInfo_le _ _ _ _ _
  · exact EscrowStep_of_eq rfl rfl rfl rfl

theorem storeFilesItem_step (env : Env) (gp : FsGlobalParam)
    (hself : env.CheckWitness env.contract = false) (hlazy : LazyKeeps env)
    (st : State) (f : FileInfo) :
    EscrowStep env.contract st (storeFilesItem env gp st f).1 := by
  unfold storeFilesItem
  by_cases hw : env.CheckWitness f.FileOwner = false
  · simp only [if_pos hw]
    exact EscrowStep_refl _ _
  simp only [if_neg hw]
  by_cases hp : f.PdpInterval = 0
  · simp only [if_pos hp]
    exact EscrowStep_refl _ _
  simp only [if_neg hp]
  by_cases ht : f.TimeExpired < env.time
  · simp only [if_pos ht]
    exact EscrowStep_refl _ _
  simp only [if_neg ht]
  cases hf : getAndUpdateFileInfo env st f.FileOwner f.FileHash with
  | none => exact storeFilesBody_step env gp st f hself hlazy hw
  | some fileExist =>
    dsimp only
    obtain ⟨x, hx, _, hty, hle⟩ := getAndUpdateFileInfo_stored_entry hlazy hf
    have hdel : EscrowStep env.contract st (deleteFile env st fileExist).1 :=
      deleteFile_step hlazy hx hty hle
    by_cases hv : fileExist.ValidFlag = false
    · simp only [if_pos hv]
      by_cases hd : (deleteFile env st fileExist).2 = false
      · simp only [if_pos hd]
        exact hdel
      · simp only [if_neg hd]
        exact EscrowStep_trans hdel (storeFilesBody_step env gp _ f hself hlazy hw)
    · simp only [if_neg hv]
      exact EscrowStep_refl _ _

theorem renewFilesItem_step (env : Env) (gp : FsGlobalParam)
    (hself : env.CheckWitness env.contract = false) (hlazy : LazyKeeps env)
    (st : State) (r : FileReNew) :
    EscrowStep env.contract st (renewFilesItem env gp st r).1 := by
  unfold renewFilesItem
  by_cases hw : env.CheckWitness r.Payer = false
  · simp only [if_pos hw]
    exact EscrowStep_refl _ _
  simp only [if_neg hw]
  have hpayer : r.Payer ≠ env.contract := fun e => hw (by rw [e]; exact hself)
  cases hf : getAndUpdateFileInfo env st r.FileOwner r.FileHash with
  | none => exact EscrowStep_refl _ _
  | some fileInfo =>
    dsimp only
    obtain ⟨x, hx, _, hty, hle⟩ := getAndUpdateFileInfo_stored_entry hlazy hf
    by_cases hs : fileInfo.StorageType = StorageType.UseFile
    · simp only [if_pos hs]
      by_cases hv : fileInfo.ValidFlag = false
      · simp only [if_pos hv]
        exact EscrowStep_refl _ _
      simp only [if_neg hv]
      by_cases hn : env.calcTotalFilePayAmountByFile
          { fileInfo with TimeExpired := r.NewTimeExpired } gp.GasPerKbForSaveWithFile <
          fileInfo.PayAmount
      · simp only [if_pos hn]
        exact EscrowStep_refl _ _
      simp only [if_neg hn]
      generalize hfee : sub64 (env.calcTotalFilePayAmountByFile
          { fileInfo with TimeExpired := r.NewTimeExpired } gp.GasPerKbForSaveWithFile)
          fileInfo.PayAmount = fee
      generalize env.calcTotalFilePayAmountByFile
          { fileInfo with TimeExpired := r.NewTimeExpired } gp.GasPerKbForSaveWithFile = newFee
      by_cases htr : (appCallTransfer st r.Payer env.contract fee).2 = false
      · simp only [if_pos htr]
        exact EscrowStep_transfer_fail htr
      simp only [if_neg htr]
      refine EscrowStep_in (Bool.eq_true_of_not_eq_false htr) hpayer rfl ?_
      have hx1 : tget fileKey
          (fileKey ({ fileInfo with
            TimeExpired := r.NewTimeExpired
            PayAmount := newFee
            RestAmount := add64 fileInfo.RestAmount fee } : FileInfo))
          (appCallTransfer st r.Payer env.contract fee).1.files = some x := by
        rw [(appCallTransfer_frame _ _ _ _).2.2.1]
        exact hx
      have h1 := escrowOwed_addFileInfo_replace hx1
      rw [escrowOwed_transfer] at h1
      have h2 := fileEscrow_le ({ fileInfo with
            TimeExpired := r.NewTimeExpired
            PayAmount := newFee
            RestAmount := add64 fileInfo.RestAmount fee } : FileInfo)
      dsimp only at h2
      have h3 := add64_le_add fileInfo.RestAmount fee
      have h4 : fileEscrow x = x.RestAmount := fileEscrow_useFile (by rw [← hty]; exact hs)
      omega
    · simp only [if_neg hs]
      exact EscrowStep_refl _ _

theorem deleteFilesItem_step (env : Env) (hlazy : LazyKeeps env) (st : State) (d : FileDel) :
    EscrowStep env.contract st (deleteFilesItem env st d).1 := by
  unfold deleteFilesItem
  cases hf : getFileInfoByHash env st d.FileHash with
  | none => exact EscrowStep_refl _ _
  | some fileInfo =>
    dsimp only
    by_cases hw : env.CheckWitness fileInfo.FileOwner = false
    · simp only [if_pos hw]
      exact EscrowStep_refl _ _
    · simp only [if_neg hw]
      unfold getFileInfoByHash at hf
      split at hf
      · cases hf
      · obtain ⟨x, hx, _, hty, hle⟩ := getAndUpdateFileInfo_stored_entry hlazy hf
        exact deleteFile_step hlazy hx hty hle

theorem transferFilesItem_step (env : Env) (hlazy : LazyKeeps env) (st : State)
    (t : FileTransfer) :
    EscrowStep env.contract st (transferFilesItem env st t).1 := by
  by_cases hok : (transferFilesItem env st t).2 = true
  · obtain ⟨fileInfo, _, hget, _, hs, _, hst⟩ := transferFilesItem_ok hok
    obtain ⟨x, hx, hk, rfl⟩ := getAndUpdateFileInfo_some hget
    have hl := hlazy.2 x
    rw [hst]
    have hfr := transferPdpLoop_frame t.NewOwner (getPdpRecordList st t.FileHash t.OriOwner)
      (addFileInfo (delFileInfo st t.OriOwner t.FileHash)
        { env.updateFile x with FileOwner := t.NewOwner })
    have hstep : EscrowStep env.contract st
        (addFileInfo (delFileInfo st t.OriOwner t.FileHash)
          { env.updateFile x with FileOwner := t.NewOwner }) := by
      refine EscrowStep_keep rfl ?_
      have h1 := escrowOwed_addFileInfo_le (delFileInfo st t.OriOwner t.FileHash)
        { env.updateFile x with FileOwner := t.NewOwner }
      have h2 := escrowOwed_delFileInfo hx
      have h3 : fileEscrow { env.updateFile x with FileOwner := t.NewOwner } ≤
          (env.updateFile x).RestAmount := fileEscrow_le _
      have h4 : fileEscrow x = x.RestAmount := fileEscrow_useFile (by rw [← hl.2.1]; exact hs)
      have h5 := hl.2.2
      omega
    exact EscrowStep_trans hstep
      (EscrowStep_of_eq hfr.2.1 hfr.2.2.1 hfr.2.2.2.2.2.1 hfr.2.2.2.2.2.2.1)
  · obtain ⟨msg, hst⟩ := transferFilesItem_fail (Bool.eq_false_of_not_eq_true hok)
    rw [hst]
    exact EscrowStep_refl _ _

theorem runBatch_step {α : Type} {c : Address} (step : State → α → State × Bool)
    (hstep : ∀ st item, EscrowStep c st (step st item).1) (items : List α) (st : State) :
    EscrowStep c st (runBatch step items st).1 := by
  induction items generalizing st with
  | nil => exact EscrowStep_refl _ _
  | cons item rest ih =>
    unfold runBatch
    exact EscrowStep_trans (hstep st item) (ih (step st item).1)

theorem FsStoreFiles_step (env : Env) (st : State) (input : Input (List FileInfo))
    (hself : env.CheckWitness env.contract = false) (hlazy : LazyKeeps env) :
    EscrowStep env.contract st (FsStoreFiles env st input).2 := by
  unfold FsStoreFiles
  dsimp only
  repeat' split
  all_goals first
    | exact EscrowStep_refl _ _
    | exact runBatch_step _ (storeFilesItem_step env _ hself hlazy) _
        { st with errInfos := [] }

theorem FsRenewFiles_step (env : Env) (st : State) (input : Input (List FileReNew))
    (hself : env.CheckWitness env.contract = false) (hlazy : LazyKeeps env) :
    EscrowStep env.contract st (FsRenewFiles env st input).2 := by
  unfold FsRenewFiles
  dsimp only
  repeat' split
  all_goals first
    | exact EscrowStep_refl _ _
    | exact runBatch_step _ (renewFilesItem_step env _ hself hlazy) _
        { st with errInfos := [] }

theorem FsDeleteFiles_step (env : Env) (st : State) (input : Input (List FileDel))
    (hlazy : LazyKeeps env) :
    EscrowStep env.contract st (FsDeleteFiles env st input).2 := by
  unfold FsDeleteFiles
  dsimp only
  repeat' split
  all_goals first
    | exact EscrowStep_refl _ _
    | exact runBatch_step _ (deleteFilesItem_step env hlazy) _ { st with errInfos := [] }

theorem FsTransferFiles_step (env : Env) (st : State) (input : Input (List FileTransfer))
    (hlazy : LazyKeeps env) :
    EscrowStep env.contract st (FsTransferFiles env st input).2 := by
  unfold FsTransferFiles
  dsimp only
  repeat' split
  all_goals first
    | exact EscrowStep_refl _ _
    | exact runBatch_step _ (transferFilesItem_step env hlazy) _ { st with errInfos := [] }

/-- C25 (escrow solvency): with the asset service a balance map whose transfers
fail on insufficient funds, in a call that the contract account has not
witnessed and with lazy recomputations that keep the key and the storage type
of an entry and do not raise its `RestAmount`, if the contract holds at least
the sum of `RestAmount` over the stored leases, of `RestAmount` over the stored
pay-per-file entries and of `RestMoney` over the stored read pledges, then it
does so after each of `FsCreateSpace`, `FsUpdateSpace`, `FsDeleteSpace`,
`FsStoreFiles`, `FsRenewFiles`, `FsDeleteFiles`, `FsTransferFiles`,
`FsReadFilePledge` and `FsCancelFileRead`, whatever the input and the outcome;
and every single refund the contract owes is covered by its balance. -/
theorem C25_escrow_solvency (env : Env) (st : State)
    (hself : env.CheckWitness env.contract = false) (hlazy : LazyKeeps env)
    (h : Solvent env st) :
    (∀ input, Solvent env (FsCreateSpace env st input).2) ∧
    (∀ input, Solvent env (FsUpdateSpace env st input).2) ∧
    (∀ input, Solvent env (FsDeleteSpace env st input).2) ∧
    (∀ input, Solvent env (FsStoreFiles env st input).2) ∧
    (∀ input, Solvent env (FsRenewFiles env st input).2) ∧
    (∀ input, Solvent env (FsDeleteFiles env st input).2) ∧
    (∀ input, Solvent env (FsTransferFiles env st input).2) ∧
    (∀ input, Solvent env (FsReadFilePledge env st input).2) ∧
    (∀ input, Solvent env (FsCancelFileRead env st input).2) ∧
    (∀ s ∈ st.spaces, s.RestAmount ≤ balanceOf st env.contract) ∧
    (∀ f ∈ st.files, f.StorageType = StorageType.UseFile →
      f.RestAmount ≤ balanceOf st env.contract) ∧
    (∀ p ∈ st.readPledges, p.RestMoney ≤ balanceOf st env.contract) := by
  refine ⟨fun input => Solvent_of_step h (FsCreateSpace_step env st input hself),
    fun input => Solvent_of_step h (FsUpdateSpace_step env st input hself hlazy),
    fun input => Solvent_of_step h (FsDeleteSpace_step env st input hlazy),
    fun input => Solvent_of_step h (FsStoreFiles_step env st input hself hlazy),
    fun input => Solvent_of_step h (FsRenewFiles_step env st input hself hlazy),
    fun input => Solvent_of_step h (FsDeleteFiles_step env st input hlazy),
    fun input => Solvent_of_step h (FsTransferFiles_step env st input hlazy),
    fun input => Solvent_of_step h (FsReadFilePledge_step env st input hself),
    fun input => Solvent_of_step h (FsCancelFileRead_step env st input), ?_, ?_, ?_⟩
  · intro s hs
    have h1 := le_sum_of_mem SpaceInfo.RestAmount hs
    unfold Solvent escrowOwed at h
    omega
  · intro f hf hty
    have h1 := le_sum_of_mem fileEscrow hf
    rw [fileEscrow_useFile hty] at h1
    unfold Solvent escrowOwed at h
    omega
  · intro p hp
    have h1 := le_sum_of_mem ReadPledge.RestMoney hp
    unfold Solvent escrowOwed at h
    omega

/-- C25 on the worked example: after the lease of account 7 is created the
contract holds the 6000 it owes; deleting the lease pays them back and leaves
the contract owing and holding nothing. -/
theorem C25_escrow_solvency_witness :
    guardedEnv.CheckWitness guardedEnv.contract = false ∧
    escrowOwed (FsCreateSpace guardedEnv exState (.ok exSpace)).2 = 6000 ∧
    balanceOf (FsCreateSpace guardedEnv exState (.ok exSpace)).2 guardedEnv.contract = 6000 ∧
    (FsDeleteSpace guardedEnv (FsCreateSpace guardedEnv exState (.ok exSpace)).2 (some 7)).1 =
      Ret.BYTE_TRUE ∧
    balanceOf
      (FsDeleteSpace guardedEnv (FsCreateSpace guardedEnv exState (.ok exSpace)).2 (some 7)).2
      guardedEnv.contract = 0 ∧
    Solvent guardedEnv
      (FsDeleteSpace guardedEnv (FsCreateSpace guardedEnv exState (.ok exSpace)).2 (some 7)).2 :=
  ⟨by decide, by decide, by decide, by decide, by decide,
    (C25_escrow_solvency guardedEnv (FsCreateSpace guardedEnv exState (.ok exSpace)).2
      (by decide) ⟨fun _ => ⟨rfl, le_refl _⟩, fun _ => ⟨rfl, rfl, le_refl _⟩⟩
      (by decide)).2.2.1 (some 7)⟩

/-! ## The dynamic call of the virtual machine -/

/-- Unfolding of `opDCALL` once the destination has been popped. -/
theorem opDCALL_popped (vm : VMEnv) (e : Engine) (dest : Int) (rest : List StackItem)
    (hpop : vm.PopBigInt e.EvaluationStack = .ok (dest, rest)) :
    opDCALL vm e =
      if dest < 0 ∨ dest ≥ e.Code.length then
        ((.FAULT, some .ERR_DCALL_OFFSET_ERROR),
          { PushContext e (Clone e) with EvaluationStack := rest })
      else
        ((.NONE, none),
          { PushContext e (Clone e) with EvaluationStack := rest, InstructionPointer := dest }) := by
  have hpop1 : vm.PopBigInt (PushContext e (Clone e)).EvaluationStack = .ok (dest, rest) := hpop
  unfold opDCALL
  dsimp only
  rw [hpop1]
  rfl

/-- Unfolding of `opDCALL` when no big integer can be popped. -/
theorem opDCALL_unpopped (vm : VMEnv) (e : Engine) (err : VMError)
    (hpop : vm.PopBigInt e.EvaluationStack = .error err) :
    opDCALL vm e = ((.FAULT, some .ERR_DCALL_OFFSET_ERROR), PushContext e (Clone e)) := by
  have hpop1 : vm.PopBigInt (PushContext e (Clone e)).EvaluationStack = .error err := hpop
  unfold opDCALL
  dsimp only
  rw [hpop1]

/-- C31: `opDCALL` returns `NONE` exactly when a big integer `dest` with
`0 <= dest < len(code)` can be popped, and then the instruction pointer is
`dest`; in every other case it returns `FAULT` with `ERR_DCALL_OFFSET_ERROR`
and the instruction pointer is the one before the call, so an instruction
pointer within the code stays within the code.  In both cases the code is the
same and the context that was current lies on top of the invocation stack
below the current one. -/
theorem C31_opDCALL (vm : VMEnv) (e : Engine) :
    ((opDCALL vm e).1.1 = VMState.NONE ↔
      ∃ dest rest, vm.PopBigInt e.EvaluationStack = .ok (dest, rest) ∧
        0 ≤ dest ∧ dest < (e.Code.length : Int)) ∧
    (∀ dest rest, vm.PopBigInt e.EvaluationStack = .ok (dest, rest) →
      0 ≤ dest → dest < (e.Code.length : Int) →
      (opDCALL vm e).1 = (VMState.NONE, none) ∧
        (opDCALL vm e).2.InstructionPointer = dest ∧
        (opDCALL vm e).2.EvaluationStack = rest) ∧
    ((opDCALL vm e).1.1 ≠ VMState.NONE →
      (opDCALL vm e).1 = (VMState.FAULT, some VMError.ERR_DCALL_OFFSET_ERROR) ∧
        (opDCALL vm e).2.InstructionPointer = e.InstructionPointer) ∧
    (opDCALL vm e).2.Code = e.Code ∧
    (opDCALL vm e).2.Contexts = Clone e :: e.Contexts ∧
    (0 ≤ e.InstructionPointer → e.InstructionPointer ≤ (e.Code.length : Int) →
      0 ≤ (opDCALL vm e).2.InstructionPointer ∧
        (opDCALL vm e).2.InstructionPointer ≤ ((opDCALL vm e).2.Code.length : Int)) := by
  cases hpop : vm.PopBigInt e.EvaluationStack with
  | error err =>
    rw [opDCALL_unpopped vm e err hpop]
    refine ⟨⟨fun h => ?_, fun h => ?_⟩, ?_, ?_, rfl, rfl, fun h0 h1 => ⟨h0, h1⟩⟩
    · cases h
    · obtain ⟨dest, rest, h1, _⟩ := h
      cases h1
    · intro dest rest h1
      cases h1
    · intro _
      exact ⟨rfl, rfl⟩
  | ok p =>
    obtain ⟨dest, rest⟩ := p
    rw [opDCALL_popped vm e dest rest hpop]
    by_cases hb : dest < 0 ∨ dest ≥ (e.Code.length : Int)
    · rw [if_pos hb]
      refine ⟨⟨fun h => ?_, fun h => ?_⟩, ?_, ?_, rfl, rfl, fun h0 h1 => ⟨h0, h1⟩⟩
      · cases h
      · obtain ⟨d, r, h1, h2, h3⟩ := h
        cases h1
        omega
      · intro d r h1 h2 h3
        cases h1
        omega
      · intro _
        exact ⟨rfl, rfl⟩
    · rw [if_neg hb]
      have h0 : 0 ≤ dest := by omega
      have h1 : dest < (e.Code.length : Int) := by omega
      refine ⟨⟨fun _ => ⟨dest, rest, rfl, h0, h1⟩, fun _ => rfl⟩, ?_, ?_, rfl, rfl,
        fun _ _ => ⟨h0, le_of_lt h1⟩⟩
      · intro d r h2 _ _
        cases h2
        exact ⟨rfl, rfl, rfl⟩
      · intro h
        exact absurd rfl h

/-- C31 at `dcallEngine` under `refVM`: the destination 4 is within the five
bytes of code and becomes the instruction pointer, and the context with the
position 1 lies on the invocation stack; the destination 5, the length of the
code, faults with `ERR_DCALL_OFFSET_ERROR` and leaves the position 1, and so
does the destination -1. -/
theorem C31_opDCALL_witness :
    refVM.PopBigInt (dcallEngine 4).EvaluationStack = .ok (4, [.boolean true]) ∧
    ((opDCALL refVM (dcallEngine 4)).1 = (VMState.NONE, none) ∧
      (opDCALL refVM (dcallEngine 4)).2.InstructionPointer = 4 ∧
      (opDCALL refVM (dcallEngine 4)).2.EvaluationStack = [.boolean true]) ∧
    (opDCALL refVM (dcallEngine 4)).2.Contexts = [⟨[0x6A, 0x61, 0x61, 0x61, 0x66], 1⟩] ∧
    (opDCALL refVM (dcallEngine 5)).1 = (VMState.FAULT, some VMError.ERR_DCALL_OFFSET_ERROR) ∧
    (opDCALL refVM (dcallEngine 5)).2.InstructionPointer = 1 ∧
    (opDCALL refVM (dcallEngine (-1))).1 =
      (VMState.FAULT, some VMError.ERR_DCALL_OFFSET_ERROR) ∧
    (opDCALL refVM (dcallEngine (-1))).2.InstructionPointer = 1 :=
  ⟨rfl,
    (C31_opDCALL refVM (dcallEngine 4)).2.1 4 [.boolean true] rfl (by decide) (by decide),
    by decide, by decide, by decide, by decide, by decide⟩

end Ontfs
